import Mathlib

/-! # Wiimote driver: report decoder, request queue and protocol engine

A shallow embedding of `src/src/Utils.h`, `src/src/Data.cpp` and
`src/src/Wiimpl.cpp`.

Conventions of the embedding

* `uint8_t` buffers are `List Nat`; a byte is read with `byteAt`, which reduces
  the stored number modulo 256 and yields 0 outside the list (the report buffer
  of `Poll` is zero-initialised).  A pointer `buf + k` is `buf.drop k`.
* `unsigned` is `Nat`; `~x` on an `unsigned` is `not32 x`.
* `int` coordinates are `Int`.  A `float` is the rational number it stands for,
  and every `float` operation rounds its exact result to binary32 (`f32`); a
  `double` time stamp is a rational that is only copied.
* The anonymous union of `Extension` is `Extension.Union`: it holds the value of
  one member at a time, zeroed storage reads as the zero value of each member,
  and `extension.nunchuk` and `extension.classic` are partial, having no value
  while the storage holds the other member.
* `assert(c)` is `cassert nd c`: with `nd = false` (assertions compiled in) a
  false condition ends the run with `Fault.assertion`; with `nd = true`
  (`NDEBUG`) the assertion is absent.  An operation whose behaviour is undefined
  in C++ (front of an empty deque, `memcpy` past a buffer) ends the run with
  `Fault.undefined`; calling an empty `std::function` ends it with
  `Fault.badFunctionCall`.
* The transport is external: the reports handed to `SetOutputReport` are
  collected, oldest first, in `Impl.output`; the report read by
  `GetInputReport` is an argument of `Poll`.  The completion callbacks are the
  five closures bound in `Wiimpl.cpp`, named by `Handler`; every invocation is
  recorded in `Impl.handled`.
-/

namespace wii

/-! ## Utils.h -/

/-- Byte `i` of a buffer: `p[i]` for a `uint8_t const* p`. -/
def byteAt (p : List Nat) (i : Nat) : Nat := p.getD i 0 % 256

/-- Bitwise complement of an `unsigned` (32 bits). -/
def not32 (x : Nat) : Nat := (2 ^ 32 - 1) - x % 2 ^ 32

/-- Mask out the bits which are 0 in prev and 1 in curr. -/
def RecentlySet (prev curr : Nat) : Nat := curr &&& not32 (prev &&& curr)

/-- Mask out the bits which are 1 in prev and 0 in curr. -/
def RecentlyCleared (prev curr : Nat) : Nat := prev &&& not32 (prev &&& curr)

def B0 (n : Nat) : Nat := (n >>> 0) &&& 0xFF

def B1 (n : Nat) : Nat := (n >>> 8) &&& 0xFF

def B2 (n : Nat) : Nat := (n >>> 16) &&& 0xFF

def B3 (n : Nat) : Nat := (n >>> 24) &&& 0xFF

def Read8 (p : List Nat) : Nat := byteAt p 0

def Read16 (p : List Nat) : Nat := byteAt p 0 <<< 8 ||| byteAt p 1

def Read32 (p : List Nat) : Nat :=
  (byteAt p 0 <<< 24 ||| byteAt p 1 <<< 16 ||| byteAt p 2 <<< 8 ||| byteAt p 3) % 2 ^ 32

def Write16 (n : Nat) : List Nat := [B1 n, B0 n]

def Write32 (n : Nat) : List Nat := [B3 n, B2 n, B1 n, B0 n]

/-! ## Wiimote.h: the device state -/

structure Point2i where
  x : Int
  y : Int
deriving DecidableEq, Repr

structure Point2f where
  x : ℚ
  y : ℚ
deriving DecidableEq, Repr

structure Point3i where
  x : Int
  y : Int
  z : Int
deriving DecidableEq, Repr

structure Point3f where
  x : ℚ
  y : ℚ
  z : ℚ
deriving DecidableEq, Repr

structure AccelData.CalibrationData where
  zero : Point3i
  g : Point3i
  valid : Bool
deriving DecidableEq, Repr

structure AccelData where
  raw : Point3i
  normalized : Point3f
  cal : AccelData.CalibrationData
deriving DecidableEq, Repr

structure JoystickData.CalibrationData where
  max : Point2i
  min : Point2i
  center : Point2i
  valid : Bool
deriving DecidableEq, Repr

structure JoystickData where
  raw : Point2i
  normalized : Point2f
  cal : JoystickData.CalibrationData
deriving DecidableEq, Repr

inductive IRData.Mode where
  | Off
  | Basic
  | Extended
deriving DecidableEq, Repr

/-- The enumerator values `Off = 0`, `Basic = 0x01`, `Extended = 0x03`. -/
def IRData.Mode.toNat : IRData.Mode → Nat
  | .Off => 0
  | .Basic => 0x01
  | .Extended => 0x03

inductive IRData.Sensitivity where
  | Level1
  | Level2
  | Level3
  | Level4
  | Level5
deriving DecidableEq, Repr

def IRData.Sensitivity.toNat : IRData.Sensitivity → Nat
  | .Level1 => 0
  | .Level2 => 1
  | .Level3 => 2
  | .Level4 => 3
  | .Level5 => 4

structure IRData.Dot where
  raw : Point2i
  normalized : Point2f
  size : Nat
  visible : Bool
deriving DecidableEq, Repr

structure IRData where
  mode : IRData.Mode
  sensitivity : IRData.Sensitivity
  dot0 : IRData.Dot
  dot1 : IRData.Dot
  dot2 : IRData.Dot
  dot3 : IRData.Dot
deriving DecidableEq, Repr

def NunchukData.Z : Nat := 0x01

def NunchukData.C : Nat := 0x02

structure NunchukData where
  time : ℚ
  accel : AccelData
  stick : JoystickData
  buttons : Nat
  buttonsPressed : Nat
  buttonsReleased : Nat
deriving DecidableEq, Repr

structure ClassicControllerData where
  time : ℚ
  buttons : Nat
  buttonsPressed : Nat
  buttonsReleased : Nat
  stickL : JoystickData
  stickR : JoystickData
deriving DecidableEq, Repr

structure MotionPlusData.CalibrationData where
  biasSlow : Point3i
  biasFast : Point3i
  scaleSlow : Point3f
  scaleFast : Point3f
  valid : Bool
deriving DecidableEq, Repr

structure MotionPlusData where
  time : ℚ
  raw : Point3i
  fast : Point3i
  normalized : Point3f
  ext : Bool
  status : Nat
  cal : MotionPlusData.CalibrationData
deriving DecidableEq, Repr

def Extension.Nunchuk : Nat := 0x0001

def Extension.ClassicController : Nat := 0x0002

def Extension.MotionPlus : Nat := 0x1000

/-- The anonymous union inside `Extension`: one storage shared by the members
`time`, `nunchuk` and `classic`.  `zero` is the storage after `memset`, which
each member reads as its all-zero value; `nunchuk` and `classic` hold the member
that was written, the other member then having no value in the embedding;
`overlaid` is storage where one member was written on top of the other, whose
contents depend on the object layout and are left open. -/
inductive Extension.Union where
  | zero
  | nunchuk (nc : NunchukData)
  | classic (cc : ClassicControllerData)
  | overlaid
deriving DecidableEq, Repr

/-- The extension record; `members` is the anonymous union. -/
structure Extension where
  type : Nat
  motionPlus : MotionPlusData
  members : Extension.Union
deriving DecidableEq, Repr

/-- The all-zero joystick record. -/
def JoystickData.zero : JoystickData :=
  { raw := { x := 0, y := 0 }, normalized := { x := 0, y := 0 },
    cal := { max := { x := 0, y := 0 }, min := { x := 0, y := 0 }, center := { x := 0, y := 0 },
             valid := false } }

/-- The all-zero accelerometer record. -/
def AccelData.zero : AccelData :=
  { raw := { x := 0, y := 0, z := 0 }, normalized := { x := 0, y := 0, z := 0 },
    cal := { zero := { x := 0, y := 0, z := 0 }, g := { x := 0, y := 0, z := 0 }, valid := false } }

/-- The value of `nunchuk` in zeroed storage. -/
def NunchukData.zero : NunchukData :=
  { time := 0, accel := AccelData.zero, stick := JoystickData.zero, buttons := 0,
    buttonsPressed := 0, buttonsReleased := 0 }

/-- The value of `classic` in zeroed storage. -/
def ClassicControllerData.zero : ClassicControllerData :=
  { time := 0, buttons := 0, buttonsPressed := 0, buttonsReleased := 0,
    stickL := JoystickData.zero, stickR := JoystickData.zero }

/-- The member `extension.nunchuk`, where the union holds a value for it. -/
def Extension.nunchuk (e : Extension) : Option NunchukData :=
  match e.members with
  | .zero => some NunchukData.zero
  | .nunchuk nc => some nc
  | .classic _ => none
  | .overlaid => none

/-- The member `extension.classic`, where the union holds a value for it. -/
def Extension.classic (e : Extension) : Option ClassicControllerData :=
  match e.members with
  | .zero => some ClassicControllerData.zero
  | .classic cc => some cc
  | .nunchuk _ => none
  | .overlaid => none

def State.Buttons : Nat := 0x0001

def State.Accel : Nat := 0x0002

def State.IR : Nat := 0x0004

def State.Nunchuk : Nat := 0x0008

def State.ClassicController : Nat := 0x0010

def State.MotionPlus : Nat := 0x1000

def State.ButtonMask : Nat := 0x9F1F

structure State where
  data : Nat
  time : ℚ
  battery : Nat
  batteryLow : Bool
  extPresent : Bool
  speakerEnabled : Bool
  irEnabled : Bool
  rumble : Bool
  leds : Nat
  buttons : Nat
  buttonsPressed : Nat
  buttonsReleased : Nat
  accel : AccelData
  ir : IRData
  extension : Extension
deriving DecidableEq, Repr

inductive ReportMode where
  | Undefined
  | Buttons
  | ButtonsAccel
  | ButtonsExt
  | ButtonsAccelIR
  | ButtonsAccelExt
  | ButtonsIRExt
  | ButtonsAccelIRExt
deriving DecidableEq, Repr

def ReportMode.toNat : ReportMode → Nat
  | .Undefined => 0
  | .Buttons => 0x30
  | .ButtonsAccel => 0x31
  | .ButtonsExt => 0x32
  | .ButtonsAccelIR => 0x33
  | .ButtonsAccelExt => 0x35
  | .ButtonsIRExt => 0x36
  | .ButtonsAccelIRExt => 0x37

/-! ## Single-precision arithmetic

The C++ type `float` is IEEE 754 binary32 and every operation on it rounds its
exact result to the nearest binary32 value, a tie going to the even significand.
A `float` is kept as the rational number it stands for.  Infinities and NaN are
not values of the model: a division by zero yields 0 here, and no magnitude of
`2 ^ 128` or more arises from the 32-bit integers of the code. -/

def ilog2Aux : Nat → Nat → Nat
  | 0, _ => 0
  | fuel + 1, n => if n < 2 then 0 else ilog2Aux fuel (n / 2) + 1

/-- The integer `⌊log2 n⌋` for positive `n`. -/
def ilog2 (n : Nat) : Nat := ilog2Aux n n

/-- The fraction `n / d` divided by `2 ^ k`, as a pair of naturals. -/
def scaled (n d : Nat) (k : Int) : Nat × Nat :=
  if 0 ≤ k then (n, d * 2 ^ k.toNat) else (n * 2 ^ (-k).toNat, d)

/-- The integer `⌊log2 (n / d)⌋` for positive `n` and `d`. -/
def floorLog2 (n d : Nat) : Int :=
  let t : Int := (ilog2 n : Int) - (ilog2 d : Int)
  if (scaled n d t).2 ≤ (scaled n d t).1 then t else t - 1

/-- The integer nearest to `n / d`, a tie going to the even one. -/
def roundNearestEven (n d : Nat) : Nat :=
  if 2 * (n % d) < d then n / d
  else if d < 2 * (n % d) then n / d + 1
  else if n / d % 2 = 0 then n / d else n / d + 1

/-- The exponent of the unit in the last place of the binary32 values around
`n / d`: 24 significant bits, and `2 ^ (-149)` for the subnormal values. -/
def binary32Exponent (n d : Nat) : Int := max (floorLog2 n d - 23) (-149)

/-- The binary32 value nearest to `n / d`. -/
def roundBinary32 (n d : Nat) : ℚ :=
  if n = 0 then 0
  else
    (roundNearestEven (scaled n d (binary32Exponent n d)).1
      (scaled n d (binary32Exponent n d)).2 : ℚ) * 2 ^ binary32Exponent n d

/-- The rounding of an exact result to `float`. -/
def f32 (q : ℚ) : ℚ :=
  if 0 ≤ q then roundBinary32 q.num.natAbs q.den else -roundBinary32 q.num.natAbs q.den

/-- The conversion `(float)i` of an `int`. -/
def F32.ofInt (i : Int) : ℚ := f32 i

/-- The product `a * b` of two `float`s. -/
def F32.mul (a b : ℚ) : ℚ := f32 (a * b)

/-- The quotient `a / b` of two `float`s. -/
def F32.div (a b : ℚ) : ℚ := f32 (a / b)

/-- The sum `a + b` of two `float`s. -/
def F32.add (a b : ℚ) : ℚ := f32 (a + b)

/-- The difference `a - b` of two `float`s. -/
def F32.sub (a b : ℚ) : ℚ := f32 (a - b)

/-- Conversion `static_cast<int>(f)` of a `float`: truncation towards zero. -/
def truncToInt (q : ℚ) : Int := if 0 ≤ q then Rat.floor q else -Rat.floor (-q)

/-! ## Data.cpp: the report decoder -/

def NormalizeAccel (accel : AccelData) : Bool × AccelData :=
  if accel.cal.valid then
    (accel.cal.valid,
      { accel with
        normalized :=
          { x := F32.div (F32.ofInt (accel.raw.x - accel.cal.zero.x))
              (F32.ofInt (accel.cal.g.x - accel.cal.zero.x))
            y := F32.div (F32.ofInt (accel.raw.y - accel.cal.zero.y))
              (F32.ofInt (accel.cal.g.y - accel.cal.zero.y))
            z := F32.div (F32.ofInt (accel.raw.z - accel.cal.zero.z))
              (F32.ofInt (accel.cal.g.z - accel.cal.zero.z)) } })
  else
    (accel.cal.valid, { accel with normalized := { x := 0, y := 0, z := 1 } })

def NormalizeStick (stick : JoystickData) : Bool × JoystickData :=
  if stick.cal.valid then
    (stick.cal.valid,
      { stick with
        normalized :=
          { x := F32.div (F32.mul 2 (F32.ofInt (stick.raw.x - stick.cal.center.x)))
              (F32.ofInt (stick.cal.max.x - stick.cal.min.x))
            y := F32.div (F32.mul 2 (F32.ofInt (stick.raw.y - stick.cal.center.y)))
              (F32.ofInt (stick.cal.max.y - stick.cal.min.y)) } })
  else
    (stick.cal.valid,
      { stick with
        normalized :=
          { x := F32.div (F32.mul 2 (F32.sub (F32.ofInt stick.raw.x) 127)) 255
            y := F32.div (F32.mul 2 (F32.sub (F32.ofInt stick.raw.y) 127)) 255 } })

def NormalizeMotionPlus (mp : MotionPlusData) : Bool × MotionPlusData :=
  let scaleSlow : ℚ := f32 (1 / 20)
  let scaleFast : ℚ := F32.mul scaleSlow (f32 (227 / 50))
  let B : Point3i :=
    if mp.cal.valid then
      { x := if mp.fast.x ≠ 0 then mp.cal.biasFast.x else mp.cal.biasSlow.x
        y := if mp.fast.y ≠ 0 then mp.cal.biasFast.y else mp.cal.biasSlow.y
        z := if mp.fast.z ≠ 0 then mp.cal.biasFast.z else mp.cal.biasSlow.z }
    else
      { x := 8063, y := 8063, z := 8063 }
  let S : Point3f :=
    if mp.cal.valid then
      { x := if mp.fast.x ≠ 0 then mp.cal.scaleFast.x else mp.cal.scaleSlow.x
        y := if mp.fast.y ≠ 0 then mp.cal.scaleFast.y else mp.cal.scaleSlow.y
        z := if mp.fast.z ≠ 0 then mp.cal.scaleFast.z else mp.cal.scaleSlow.z }
    else
      { x := if mp.fast.x ≠ 0 then scaleFast else scaleSlow
        y := if mp.fast.y ≠ 0 then scaleFast else scaleSlow
        z := if mp.fast.z ≠ 0 then scaleFast else scaleSlow }
  (mp.cal.valid,
    { mp with
      normalized :=
        { x := F32.mul (F32.ofInt (mp.raw.x - B.x)) S.x
          y := F32.mul (F32.ofInt (mp.raw.y - B.y)) S.y
          z := F32.mul (F32.ofInt (mp.raw.z - B.z)) S.z } })

def ParseAccelCalibrationData (buf : List Nat) : Bool × AccelData.CalibrationData :=
  let zero : Point3i :=
    { x := ((byteAt buf 0 <<< 2) ||| ((byteAt buf 3 &&& 0x30) >>> 4) : Nat)
      y := ((byteAt buf 1 <<< 2) ||| ((byteAt buf 3 &&& 0x0C) >>> 2) : Nat)
      z := ((byteAt buf 2 <<< 2) ||| ((byteAt buf 3 &&& 0x03) >>> 0) : Nat) }
  let g : Point3i :=
    { x := ((byteAt buf 4 <<< 2) ||| ((byteAt buf 7 &&& 0x30) >>> 4) : Nat)
      y := ((byteAt buf 5 <<< 2) ||| ((byteAt buf 7 &&& 0x0C) >>> 2) : Nat)
      z := ((byteAt buf 6 <<< 2) ||| ((byteAt buf 7 &&& 0x03) >>> 0) : Nat) }
  let valid : Bool := decide (zero.x ≠ g.x) && decide (zero.y ≠ g.y) && decide (zero.z ≠ g.z)
  (valid, { zero := zero, g := g, valid := valid })

def ParseStickCalibrationData (buf : List Nat) : Bool × JoystickData.CalibrationData :=
  let max : Point2i := { x := (byteAt buf 0 : Nat), y := (byteAt buf 3 : Nat) }
  let min : Point2i := { x := (byteAt buf 1 : Nat), y := (byteAt buf 4 : Nat) }
  let center : Point2i := { x := (byteAt buf 2 : Nat), y := (byteAt buf 5 : Nat) }
  let valid : Bool :=
    decide (min.x < center.x) && decide (center.x < max.x) &&
    decide (min.y < center.y) && decide (center.y < max.y)
  (valid, { max := max, min := min, center := center, valid := valid })

def ParseButtons (state : State) (buf : List Nat) : Bool × State :=
  let buttons := state.buttons
  let curr := (byteAt buf 0 ||| (byteAt buf 1 <<< 8)) &&& State.ButtonMask
  (true,
    { state with
      buttons := curr
      buttonsPressed := RecentlySet buttons curr
      buttonsReleased := RecentlyCleared buttons curr
      data := state.data ||| State.Buttons })

def ParseAccel (state : State) (buf : List Nat) : Bool × State :=
  let raw : Point3i :=
    { x := ((byteAt buf 2 <<< 2) ||| ((byteAt buf 0 &&& 0x60) >>> 5) : Nat)
      y := ((byteAt buf 3 <<< 2) ||| ((byteAt buf 1 &&& 0x20) >>> 4) : Nat)
      z := ((byteAt buf 4 <<< 2) ||| ((byteAt buf 1 &&& 0x40) >>> 5) : Nat) }
  let acc := (NormalizeAccel { state.accel with raw := raw }).2
  (true, { state with accel := acc, data := state.data ||| State.Accel })

/-- The loop body of `ParseIR`: normalized position and visibility of a dot. -/
def normalizeDot (dot : IRData.Dot) : IRData.Dot :=
  { dot with
    normalized := { x := F32.div (F32.ofInt dot.raw.x) 1023, y := F32.div (F32.ofInt dot.raw.y) 767 }
    visible := decide (dot.raw.x ≠ 0x3FF) && decide (dot.raw.y ≠ 0x3FF) }

/-- Assignment of `raw` and `size` of a dot, followed by the loop body. -/
def setDot (dot : IRData.Dot) (x y size : Nat) : IRData.Dot :=
  normalizeDot { dot with raw := { x := (x : Int), y := (y : Int) }, size := size }

def ParseIR (state : State) (buf : List Nat) : Bool × State :=
  let ir := state.ir
  match ir.mode with
  | .Off => (false, state)
  | .Basic =>
    let ir1 : IRData :=
      { ir with
        dot0 := setDot ir.dot0 (byteAt buf 0 ||| ((byteAt buf 2 &&& 0x30) <<< 4))
                  (byteAt buf 1 ||| ((byteAt buf 2 &&& 0xC0) <<< 2)) 0
        dot1 := setDot ir.dot1 (byteAt buf 3 ||| ((byteAt buf 2 &&& 0x03) <<< 8))
                  (byteAt buf 4 ||| ((byteAt buf 2 &&& 0x0C) <<< 6)) 0
        dot2 := setDot ir.dot2 (byteAt buf 5 ||| ((byteAt buf 5 &&& 0x30) <<< 4))
                  (byteAt buf 6 ||| ((byteAt buf 5 &&& 0xC0) <<< 2)) 0
        dot3 := setDot ir.dot3 (byteAt buf 8 ||| ((byteAt buf 5 &&& 0x03) <<< 8))
                  (byteAt buf 9 ||| ((byteAt buf 5 &&& 0x0C) <<< 6)) 0 }
    (true, { state with ir := ir1, data := state.data ||| State.IR })
  | .Extended =>
    let ir1 : IRData :=
      { ir with
        dot0 := setDot ir.dot0 (byteAt buf 0 ||| ((byteAt buf 2 &&& 0x30) <<< 4))
                  (byteAt buf 1 ||| ((byteAt buf 2 &&& 0xC0) <<< 2)) (byteAt buf 2 &&& 0x0F)
        dot1 := setDot ir.dot1 (byteAt buf 3 ||| ((byteAt buf 5 &&& 0x30) <<< 4))
                  (byteAt buf 4 ||| ((byteAt buf 5 &&& 0xC0) <<< 2)) (byteAt buf 5 &&& 0x0F)
        dot2 := setDot ir.dot2 (byteAt buf 6 ||| ((byteAt buf 8 &&& 0x30) <<< 4))
                  (byteAt buf 7 ||| ((byteAt buf 8 &&& 0xC0) <<< 2)) (byteAt buf 8 &&& 0x0F)
        dot3 := setDot ir.dot3 (byteAt buf 9 ||| ((byteAt buf 11 &&& 0x30) <<< 4))
                  (byteAt buf 10 ||| ((byteAt buf 11 &&& 0xC0) <<< 2)) (byteAt buf 11 &&& 0x0F) }
    (true, { state with ir := ir1, data := state.data ||| State.IR })

def ParseCalibrationData (state : State) (buf : List Nat) (_len _error : Nat) : Bool × State :=
  (true, { state with accel := { state.accel with cal := (ParseAccelCalibrationData buf).2 } })

/-- The nunchuk decoder.  The reference `nc = state.extension.nunchuk` is the
value the union holds for that member; on a union that holds the classic member
the decoder writes over its bytes and the union is `overlaid` afterwards. -/
def ParseNunchuk (state : State) (buf : List Nat) (passthrough : Bool) : Bool × State :=
  let stickRaw : Point2i := { x := (byteAt buf 0 : Nat), y := (byteAt buf 1 : Nat) }
  let accelRaw : Point3i :=
    if passthrough then
      { x := ((byteAt buf 2 <<< 2) ||| ((byteAt buf 5 &&& 0x10) >>> 4) : Nat)
        y := ((byteAt buf 3 <<< 2) ||| ((byteAt buf 5 &&& 0x20) >>> 5) : Nat)
        z := (((byteAt buf 4 &&& 0xFE) <<< 2) ||| ((byteAt buf 5 &&& 0xC0) >>> 5) : Nat) }
    else
      { x := ((byteAt buf 2 <<< 2) ||| ((byteAt buf 5 &&& 0x0C) >>> 2) : Nat)
        y := ((byteAt buf 3 <<< 2) ||| ((byteAt buf 5 &&& 0x30) >>> 4) : Nat)
        z := ((byteAt buf 4 <<< 2) ||| ((byteAt buf 5 &&& 0xC0) >>> 6) : Nat) }
  let curr : Nat :=
    if passthrough then (not32 (byteAt buf 5) >>> 2) &&& 0x03
    else not32 (byteAt buf 5) &&& 0x03
  let members1 : Extension.Union :=
    match state.extension.nunchuk with
    | some nc =>
      .nunchuk
        { nc with
          time := state.time
          stick := (NormalizeStick { nc.stick with raw := stickRaw }).2
          accel := (NormalizeAccel { nc.accel with raw := accelRaw }).2
          buttons := curr
          buttonsPressed := RecentlySet nc.buttons curr
          buttonsReleased := RecentlyCleared nc.buttons curr }
    | none => .overlaid
  (true,
    { state with
      extension := { state.extension with members := members1 }
      data := state.data ||| State.Nunchuk })

/-- The classic-controller decoder, on the reference
`cc = state.extension.classic`; on a union that holds the nunchuk member the
union is `overlaid` afterwards.  The function ends in `return 0;`. -/
def ParseClassicController (state : State) (buf : List Nat) (passthrough : Bool) : Bool × State :=
  let curr : Nat :=
    if passthrough then
      ((not32 (byteAt buf 4) &&& 0xFE) <<< 0) ||| ((not32 (byteAt buf 5) &&& 0xFC) <<< 8) |||
        ((not32 (byteAt buf 0) &&& 0x01) <<< 8) ||| ((not32 (byteAt buf 1) &&& 0x01) <<< 9)
    else
      ((not32 (byteAt buf 4) &&& 0xFE) <<< 0) ||| ((not32 (byteAt buf 5) &&& 0xFF) <<< 8)
  let lx : Nat := if passthrough then byteAt buf 0 &&& 0x3E else byteAt buf 0 &&& 0x3F
  let ly : Nat := if passthrough then byteAt buf 1 &&& 0x3E else byteAt buf 1 &&& 0x3F
  let rx : Nat :=
    ((byteAt buf 2 &&& 0x80) >>> 7) ||| ((byteAt buf 1 &&& 0xC0) >>> 5) |||
      ((byteAt buf 0 &&& 0xC0) >>> 3)
  let ry : Nat := (byteAt buf 2 &&& 0x1F) <<< 0
  let rawL : Point2i := { x := (lx <<< 2 : Nat), y := (ly <<< 2 : Nat) }
  let rawR : Point2i := { x := (rx <<< 3 : Nat), y := (ry <<< 3 : Nat) }
  let members1 : Extension.Union :=
    match state.extension.classic with
    | some cc =>
      .classic
        { cc with
          time := state.time
          buttons := curr
          stickL := (NormalizeStick { cc.stickL with raw := rawL }).2
          stickR := (NormalizeStick { cc.stickR with raw := rawR }).2
          buttonsPressed := RecentlySet cc.buttons curr
          buttonsReleased := RecentlyCleared cc.buttons curr }
    | none => .overlaid
  (false,
    { state with
      extension := { state.extension with members := members1 }
      data := state.data ||| State.ClassicController })

def ParseMotionPlus (state : State) (buf : List Nat) : Bool × State :=
  let mp := state.extension.motionPlus
  let raw : Point3i :=
    { x := (byteAt buf 2 ||| ((byteAt buf 5 &&& 0xFC) <<< 6) : Nat)
      y := (byteAt buf 1 ||| ((byteAt buf 4 &&& 0xFC) <<< 6) : Nat)
      z := (byteAt buf 0 ||| ((byteAt buf 3 &&& 0xFC) <<< 6) : Nat) }
  let fast : Point3i :=
    { x := if byteAt buf 3 &&& 0x01 = 0 then 1 else 0
      y := if byteAt buf 4 &&& 0x02 = 0 then 1 else 0
      z := if byteAt buf 3 &&& 0x02 = 0 then 1 else 0 }
  let mp1 : MotionPlusData :=
    (NormalizeMotionPlus
      { mp with
        time := state.time
        raw := raw
        fast := fast
        ext := decide (byteAt buf 4 &&& 0x01 ≠ 0) }).2
  (true,
    { state with
      extension := { state.extension with motionPlus := mp1 }
      data := state.data ||| State.MotionPlus })

def ParseExtension (state : State) (buf : List Nat) : Bool × State :=
  if state.extension.type = 0 then (true, state)
  else
    let motionPlus := state.extension.type &&& Extension.MotionPlus
    let other := state.extension.type &&& not32 Extension.MotionPlus
    let passthrough : Bool := decide (motionPlus ≠ 0) && decide (other ≠ 0)
    if (decide (motionPlus ≠ 0) && decide (other = 0)) ||
        (passthrough && decide (byteAt buf 5 &&& 0x02 ≠ 0)) then
      ParseMotionPlus state buf
    else if other = Extension.Nunchuk then ParseNunchuk state buf passthrough
    else if other = Extension.ClassicController then ParseClassicController state buf passthrough
    else (false, state)

/-- The two calibration parsers applied to `state.extension.nunchuk.accel.cal`
and `state.extension.nunchuk.stick.cal`. -/
def ParseNunchukCalibrationData (state : State) (buf : List Nat) (_len _error : Nat) :
    Bool × State :=
  let members1 : Extension.Union :=
    match state.extension.nunchuk with
    | some nc =>
      .nunchuk
        { nc with
          accel := { nc.accel with cal := (ParseAccelCalibrationData (buf.drop 0)).2 }
          stick := { nc.stick with cal := (ParseStickCalibrationData (buf.drop 8)).2 } }
    | none => .overlaid
  (true, { state with extension := { state.extension with members := members1 } })

/-- The stick calibration parser applied to `state.extension.classic.stickL.cal`
and `state.extension.classic.stickR.cal`. -/
def ParseClassicControllerCalibrationData (state : State) (buf : List Nat) (_len _error : Nat) :
    Bool × State :=
  let members1 : Extension.Union :=
    match state.extension.classic with
    | some cc =>
      .classic
        { cc with
          stickL := { cc.stickL with cal := (ParseStickCalibrationData (buf.drop 0)).2 }
          stickR := { cc.stickR with cal := (ParseStickCalibrationData (buf.drop 6)).2 } }
    | none => .overlaid
  (false, { state with extension := { state.extension with members := members1 } })

def ParseExtensionCalibrationData (state : State) (buf : List Nat) (len error : Nat) :
    Bool × State :=
  let ext := state.extension.type &&& not32 Extension.MotionPlus
  if ext = Extension.Nunchuk then ParseNunchukCalibrationData state buf len error
  else if ext = Extension.ClassicController then
    ParseClassicControllerCalibrationData state buf len error
  else if ext = 0 then (true, state)
  else (false, state)

/-- The expression `static_cast<int>(b * 4.54f/4.4f + 0.5f)` for an `int` `b`. -/
def biasFastOf (b : Int) : Int :=
  truncToInt
    (F32.add (F32.div (F32.mul (F32.ofInt b) (f32 (227 / 50))) (f32 (22 / 5))) (f32 (1 / 2)))

def ParseMotionPlusCalibrationData (state : State) (buf : List Nat) (_len _error : Nat) :
    Bool × State :=
  let biasSlow : Point3i :=
    { x := ((byteAt buf 2 <<< 8 ||| byteAt buf 3) / 4 : Nat)
      y := ((byteAt buf 4 <<< 8 ||| byteAt buf 5) / 4 : Nat)
      z := ((byteAt buf 0 <<< 8 ||| byteAt buf 1) / 4 : Nat) }
  let biasFast : Point3i :=
    { x := biasFastOf biasSlow.x, y := biasFastOf biasSlow.z, z := biasFastOf biasSlow.y }
  let scaleSlow : Point3f := { x := f32 (1 / 20), y := f32 (1 / 20), z := f32 (1 / 20) }
  let scaleFast : Point3f :=
    { x := F32.mul scaleSlow.x (f32 (227 / 50))
      y := F32.mul scaleSlow.y (f32 (227 / 50))
      z := F32.mul scaleSlow.z (f32 (227 / 50)) }
  let cal : MotionPlusData.CalibrationData :=
    { biasSlow := biasSlow, biasFast := biasFast, scaleSlow := scaleSlow, scaleFast := scaleFast,
      valid := true }
  (true,
    { state with
      extension :=
        { state.extension with motionPlus := { state.extension.motionPlus with cal := cal } } })

/-! ## Wiimpl.h: requests and the engine state -/

def WII_REPORT_LENGTH : Nat := 22

def WII_OUTPUT_LEDS : Nat := 0x11

def WII_OUTPUT_REPORT_MODE : Nat := 0x12

def WII_OUTPUT_ENABLE_IR_1 : Nat := 0x13

def WII_OUTPUT_STATUS : Nat := 0x15

def WII_OUTPUT_WRITE_MEMORY : Nat := 0x16

def WII_OUTPUT_READ_MEMORY : Nat := 0x17

def WII_OUTPUT_ENABLE_IR_2 : Nat := 0x1A

def WII_STATUS_UNKNOWN : Nat := 0

def WII_STATUS_CONNECTED : Nat := 1

def WII_STATUS_STARTUP : Nat := 2

def WII_STATUS_READY : Nat := 3

def WII_STATUS_SHUTDOWN : Nat := 4

def WII_STATUS_SHUTDOWN_COMPLETE : Nat := 5

def WII_STATUS_DISCONNECTED : Nat := 6

def WII_STATUS_ERROR : Nat := 7

def WII_STATUS_MP_UNKNOWN : Nat := 0

def WII_STATUS_MP_STARTUP : Nat := 1

def WII_STATUS_MP_NOT_PRESENT : Nat := 2

def WII_STATUS_MP_ACTIVE : Nat := 3

def WII_STATUS_MP_SHUTDOWN : Nat := 4

def WII_STATUS_MP_INACTIVE : Nat := 5

def WII_STATUS_MP_NO_LONGER_ACTIVE : Nat := 6

/-- How a run can end without a result. -/
inductive Fault where
  | assertion
  | undefined
  | badFunctionCall
deriving DecidableEq, Repr

/-- The statement `assert(c)`; `nd` is true when `NDEBUG` is defined. -/
def cassert (nd : Bool) (c : Bool) : Except Fault Unit :=
  if nd || c then .ok () else .error Fault.assertion

/-- The enumeration `Request::Type`. -/
inductive RequestType where
  | Status
  | Read
  | Write
deriving DecidableEq, Repr

/-- The five callbacks bound to read requests in `Wiimpl.cpp`. -/
inductive Handler where
  | ParseCalibrationData
  | ParseExtensionCalibrationData
  | ParseMotionPlusCalibrationData
  | ParseExtensionIdentifier
  | ParseMotionPlusIdentifier
deriving DecidableEq, Repr

structure Request where
  type : RequestType
  buffer : List Nat
  address : Nat
  error : Nat
  done : Nat
  pending : Nat
  sent : Bool
  handler : Option Handler
deriving DecidableEq, Repr

/-- The call `memcpy(dst + off, src, n)` on byte buffers, for `off + n` within
`dst` and `n` within `src`. -/
def memcpy (dst : List Nat) (off : Nat) (src : List Nat) (n : Nat) : List Nat :=
  dst.take off ++ (List.range n).map (fun i => byteAt src i) ++ dst.drop (off + n)

/-- The constructor `Request::Request(type, address, size, data)`; a null `data`
is `none`. -/
def Request.ctor (nd : Bool) (type : RequestType) (address size : Nat)
    (data : Option (List Nat)) : Except Fault Request := do
  let req : Request :=
    { type := type, buffer := List.replicate size 0, address := address, error := 0, done := 0,
      pending := size, sent := false, handler := none }
  match data with
  | none => pure req
  | some d =>
    cassert nd (decide (size ≠ 0))
    if size = 0 ∨ d.length < size then throw Fault.undefined
    pure { req with buffer := memcpy req.buffer 0 d size }

/-- One invocation of a completion callback: `handler(buf, len, error)`. -/
structure HandlerCall where
  handler : Handler
  buf : List Nat
  len : Nat
  error : Nat
deriving DecidableEq, Repr

/-- The engine state `Wiimote::Impl`, with the two observation logs `output`
(reports handed to the transport) and `handled` (callback invocations).  The
member `motionPlusStatus` is never read or written by the engine and is left
out.  Buffers are lists, so the null-pointer assertions `assert(data)` of
`SendReport` and `SendWriteReport` always hold and are not modelled. -/
structure Impl where
  state : State
  reportMode : ReportMode
  continous : Bool
  requests : List Request
  status : Nat
  output : List (List Nat)
  handled : List HandlerCall
deriving DecidableEq, Repr

/-! ## Wiimpl.cpp: the protocol engine -/

/-- The transport write `SetOutputReport(report, len)`: the first `len` bytes
are handed to the device; the write is taken to succeed. -/
def SetOutputReport (report : List Nat) (len : Nat) (s : Impl) : Bool × Impl :=
  (true, { s with output := s.output ++ [report.take len] })

def SendReport (nd : Bool) (type : Nat) (data : List Nat) (size : Nat) (s : Impl) :
    Except Fault (Bool × Impl) := do
  cassert nd (decide (0 < size) && decide (size < WII_REPORT_LENGTH))
  if WII_REPORT_LENGTH ≤ size ∨ data.length < size then throw Fault.undefined
  let report0 := List.replicate WII_REPORT_LENGTH 0
  let report1 := memcpy report0 1 data size
  let report2 := report1.set 0 (type % 256)
  let report3 := report2.set 1 (byteAt report2 1 ||| (if s.state.rumble then 0x01 else 0x00))
  pure (SetOutputReport report3 (size + 1) s)

/-- The overload `SendReport(uint8_t type, uint8_t data)`. -/
def SendReportByte (nd : Bool) (type : Nat) (data : Nat) (s : Impl) :
    Except Fault (Bool × Impl) :=
  SendReport nd type [data] 1 s

def SendStatusReport (nd : Bool) (s : Impl) : Except Fault (Bool × Impl) :=
  SendReportByte nd WII_OUTPUT_STATUS 0x00 s

def SendReadReport (nd : Bool) (address size : Nat) (s : Impl) : Except Fault (Bool × Impl) :=
  SendReport nd WII_OUTPUT_READ_MEMORY
    [B3 address, B2 address, B1 address, B0 address, B1 size, B0 size] 6 s

def SendWriteReport (nd : Bool) (address size : Nat) (data : List Nat) (s : Impl) :
    Except Fault (Bool × Impl) := do
  cassert nd (decide (0 < size) && decide (size ≤ 16))
  if 16 < size ∨ data.length < size then throw Fault.undefined
  let buf0 := List.replicate 21 0
  let buf1 := ((((buf0.set 0 (B3 address)).set 1 (B2 address)).set 2 (B1 address)).set 3
    (B0 address)).set 4 (B0 size)
  let buf2 := memcpy buf1 5 data size
  SendReport nd WII_OUTPUT_WRITE_MEMORY buf2 21 s

def PushRequest (nd : Bool) (type : RequestType) (address size : Nat)
    (buffer : Option (List Nat)) (s : Impl) : Except Fault Impl := do
  let req ← Request.ctor nd type address size buffer
  pure { s with requests := s.requests ++ [req] }

def PopRequest (nd : Bool) (s : Impl) : Except Fault Impl := do
  cassert nd (decide (s.requests ≠ []))
  match s.requests with
  | [] => throw Fault.undefined
  | _ :: rest => pure { s with requests := rest }

def SendNextRequest (nd : Bool) (s : Impl) : Except Fault (Bool × Impl) :=
  match s.requests with
  | [] => pure (true, s)
  | req :: rest =>
    if req.sent then pure (true, s)
    else
      let s1 : Impl := { s with requests := { req with sent := true } :: rest }
      match req.type with
      | .Status => SendStatusReport nd s1
      | .Read => SendReadReport nd req.address req.pending s1
      | .Write => SendWriteReport nd req.address req.pending req.buffer s1

def RequestStatusReport (nd : Bool) (s : Impl) : Except Fault Impl :=
  PushRequest nd .Status 0 0 none s

/-- The overload `ReadData(address, size)` without a handler. -/
def ReadDataNoHandler (nd : Bool) (address size : Nat) (s : Impl) : Except Fault Impl :=
  PushRequest nd .Read address size none s

def ReadData (nd : Bool) (address size : Nat) (handler : Handler) (s : Impl) :
    Except Fault Impl := do
  let req ← Request.ctor nd .Read address size none
  pure { s with requests := s.requests ++ [{ req with handler := some handler }] }

/-- The call `WriteData(address, data, size)`; `data` points to `size` bytes. -/
def WriteData (nd : Bool) (address : Nat) (data : List Nat) (s : Impl) : Except Fault Impl := do
  cassert nd (decide (0 < data.length) && decide (data.length ≤ 16))
  PushRequest nd .Write address data.length (some data) s

/-- The overload `WriteData(unsigned address, uint8_t data)`. -/
def WriteDataByte (nd : Bool) (address : Nat) (data : Nat) (s : Impl) : Except Fault Impl :=
  WriteData nd address [data] s

/-- The table `blocks` of `EnableIR`: sensitivity block 1 of each level. -/
def IRBlock.block1 : IRData.Sensitivity → List Nat
  | .Level1 => [0x02, 0x00, 0x00, 0x71, 0x01, 0x00, 0x64, 0x00, 0xFE]
  | .Level2 => [0x02, 0x00, 0x00, 0x71, 0x01, 0x00, 0x96, 0x00, 0xB4]
  | .Level3 => [0x02, 0x00, 0x00, 0x71, 0x01, 0x00, 0xAA, 0x00, 0x64]
  | .Level4 => [0x02, 0x00, 0x00, 0x71, 0x01, 0x00, 0xC8, 0x00, 0x36]
  | .Level5 => [0x02, 0x00, 0x00, 0x71, 0x01, 0x00, 0x72, 0x00, 0x20]

/-- The table `blocks` of `EnableIR`: sensitivity block 2 of each level. -/
def IRBlock.block2 : IRData.Sensitivity → List Nat
  | .Level1 => [0xFD, 0x05]
  | .Level2 => [0xB3, 0x04]
  | .Level3 => [0x63, 0x03]
  | .Level4 => [0x35, 0x03]
  | .Level5 => [0x1F, 0x03]

def EnableIR (nd : Bool) (mode : IRData.Mode) (sensitivity : IRData.Sensitivity) (s : Impl) :
    Except Fault (Bool × Impl) := do
  if s.state.ir.mode = mode ∧ s.state.ir.sensitivity = sensitivity then pure (true, s)
  else
    let s1 : Impl :=
      { s with state := { s.state with ir := { s.state.ir with mode := mode, sensitivity := sensitivity } } }
    let r2 ← SendReportByte nd WII_OUTPUT_ENABLE_IR_1 0x04 s1
    let r3 ← SendReportByte nd WII_OUTPUT_ENABLE_IR_2 0x04 r2.2
    let s4 ← WriteDataByte nd 0x04B00030 0x08 r3.2
    let s5 ← WriteData nd 0x04B00000 (IRBlock.block1 sensitivity) s4
    let s6 ← WriteData nd 0x04B0001A (IRBlock.block2 sensitivity) s5
    let s7 ← WriteDataByte nd 0x04B00033 mode.toNat s6
    let s8 ← WriteDataByte nd 0x04B00030 0x08 s7
    pure (true, s8)

def DisableIR (nd : Bool) (s : Impl) : Except Fault (Bool × Impl) := do
  if s.state.ir.mode = IRData.Mode.Off then pure (true, s)
  else
    let s1 : Impl := { s with state := { s.state with ir := { s.state.ir with mode := .Off } } }
    let r2 ← SendReportByte nd WII_OUTPUT_ENABLE_IR_1 0x00 s1
    let r3 ← SendReportByte nd WII_OUTPUT_ENABLE_IR_2 0x00 r2.2
    pure (true, r3.2)

def SetReportMode (nd : Bool) (mode : ReportMode) (sensitivity : IRData.Sensitivity)
    (continous_ : Bool) (s : Impl) : Except Fault (Bool × Impl) := do
  let s1 : Impl := { s with reportMode := mode, continous := continous_ }
  let r2 ←
    (match mode with
    | .ButtonsAccelIR => EnableIR nd .Extended sensitivity s1
    | .ButtonsIRExt => EnableIR nd .Basic sensitivity s1
    | .ButtonsAccelIRExt => EnableIR nd .Basic sensitivity s1
    | _ => DisableIR nd s1)
  let s2 := r2.2
  SendReport nd WII_OUTPUT_REPORT_MODE [if s2.continous then 0x04 else 0x00, mode.toNat] 2 s2

def EnableMotionPlus (nd : Bool) (s : Impl) : Except Fault (Bool × Impl) := do
  let s1 ← WriteDataByte nd 0x04A600F0 0x55 s
  let s2 ←
    (if s1.state.extension.type = Extension.Nunchuk then WriteDataByte nd 0x04A600FE 0x05 s1
    else if s1.state.extension.type = Extension.ClassicController then
      WriteDataByte nd 0x04A600FE 0x07 s1
    else WriteDataByte nd 0x04A600FE 0x04 s1)
  let s3 ← PushRequest nd .Status 0 0 none s2
  pure (true, s3)

def DisableMotionPlus (nd : Bool) (s : Impl) : Except Fault (Bool × Impl) := do
  let s1 ← WriteDataByte nd 0x04A400F0 0x55 s
  let s2 ← WriteDataByte nd 0x04A600FE 0x00 s1
  pure (true, s2)

def ReadCalibrationData (nd : Bool) (s : Impl) : Except Fault Impl :=
  ReadData nd 0x00000016 8 .ParseCalibrationData s

def ReadExtensionCalibrationData (nd : Bool) (s : Impl) : Except Fault Impl :=
  ReadData nd 0x04A40020 16 .ParseExtensionCalibrationData s

def ReadMotionPlusCalibrationData (nd : Bool) (s : Impl) : Except Fault Impl :=
  ReadData nd 0x04A40000 0x100 .ParseMotionPlusCalibrationData s

def ReadExtensionIdentifier (nd : Bool) (s : Impl) : Except Fault Impl :=
  ReadData nd 0x04A400FA 6 .ParseExtensionIdentifier s

def ReadMotionPlusIdentifier (nd : Bool) (s : Impl) : Except Fault Impl :=
  let mp := s.state.extension.motionPlus
  let s1 : Impl :=
    { s with
      state :=
        { s.state with
          extension :=
            { s.state.extension with motionPlus := { mp with status := WII_STATUS_MP_STARTUP } } } }
  ReadData nd 0x04A600FE 2 .ParseMotionPlusIdentifier s1

def InitExtension (nd : Bool) (s : Impl) : Except Fault Impl := do
  let s1 ← WriteDataByte nd 0x04A400F0 0x55 s
  WriteDataByte nd 0x04A400FB 0x00 s1

def InitMotionPlus (nd : Bool) (s : Impl) : Except Fault Impl :=
  WriteDataByte nd 0x04A600F0 0x55 s

def SetLEDs (nd : Bool) (leds : Nat) (s : Impl) : Except Fault (Bool × Impl) :=
  let s1 : Impl := { s with state := { s.state with leds := leds &&& 0xF0 } }
  SendReportByte nd WII_OUTPUT_LEDS s1.state.leds s1

def SetRumble (nd : Bool) (enable : Bool) (s : Impl) : Except Fault (Bool × Impl) :=
  let s1 : Impl := { s with state := { s.state with rumble := enable } }
  SetLEDs nd s1.state.leds s1

/-- The all-zero extension record left by `memset(&state.extension, 0, ...)`. -/
def Extension.zero : Extension :=
  let p3i : Point3i := { x := 0, y := 0, z := 0 }
  let p3f : Point3f := { x := 0, y := 0, z := 0 }
  { type := 0
    motionPlus :=
      { time := 0, raw := p3i, fast := p3i, normalized := p3f, ext := false, status := 0,
        cal :=
          { biasSlow := p3i, biasFast := p3i, scaleSlow := p3f, scaleFast := p3f, valid := false } }
    members := .zero }

/-- The switch on `Id1` in `ParseExtensionIdentifier`. -/
def extensionTypeOfId (Id1 : Nat) : Nat :=
  if Id1 = 0xA4200000 then Extension.Nunchuk
  else if Id1 = 0xA4200101 then Extension.ClassicController
  else if Id1 = 0xA4200405 then Extension.MotionPlus
  else if Id1 = 0xA4200505 then Extension.MotionPlus ||| Extension.Nunchuk
  else if Id1 = 0xA4200705 then Extension.MotionPlus ||| Extension.ClassicController
  else 0

def ParseExtensionIdentifier (nd : Bool) (buf : List Nat) (_len _error : Nat) (s : Impl) :
    Except Fault (Bool × Impl) := do
  let Id1 := Read32 (buf.drop 2)
  let type := extensionTypeOfId Id1
  let motionPlus := type &&& Extension.MotionPlus
  let other := type &&& not32 Extension.MotionPlus
  let ext : Extension :=
    { Extension.zero with
      type := type
      motionPlus :=
        { Extension.zero.motionPlus with
          status := if motionPlus ≠ 0 then WII_STATUS_MP_ACTIVE else WII_STATUS_MP_INACTIVE } }
  let s1 : Impl := { s with state := { s.state with extension := ext } }
  let s2 ← (if motionPlus ≠ 0 then ReadMotionPlusCalibrationData nd s1 else pure s1)
  let s3 ← (if other ≠ 0 then ReadExtensionCalibrationData nd s2 else pure s2)
  pure (true, s3)

def ParseMotionPlusIdentifier (nd : Bool) (buf : List Nat) (_len error : Nat) (s : Impl) :
    Except Fault (Bool × Impl) := do
  cassert nd (decide (s.state.extension.motionPlus.status = WII_STATUS_MP_STARTUP))
  let mp := s.state.extension.motionPlus
  if error ≠ 0 then
    pure (true,
      { s with
        state :=
          { s.state with
            extension :=
              { s.state.extension with
                motionPlus := { mp with status := WII_STATUS_MP_NOT_PRESENT } } } })
  else
    let ID := Read16 buf
    if ID = 0x0005 then EnableMotionPlus nd s
    else if ID = 0x0405 ∨ ID = 0x0505 ∨ ID = 0x0705 then
      DisableMotionPlus nd
        { s with
          state :=
            { s.state with
              extension :=
                { s.state.extension with
                  motionPlus := { mp with status := WII_STATUS_MP_NO_LONGER_ACTIVE } } } }
    else pure (false, s)

/-- The call `req.handler(buf, len, error)` of a bound callback. -/
def callHandler (nd : Bool) (h : Handler) (buf : List Nat) (len error : Nat) (s : Impl) :
    Except Fault (Bool × Impl) :=
  let s1 : Impl :=
    { s with handled := s.handled ++ [{ handler := h, buf := buf, len := len, error := error }] }
  match h with
  | .ParseCalibrationData =>
    let r := ParseCalibrationData s1.state buf len error
    pure (r.1, { s1 with state := r.2 })
  | .ParseExtensionCalibrationData =>
    let r := ParseExtensionCalibrationData s1.state buf len error
    pure (r.1, { s1 with state := r.2 })
  | .ParseMotionPlusCalibrationData =>
    let r := ParseMotionPlusCalibrationData s1.state buf len error
    pure (r.1, { s1 with state := r.2 })
  | .ParseExtensionIdentifier => ParseExtensionIdentifier nd buf len error s1
  | .ParseMotionPlusIdentifier => ParseMotionPlusIdentifier nd buf len error s1

def ProcessStatusReport (nd : Bool) (buf : List Nat) (s : Impl) : Except Fault (Bool × Impl) := do
  cassert nd (decide (s.reportMode ≠ ReportMode.Undefined))
  let batteryLow : Bool := decide (byteAt buf 0 &&& 0x01 ≠ 0)
  let extPresent : Bool := decide (byteAt buf 0 &&& 0x02 ≠ 0)
  let speakerEnabled : Bool := decide (byteAt buf 0 &&& 0x04 ≠ 0)
  let irEnabled : Bool := decide (byteAt buf 0 &&& 0x08 ≠ 0)
  let leds : Nat := byteAt buf 0 &&& 0xF0
  let battery : Nat := byteAt buf 3
  let s1 ←
    (match s.requests with
    | [] => pure s
    | req :: _ =>
      if req.type = RequestType.Status ∧ req.sent = true then PopRequest nd s else pure s)
  let s2 ←
    (if extPresent ≠ s1.state.extPresent then
      if extPresent = true then do
        let s1a ←
          (if s1.state.extension.motionPlus.status ≠ WII_STATUS_MP_STARTUP then do
            let t ← WriteDataByte nd 0x04A400F0 0x55 s1
            WriteDataByte nd 0x04A400FB 0x00 t
          else pure s1)
        ReadExtensionIdentifier nd s1a
      else
        if s1.state.extension.motionPlus.status ≠ WII_STATUS_MP_STARTUP then
          pure { s1 with state := { s1.state with extension := { s1.state.extension with type := 0 } } }
        else pure s1
    else pure s1)
  let s3 : Impl :=
    { s2 with
      state :=
        { s2.state with
          battery := battery
          batteryLow := batteryLow
          extPresent := extPresent
          speakerEnabled := speakerEnabled
          irEnabled := irEnabled
          leds := leds } }
  let r4 ← SetReportMode nd s3.reportMode s3.state.ir.sensitivity s3.continous s3
  pure (true, r4.2)

def ProcessDataReport (nd : Bool) (buf : List Nat) (s : Impl) : Except Fault (Bool × Impl) := do
  cassert nd (decide (s.requests ≠ []))
  let count : Nat := 1 + (byteAt buf 0 >>> 4)
  let error : Nat := byteAt buf 0 &&& 0x0F
  let address : Nat := byteAt buf 1 <<< 8 ||| byteAt buf 2
  match s.requests with
  | [] => throw Fault.undefined
  | req :: rest =>
    cassert nd (decide (req.type = RequestType.Read))
    cassert nd (decide (count ≤ req.pending))
    cassert nd (decide (address = ((req.address + req.done) % 2 ^ 32) &&& 0xFFFF))
    let req1 : Request := { req with error := error }
    let req2 ←
      (if req1.error = 0 then
        if req1.buffer.length < req1.done + count then throw Fault.undefined
        else
          pure
            { req1 with
              buffer := memcpy req1.buffer req1.done (buf.drop 3) count
              done := (req1.done + count) % 2 ^ 32
              pending := (req1.pending + 2 ^ 32 - count) % 2 ^ 32 }
      else pure req1)
    let s1 : Impl := { s with requests := req2 :: rest }
    if req2.error ≠ 0 ∨ req2.pending = 0 then
      cassert nd req2.handler.isSome
      match req2.handler with
      | none => throw Fault.badFunctionCall
      | some h =>
        let r ← callHandler nd h req2.buffer req2.buffer.length req2.error s1
        let s3 ← PopRequest nd r.2
        pure (true, s3)
    else pure (true, s1)

def ProcessAcknowledgeReport (nd : Bool) (buf : List Nat) (s : Impl) :
    Except Fault (Bool × Impl) := do
  cassert nd (decide (s.requests ≠ []))
  let reg : Nat := byteAt buf 0
  let error : Nat := byteAt buf 1
  match s.requests with
  | [] => throw Fault.undefined
  | req :: rest =>
    let s1 : Impl := { s with requests := { req with error := error } :: rest }
    if reg = WII_OUTPUT_WRITE_MEMORY ∧ req.type = RequestType.Write then
      let s2 ← PopRequest nd s1
      pure (true, s2)
    else pure (true, s1)

/-- The function `ProcessReport`; `now` is the value returned by `Time()`. -/
def ProcessReport (nd : Bool) (buf : List Nat) (now : ℚ) (s : Impl) :
    Except Fault (Bool × Impl) := do
  let st0 : State := { s.state with data := 0, time := now }
  let s0 : Impl := { s with state := st0 }
  let b := (ParseButtons st0 (buf.drop 1)).2
  let sb : Impl := { s0 with state := b }
  let ty := byteAt buf 0
  if ty = 0x20 then
    let r ← ProcessStatusReport nd (buf.drop 3) sb
    pure (false, r.2)
  else if ty = 0x21 then
    let r ← ProcessDataReport nd (buf.drop 3) sb
    pure (false, r.2)
  else if ty = 0x22 then
    let r ← ProcessAcknowledgeReport nd (buf.drop 3) sb
    pure (false, r.2)
  else if ty = 0x30 then pure (false, sb)
  else if ty = 0x31 then
    pure (false, { sb with state := (ParseAccel b (buf.drop 1)).2 })
  else if ty = 0x32 then
    pure (false, { sb with state := (ParseExtension b (buf.drop 3)).2 })
  else if ty = 0x33 then
    let a := (ParseAccel b (buf.drop 1)).2
    pure (false, { sb with state := (ParseIR a (buf.drop 6)).2 })
  else if ty = 0x35 then
    let a := (ParseAccel b (buf.drop 1)).2
    pure (false, { sb with state := (ParseExtension a (buf.drop 6)).2 })
  else if ty = 0x36 then
    let i := (ParseIR b (buf.drop 3)).2
    pure (false, { sb with state := (ParseExtension i (buf.drop 13)).2 })
  else if ty = 0x37 then
    let a := (ParseAccel b (buf.drop 1)).2
    let i := (ParseIR a (buf.drop 6)).2
    pure (false, { sb with state := (ParseExtension i (buf.drop 16)).2 })
  else do
    cassert nd false
    pure (false, s0)

/-- The function `Poll`; `input` is the outcome of `GetInputReport` (`none` when
the read fails) and `now` the value of `Time()`. -/
def Poll (nd : Bool) (input : Option (List Nat)) (now : ℚ) (s : Impl) :
    Except Fault (Bool × Impl) := do
  cassert nd (decide (s.reportMode ≠ ReportMode.Undefined))
  if s.status = WII_STATUS_ERROR ∨ s.status = WII_STATUS_SHUTDOWN_COMPLETE then pure (false, s)
  else
    let r1 ← SendNextRequest nd s
    let s1 := r1.2
    match input with
    | none => pure (false, { s1 with status := WII_STATUS_ERROR })
    | some report =>
      let r2 ← ProcessReport nd report now s1
      let s2 := r2.2
      if s2.status ≠ WII_STATUS_READY then
        if s2.status = WII_STATUS_CONNECTED then
          let s3 ← ReadCalibrationData nd s2
          let s4 ← PushRequest nd .Status 0 0 none s3
          pure (true, { s4 with status := WII_STATUS_STARTUP })
        else if s2.status = WII_STATUS_STARTUP then
          if s2.requests = [] then
            let s3 ← ReadMotionPlusIdentifier nd s2
            pure (true, { s3 with status := WII_STATUS_READY })
          else pure (true, s2)
        else if s2.status = WII_STATUS_SHUTDOWN then
          if s2.requests = [] then pure (true, { s2 with status := WII_STATUS_SHUTDOWN_COMPLETE })
          else pure (true, s2)
        else pure (true, s2)
      else pure (true, s2)

def Shutdown (nd : Bool) (s : Impl) : Except Fault (Bool × Impl) := do
  if s.status = WII_STATUS_SHUTDOWN ∨ s.status = WII_STATUS_SHUTDOWN_COMPLETE then pure (true, s)
  else if s.status = WII_STATUS_UNKNOWN then pure (true, s)
  else if s.status = WII_STATUS_STARTUP then pure (true, s)
  else if s.status = WII_STATUS_DISCONNECTED then pure (true, s)
  else if s.status = WII_STATUS_ERROR then pure (true, s)
  else
    let r1 ← DisableMotionPlus nd s
    let r2 ← SetLEDs nd 0 r1.2
    let r3 ← SetRumble nd false r2.2
    pure (true, { r3.2 with status := WII_STATUS_SHUTDOWN })

/-- The constructor `Wiimote::Impl::Impl()`: cleared state, no report mode,
continuous reporting, empty queue, status unknown. -/
def Impl.ctor : Impl :=
  let p2i : Point2i := { x := 0, y := 0 }
  let p2f : Point2f := { x := 0, y := 0 }
  let p3i : Point3i := { x := 0, y := 0, z := 0 }
  let p3f : Point3f := { x := 0, y := 0, z := 0 }
  let dot : IRData.Dot := { raw := p2i, normalized := p2f, size := 0, visible := false }
  { state :=
      { data := 0, time := 0, battery := 0, batteryLow := false, extPresent := false,
        speakerEnabled := false, irEnabled := false, rumble := false, leds := 0, buttons := 0,
        buttonsPressed := 0, buttonsReleased := 0,
        accel := { raw := p3i, normalized := p3f, cal := { zero := p3i, g := p3i, valid := false } }
        ir := { mode := .Off, sensitivity := .Level1, dot0 := dot, dot1 := dot, dot2 := dot, dot3 := dot }
        extension := Extension.zero }
    reportMode := .Undefined
    continous := true
    requests := []
    status := WII_STATUS_UNKNOWN
    output := []
    handled := [] }

/-! ## Definitions used in the statements -/

/-- The rumble bit that `SendReport` ORs into the byte after the type byte. -/
def rumbleBit (s : Impl) : Nat := if s.state.rumble then 0x01 else 0x00

/-- The 21 bytes `buf` that `SendWriteReport` hands to `SendReport`. -/
def writeReportBody (address size : Nat) (data : List Nat) : List Nat :=
  [B3 address, B2 address, B1 address, B0 address, B0 size] ++
    (List.range size).map (fun i => byteAt data i) ++ List.replicate (16 - size) 0

/-- The output report of a request, as `SendNextRequest` transmits it: status
`15 rr`, read `17 aa aa aa aa ss ss` (big-endian address and size), write
`16 aa aa aa aa ss dd*16` (payload padded with zeros); the rumble bit is ORed
into the byte after the type byte. -/
def requestReport (s : Impl) (req : Request) : List Nat :=
  match req.type with
  | .Status => [0x15, rumbleBit s]
  | .Read =>
    [0x17, B3 req.address ||| rumbleBit s, B2 req.address, B1 req.address, B0 req.address,
      B1 req.pending, B0 req.pending]
  | .Write =>
    [0x16, B3 req.address ||| rumbleBit s, B2 req.address, B1 req.address, B0 req.address,
      B0 req.pending] ++
      (List.range req.pending).map (fun i => byteAt req.buffer i) ++
      List.replicate (16 - req.pending) 0

/-- The call `SendNextRequest()` repeated `n` times. -/
def SendNextRequestTimes (nd : Bool) : Nat → Impl → Except Fault Impl
  | 0, s => pure s
  | n + 1, s => do
    let r ← SendNextRequest nd s
    SendNextRequestTimes nd n r.2

/-- The request `Read(address, size)` as `ReadData` enqueues it. -/
def Request.read (address size : Nat) (h : Handler) : Request :=
  { type := .Read, buffer := List.replicate size 0, address := address, error := 0, done := 0,
    pending := size, sent := false, handler := some h }

/-- The request `Write(address, data)` as `WriteData` enqueues it. -/
def Request.write (address : Nat) (data : List Nat) : Request :=
  { type := .Write, buffer := data.map (· % 256), address := address, error := 0, done := 0,
    pending := data.length, sent := false, handler := none }

/-- The status request as `PushRequest(Request::Type::Status)` enqueues it. -/
def Request.status : Request :=
  { type := .Status, buffer := [], address := 0, error := 0, done := 0, pending := 0,
    sent := false, handler := none }

/-- The five register writes of `EnableIR`, in the order they are enqueued. -/
def irWrites (mode : IRData.Mode) (sensitivity : IRData.Sensitivity) : List Request :=
  [Request.write 0x04B00030 [0x08],
   Request.write 0x04B00000 (IRBlock.block1 sensitivity),
   Request.write 0x04B0001A (IRBlock.block2 sensitivity),
   Request.write 0x04B00033 [mode.toNat],
   Request.write 0x04B00030 [0x08]]

/-- What an operation does to the queue when it only enqueues: the old requests
stay in place, unsent requests are appended, and the phase is unchanged. -/
def Appends (s s1 : Impl) : Prop :=
  (∃ new, s1.requests = s.requests ++ new ∧ ∀ r ∈ new, r.sent = false) ∧ s1.status = s.status

/-- The assertion at the head of a callback: only `ParseMotionPlusIdentifier`
has one, `motionPlus.status == WII_STATUS_MP_STARTUP`. -/
def handlerAssertion (h : Handler) (s : Impl) : Bool :=
  decide (h ≠ Handler.ParseMotionPlusIdentifier) ||
    decide (s.state.extension.motionPlus.status = WII_STATUS_MP_STARTUP)

/-- The queue invariant: no request behind the front has its sent flag set. -/
def SentOnlyFront (q : List Request) : Prop := ∀ r ∈ q.tail, r.sent = false

/-- The engine states reachable from an empty queue by the queue operations and
the three report handlers. -/
inductive Reachable (nd : Bool) : Impl → Prop where
  | empty (s : Impl) (h : s.requests = []) : Reachable nd s
  | pushRequest (s s1 : Impl) (type : RequestType) (address size : Nat)
      (buffer : Option (List Nat)) (hs : Reachable nd s)
      (h : PushRequest nd type address size buffer s = .ok s1) : Reachable nd s1
  | readDataNoHandler (s s1 : Impl) (address size : Nat) (hs : Reachable nd s)
      (h : ReadDataNoHandler nd address size s = .ok s1) : Reachable nd s1
  | readData (s s1 : Impl) (address size : Nat) (handler : Handler) (hs : Reachable nd s)
      (h : ReadData nd address size handler s = .ok s1) : Reachable nd s1
  | writeData (s s1 : Impl) (address : Nat) (data : List Nat) (hs : Reachable nd s)
      (h : WriteData nd address data s = .ok s1) : Reachable nd s1
  | sendNextRequest (s : Impl) (r : Bool × Impl) (hs : Reachable nd s)
      (h : SendNextRequest nd s = .ok r) : Reachable nd r.2
  | popRequest (s s1 : Impl) (hs : Reachable nd s) (h : PopRequest nd s = .ok s1) :
      Reachable nd s1
  | processStatusReport (s : Impl) (r : Bool × Impl) (buf : List Nat) (hs : Reachable nd s)
      (h : ProcessStatusReport nd buf s = .ok r) : Reachable nd r.2
  | processDataReport (s : Impl) (r : Bool × Impl) (buf : List Nat) (hs : Reachable nd s)
      (h : ProcessDataReport nd buf s = .ok r) : Reachable nd r.2
  | processAcknowledgeReport (s : Impl) (r : Bool × Impl) (buf : List Nat)
      (hs : Reachable nd s) (h : ProcessAcknowledgeReport nd buf s = .ok r) : Reachable nd r.2

/-- The local `count` of `ProcessDataReport`: the size nibble plus one. -/
def dataReportCount (buf : List Nat) : Nat := 1 + (byteAt buf 0 >>> 4)

/-- The local `error` of `ProcessDataReport`: the low nibble of the first byte. -/
def dataReportError (buf : List Nat) : Nat := byteAt buf 0 &&& 0x0F

/-- The local `address` of `ProcessDataReport`: the 16-bit address field. -/
def dataReportAddress (buf : List Nat) : Nat := byteAt buf 1 <<< 8 ||| byteAt buf 2

/-- The payload of a data report: its first `count` data bytes. -/
def dataReportPayload (buf : List Nat) : List Nat :=
  (List.range (dataReportCount buf)).map (fun i => byteAt (buf.drop 3) i)

/-- The three assertions of `ProcessDataReport` on the front request. -/
def dataReportAsserts (buf : List Nat) (req : Request) : Prop :=
  req.type = RequestType.Read ∧ dataReportCount buf ≤ req.pending ∧
    dataReportAddress buf = ((req.address + req.done) % 2 ^ 32) &&& 0xFFFF

/-- The call `ProcessDataReport` on each report of a list, in order. -/
def ProcessDataReports (nd : Bool) : List (List Nat) → Impl → Except Fault Impl
  | [], s => pure s
  | buf :: more, s => do
    let r ← ProcessDataReport nd buf s
    ProcessDataReports nd more r.2

/-- The byte counts `c1 + .. + ck` of a list of data reports. -/
def fragmentsCount : List (List Nat) → Nat
  | [] => 0
  | buf :: more => dataReportCount buf + fragmentsCount more

/-- The concatenation of the payloads of a list of data reports. -/
def fragmentsPayload : List (List Nat) → List Nat
  | [] => []
  | buf :: more => dataReportPayload buf ++ fragmentsPayload more

/-- A list of data reports fits a read at `address` with `done` bytes read and
`pending` bytes outstanding: every report is error-free, carries at most the
bytes still pending, and names the address `(address + done) mod 2^16`. -/
def fragmentsFit (address : Nat) : Nat → Nat → List (List Nat) → Prop
  | _, _, [] => True
  | done, pending, buf :: more =>
    dataReportError buf = 0 ∧ dataReportCount buf ≤ pending ∧
      dataReportAddress buf = (address + done) % 2 ^ 16 ∧
      fragmentsFit address (done + dataReportCount buf) (pending - dataReportCount buf) more

/-- A read request in progress: `filled` holds the bytes received so far and
`pending` bytes are outstanding. -/
def Request.reading (address : Nat) (h : Handler) (sent : Bool) (filled : List Nat)
    (pending : Nat) : Request :=
  { type := .Read, buffer := filled ++ List.replicate pending 0, address := address, error := 0,
    done := filled.length, pending := pending, sent := sent, handler := some h }

/-- A call of the lifecycle interface: `Poll()` with the outcome of the
transport read (`none` when it fails) and the clock value, or `Shutdown()`. -/
inductive Call where
  | poll (input : Option (List Nat)) (now : ℚ)
  | shutdown

/-- One call of the lifecycle interface. -/
def call (nd : Bool) : Call → Impl → Except Fault (Bool × Impl)
  | .poll input now, s => Poll nd input now s
  | .shutdown, s => Shutdown nd s

/-- A sequence of calls of the lifecycle interface, with the values returned. -/
def calls (nd : Bool) : List Call → Impl → Except Fault (List Bool × Impl)
  | [], s => pure ([], s)
  | c :: more, s => do
    let r ← call nd c s
    let rs ← calls nd more r.2
    pure (r.1 :: rs.1, rs.2)

/-- The value a call returns once polling has stopped: `Poll` fails, `Shutdown`
succeeds. -/
def Call.stopped : Call → Bool
  | .poll _ _ => false
  | .shutdown => true

/-- What identifies a queued request: its type, its address and its callback. -/
def Request.ident (r : Request) : RequestType × Nat × Option Handler :=
  (r.type, r.address, r.handler)

/-- The input report `report` completes the request `req`: a status report
completes a status request, a data report a request with a callback (with
assertions enabled, a read request), and an acknowledgement of output report
`0x16` a write request. -/
def completes (nd : Bool) (report : List Nat) (req : Request) : Prop :=
  (byteAt report 0 = 0x20 ∧ req.type = RequestType.Status) ∨
  (byteAt report 0 = 0x21 ∧ req.handler ≠ none ∧ (nd = false → req.type = RequestType.Read)) ∨
  (byteAt report 0 = 0x22 ∧ byteAt report 3 = 0x16 ∧ req.type = RequestType.Write)

/-- The IR mode that `SetReportMode` selects for a report mode. -/
def irModeOf : ReportMode → IRData.Mode
  | .ButtonsAccelIR => .Extended
  | .ButtonsIRExt => .Basic
  | .ButtonsAccelIRExt => .Basic
  | _ => .Off

/-- The IR camera is in the mode of the current report mode, as `SetReportMode`
leaves it. -/
def irConfigured (s : Impl) : Prop := s.state.ir.mode = irModeOf s.reportMode

/-- The queue after the first step of `ProcessStatusReport`: a status request
at the front that has been sent is removed. -/
def statusPopped (q : List Request) : List Request :=
  match q with
  | [] => []
  | req :: rest => if req.type = RequestType.Status ∧ req.sent = true then rest else req :: rest

/-- A decode step of `ProcessReport`: a sub-structure decoder and the offset into
the input report at which it is called. -/
inductive DecodeStep where
  | buttons (offset : Nat)
  | accel (offset : Nat)
  | ir (offset : Nat)
  | extension (offset : Nat)
deriving DecidableEq, Repr

/-- Running a decode step on the report `buf`: the decoder is called on
`buf + offset`. -/
def DecodeStep.run (buf : List Nat) : DecodeStep → State → State
  | .buttons o, st => (ParseButtons st (buf.drop o)).2
  | .accel o, st => (ParseAccel st (buf.drop o)).2
  | .ir o, st => (ParseIR st (buf.drop o)).2
  | .extension o, st => (ParseExtension st (buf.drop o)).2

/-- Running decode steps one after the other. -/
def runSteps (buf : List Nat) (steps : List DecodeStep) (st : State) : State :=
  steps.foldl (fun t step => step.run buf t) st

/-- The dispatch table as the specification gives it: the decode steps of each
of the seven data report types, in order, with their offsets. -/
def decodeSteps (type : Nat) : List DecodeStep :=
  if type = 0x30 then [.buttons 1]
  else if type = 0x31 then [.buttons 1, .accel 1]
  else if type = 0x32 then [.buttons 1, .extension 3]
  else if type = 0x33 then [.buttons 1, .accel 1, .ir 6]
  else if type = 0x35 then [.buttons 1, .accel 1, .extension 6]
  else if type = 0x36 then [.buttons 1, .ir 3, .extension 13]
  else if type = 0x37 then [.buttons 1, .accel 1, .ir 6, .extension 16]
  else []

/-- The bits of the data-valid mask that stand for the sub-structures a decode
step can fill. -/
def DecodeStep.bits : DecodeStep → Nat
  | .buttons _ => State.Buttons
  | .accel _ => State.Accel
  | .ir _ => State.IR
  | .extension _ => State.Nunchuk ||| State.ClassicController ||| State.MotionPlus

/-- A necessary condition for a decode step to fill a sub-structure: the IR
decoder needs the IR camera on, the extension decoder a known extension. -/
def DecodeStep.decodes : DecodeStep → State → Prop
  | .buttons _, _ => True
  | .accel _, _ => True
  | .ir _, st => st.ir.mode ≠ IRData.Mode.Off
  | .extension _, st => st.extension.type ≠ 0

/-- What the decoders of input reports leave alone: the IR mode and
sensitivity, the extension type, the motion-sensor sub-phase, the
extension-present flag and the rumble flag. -/
def decoderKeeps (st st1 : State) : Prop :=
  st1.ir.mode = st.ir.mode ∧ st1.ir.sensitivity = st.ir.sensitivity ∧
  st1.extension.type = st.extension.type ∧
  st1.extension.motionPlus.status = st.extension.motionPlus.status ∧
  st1.extPresent = st.extPresent ∧ st1.rumble = st.rumble

/-- The decode of a 3-byte group of the extended IR layout, in the words of the
specification: x = b0 | ((b2 & 0x30) << 4), y = b1 | ((b2 & 0xC0) << 2),
size = b2 & 0x0F. -/
def extendedDotSpec (b0 b1 b2 : Nat) : Nat × Nat × Nat :=
  (b0 ||| ((b2 &&& 0x30) <<< 4), b1 ||| ((b2 &&& 0xC0) <<< 2), b2 &&& 0x0F)

/-- The two positions of a 5-byte group of the basic IR layout, in the words of
the layout comment of `ParseIR`: byte 2 of the group holds the two high bits of
the four coordinates. -/
def basicGroupSpec (g : List Nat) : (Nat × Nat) × (Nat × Nat) :=
  ((byteAt g 0 ||| ((byteAt g 2 &&& 0x30) <<< 4), byteAt g 1 ||| ((byteAt g 2 &&& 0xC0) <<< 2)),
   (byteAt g 3 ||| ((byteAt g 2 &&& 0x03) <<< 8), byteAt g 4 ||| ((byteAt g 2 &&& 0x0C) <<< 6)))

/-- The memory reads that the engine enqueues: address, size and callback
(`ReadCalibrationData`, `ReadExtensionCalibrationData`,
`ReadMotionPlusCalibrationData`, `ReadExtensionIdentifier`,
`ReadMotionPlusIdentifier`). -/
def engineReads : List (Nat × Nat × Handler) :=
  [(0x00000016, 8, .ParseCalibrationData),
   (0x04A40020, 16, .ParseExtensionCalibrationData),
   (0x04A40000, 0x100, .ParseMotionPlusCalibrationData),
   (0x04A400FA, 6, .ParseExtensionIdentifier),
   (0x04A600FE, 2, .ParseMotionPlusIdentifier)]

/-- The register addresses that the engine writes (`InitExtension`,
`EnableMotionPlus`, `DisableMotionPlus`, `EnableIR`). -/
def engineWriteAddresses : List Nat :=
  [0x04A400F0, 0x04A400FB, 0x04A600F0, 0x04A600FE, 0x04B00030, 0x04B00000, 0x04B0001A,
   0x04B00033]

/-- A request as the engine enqueues it: the status request, a write of 1..16
bytes to one of its registers, or one of its five reads. -/
def enqueued (q : Request) : Prop :=
  q = Request.status ∨
  (∃ a d, a ∈ engineWriteAddresses ∧ 0 < d.length ∧ d.length ≤ 16 ∧ q = Request.write a d) ∨
  (∃ e ∈ engineReads, q = Request.read e.1 e.2.1 e.2.2)

/-- A request as the handling of an input report enqueues it: any request of
the engine but the read of the motion-sensor identifier, which only `Poll`
enqueues. -/
def enqueuedByReport (q : Request) : Prop :=
  enqueued q ∧ q.handler ≠ some Handler.ParseMotionPlusIdentifier

/-- Bit 0 of the byte that follows the type byte of an output report equals the
rumble flag of the engine. -/
def rumbleTagged (s : Impl) (rep : List Nat) : Prop :=
  (byteAt rep 1).testBit 0 = s.state.rumble

/-- An accelerometer calibration is sound when its flag, if set, comes with a
gravity point that differs from the zero point on all three axes. -/
def accelCalSound (c : AccelData.CalibrationData) : Prop :=
  c.valid = true → c.g.x - c.zero.x ≠ 0 ∧ c.g.y - c.zero.y ≠ 0 ∧ c.g.z - c.zero.z ≠ 0

/-- A joystick calibration is sound when its flag, if set, comes with a range
`max - min` of at least 2 on both axes. -/
def stickCalSound (c : JoystickData.CalibrationData) : Prop :=
  c.valid = true → 2 ≤ c.max.x - c.min.x ∧ 2 ≤ c.max.y - c.min.y

/-- The union holds what the extension type selects: it is zeroed, or holds
the nunchuk member while the type without the motion-plus bit is `Nunchuk`, or
the classic member while it is `ClassicController`; in both cases the type may
have been reset to 0 by a status report since.  It is never overlaid. -/
def Extension.consistent (e : Extension) : Prop :=
  match e.members with
  | .zero => True
  | .nunchuk _ => e.type = 0 ∨ e.type &&& not32 Extension.MotionPlus = Extension.Nunchuk
  | .classic _ =>
    e.type = 0 ∨ e.type &&& not32 Extension.MotionPlus = Extension.ClassicController
  | .overlaid => False

/-- Every calibration record of the device state is sound: that of the remote
accelerometer, those of the accelerometer and stick of `nunchuk` and those of
the two sticks of `classic`, for each member the union holds a value of; and
the union is consistent with the extension type. -/
def calibrationsSound (st : State) : Prop :=
  accelCalSound st.accel.cal ∧
  (∀ nc, st.extension.nunchuk = some nc →
    accelCalSound nc.accel.cal ∧ stickCalSound nc.stick.cal) ∧
  (∀ cc, st.extension.classic = some cc →
    stickCalSound cc.stickL.cal ∧ stickCalSound cc.stickR.cal) ∧
  st.extension.consistent

/-- The front read request after the copy step of `ProcessDataReport`: the error
nibble is stored, and an error-free fragment is copied to offset `done`, `done`
growing and `pending` shrinking by its length. -/
def Request.received (req : Request) (buf : List Nat) : Request :=
  if dataReportError buf = 0 then
    { req with
      error := dataReportError buf
      buffer := memcpy req.buffer req.done (buf.drop 3) (dataReportCount buf)
      done := (req.done + dataReportCount buf) % 2 ^ 32
      pending := (req.pending + 2 ^ 32 - dataReportCount buf) % 2 ^ 32 }
  else { req with error := dataReportError buf }

/-- The indices `i` of the reads `buf[i]` in `ParseButtons`, in source order. -/
def ParseButtons.reads : List Nat := [0, 1]

/-- The indices of the reads `buf[i]` in `ParseAccel`. -/
def ParseAccel.reads : List Nat := [2, 0, 3, 1, 4, 1]

/-- The indices of the reads `buf[i]` in `ParseIR`, by IR mode. -/
def ParseIR.reads : IRData.Mode → List Nat
  | .Off => []
  | .Basic => [0, 2, 1, 2, 3, 2, 4, 2, 5, 5, 6, 5, 8, 5, 9, 5]
  | .Extended => [0, 2, 1, 2, 3, 5, 4, 5, 6, 8, 7, 8, 9, 11, 10, 11, 2, 5, 8, 11]

/-- The indices of the reads `buf[i]` in `ParseNunchuk`; both layouts read the
same bytes. -/
def ParseNunchuk.reads (passthrough : Bool) : List Nat :=
  [0, 1] ++ (if passthrough then [2, 5, 3, 5, 4, 5, 5] else [2, 5, 3, 5, 4, 5, 5])

/-- The indices of the reads `buf[i]` in `ParseClassicController`. -/
def ParseClassicController.reads (passthrough : Bool) : List Nat :=
  (if passthrough then [4, 5, 0, 1, 0, 1] else [4, 5, 0, 1]) ++ [2, 1, 0, 2]

/-- The indices of the reads `buf[i]` in `ParseMotionPlus`. -/
def ParseMotionPlus.reads : List Nat := [2, 5, 1, 4, 0, 3, 3, 4, 3, 4]

/-- The indices of the reads `buf[i]` in `ParseExtension` for an extension type:
byte 5 for the pass-through test, then the reads of the decoder selected. -/
def ParseExtension.reads (type : Nat) (buf : List Nat) : List Nat :=
  if type = 0 then []
  else
    let motionPlus := type &&& Extension.MotionPlus
    let other := type &&& not32 Extension.MotionPlus
    let passthrough : Bool := decide (motionPlus ≠ 0) && decide (other ≠ 0)
    (if decide (motionPlus ≠ 0) && decide (other = 0) then []
      else if passthrough then [5] else []) ++
    (if (decide (motionPlus ≠ 0) && decide (other = 0)) ||
        (passthrough && decide (byteAt buf 5 &&& 0x02 ≠ 0)) then ParseMotionPlus.reads
      else if other = Extension.Nunchuk then ParseNunchuk.reads passthrough
      else if other = Extension.ClassicController then ParseClassicController.reads passthrough
      else [])

/-- The indices of the input report that a decode step reads: those of its
decoder, moved by the offset at which the decoder is called. -/
def DecodeStep.reads (mode : IRData.Mode) (type : Nat) (buf : List Nat) : DecodeStep → List Nat
  | .buttons o => ParseButtons.reads.map (· + o)
  | .accel o => ParseAccel.reads.map (· + o)
  | .ir o => (ParseIR.reads mode).map (· + o)
  | .extension o => (ParseExtension.reads type (buf.drop o)).map (· + o)

/-- The indices of the reads `buf[i]` in `ProcessStatusReport`. -/
def ProcessStatusReport.reads : List Nat := [0, 0, 0, 0, 0, 3]

/-- The indices of the reads `buf[i]` in `ProcessDataReport`: the header and,
for an error-free fragment, the `count` bytes that `memcpy` takes from
`buf + 3`. -/
def ProcessDataReport.reads (buf : List Nat) : List Nat :=
  [0, 0, 1, 2] ++
    (if dataReportError buf = 0 then (List.range (dataReportCount buf)).map (· + 3) else [])

/-- The indices of the reads `buf[i]` in `ProcessAcknowledgeReport`. -/
def ProcessAcknowledgeReport.reads : List Nat := [0, 1]

/-- The indices of the input report that `ProcessReport` and the steps it runs
read, for an engine state and a report: the type byte, the two button bytes and
the reads of the handler or of the decode steps of the type. -/
def ProcessReport.reads (s : Impl) (buf : List Nat) : List Nat :=
  0 ::
    (if byteAt buf 0 = 0x20 then
      ParseButtons.reads.map (· + 1) ++ ProcessStatusReport.reads.map (· + 3)
    else if byteAt buf 0 = 0x21 then
      ParseButtons.reads.map (· + 1) ++ (ProcessDataReport.reads (buf.drop 3)).map (· + 3)
    else if byteAt buf 0 = 0x22 then
      ParseButtons.reads.map (· + 1) ++ ProcessAcknowledgeReport.reads.map (· + 3)
    else
      ((decodeSteps (byteAt buf 0)).map
        (DecodeStep.reads s.state.ir.mode s.state.extension.type buf)).flatten)

/-- The register addresses that the engine reads or writes. -/
def engineAddresses : List Nat := engineReads.map (·.1) ++ engineWriteAddresses

/-- Every queued request is a status request or addresses a register of the
engine. -/
def engineQueue (s : Impl) : Prop :=
  ∀ q ∈ s.requests, q.type = RequestType.Status ∨ q.address ∈ engineAddresses

/-- The LED mask lies within `0xF0`. -/
def ledsMasked (s : Impl) : Prop := s.state.leds &&& 0xF0 = s.state.leds

/-- The number of queued reads of the motion-sensor identifier: the requests
whose callback is `ParseMotionPlusIdentifier`. -/
def identifierReadsQueued (q : List Request) : Nat :=
  q.countP (fun x => decide (x.handler = some Handler.ParseMotionPlusIdentifier))

/-- The number of calls in a sequence at which `Poll` issues the read of the
motion-sensor identifier, which it does when it moves the phase from `Startup`
to `Ready`; the count stops at a call that does not return. -/
def identifierReadsIssued (nd : Bool) : List Call → Impl → Nat
  | [], _ => 0
  | c :: more, s =>
    match call nd c s with
    | .ok r =>
      (if s.status = WII_STATUS_STARTUP ∧ r.2.status = WII_STATUS_READY then 1 else 0) +
        identifierReadsIssued nd more r.2
    | .error _ => 0

/-- The accounting of a request: `done + pending` equals the length of its
buffer, a value of type `unsigned`. -/
def Request.balanced (q : Request) : Prop :=
  q.done + q.pending = q.buffer.length ∧ q.buffer.length < 2 ^ 32

/-- Every queued request has a sound accounting. -/
def queueBalanced (s : Impl) : Prop := ∀ q ∈ s.requests, q.balanced

/-- A `float` result `v` of the quotient `a / b` of two integers: `v` is the
exact quotient rounded once to binary32, at most `2 ^ (-24)` of the quotient
away from it. -/
def roundedQuotient (a b : Int) (v : ℚ) : Prop :=
  v = f32 ((a : ℚ) / b) ∧ |v - (a : ℚ) / b| ≤ |(a : ℚ) / b| / 2 ^ 24

/-- The values of `biasSlow` in 0..16383 at which the single-precision
evaluation of `biasSlow * 4.54f/4.4f + 0.5f` falls below the half-way point
that the exact value `biasSlow * 227/220 + 1/2` reaches. -/
def biasFastExceptions : List Int :=
  [110, 330, 1430, 1870, 2090, 3190, 3410, 3630, 4730, 5170, 5830, 6270, 6930, 7810, 8910,
   10010, 10890, 11110, 11990, 12210, 13090, 13310, 14190, 14410, 15070, 15510, 16170]

/-! # Theorems -/

/-! ## Single-precision rounding -/

theorem ilog2Aux_spec : ∀ (fuel n : Nat), 0 < n → n ≤ fuel →
    2 ^ ilog2Aux fuel n ≤ n ∧ n < 2 ^ (ilog2Aux fuel n + 1) := by
  intro fuel
  induction fuel with
  | zero => intro n h0 h1; omega
  | succ f ih =>
    intro n h0 h1
    unfold ilog2Aux
    by_cases h : n < 2
    · rw [if_pos h]
      constructor
      · simpa using h0
      · simpa using h
    · rw [if_neg h]
      obtain ⟨a, b⟩ := ih (n / 2) (by omega) (by omega)
      rw [Nat.pow_succ]
      rw [Nat.pow_succ] at b ⊢
      constructor <;> omega

theorem ilog2_spec (n : Nat) (h : 0 < n) : 2 ^ ilog2 n ≤ n ∧ n < 2 ^ (ilog2 n + 1) :=
  ilog2Aux_spec n n h (le_refl n)

theorem scaled_pos (n d : Nat) (k : Int) (hd : 0 < d) : 0 < (scaled n d k).2 := by
  unfold scaled
  split_ifs
  · exact Nat.mul_pos hd (pow_pos (by norm_num) _)
  · exact hd

theorem scaled_spec (n d : Nat) (k : Int) :
    ((scaled n d k).1 : ℚ) / ((scaled n d k).2 : ℚ) = (n : ℚ) / (d : ℚ) / 2 ^ k := by
  unfold scaled
  by_cases h : 0 ≤ k
  · rw [if_pos h]
    obtain ⟨m, rfl⟩ := Int.eq_ofNat_of_zero_le h
    simp only [Int.toNat_ofNat, zpow_natCast]
    push_cast
    rw [div_div]
  · rw [if_neg h]
    have e : k = -((-k).toNat : Int) := by
      rw [Int.toNat_of_nonneg (by omega)]
      omega
    rw [e]
    simp only [zpow_neg, zpow_natCast, neg_neg, Int.toNat_ofNat]
    push_cast
    field_simp

theorem two_zpow_pos (k : Int) : (0 : ℚ) < 2 ^ k := zpow_pos (by norm_num) k

theorem floorLog2_spec (n d : Nat) (hn : 0 < n) (hd : 0 < d) :
    (2 : ℚ) ^ floorLog2 n d ≤ (n : ℚ) / d ∧ (n : ℚ) / d < 2 ^ (floorLog2 n d + 1) := by
  obtain ⟨a1, a2⟩ := ilog2_spec n hn
  obtain ⟨b1, b2⟩ := ilog2_spec d hd
  have dq : (0 : ℚ) < d := by exact_mod_cast hd
  have qa1 : (2 : ℚ) ^ (ilog2 n : Int) ≤ n := by
    rw [zpow_natCast]
    exact_mod_cast a1
  have qa2 : (n : ℚ) < 2 ^ ((ilog2 n : Int) + 1) := by
    have : (n : ℚ) < 2 ^ (ilog2 n + 1) := by exact_mod_cast a2
    rw [← zpow_natCast] at this
    exact_mod_cast this
  have qb1 : (2 : ℚ) ^ (ilog2 d : Int) ≤ d := by
    rw [zpow_natCast]
    exact_mod_cast b1
  have qb2 : (d : ℚ) < 2 ^ ((ilog2 d : Int) + 1) := by
    have : (d : ℚ) < 2 ^ (ilog2 d + 1) := by exact_mod_cast b2
    rw [← zpow_natCast] at this
    exact_mod_cast this
  have two : (2 : ℚ) ≠ 0 := by norm_num
  -- the quotient lies between 2 ^ (t - 1) and 2 ^ (t + 1)
  have lo : (2 : ℚ) ^ ((ilog2 n : Int) - ilog2 d - 1) < (n : ℚ) / d := by
    rw [lt_div_iff₀ dq]
    have e : (2 : ℚ) ^ ((ilog2 n : Int) - ilog2 d - 1) * 2 ^ ((ilog2 d : Int) + 1) =
        2 ^ (ilog2 n : Int) := by
      rw [← zpow_add₀ two]
      congr 1
      ring
    calc (2 : ℚ) ^ ((ilog2 n : Int) - ilog2 d - 1) * d
        < 2 ^ ((ilog2 n : Int) - ilog2 d - 1) * 2 ^ ((ilog2 d : Int) + 1) :=
          mul_lt_mul_of_pos_left qb2 (two_zpow_pos _)
      _ = 2 ^ (ilog2 n : Int) := e
      _ ≤ n := qa1
  have hi : (n : ℚ) / d < 2 ^ ((ilog2 n : Int) - ilog2 d + 1) := by
    rw [div_lt_iff₀ dq]
    have e : (2 : ℚ) ^ ((ilog2 n : Int) - ilog2 d + 1) * 2 ^ (ilog2 d : Int) =
        2 ^ ((ilog2 n : Int) + 1) := by
      rw [← zpow_add₀ two]
      congr 1
      ring
    calc (n : ℚ) < 2 ^ ((ilog2 n : Int) + 1) := qa2
      _ = 2 ^ ((ilog2 n : Int) - ilog2 d + 1) * 2 ^ (ilog2 d : Int) := e.symm
      _ ≤ 2 ^ ((ilog2 n : Int) - ilog2 d + 1) * d :=
          mul_le_mul_of_nonneg_left qb1 (le_of_lt (two_zpow_pos _))
  have sp := scaled_spec n d ((ilog2 n : Int) - ilog2 d)
  have s2 := scaled_pos n d ((ilog2 n : Int) - ilog2 d) hd
  have s2q : (0 : ℚ) < ((scaled n d ((ilog2 n : Int) - ilog2 d)).2 : ℚ) := by exact_mod_cast s2
  unfold floorLog2
  dsimp only
  by_cases c : (scaled n d ((ilog2 n : Int) - ilog2 d)).2 ≤ (scaled n d ((ilog2 n : Int) - ilog2 d)).1
  · rw [if_pos c]
    refine ⟨?_, hi⟩
    have cq : (1 : ℚ) ≤ ((scaled n d ((ilog2 n : Int) - ilog2 d)).1 : ℚ) /
        ((scaled n d ((ilog2 n : Int) - ilog2 d)).2 : ℚ) := by
      rw [le_div_iff₀ s2q, one_mul]
      exact_mod_cast c
    rw [sp, le_div_iff₀ (two_zpow_pos _), one_mul] at cq
    exact cq
  · rw [if_neg c]
    refine ⟨le_of_lt lo, ?_⟩
    have cq : ((scaled n d ((ilog2 n : Int) - ilog2 d)).1 : ℚ) /
        ((scaled n d ((ilog2 n : Int) - ilog2 d)).2 : ℚ) < 1 := by
      rw [div_lt_iff₀ s2q, one_mul]
      exact_mod_cast (not_le.mp c)
    rw [sp, div_lt_iff₀ (two_zpow_pos _), one_mul] at cq
    have e : (ilog2 n : Int) - ilog2 d - 1 + 1 = (ilog2 n : Int) - ilog2 d := by ring
    rw [e]
    exact cq

theorem roundNearestEven_spec (n d : Nat) (hd : 0 < d) :
    |((roundNearestEven n d : Nat) : ℚ) - (n : ℚ) / d| ≤ 1 / 2 := by
  have dq : (0 : ℚ) < d := by exact_mod_cast hd
  have e : (n : ℚ) / d = ((n / d : Nat) : ℚ) + ((n % d : Nat) : ℚ) / d := by
    have k : ((d * (n / d) + n % d : Nat) : ℚ) = n := by rw [Nat.div_add_mod n d]
    push_cast at k
    field_simp
    linarith
  have r0 : (0 : ℚ) ≤ ((n % d : Nat) : ℚ) / d := div_nonneg (Nat.cast_nonneg _) (le_of_lt dq)
  have r1 : ((n % d : Nat) : ℚ) / d < 1 := by
    rw [div_lt_iff₀ dq, one_mul]
    exact_mod_cast Nat.mod_lt n hd
  have half : ∀ c : Prop, (2 * (n % d) ≤ d → ((n % d : Nat) : ℚ) / d ≤ 1 / 2) ∧
      (d ≤ 2 * (n % d) → 1 / 2 ≤ ((n % d : Nat) : ℚ) / d) := by
    intro _
    constructor
    · intro h
      rw [div_le_iff₀ dq]
      have : ((2 * (n % d) : Nat) : ℚ) ≤ d := by exact_mod_cast h
      push_cast at this
      linarith
    · intro h
      rw [le_div_iff₀ dq]
      have : ((d : Nat) : ℚ) ≤ ((2 * (n % d) : Nat) : ℚ) := by exact_mod_cast h
      push_cast at this
      linarith
  obtain ⟨h1, h2⟩ := half True
  unfold roundNearestEven
  rw [e, abs_le]
  split_ifs with a b c
  · have := h1 (le_of_lt a)
    constructor <;> linarith
  · have := h2 (le_of_lt b)
    push_cast
    constructor <;> linarith
  · have := h1 (by omega)
    constructor <;> linarith
  · have := h2 (by omega)
    push_cast
    constructor <;> linarith

theorem roundNearestEven_exact (n d : Nat) (h : d ∣ n) (hd : 0 < d) :
    roundNearestEven n d = n / d := by
  unfold roundNearestEven
  rw [Nat.mod_eq_zero_of_dvd h, if_pos (by omega)]

theorem roundBinary32_zero (d : Nat) : roundBinary32 0 d = 0 := by
  unfold roundBinary32
  rw [if_pos rfl]

theorem roundBinary32_nonneg (n d : Nat) : 0 ≤ roundBinary32 n d := by
  unfold roundBinary32
  split_ifs
  · exact le_refl _
  · exact mul_nonneg (Nat.cast_nonneg _) (le_of_lt (two_zpow_pos _))

/-- The rounded value is a multiple `m * 2 ^ k` of the unit in the last place,
with `m` at most half a unit away from the exact quotient. -/
theorem roundBinary32_spec (n d : Nat) (hn : 0 < n) (hd : 0 < d) :
    ∃ m : Nat, roundBinary32 n d = (m : ℚ) * 2 ^ binary32Exponent n d ∧
      |(m : ℚ) - (n : ℚ) / d / 2 ^ binary32Exponent n d| ≤ 1 / 2 := by
  refine ⟨roundNearestEven (scaled n d (binary32Exponent n d)).1
    (scaled n d (binary32Exponent n d)).2, ?_, ?_⟩
  · unfold roundBinary32
    rw [if_neg (by omega)]
  · rw [← scaled_spec]
    exact roundNearestEven_spec _ _ (scaled_pos n d _ hd)

theorem roundBinary32_error (n d : Nat) (hn : 0 < n) (hd : 0 < d) :
    |roundBinary32 n d - (n : ℚ) / d| ≤ 2 ^ binary32Exponent n d / 2 := by
  obtain ⟨m, e, b⟩ := roundBinary32_spec n d hn hd
  have p := two_zpow_pos (binary32Exponent n d)
  have k : roundBinary32 n d - (n : ℚ) / d =
      ((m : ℚ) - (n : ℚ) / d / 2 ^ binary32Exponent n d) * 2 ^ binary32Exponent n d := by
    rw [e]
    field_simp
    ring
  rw [k, abs_mul, abs_of_pos p]
  calc |(m : ℚ) - (n : ℚ) / d / 2 ^ binary32Exponent n d| * 2 ^ binary32Exponent n d
      ≤ 1 / 2 * 2 ^ binary32Exponent n d := mul_le_mul_of_nonneg_right b (le_of_lt p)
    _ = 2 ^ binary32Exponent n d / 2 := by ring

theorem rat_eq_natAbs_div (q : ℚ) (h : 0 ≤ q) : ((q.num.natAbs : Nat) : ℚ) / (q.den : ℚ) = q := by
  have n : 0 ≤ q.num := Rat.num_nonneg.mpr h
  have e : ((q.num.natAbs : Nat) : ℚ) = ((q.num : Int) : ℚ) := by
    rw [← Int.cast_natCast, Int.natAbs_of_nonneg n]
  rw [e]
  exact Rat.num_div_den q

theorem f32_zero : f32 0 = 0 := by
  unfold f32
  rw [if_pos (le_refl _)]
  exact roundBinary32_zero _

theorem f32_of_nonneg (q : ℚ) (h : 0 ≤ q) : f32 q = roundBinary32 q.num.natAbs q.den := by
  unfold f32
  rw [if_pos h]

theorem f32_neg (q : ℚ) : f32 (-q) = -f32 q := by
  rcases lt_trichotomy q 0 with h | h | h
  · unfold f32
    rw [if_pos (by linarith), if_neg (by linarith), Rat.num_neg_eq_neg_num, Int.natAbs_neg, neg_neg]
    rfl
  · rw [h, neg_zero, f32_zero, neg_zero]
  · unfold f32
    rw [if_neg (by linarith), if_pos (le_of_lt h), Rat.num_neg_eq_neg_num, Int.natAbs_neg]
    rfl

theorem f32_nonneg (q : ℚ) (h : 0 ≤ q) : 0 ≤ f32 q := by
  rw [f32_of_nonneg q h]
  exact roundBinary32_nonneg _ _

theorem natAbs_num_pos (q : ℚ) (h : 0 < q) : 0 < q.num.natAbs :=
  Int.natAbs_pos.mpr (ne_of_gt (Rat.num_pos.mpr h))

theorem floorLog2_le (q : ℚ) (h : 0 < q) (E : Int) (hE : q < 2 ^ (E + 1)) :
    floorLog2 q.num.natAbs q.den ≤ E := by
  have s := (floorLog2_spec q.num.natAbs q.den (natAbs_num_pos q h) q.den_pos).1
  rw [rat_eq_natAbs_div q (le_of_lt h)] at s
  have l : (2 : ℚ) ^ floorLog2 q.num.natAbs q.den < 2 ^ (E + 1) := lt_of_le_of_lt s hE
  have := (zpow_lt_zpow_iff_right₀ (by norm_num : (1 : ℚ) < 2)).mp l
  omega

theorem le_floorLog2 (q : ℚ) (h : 0 < q) (E : Int) (hE : 2 ^ E ≤ q) :
    E ≤ floorLog2 q.num.natAbs q.den := by
  have s := (floorLog2_spec q.num.natAbs q.den (natAbs_num_pos q h) q.den_pos).2
  rw [rat_eq_natAbs_div q (le_of_lt h)] at s
  have l : (2 : ℚ) ^ E < 2 ^ (floorLog2 q.num.natAbs q.den + 1) := lt_of_le_of_lt hE s
  have := (zpow_lt_zpow_iff_right₀ (by norm_num : (1 : ℚ) < 2)).mp l
  omega

/-- The absolute error of a rounding: half a unit in the last place of the
binade `2 ^ E ≤ |q| < 2 ^ (E + 1)`, for a normal exponent `E`. -/
theorem f32_abs_error (q : ℚ) (E : Int) (hE : -126 ≤ E) (hq : |q| < 2 ^ (E + 1)) :
    |f32 q - q| ≤ 2 ^ (E - 24) := by
  have pos : ∀ p : ℚ, 0 < p → p < 2 ^ (E + 1) → |f32 p - p| ≤ 2 ^ (E - 24) := by
    intro p hp hl
    have b := roundBinary32_error p.num.natAbs p.den (natAbs_num_pos p hp) p.den_pos
    rw [rat_eq_natAbs_div p (le_of_lt hp), ← f32_of_nonneg p (le_of_lt hp)] at b
    have fl := floorLog2_le p hp E hl
    have k : binary32Exponent p.num.natAbs p.den ≤ E - 23 := by
      unfold binary32Exponent
      omega
    have m : (2 : ℚ) ^ binary32Exponent p.num.natAbs p.den ≤ 2 ^ (E - 23) :=
      (zpow_le_zpow_iff_right₀ (by norm_num : (1 : ℚ) < 2)).mpr k
    have e : (2 : ℚ) ^ (E - 23) / 2 = 2 ^ (E - 24) := by
      have : E - 23 = (E - 24) + 1 := by ring
      rw [this, zpow_add_one₀ (by norm_num : (2 : ℚ) ≠ 0)]
      ring
    rw [← e]
    linarith
  rcases lt_trichotomy q 0 with h | h | h
  · have k := pos (-q) (by linarith) (by rw [abs_of_neg h] at hq; exact hq)
    rw [f32_neg] at k
    have e : -f32 q - -q = -(f32 q - q) := by ring
    rw [e, abs_neg] at k
    exact k
  · rw [h, f32_zero, sub_zero, abs_zero]
    exact le_of_lt (two_zpow_pos _)
  · exact pos q h (by rw [abs_of_pos h] at hq; exact hq)

/-- The relative error of a rounding in the normal range is at most
`2 ^ (-24)`. -/
theorem f32_rel_error (q : ℚ) (hq : 2 ^ (-126 : Int) ≤ |q|) : |f32 q - q| ≤ |q| / 2 ^ 24 := by
  have pos : ∀ p : ℚ, 2 ^ (-126 : Int) ≤ p → |f32 p - p| ≤ p / 2 ^ 24 := by
    intro p hl
    have hp : 0 < p := lt_of_lt_of_le (two_zpow_pos _) hl
    have s := floorLog2_spec p.num.natAbs p.den (natAbs_num_pos p hp) p.den_pos
    rw [rat_eq_natAbs_div p (le_of_lt hp)] at s
    have fl := le_floorLog2 p hp (-126) hl
    have b := f32_abs_error p (floorLog2 p.num.natAbs p.den) fl (by rw [abs_of_pos hp]; exact s.2)
    have e : (2 : ℚ) ^ (floorLog2 p.num.natAbs p.den - 24) =
        2 ^ floorLog2 p.num.natAbs p.den / 2 ^ 24 := by
      rw [zpow_sub₀ (by norm_num : (2 : ℚ) ≠ 0)]
      norm_num
    rw [e] at b
    have : (2 : ℚ) ^ floorLog2 p.num.natAbs p.den / 2 ^ 24 ≤ p / 2 ^ 24 :=
      div_le_div_of_nonneg_right s.1 (by norm_num)
    linarith
  rcases le_or_lt 0 q with h | h
  · rw [abs_of_nonneg h] at hq ⊢
    exact pos q hq
  · rw [abs_of_neg h] at hq ⊢
    have k := pos (-q) hq
    rw [f32_neg] at k
    have e : -f32 q - -q = -(f32 q - q) := by ring
    rw [e, abs_neg] at k
    exact k

theorem representable_div (M : Nat) (j k : Int) (h : k ≤ j) :
    ((M * 2 ^ (j - k).toNat : Nat) : ℚ) = (M : ℚ) * 2 ^ j / 2 ^ k := by
  have e : j = k + ((j - k).toNat : Int) := by
    rw [Int.toNat_of_nonneg (by omega)]
    ring
  rw [eq_div_iff (ne_of_gt (two_zpow_pos k))]
  nth_rewrite 2 [e]
  rw [zpow_add₀ (by norm_num : (2 : ℚ) ≠ 0), zpow_natCast]
  push_cast
  ring

theorem binary32Exponent_le (q : ℚ) (hq : 0 < q) (M : Nat) (j : Int) (hM : M < 2 ^ 24)
    (hj : -149 ≤ j) (h : q ≤ (M : ℚ) * 2 ^ j) : binary32Exponent q.num.natAbs q.den ≤ j := by
  have l : q < 2 ^ (23 + j + 1) := by
    have e : (2 : ℚ) ^ (23 + j + 1) = 2 ^ (24 : Nat) * 2 ^ j := by
      rw [← zpow_natCast, ← zpow_add₀ (by norm_num : (2 : ℚ) ≠ 0)]
      congr 1
      push_cast
      ring
    rw [e]
    have m : (M : ℚ) < 2 ^ (24 : Nat) := by exact_mod_cast hM
    calc q ≤ (M : ℚ) * 2 ^ j := h
      _ < 2 ^ (24 : Nat) * 2 ^ j := mul_lt_mul_of_pos_right m (two_zpow_pos j)
  have fl := floorLog2_le q hq (23 + j) l
  unfold binary32Exponent
  omega

/-- A binary32 value, `M * 2 ^ j` with `M < 2 ^ 24` and `j ≥ -149`, is kept by
the rounding. -/
theorem f32_exact (M : Nat) (j : Int) (hM : M < 2 ^ 24) (hj : -149 ≤ j) :
    f32 ((M : ℚ) * 2 ^ j) = (M : ℚ) * 2 ^ j := by
  rcases Nat.eq_zero_or_pos M with h | h
  · rw [h, Nat.cast_zero, zero_mul, f32_zero]
  · have hq : (0 : ℚ) < (M : ℚ) * 2 ^ j :=
      mul_pos (by exact_mod_cast h) (two_zpow_pos j)
    generalize hqq : (M : ℚ) * 2 ^ j = q at hq
    have k := binary32Exponent_le q hq M j hM hj (le_of_eq hqq.symm)
    have sp := scaled_spec q.num.natAbs q.den (binary32Exponent q.num.natAbs q.den)
    have s2 := scaled_pos q.num.natAbs q.den (binary32Exponent q.num.natAbs q.den) q.den_pos
    have r := representable_div M j _ k
    rw [hqq] at r
    rw [rat_eq_natAbs_div q (le_of_lt hq), ← r] at sp
    have s2q : ((scaled q.num.natAbs q.den (binary32Exponent q.num.natAbs q.den)).2 : ℚ) ≠ 0 := by
      exact_mod_cast (ne_of_gt s2)
    rw [div_eq_iff s2q] at sp
    have sn : (scaled q.num.natAbs q.den (binary32Exponent q.num.natAbs q.den)).1 =
        M * 2 ^ (j - binary32Exponent q.num.natAbs q.den).toNat *
          (scaled q.num.natAbs q.den (binary32Exponent q.num.natAbs q.den)).2 := by
      exact_mod_cast sp
    rw [f32_of_nonneg q (le_of_lt hq)]
    unfold roundBinary32
    rw [if_neg (ne_of_gt (natAbs_num_pos q hq)),
      roundNearestEven_exact _ _ (Dvd.intro_left _ sn.symm) s2]
    nth_rewrite 1 [sn]
    rw [Nat.mul_div_cancel _ s2, r]
    field_simp

theorem f32_exact_neg (M : Nat) (j : Int) (hM : M < 2 ^ 24) (hj : -149 ≤ j) :
    f32 (-((M : ℚ) * 2 ^ j)) = -((M : ℚ) * 2 ^ j) := by
  rw [f32_neg, f32_exact M j hM hj]

/-- An `int` of magnitude at most `2 ^ 24` is converted to `float` exactly. -/
theorem F32.ofInt_exact (i : Int) (h : i.natAbs ≤ 2 ^ 24) : F32.ofInt i = i := by
  have nat : ∀ n : Nat, n ≤ 2 ^ 24 → f32 (n : ℚ) = n := by
    intro n hn
    rcases Nat.lt_or_ge n (2 ^ 24) with l | l
    · have := f32_exact n 0 l (by norm_num)
      rw [zpow_zero, mul_one] at this
      exact this
    · have e : n = 2 ^ 24 := le_antisymm hn l
      have := f32_exact (2 ^ 23) 1 (by norm_num) (by norm_num)
      rw [e]
      norm_num at this ⊢
      exact this
  unfold F32.ofInt
  rcases Int.natAbs_eq i with e | e
  · rw [e, Int.cast_natCast]
    exact nat _ h
  · rw [e, Int.cast_neg, Int.cast_natCast, f32_neg, nat _ h]

/-- Rounding does not cross a binary32 value: a bound that is a binary32 value
bounds the rounded value too. -/
theorem f32_le (q : ℚ) (M : Nat) (j : Int) (hM : M < 2 ^ 24) (hj : -149 ≤ j) (h0 : 0 ≤ q)
    (h : q ≤ (M : ℚ) * 2 ^ j) : f32 q ≤ (M : ℚ) * 2 ^ j := by
  rcases eq_or_lt_of_le h0 with z | hq
  · rw [← z, f32_zero]
    exact mul_nonneg (Nat.cast_nonneg _) (le_of_lt (two_zpow_pos j))
  · have k := binary32Exponent_le q hq M j hM hj h
    obtain ⟨m, e, b⟩ := roundBinary32_spec q.num.natAbs q.den (natAbs_num_pos q hq) q.den_pos
    rw [rat_eq_natAbs_div q (le_of_lt hq)] at b
    rw [f32_of_nonneg q h0, e]
    have p := two_zpow_pos (binary32Exponent q.num.natAbs q.den)
    have r := representable_div M j _ k
    have le1 : q / 2 ^ binary32Exponent q.num.natAbs q.den ≤
        ((M * 2 ^ (j - binary32Exponent q.num.natAbs q.den).toNat : Nat) : ℚ) := by
      rw [r]
      exact div_le_div_of_nonneg_right h (le_of_lt p)
    have le2 : (m : ℚ) < ((M * 2 ^ (j - binary32Exponent q.num.natAbs q.den).toNat : Nat) : ℚ) + 1 := by
      have := (abs_le.mp b).2
      linarith
    have le3 : m ≤ M * 2 ^ (j - binary32Exponent q.num.natAbs q.den).toNat := by
      have : m < M * 2 ^ (j - binary32Exponent q.num.natAbs q.den).toNat + 1 := by
        exact_mod_cast le2
      omega
    have le4 : (m : ℚ) ≤ (M : ℚ) * 2 ^ j / 2 ^ binary32Exponent q.num.natAbs q.den := by
      rw [← r]
      exact_mod_cast le3
    rw [le_div_iff₀ p] at le4
    exact le4

theorem f32_abs_le (q : ℚ) (M : Nat) (j : Int) (hM : M < 2 ^ 24) (hj : -149 ≤ j)
    (h : |q| ≤ (M : ℚ) * 2 ^ j) : |f32 q| ≤ (M : ℚ) * 2 ^ j := by
  rcases le_or_lt 0 q with s | s
  · rw [abs_of_nonneg s] at h
    rw [abs_of_nonneg (f32_nonneg q s)]
    exact f32_le q M j hM hj s h
  · rw [abs_of_neg s] at h
    have k := f32_le (-q) M j hM hj (by linarith) h
    rw [f32_neg] at k
    have n : f32 q ≤ 0 := by
      have := f32_nonneg (-q) (by linarith)
      rw [f32_neg] at this
      linarith
    rw [abs_of_nonpos n]
    exact k

/-- A value of magnitude 1 or more is not rounded to zero. -/
theorem f32_ne_zero (q : ℚ) (h : 1 ≤ |q|) : f32 q ≠ 0 := by
  intro z
  have e := f32_rel_error q (le_trans (by norm_num) h)
  rw [z, zero_sub, abs_neg] at e
  have p : 0 < |q| := lt_of_lt_of_le (by norm_num) h
  have : |q| / 2 ^ 24 < |q| := div_lt_self p (by norm_num)
  linarith

theorem F32.ofInt_ne_zero (i : Int) (h : i ≠ 0) : F32.ofInt i ≠ 0 := by
  apply f32_ne_zero
  have : (1 : Int) ≤ |i| := Int.one_le_abs h
  have c : ((1 : Int) : ℚ) ≤ ((|i| : Int) : ℚ) := by exact_mod_cast this
  rw [Int.cast_abs] at c
  exact_mod_cast c

theorem F32.ofInt_zero : F32.ofInt 0 = 0 := by
  unfold F32.ofInt
  rw [Int.cast_zero, f32_zero]

theorem f32_one : f32 1 = 1 := by
  have := f32_exact 1 0 (by norm_num) (by norm_num)
  simpa using this

theorem F32.div_same (a : ℚ) (h : a ≠ 0) : F32.div a a = 1 := by
  unfold F32.div
  rw [div_self h, f32_one]

theorem F32.div_zero_num (a : ℚ) : F32.div 0 a = 0 := by
  unfold F32.div
  rw [zero_div, f32_zero]

/-- Rounding does not cross a binary32 value from above either. -/
theorem f32_ge (q : ℚ) (M : Nat) (j : Int) (hM : M < 2 ^ 24) (hj : -149 ≤ j)
    (h : (M : ℚ) * 2 ^ j ≤ q) : (M : ℚ) * 2 ^ j ≤ f32 q := by
  have b0 : (0 : ℚ) ≤ (M : ℚ) * 2 ^ j := mul_nonneg (Nat.cast_nonneg _) (le_of_lt (two_zpow_pos j))
  have h0 : 0 ≤ q := le_trans b0 h
  rcases eq_or_lt_of_le h0 with z | hq
  · rw [← z] at h ⊢
    rw [f32_zero]
    exact h
  · obtain ⟨m, e, b⟩ := roundBinary32_spec q.num.natAbs q.den (natAbs_num_pos q hq) q.den_pos
    rw [rat_eq_natAbs_div q (le_of_lt hq)] at b
    rw [f32_of_nonneg q h0, e]
    have p := two_zpow_pos (binary32Exponent q.num.natAbs q.den)
    have lo := (abs_le.mp b).1
    rcases le_or_lt (binary32Exponent q.num.natAbs q.den) j with k | k
    · have r := representable_div M j _ k
      have le1 : ((M * 2 ^ (j - binary32Exponent q.num.natAbs q.den).toNat : Nat) : ℚ) ≤
          q / 2 ^ binary32Exponent q.num.natAbs q.den := by
        rw [r]
        exact div_le_div_of_nonneg_right h (le_of_lt p)
      have le2 : ((M * 2 ^ (j - binary32Exponent q.num.natAbs q.den).toNat : Nat) : ℚ) <
          (m : ℚ) + 1 := by linarith
      have le3 : M * 2 ^ (j - binary32Exponent q.num.natAbs q.den).toNat ≤ m := by
        have : M * 2 ^ (j - binary32Exponent q.num.natAbs q.den).toNat < m + 1 := by
          exact_mod_cast le2
        omega
      have le4 : (M : ℚ) * 2 ^ j / 2 ^ binary32Exponent q.num.natAbs q.den ≤ (m : ℚ) := by
        rw [← r]
        exact_mod_cast le3
      rw [div_le_iff₀ p] at le4
      exact le4
    · have s := (floorLog2_spec q.num.natAbs q.den (natAbs_num_pos q hq) q.den_pos).1
      rw [rat_eq_natAbs_div q (le_of_lt hq)] at s
      have ke : binary32Exponent q.num.natAbs q.den = floorLog2 q.num.natAbs q.den - 23 := by
        unfold binary32Exponent at k ⊢
        omega
      have two : (2 : ℚ) ≠ 0 := by norm_num
      have big : (2 : ℚ) ^ (23 : Nat) ≤ q / 2 ^ binary32Exponent q.num.natAbs q.den := by
        rw [le_div_iff₀ p, ← zpow_natCast, ← zpow_add₀ two, ke]
        have : ((23 : Nat) : Int) + (floorLog2 q.num.natAbs q.den - 23) =
            floorLog2 q.num.natAbs q.den := by push_cast; ring
        rw [this]
        exact s
      have m1 : ((2 ^ 23 : Nat) : ℚ) < (m : ℚ) + 1 := by
        push_cast
        linarith
      have m2 : 2 ^ 23 ≤ m := by
        have : 2 ^ 23 < m + 1 := by exact_mod_cast m1
        omega
      have m3 : (2 : ℚ) ^ (23 : Nat) ≤ (m : ℚ) := by exact_mod_cast m2
      have c1 : (M : ℚ) * 2 ^ j ≤ 2 ^ (24 : Nat) * 2 ^ j :=
        mul_le_mul_of_nonneg_right (by exact_mod_cast (le_of_lt hM)) (le_of_lt (two_zpow_pos j))
      have c2 : (2 : ℚ) ^ (24 : Nat) * 2 ^ j ≤
          2 ^ (23 : Nat) * 2 ^ binary32Exponent q.num.natAbs q.den := by
        rw [← zpow_natCast, ← zpow_natCast, ← zpow_add₀ two, ← zpow_add₀ two]
        apply (zpow_le_zpow_iff_right₀ (by norm_num : (1 : ℚ) < 2)).mpr
        push_cast
        omega
      calc (M : ℚ) * 2 ^ j ≤ 2 ^ (24 : Nat) * 2 ^ j := c1
        _ ≤ 2 ^ (23 : Nat) * 2 ^ binary32Exponent q.num.natAbs q.den := c2
        _ ≤ (m : ℚ) * 2 ^ binary32Exponent q.num.natAbs q.den :=
            mul_le_mul_of_nonneg_right m3 (le_of_lt p)

theorem f32_intCast (i : Int) (h : i.natAbs ≤ 2 ^ 24) : f32 (i : ℚ) = i := F32.ofInt_exact i h

/-- The rounding of a quotient of integers with a divisor of at most 24 bits
has a relative error of at most `2 ^ (-24)`. -/
theorem f32_quotient_error (a b : Int) (hb : b.natAbs ≤ 2 ^ 24) (h0 : b ≠ 0) :
    |f32 ((a : ℚ) / b) - (a : ℚ) / b| ≤ |(a : ℚ) / b| / 2 ^ 24 := by
  rcases eq_or_ne a 0 with z | z
  · rw [z, Int.cast_zero, zero_div, f32_zero, sub_zero, abs_zero, zero_div]
  · apply f32_rel_error
    have pa : (1 : ℚ) ≤ |(a : ℚ)| := by
      have : (1 : Int) ≤ |a| := Int.one_le_abs z
      have c : ((1 : Int) : ℚ) ≤ ((|a| : Int) : ℚ) := by exact_mod_cast this
      rw [Int.cast_abs] at c
      exact_mod_cast c
    have pb0 : (0 : ℚ) < |(b : ℚ)| := abs_pos.mpr (by exact_mod_cast h0)
    have pb : |(b : ℚ)| ≤ 2 ^ 24 := by
      have : ((b.natAbs : Nat) : ℚ) ≤ ((2 ^ 24 : Nat) : ℚ) := by exact_mod_cast hb
      rw [Nat.cast_natAbs, Int.cast_abs] at this
      exact_mod_cast this
    rw [abs_div, le_div_iff₀ pb0]
    calc (2 : ℚ) ^ (-126 : Int) * |(b : ℚ)| ≤ 2 ^ (-126 : Int) * 2 ^ 24 :=
          mul_le_mul_of_nonneg_left pb (le_of_lt (two_zpow_pos _))
      _ ≤ 1 := by norm_num
      _ ≤ |(a : ℚ)| := pa

/-- The `float` quotient of two converted `int`s of at most 24 bits is the
exact quotient rounded once. -/
theorem F32.div_ofInt (a b : Int) (ha : a.natAbs ≤ 2 ^ 24) (hb : b.natAbs ≤ 2 ^ 24) :
    F32.div (F32.ofInt a) (F32.ofInt b) = f32 ((a : ℚ) / b) := by
  rw [F32.ofInt_exact a ha, F32.ofInt_exact b hb]
  rfl

theorem F32.mul_two_ofInt (a : Int) (ha : a.natAbs ≤ 2 ^ 23) :
    F32.mul 2 (F32.ofInt a) = ((2 * a : Int) : ℚ) := by
  rw [F32.ofInt_exact a (by omega)]
  unfold F32.mul
  have e : (2 : ℚ) * (a : ℚ) = ((2 * a : Int) : ℚ) := by push_cast; ring
  rw [e]
  exact f32_intCast _ (by omega)

theorem F32.sub_ofInt (a : Int) (c : Nat) (ha : a.natAbs ≤ 2 ^ 23) (hc : c ≤ 2 ^ 23) :
    F32.sub (F32.ofInt a) (c : ℚ) = ((a - c : Int) : ℚ) := by
  rw [F32.ofInt_exact a (by omega)]
  unfold F32.sub
  have e : (a : ℚ) - (c : ℚ) = ((a - c : Int) : ℚ) := by push_cast; ring
  rw [e]
  exact f32_intCast _ (by omega)


/-! ## Bit-level lemmas -/

theorem testBit_not32 (x i : Nat) :
    (not32 x).testBit i = (decide (i < 32) && !x.testBit i) := by
  unfold not32
  have h : x % 2 ^ 32 < 2 ^ 32 := Nat.mod_lt _ (by norm_num)
  have e : 2 ^ 32 - 1 - x % 2 ^ 32 = 2 ^ 32 - (x % 2 ^ 32 + 1) := by omega
  rw [e, Nat.testBit_two_pow_sub_succ h, Nat.testBit_mod_two_pow]
  by_cases hi : i < 32 <;> simp [hi]

theorem testBit_high_eq_false {x n : Nat} (h : x < 2 ^ n) (i : Nat) (hi : n ≤ i) :
    x.testBit i = false := by
  apply Nat.testBit_eq_false_of_lt
  exact lt_of_lt_of_le h (Nat.pow_le_pow_right (by norm_num) hi)

theorem testBit_RecentlySet (prev curr : Nat) (hc : curr < 2 ^ 32) (i : Nat) :
    (RecentlySet prev curr).testBit i = (curr.testBit i && !prev.testBit i) := by
  unfold RecentlySet
  rw [Nat.testBit_and, testBit_not32, Nat.testBit_and]
  by_cases hi : i < 32
  · simp [hi]; cases curr.testBit i <;> simp
  · have := testBit_high_eq_false hc i (by omega)
    simp [this]

theorem testBit_RecentlyCleared (prev curr : Nat) (hp : prev < 2 ^ 32) (i : Nat) :
    (RecentlyCleared prev curr).testBit i = (prev.testBit i && !curr.testBit i) := by
  unfold RecentlyCleared
  rw [Nat.testBit_and, testBit_not32, Nat.testBit_and]
  by_cases hi : i < 32
  · simp [hi]; cases prev.testBit i <;> simp
  · have := testBit_high_eq_false hp i (by omega)
    simp [this]

theorem RecentlySet_and_RecentlyCleared (prev curr : Nat) :
    RecentlySet prev curr &&& RecentlyCleared prev curr = 0 := by
  apply Nat.eq_of_testBit_eq
  intro i
  unfold RecentlySet RecentlyCleared
  simp only [Nat.testBit_and, testBit_not32, Nat.zero_testBit]
  cases curr.testBit i <;> cases prev.testBit i <;> simp

/-! ## The button decoder -/

/-- C1: for every previous mask `prev = state.buttons` (an `unsigned`) and every
pair of button bytes, `ParseButtons` stores `curr = (b0 | b1 << 8) & 0x9F1F`,
`buttonsPressed = curr & ~(prev & curr)`, whose bits are exactly those set in
`curr` and clear in `prev`, and `buttonsReleased = prev & ~(prev & curr)`, whose
bits are exactly those set in `prev` and clear in `curr`; the two masks are
disjoint. -/
theorem C1_ParseButtons_edges (state : State) (buf : List Nat)
    (hprev : state.buttons < 2 ^ 32) :
    (ParseButtons state buf).1 = true ∧
    (ParseButtons state buf).2.buttons = (byteAt buf 0 ||| byteAt buf 1 <<< 8) &&& 0x9F1F ∧
    (ParseButtons state buf).2.buttonsPressed =
      (ParseButtons state buf).2.buttons &&&
        not32 (state.buttons &&& (ParseButtons state buf).2.buttons) ∧
    (ParseButtons state buf).2.buttonsReleased =
      state.buttons &&& not32 (state.buttons &&& (ParseButtons state buf).2.buttons) ∧
    (∀ i, (ParseButtons state buf).2.buttonsPressed.testBit i =
      ((ParseButtons state buf).2.buttons.testBit i && !state.buttons.testBit i)) ∧
    (∀ i, (ParseButtons state buf).2.buttonsReleased.testBit i =
      (state.buttons.testBit i && !(ParseButtons state buf).2.buttons.testBit i)) ∧
    (ParseButtons state buf).2.buttonsPressed &&& (ParseButtons state buf).2.buttonsReleased = 0 := by
  have hc : (byteAt buf 0 ||| byteAt buf 1 <<< 8) &&& State.ButtonMask < 2 ^ 32 :=
    lt_of_le_of_lt Nat.and_le_right (by norm_num [State.ButtonMask])
  refine ⟨rfl, rfl, rfl, rfl, ?_, ?_, ?_⟩
  · intro i
    exact testBit_RecentlySet _ _ hc i
  · intro i
    exact testBit_RecentlyCleared _ _ hprev i
  · exact RecentlySet_and_RecentlyCleared _ _

/-- C1, on a concrete pass: previous mask `0x0003`, bytes `0x02, 0x08`. -/
theorem C1_ParseButtons_edges_witness :
    ({ Impl.ctor.state with buttons := 0x0003 } : State).buttons < 2 ^ 32 ∧
    (ParseButtons { Impl.ctor.state with buttons := 0x0003 } [0x02, 0x08]).2.buttonsPressed
      &&& (ParseButtons { Impl.ctor.state with buttons := 0x0003 } [0x02, 0x08]).2.buttonsReleased
      = 0 :=
  ⟨by decide,
    (C1_ParseButtons_edges { Impl.ctor.state with buttons := 0x0003 } [0x02, 0x08]
      (by decide)).2.2.2.2.2.2⟩

/-! ## Lemmas on the execution monad and on byte buffers -/

theorem ok_bind {ε α β : Type} (a : α) (f : α → Except ε β) : (Except.ok a >>= f) = f a := rfl

theorem error_bind {ε α β : Type} (e : ε) (f : α → Except ε β) :
    (Except.error e >>= f) = Except.error e := rfl

theorem pure_eq_ok {ε α : Type} (a : α) : (pure a : Except ε α) = Except.ok a := rfl

theorem throw_eq_error {ε α : Type} (e : ε) : (throw e : Except ε α) = Except.error e := rfl

theorem ReadData_ok (nd : Bool) (address size : Nat) (h : Handler) (s : Impl) :
    ReadData nd address size h s =
      .ok { s with
            requests := s.requests ++
              [{ type := .Read, buffer := List.replicate size 0, address := address, error := 0,
                 done := 0, pending := size, sent := false, handler := some h }] } := rfl

theorem byteAt_drop (p : List Nat) (k i : Nat) : byteAt (p.drop k) i = byteAt p (k + i) := by
  unfold byteAt
  simp [List.getD_eq_getElem?_getD, List.getElem?_drop]

theorem byteAt_lt (p : List Nat) (i : Nat) : byteAt p i < 256 := Nat.mod_lt _ (by norm_num)

theorem shiftLeft_or_distr (x y k : Nat) : (x ||| y) <<< k = x <<< k ||| y <<< k := by
  apply Nat.eq_of_testBit_eq
  intro i
  simp only [Nat.testBit_shiftLeft, Nat.testBit_or]
  cases decide (i ≥ k) <;> simp

theorem shiftLeft_or_eq_add (a : Nat) {b k : Nat} (h : b < 2 ^ k) :
    a <<< k ||| b = a * 2 ^ k + b := by
  rw [Nat.shiftLeft_eq, Nat.mul_comm, Nat.mul_add_lt_is_or h]

theorem Read32_eq (p : List Nat) :
    Read32 p = byteAt p 0 * 2 ^ 24 + byteAt p 1 * 2 ^ 16 + byteAt p 2 * 2 ^ 8 + byteAt p 3 := by
  have h0 := byteAt_lt p 0
  have h1 := byteAt_lt p 1
  have h2 := byteAt_lt p 2
  have h3 := byteAt_lt p 3
  unfold Read32
  have e : byteAt p 0 <<< 24 ||| byteAt p 1 <<< 16 ||| byteAt p 2 <<< 8 ||| byteAt p 3
      = ((byteAt p 0 <<< 8 ||| byteAt p 1) <<< 8 ||| byteAt p 2) <<< 8 ||| byteAt p 3 := by
    simp only [shiftLeft_or_distr, ← Nat.shiftLeft_add]
  rw [e, shiftLeft_or_eq_add _ (by simpa using h3), shiftLeft_or_eq_add _ (by simpa using h2),
    shiftLeft_or_eq_add _ (by simpa using h1)]
  omega

/-! ## The extension identifier -/

theorem ParseExtensionIdentifier_type (nd : Bool) (buf : List Nat) (len error : Nat) (s : Impl) :
    ∃ s1, ParseExtensionIdentifier nd buf len error s = .ok (true, s1) ∧
      s1.state.extension.type = extensionTypeOfId (Read32 (buf.drop 2)) := by
  unfold ParseExtensionIdentifier
  simp only [ReadMotionPlusCalibrationData, ReadExtensionCalibrationData, ReadData_ok]
  split_ifs <;> exact ⟨_, rfl, rfl⟩

/-- C2: for every identity block and every previous state, `ParseExtensionIdentifier`
returns true and sets `extension.type` from the big-endian 32-bit value of bytes
2..5 alone, by the five-entry table, any other value giving 0; two calls whose
blocks agree on bytes 2..5 yield the same type, whatever bytes 0..1 and the
previous states are. -/
theorem C2_ParseExtensionIdentifier_table (nd : Bool) (buf : List Nat) (len error : Nat)
    (s : Impl) :
    (∃ s1, ParseExtensionIdentifier nd buf len error s = .ok (true, s1) ∧
      s1.state.extension.type =
        (if byteAt buf 2 * 2 ^ 24 + byteAt buf 3 * 2 ^ 16 + byteAt buf 4 * 2 ^ 8 + byteAt buf 5
            = 0xA4200000 then Extension.Nunchuk
         else if byteAt buf 2 * 2 ^ 24 + byteAt buf 3 * 2 ^ 16 + byteAt buf 4 * 2 ^ 8 + byteAt buf 5
            = 0xA4200101 then Extension.ClassicController
         else if byteAt buf 2 * 2 ^ 24 + byteAt buf 3 * 2 ^ 16 + byteAt buf 4 * 2 ^ 8 + byteAt buf 5
            = 0xA4200405 then Extension.MotionPlus
         else if byteAt buf 2 * 2 ^ 24 + byteAt buf 3 * 2 ^ 16 + byteAt buf 4 * 2 ^ 8 + byteAt buf 5
            = 0xA4200505 then Extension.MotionPlus ||| Extension.Nunchuk
         else if byteAt buf 2 * 2 ^ 24 + byteAt buf 3 * 2 ^ 16 + byteAt buf 4 * 2 ^ 8 + byteAt buf 5
            = 0xA4200705 then Extension.MotionPlus ||| Extension.ClassicController
         else 0)) ∧
    (∀ (nd2 : Bool) (buf2 : List Nat) (len2 error2 : Nat) (s2 : Impl),
      byteAt buf2 2 = byteAt buf 2 → byteAt buf2 3 = byteAt buf 3 →
      byteAt buf2 4 = byteAt buf 4 → byteAt buf2 5 = byteAt buf 5 →
      ∃ t1 t2, ParseExtensionIdentifier nd buf len error s = .ok (true, t1) ∧
        ParseExtensionIdentifier nd2 buf2 len2 error2 s2 = .ok (true, t2) ∧
        t1.state.extension.type = t2.state.extension.type) := by
  constructor
  · obtain ⟨s1, h1, h2⟩ := ParseExtensionIdentifier_type nd buf len error s
    refine ⟨s1, h1, ?_⟩
    rw [h2, Read32_eq]
    simp only [byteAt_drop]
    unfold extensionTypeOfId
    rfl
  · intro nd2 buf2 len2 error2 s2 e2 e3 e4 e5
    obtain ⟨t1, h1, h2⟩ := ParseExtensionIdentifier_type nd buf len error s
    obtain ⟨t2, k1, k2⟩ := ParseExtensionIdentifier_type nd2 buf2 len2 error2 s2
    refine ⟨t1, t2, h1, k1, ?_⟩
    rw [h2, k2, Read32_eq, Read32_eq]
    simp only [byteAt_drop, e2, e3, e4, e5]

/-! ## Output reports -/

theorem cassert_true (nd : Bool) : cassert nd true = .ok () := by
  simp [cassert]

theorem cassert_ndebug (c : Bool) : cassert true c = .ok () := by
  simp [cassert]

theorem cassert_of (nd : Bool) {c : Bool} (h : c = true) : cassert nd c = .ok () := by
  simp [cassert, h]

theorem byteAt_mod (p : List Nat) (i : Nat) : byteAt p i % 256 = byteAt p i :=
  Nat.mod_eq_of_lt (byteAt_lt p i)

theorem byteAt_cons_zero (x : Nat) (p : List Nat) : byteAt (x :: p) 0 = x % 256 := rfl

theorem byteAt_cons_succ (x : Nat) (p : List Nat) (i : Nat) :
    byteAt (x :: p) (i + 1) = byteAt p i := rfl

theorem range_map_byteAt (p : List Nat) (h : ∀ x ∈ p, x < 256) :
    (List.range p.length).map (fun i => byteAt p i) = p := by
  apply List.ext_getElem
  · simp
  · intro i h1 h2
    simp only [List.getElem_map, List.getElem_range]
    have hi : i < p.length := by simpa using h1
    unfold byteAt
    rw [List.getD_eq_getElem _ _ hi]
    exact Nat.mod_eq_of_lt (h _ (List.getElem_mem hi))

theorem SendReport_ok (nd : Bool) (type : Nat) (data : List Nat) (k : Nat) (s : Impl)
    (h1 : k + 1 < 22) (h2 : k + 1 ≤ data.length) :
    SendReport nd type data (k + 1) s =
      .ok (true,
        { s with
          output := s.output ++
            [type % 256 :: (byteAt data 0 ||| rumbleBit s) ::
              (List.range k).map (fun i => byteAt data (i + 1))] }) := by
  have e1 : ¬ (WII_REPORT_LENGTH ≤ k + 1 ∨ data.length < k + 1) := by
    simp only [WII_REPORT_LENGTH]; omega
  have c1 : cassert nd (decide (0 < k + 1) && decide (k + 1 < WII_REPORT_LENGTH)) = .ok () := by
    apply cassert_of
    simp [WII_REPORT_LENGTH, h1]
  unfold SendReport
  simp only [c1, ok_bind, if_neg e1, pure_eq_ok, SetOutputReport]
  have m : memcpy (List.replicate WII_REPORT_LENGTH 0) 1 data (k + 1)
      = 0 :: byteAt data 0 :: ((List.range k).map (fun i => byteAt data (i + 1))
          ++ List.replicate (20 - k) 0) := by
    simp only [memcpy, WII_REPORT_LENGTH]
    rw [List.range_succ_eq_map]
    simp [List.take_replicate, List.drop_replicate, Function.comp_def]
    have hk : k ≤ 20 := by omega
    interval_cases k <;> rfl
  rw [m]
  simp only [List.set_cons_zero, List.set_cons_succ, byteAt_cons_succ, byteAt_cons_zero,
    byteAt_mod, List.take_succ_cons]
  have t : List.take k ((List.range k).map (fun i => byteAt data (i + 1))
      ++ List.replicate (20 - k) 0) = (List.range k).map (fun i => byteAt data (i + 1)) := by
    rw [List.take_append_of_le_length (by simp)]
    simp
  rw [t]
  rfl

theorem SendReportByte_ok (nd : Bool) (type data : Nat) (s : Impl) :
    SendReportByte nd type data s =
      .ok (true, { s with output := s.output ++ [[type % 256, data % 256 ||| rumbleBit s]] }) := by
  rw [SendReportByte, SendReport_ok nd type [data] 0 s (by norm_num) (by simp)]
  rfl

theorem SendStatusReport_ok (nd : Bool) (s : Impl) :
    SendStatusReport nd s = .ok (true, { s with output := s.output ++ [[0x15, rumbleBit s]] }) := by
  rw [SendStatusReport, SendReportByte_ok]
  simp [WII_OUTPUT_STATUS]

theorem B0_lt (n : Nat) : B0 n < 256 := by
  unfold B0; exact lt_of_le_of_lt Nat.and_le_right (by norm_num)

theorem B1_lt (n : Nat) : B1 n < 256 := by
  unfold B1; exact lt_of_le_of_lt Nat.and_le_right (by norm_num)

theorem B2_lt (n : Nat) : B2 n < 256 := by
  unfold B2; exact lt_of_le_of_lt Nat.and_le_right (by norm_num)

theorem B3_lt (n : Nat) : B3 n < 256 := by
  unfold B3; exact lt_of_le_of_lt Nat.and_le_right (by norm_num)

theorem SendReadReport_ok (nd : Bool) (address size : Nat) (s : Impl) :
    SendReadReport nd address size s =
      .ok (true,
        { s with
          output := s.output ++
            [[0x17, B3 address ||| rumbleBit s, B2 address, B1 address, B0 address, B1 size,
              B0 size]] }) := by
  rw [SendReadReport, SendReport_ok nd _ _ 5 s (by norm_num) (by simp)]
  simp [WII_OUTPUT_READ_MEMORY, List.range_succ, byteAt, Nat.mod_eq_of_lt (B0_lt _),
    Nat.mod_eq_of_lt (B1_lt _), Nat.mod_eq_of_lt (B2_lt _), Nat.mod_eq_of_lt (B3_lt _)]

theorem writeReportBody_lt (address size : Nat) (data : List Nat) :
    ∀ x ∈ writeReportBody address size data, x < 256 := by
  intro x hx
  simp only [writeReportBody, List.mem_append, List.mem_cons, List.mem_map, List.mem_range,
    List.mem_replicate, List.mem_singleton, List.not_mem_nil, or_false] at hx
  rcases hx with ((h | h | h | h | h) | ⟨i, _, h⟩) | ⟨_, h⟩
  · rw [h]; exact B3_lt _
  · rw [h]; exact B2_lt _
  · rw [h]; exact B1_lt _
  · rw [h]; exact B0_lt _
  · rw [h]; exact B0_lt _
  · rw [← h]; exact byteAt_lt _ _
  · rw [h]; norm_num

theorem SendWriteReport_ok (nd : Bool) (address size : Nat) (data : List Nat) (s : Impl)
    (h1 : nd = true ∨ 0 < size) (h2 : size ≤ 16) (h3 : size ≤ data.length) :
    SendWriteReport nd address size data s =
      .ok (true,
        { s with
          output := s.output ++
            [[0x16, B3 address ||| rumbleBit s, B2 address, B1 address, B0 address, B0 size] ++
              (List.range size).map (fun i => byteAt data i) ++ List.replicate (16 - size) 0] }) := by
  have e1 : ¬ (16 < size ∨ data.length < size) := by omega
  have c1 : cassert nd (decide (0 < size) && decide (size ≤ 16)) = .ok () := by
    rcases h1 with h1 | h1 <;> simp [cassert, h1, h2]
  unfold SendWriteReport
  simp only [c1, ok_bind, if_neg e1]
  have m : memcpy (((((List.replicate 21 0).set 0 (B3 address)).set 1 (B2 address)).set 2
      (B1 address)).set 3 (B0 address) |>.set 4 (B0 size)) 5 data size
      = writeReportBody address size data := by
    unfold memcpy writeReportBody
    simp only [List.replicate, List.set_cons_zero, List.set_cons_succ, List.take_succ_cons,
      List.take_zero]
    congr 1
    interval_cases size <;> rfl
  rw [m]
  have len : (writeReportBody address size data).length = 21 := by
    simp [writeReportBody]; omega
  rw [SendReport_ok nd _ _ 20 s (by norm_num) (by rw [len])]
  have r := range_map_byteAt _ (writeReportBody_lt address size data)
  rw [len, List.range_succ_eq_map, List.map_cons, List.map_map] at r
  have r2 : (List.range 20).map (fun i => byteAt (writeReportBody address size data) (i + 1))
      = (writeReportBody address size data).tail := by
    have := congrArg List.tail r
    simpa [Function.comp_def] using this
  rw [r2]
  simp [writeReportBody, WII_OUTPUT_WRITE_MEMORY, byteAt, Nat.mod_eq_of_lt (B3_lt _)]

/-! ## The request queue: sending -/

theorem SendWriteReport_error (nd : Bool) (address size : Nat) (data : List Nat) (s : Impl)
    (h : (nd = false ∧ size = 0) ∨ 16 < size ∨ data.length < size) :
    ∃ e, SendWriteReport nd address size data s = .error e := by
  unfold SendWriteReport
  by_cases c : (nd || (decide (0 < size) && decide (size ≤ 16))) = true
  · have c1 : cassert nd (decide (0 < size) && decide (size ≤ 16)) = .ok () := by
      simp only [cassert, c, if_true]
    have e1 : 16 < size ∨ data.length < size := by
      rcases h with ⟨h1, h2⟩ | h | h
      · simp [h1, h2] at c
      · exact Or.inl h
      · exact Or.inr h
    simp only [c1, ok_bind, if_pos e1, throw_eq_error, error_bind]
    exact ⟨_, rfl⟩
  · have c1 : cassert nd (decide (0 < size) && decide (size ≤ 16)) = .error Fault.assertion := by
      simp only [cassert, c]
      rfl
    simp only [c1, error_bind]
    exact ⟨_, rfl⟩

theorem SendNextRequest_nil (nd : Bool) (s : Impl) (h : s.requests = []) :
    SendNextRequest nd s = .ok (true, s) := by
  unfold SendNextRequest
  rw [h]
  rfl

theorem SendNextRequest_sent (nd : Bool) (s : Impl) (req : Request) (rest : List Request)
    (h : s.requests = req :: rest) (hs : req.sent = true) :
    SendNextRequest nd s = .ok (true, s) := by
  unfold SendNextRequest
  rw [h]
  simp only [hs, if_true]
  rfl

theorem SendNextRequest_unsent (nd : Bool) (s : Impl) (req : Request) (rest : List Request)
    (h : s.requests = req :: rest) (hs : req.sent = false)
    (hw : req.type = RequestType.Write →
      (nd = true ∨ 0 < req.pending) ∧ req.pending ≤ 16 ∧ req.pending ≤ req.buffer.length) :
    SendNextRequest nd s =
      .ok (true,
        { s with
          requests := { req with sent := true } :: rest
          output := s.output ++ [requestReport s req] }) := by
  unfold SendNextRequest
  rw [h]
  simp only [hs, Bool.false_eq_true, if_false]
  cases ht : req.type with
  | Status =>
    simp only [SendStatusReport_ok, requestReport, ht]
    rfl
  | Read =>
    simp only [SendReadReport_ok, requestReport, ht]
    rfl
  | Write =>
    obtain ⟨w1, w2, w3⟩ := hw ht
    simp only [SendWriteReport_ok nd _ _ _ _ w1 w2 w3, requestReport, ht]
    rfl

theorem SendNextRequest_unsent_error (nd : Bool) (s : Impl) (req : Request)
    (rest : List Request) (h : s.requests = req :: rest) (hs : req.sent = false)
    (ht : req.type = RequestType.Write)
    (hw : ¬ ((nd = true ∨ 0 < req.pending) ∧ req.pending ≤ 16 ∧
      req.pending ≤ req.buffer.length)) :
    ∃ e, SendNextRequest nd s = .error e := by
  unfold SendNextRequest
  rw [h]
  simp only [hs, Bool.false_eq_true, if_false, ht]
  apply SendWriteReport_error
  cases nd <;> simp at hw ⊢ <;> omega
theorem SendNextRequest_cases (nd : Bool) (s : Impl) (r : Bool × Impl)
    (hr : SendNextRequest nd s = .ok r) :
    (r = (true, s) ∧ (s.requests = [] ∨ ∃ req rest, s.requests = req :: rest ∧ req.sent = true)) ∨
    (∃ req rest, s.requests = req :: rest ∧ req.sent = false ∧
      r = (true,
        { s with
          requests := { req with sent := true } :: rest
          output := s.output ++ [requestReport s req] })) := by
  cases hq : s.requests with
  | nil =>
    left
    rw [SendNextRequest_nil nd s hq] at hr
    exact ⟨(Except.ok.inj hr).symm, Or.inl rfl⟩
  | cons req rest =>
    cases hs : req.sent with
    | true =>
      left
      rw [SendNextRequest_sent nd s req rest hq hs] at hr
      exact ⟨(Except.ok.inj hr).symm, Or.inr ⟨req, rest, rfl, hs⟩⟩
    | false =>
      right
      refine ⟨req, rest, rfl, hs, ?_⟩
      by_cases hw : req.type = RequestType.Write →
          (nd = true ∨ 0 < req.pending) ∧ req.pending ≤ 16 ∧ req.pending ≤ req.buffer.length
      · rw [SendNextRequest_unsent nd s req rest hq hs hw] at hr
        exact (Except.ok.inj hr).symm
      · rw [Classical.not_imp] at hw
        obtain ⟨e, he⟩ := SendNextRequest_unsent_error nd s req rest hq hs hw.1 hw.2
        rw [he] at hr
        cases hr

theorem SendNextRequest_twice (nd : Bool) (s : Impl) (r : Bool × Impl)
    (hr : SendNextRequest nd s = .ok r) : SendNextRequest nd r.2 = .ok (true, r.2) := by
  rcases SendNextRequest_cases nd s r hr with ⟨h1, h2⟩ | ⟨req, rest, _, _, h3⟩
  · rw [h1]
    rcases h2 with h2 | ⟨req, rest, h2, h3⟩
    · exact SendNextRequest_nil nd s h2
    · exact SendNextRequest_sent nd s req rest h2 h3
  · rw [h3]
    exact SendNextRequest_sent nd _ { req with sent := true } rest rfl rfl

theorem SendNextRequestTimes_sent (nd : Bool) (n : Nat) (s : Impl) (req : Request)
    (rest : List Request) (h : s.requests = req :: rest) (hs : req.sent = true) :
    SendNextRequestTimes nd n s = .ok s := by
  induction n with
  | zero => rfl
  | succ n ih =>
    unfold SendNextRequestTimes
    rw [SendNextRequest_sent nd s req rest h hs]
    exact ih

/-- C3: `SendNextRequest` transmits nothing for an empty queue or a front
request already sent; a call that returns has either transmitted nothing or
exactly the output report of the unsent front request, whose flag it sets; it
returns for every status, read and 1..16-byte write request; a second call
transmits nothing.  After `ReadData(0x0016, 8)` and `WriteData(0x04A400F0, b)`
on an empty queue, any number `n + 1` of calls transmits the read report alone;
the write report follows only once the read has been popped. -/
theorem C3_SendNextRequest_front_once (nd : Bool) (s : Impl) :
    ((s.requests = [] ∨ ∃ req rest, s.requests = req :: rest ∧ req.sent = true) →
      SendNextRequest nd s = .ok (true, s)) ∧
    (∀ r, SendNextRequest nd s = .ok r →
      (r = (true, s) ∧
        (s.requests = [] ∨ ∃ req rest, s.requests = req :: rest ∧ req.sent = true)) ∨
      (∃ req rest, s.requests = req :: rest ∧ req.sent = false ∧
        r = (true,
          { s with
            requests := { req with sent := true } :: rest
            output := s.output ++ [requestReport s req] }))) ∧
    (∀ req rest, s.requests = req :: rest → req.sent = false →
      (req.type = RequestType.Write →
        0 < req.pending ∧ req.pending ≤ 16 ∧ req.pending ≤ req.buffer.length) →
      SendNextRequest nd s =
        .ok (true,
          { s with
            requests := { req with sent := true } :: rest
            output := s.output ++ [requestReport s req] })) ∧
    (∀ r, SendNextRequest nd s = .ok r → SendNextRequest nd r.2 = .ok (true, r.2)) ∧
    (∀ (h : Handler) (b : Nat), s.requests = [] →
      ∃ rd wr : Request,
        rd = { type := .Read, buffer := List.replicate 8 0, address := 0x0016, error := 0,
               done := 0, pending := 8, sent := false, handler := some h } ∧
        wr = { type := .Write, buffer := [b % 256], address := 0x04A400F0, error := 0,
               done := 0, pending := 1, sent := false, handler := none } ∧
        (ReadData nd 0x0016 8 h s >>= WriteData nd 0x04A400F0 [b])
          = .ok { s with requests := [rd, wr] } ∧
        (∀ n, SendNextRequestTimes nd (n + 1) { s with requests := [rd, wr] } =
          .ok { s with
                requests := [{ rd with sent := true }, wr]
                output := s.output ++ [[0x17, rumbleBit s, 0x00, 0x00, 0x16, 0x00, 0x08]] }) ∧
        PopRequest nd
            { s with
              requests := [{ rd with sent := true }, wr]
              output := s.output ++ [[0x17, rumbleBit s, 0x00, 0x00, 0x16, 0x00, 0x08]] }
          = .ok { s with
                  requests := [wr]
                  output := s.output ++ [[0x17, rumbleBit s, 0x00, 0x00, 0x16, 0x00, 0x08]] } ∧
        SendNextRequest nd
            { s with
              requests := [wr]
              output := s.output ++ [[0x17, rumbleBit s, 0x00, 0x00, 0x16, 0x00, 0x08]] }
          = .ok (true,
              { s with
                requests := [{ wr with sent := true }]
                output := s.output ++
                  [[0x17, rumbleBit s, 0x00, 0x00, 0x16, 0x00, 0x08],
                   [0x16, 0x04 ||| rumbleBit s, 0xA4, 0x00, 0xF0, 0x01, b % 256,
                    0, 0, 0, 0, 0, 0, 0, 0, 0, 0, 0, 0, 0, 0, 0]] })) := by
  refine ⟨?_, SendNextRequest_cases nd s, ?_, SendNextRequest_twice nd s, ?_⟩
  · rintro (h | ⟨req, rest, h, hs⟩)
    · exact SendNextRequest_nil nd s h
    · exact SendNextRequest_sent nd s req rest h hs
  · intro req rest h hs hw
    exact SendNextRequest_unsent nd s req rest h hs
      (fun ht => ⟨Or.inr (hw ht).1, (hw ht).2.1, (hw ht).2.2⟩)
  · intro h b hq
    refine ⟨_, _, rfl, rfl, ?_, ?_, ?_, ?_⟩
    · rw [ReadData_ok, ok_bind]
      simp [WriteData, PushRequest, Request.ctor, cassert, ok_bind, pure_eq_ok, memcpy, hq,
        List.range_succ, byteAt]
    · intro n
      unfold SendNextRequestTimes
      rw [SendNextRequest_unsent nd _ _ _ rfl rfl (by simp), ok_bind]
      rw [SendNextRequestTimes_sent nd n _ _ _ rfl rfl]
      have a3 : B3 0x0016 = 0 := by decide
      have a2 : B2 0x0016 = 0 := by decide
      have a1 : B1 0x0016 = 0 := by decide
      have a0 : B0 0x0016 = 0x16 := by decide
      have k1 : B1 8 = 0 := by decide
      have k0 : B0 8 = 8 := by decide
      simp [requestReport, a0, a1, a2, a3, k0, k1]
      rfl
    · simp [PopRequest, cassert, ok_bind, pure_eq_ok]
    · rw [SendNextRequest_unsent nd _ _ _ rfl rfl (by simp)]
      have a3 : B3 0x04A400F0 = 0x04 := by decide
      have a2 : B2 0x04A400F0 = 0xA4 := by decide
      have a1 : B1 0x04A400F0 = 0x00 := by decide
      have a0 : B0 0x04A400F0 = 0xF0 := by decide
      have k0 : B0 1 = 1 := by decide
      simp [requestReport, a0, a1, a2, a3, k0, List.range_succ, byteAt]
      rfl

/-- C3 on the freshly constructed engine: three calls of `SendNextRequest` after
the two enqueues transmit the read report `17 00 00 00 16 00 08` and nothing
else. -/
theorem C3_SendNextRequest_front_once_witness :
    ∃ s2, (ReadData false 0x0016 8 .ParseCalibrationData Impl.ctor
            >>= WriteData false 0x04A400F0 [0x55]) = .ok s2 ∧
      ∃ s3, SendNextRequestTimes false 3 s2 = .ok s3 ∧
        s3.output = [[0x17, 0x00, 0x00, 0x00, 0x16, 0x00, 0x08]] := by
  obtain ⟨rd, wr, _, _, h1, h2, _⟩ :=
    (C3_SendNextRequest_front_once false Impl.ctor).2.2.2.2 .ParseCalibrationData 0x55 rfl
  exact ⟨_, h1, _, h2 2, rfl⟩

/-! ## The request queue: enqueuing -/

theorem bind_eq_ok {ε α β : Type} {a : Except ε α} {f : α → Except ε β} {r : β}
    (h : (a >>= f) = .ok r) : ∃ x, a = .ok x ∧ f x = .ok r := by
  cases a with
  | error e => cases h
  | ok x => exact ⟨x, rfl, h⟩

theorem range_map_byteAt_eq_map (p : List Nat) :
    (List.range p.length).map (fun i => byteAt p i) = p.map (· % 256) := by
  apply List.ext_getElem
  · simp
  · intro i h1 h2
    have hi : i < p.length := by simpa using h1
    simp only [List.getElem_map, List.getElem_range]
    unfold byteAt
    rw [List.getD_eq_getElem _ _ hi]

theorem ReadData_eq (nd : Bool) (address size : Nat) (h : Handler) (s : Impl) :
    ReadData nd address size h s =
      .ok { s with requests := s.requests ++ [Request.read address size h] } := rfl

theorem PushRequest_status (nd : Bool) (s : Impl) :
    PushRequest nd .Status 0 0 none s =
      .ok { s with requests := s.requests ++ [Request.status] } := rfl

theorem WriteData_ok (nd : Bool) (address : Nat) (data : List Nat) (s : Impl)
    (h1 : 0 < data.length) (h2 : nd = true ∨ data.length ≤ 16) :
    WriteData nd address data s =
      .ok { s with requests := s.requests ++ [Request.write address data] } := by
  have c1 : cassert nd (decide (0 < data.length) && decide (data.length ≤ 16)) = .ok () := by
    rcases h2 with h2 | h2 <;> simp [cassert, h1, h2]
  have c2 : cassert nd (decide (data.length ≠ 0)) = .ok () := by
    apply cassert_of
    simp only [ne_eq, decide_not, Bool.not_eq_true', decide_eq_false_iff_not]
    intro h0
    rw [List.length_eq_zero] at h0
    simp [h0] at h1
  have e : ¬ (data.length = 0 ∨ data.length < data.length) := by omega
  unfold WriteData PushRequest Request.ctor
  simp only [c1, c2, ok_bind, if_neg e, pure_eq_ok, memcpy, List.take_zero, List.nil_append,
    Nat.zero_add, List.drop_replicate, Nat.sub_self, List.replicate_zero, List.append_nil,
    range_map_byteAt_eq_map]
  rfl

theorem WriteDataByte_ok (nd : Bool) (address data : Nat) (s : Impl) :
    WriteDataByte nd address data s =
      .ok { s with requests := s.requests ++ [Request.write address [data]] } :=
  WriteData_ok nd address [data] s (by simp) (Or.inr (by simp))

theorem WriteData_error (nd : Bool) (address : Nat) (data : List Nat) (s : Impl)
    (h : data.length = 0 ∨ (nd = false ∧ 16 < data.length)) :
    ∃ e, WriteData nd address data s = .error e := by
  unfold WriteData PushRequest Request.ctor
  rcases h with h | ⟨h1, h2⟩
  · cases nd
    · refine ⟨Fault.assertion, ?_⟩
      simp [cassert, h, error_bind]
    · refine ⟨Fault.undefined, ?_⟩
      simp [cassert, h, ok_bind, throw_eq_error, error_bind]
  · refine ⟨Fault.assertion, ?_⟩
    have : ¬ data.length ≤ 16 := by omega
    simp [cassert, h1, this, error_bind]

theorem block1_length (sensitivity : IRData.Sensitivity) :
    (IRBlock.block1 sensitivity).length = 9 := by
  cases sensitivity <;> rfl

theorem block2_length (sensitivity : IRData.Sensitivity) :
    (IRBlock.block2 sensitivity).length = 2 := by
  cases sensitivity <;> rfl

theorem EnableIR_same (nd : Bool) (mode : IRData.Mode) (sensitivity : IRData.Sensitivity)
    (s : Impl) (h : s.state.ir.mode = mode ∧ s.state.ir.sensitivity = sensitivity) :
    EnableIR nd mode sensitivity s = .ok (true, s) := by
  unfold EnableIR
  rw [if_pos h]
  rfl

theorem EnableIR_change (nd : Bool) (mode : IRData.Mode) (sensitivity : IRData.Sensitivity)
    (s : Impl) (h : ¬ (s.state.ir.mode = mode ∧ s.state.ir.sensitivity = sensitivity)) :
    EnableIR nd mode sensitivity s =
      .ok (true,
        { s with
          state := { s.state with ir := { s.state.ir with mode := mode, sensitivity := sensitivity } }
          output := s.output ++ [[0x13, 0x04 ||| rumbleBit s], [0x1A, 0x04 ||| rumbleBit s]]
          requests := s.requests ++ irWrites mode sensitivity }) := by
  unfold EnableIR
  rw [if_neg h]
  simp only [SendReportByte_ok, ok_bind, WriteDataByte_ok, pure_eq_ok]
  rw [WriteData_ok nd _ (IRBlock.block1 sensitivity) _ (by rw [block1_length]; norm_num)
    (Or.inr (by rw [block1_length]; norm_num))]
  simp only [ok_bind]
  rw [WriteData_ok nd _ (IRBlock.block2 sensitivity) _ (by rw [block2_length]; norm_num)
    (Or.inr (by rw [block2_length]; norm_num))]
  simp only [ok_bind, WriteDataByte_ok, irWrites, List.append_assoc, List.singleton_append,
    WII_OUTPUT_ENABLE_IR_1, WII_OUTPUT_ENABLE_IR_2]
  rfl

theorem DisableIR_same (nd : Bool) (s : Impl) (h : s.state.ir.mode = IRData.Mode.Off) :
    DisableIR nd s = .ok (true, s) := by
  unfold DisableIR
  rw [if_pos h]
  rfl

theorem DisableIR_change (nd : Bool) (s : Impl) (h : ¬ s.state.ir.mode = IRData.Mode.Off) :
    DisableIR nd s =
      .ok (true,
        { s with
          state := { s.state with ir := { s.state.ir with mode := .Off } }
          output := s.output ++ [[0x13, 0x00 ||| rumbleBit s], [0x1A, 0x00 ||| rumbleBit s]] }) := by
  unfold DisableIR
  rw [if_neg h]
  simp only [SendReportByte_ok, ok_bind, pure_eq_ok, WII_OUTPUT_ENABLE_IR_1,
    WII_OUTPUT_ENABLE_IR_2, List.append_assoc, List.singleton_append]
  rfl

theorem irWrites_unsent (mode : IRData.Mode) (sensitivity : IRData.Sensitivity) :
    ∀ r ∈ irWrites mode sensitivity, r.sent = false := by
  intro r hr
  simp only [irWrites, List.mem_cons, List.mem_singleton, List.not_mem_nil, or_false] at hr
  rcases hr with h | h | h | h | h <;> rw [h] <;> rfl

theorem Appends.refl (s : Impl) : Appends s s :=
  ⟨⟨[], by simp, by simp⟩, rfl⟩

theorem Appends.trans {s s1 s2 : Impl} (h1 : Appends s s1) (h2 : Appends s1 s2) :
    Appends s s2 := by
  obtain ⟨⟨n1, e1, u1⟩, t1⟩ := h1
  obtain ⟨⟨n2, e2, u2⟩, t2⟩ := h2
  refine ⟨⟨n1 ++ n2, by rw [e2, e1, List.append_assoc], ?_⟩, by rw [t2, t1]⟩
  intro r hr
  rcases List.mem_append.mp hr with h | h
  · exact u1 r h
  · exact u2 r h

theorem Appends.of_requests {s s1 : Impl} (new : List Request)
    (h : s1.requests = s.requests ++ new) (hu : ∀ r ∈ new, r.sent = false)
    (hs : s1.status = s.status) : Appends s s1 :=
  ⟨⟨new, h, hu⟩, hs⟩

theorem Appends.of_same {s s1 : Impl} (h : s1.requests = s.requests)
    (hs : s1.status = s.status) : Appends s s1 :=
  ⟨⟨[], by simp [h], by simp⟩, hs⟩

theorem SetReportMode_appends (nd : Bool) (mode : ReportMode) (sensitivity : IRData.Sensitivity)
    (c : Bool) (s : Impl) :
    ∃ s1, SetReportMode nd mode sensitivity c s = .ok (true, s1) ∧ Appends s s1 := by
  unfold SetReportMode
  have en : ∀ (m : IRData.Mode) (t : Impl), ∃ t1, EnableIR nd m sensitivity t = .ok (true, t1) ∧
      Appends t t1 := by
    intro m t
    by_cases h : t.state.ir.mode = m ∧ t.state.ir.sensitivity = sensitivity
    · exact ⟨_, EnableIR_same nd m sensitivity t h, Appends.refl t⟩
    · exact ⟨_, EnableIR_change nd m sensitivity t h,
        Appends.of_requests _ rfl (irWrites_unsent m sensitivity) rfl⟩
  have dis : ∀ (t : Impl), ∃ t1, DisableIR nd t = .ok (true, t1) ∧ Appends t t1 := by
    intro t
    by_cases h : t.state.ir.mode = IRData.Mode.Off
    · exact ⟨_, DisableIR_same nd t h, Appends.refl t⟩
    · exact ⟨_, DisableIR_change nd t h, Appends.of_same rfl rfl⟩
  have fin : ∀ (t1 : Impl), Appends s t1 →
      ∃ s1, SendReport nd WII_OUTPUT_REPORT_MODE
        [if t1.continous then 0x04 else 0x00, mode.toNat] 2 t1 = .ok (true, s1) ∧
        Appends s s1 := by
    intro t1 ha
    rw [SendReport_ok nd _ _ 1 t1 (by norm_num) (by simp)]
    exact ⟨_, rfl, Appends.trans ha (Appends.of_same rfl rfl)⟩
  have base : Appends s { s with reportMode := mode, continous := c } := Appends.of_same rfl rfl
  cases mode
  case ButtonsAccelIR =>
    obtain ⟨t1, h1, a1⟩ := en .Extended { s with reportMode := .ButtonsAccelIR, continous := c }
    simp only [h1, ok_bind]
    exact fin t1 (Appends.trans base a1)
  case ButtonsIRExt =>
    obtain ⟨t1, h1, a1⟩ := en .Basic { s with reportMode := .ButtonsIRExt, continous := c }
    simp only [h1, ok_bind]
    exact fin t1 (Appends.trans base a1)
  case ButtonsAccelIRExt =>
    obtain ⟨t1, h1, a1⟩ := en .Basic { s with reportMode := .ButtonsAccelIRExt, continous := c }
    simp only [h1, ok_bind]
    exact fin t1 (Appends.trans base a1)
  case Undefined =>
    obtain ⟨t1, h1, a1⟩ := dis { s with reportMode := .Undefined, continous := c }
    simp only [h1, ok_bind]
    exact fin t1 (Appends.trans base a1)
  case Buttons =>
    obtain ⟨t1, h1, a1⟩ := dis { s with reportMode := .Buttons, continous := c }
    simp only [h1, ok_bind]
    exact fin t1 (Appends.trans base a1)
  case ButtonsAccel =>
    obtain ⟨t1, h1, a1⟩ := dis { s with reportMode := .ButtonsAccel, continous := c }
    simp only [h1, ok_bind]
    exact fin t1 (Appends.trans base a1)
  case ButtonsExt =>
    obtain ⟨t1, h1, a1⟩ := dis { s with reportMode := .ButtonsExt, continous := c }
    simp only [h1, ok_bind]
    exact fin t1 (Appends.trans base a1)
  case ButtonsAccelExt =>
    obtain ⟨t1, h1, a1⟩ := dis { s with reportMode := .ButtonsAccelExt, continous := c }
    simp only [h1, ok_bind]
    exact fin t1 (Appends.trans base a1)

/-! ## The completion callbacks -/

theorem EnableMotionPlus_ok (nd : Bool) (s : Impl) :
    EnableMotionPlus nd s =
      .ok (true,
        { s with
          requests := s.requests ++
            [Request.write 0x04A600F0 [0x55],
             Request.write 0x04A600FE
               [if s.state.extension.type = Extension.Nunchuk then 0x05
                else if s.state.extension.type = Extension.ClassicController then 0x07
                else 0x04],
             Request.status] }) := by
  unfold EnableMotionPlus
  simp only [WriteDataByte_ok, ok_bind, PushRequest_status, pure_eq_ok]
  split_ifs <;> simp [ok_bind]

theorem DisableMotionPlus_ok (nd : Bool) (s : Impl) :
    DisableMotionPlus nd s =
      .ok (true,
        { s with
          requests := s.requests ++
            [Request.write 0x04A400F0 [0x55], Request.write 0x04A600FE [0x00]] }) := by
  unfold DisableMotionPlus
  simp only [WriteDataByte_ok, ok_bind, pure_eq_ok, List.append_assoc, List.singleton_append]

theorem ParseExtensionIdentifier_appends (nd : Bool) (buf : List Nat) (len error : Nat)
    (s : Impl) :
    ∃ s1, ParseExtensionIdentifier nd buf len error s = .ok (true, s1) ∧ Appends s s1 ∧
      s1.output = s.output ∧ s1.handled = s.handled := by
  unfold ParseExtensionIdentifier
  simp only [ReadMotionPlusCalibrationData, ReadExtensionCalibrationData, ReadData_eq]
  split_ifs
  · refine ⟨_, rfl, Appends.of_requests
      [Request.read 0x04A40000 0x100 .ParseMotionPlusCalibrationData,
       Request.read 0x04A40020 16 .ParseExtensionCalibrationData] (by simp) ?_ rfl, rfl, rfl⟩
    intro r hr
    simp only [List.mem_cons, List.mem_singleton, List.not_mem_nil, or_false] at hr
    rcases hr with h | h <;> rw [h] <;> rfl
  · refine ⟨_, rfl, Appends.of_requests [_] rfl ?_ rfl, rfl, rfl⟩
    intro r hr
    simp only [List.mem_singleton] at hr
    rw [hr]; rfl
  · refine ⟨_, rfl, Appends.of_requests [_] rfl ?_ rfl, rfl, rfl⟩
    intro r hr
    simp only [List.mem_singleton] at hr
    rw [hr]; rfl
  · exact ⟨_, rfl, Appends.of_same rfl rfl, rfl, rfl⟩

theorem ParseMotionPlusIdentifier_appends (nd : Bool) (buf : List Nat) (len error : Nat)
    (s : Impl) (r : Bool × Impl) (h : ParseMotionPlusIdentifier nd buf len error s = .ok r) :
    Appends s r.2 ∧ r.2.output = s.output ∧ r.2.handled = s.handled := by
  unfold ParseMotionPlusIdentifier at h
  obtain ⟨_, _, h⟩ := bind_eq_ok h
  by_cases he : error ≠ 0
  · rw [if_pos he] at h
    cases h
    exact ⟨Appends.of_same rfl rfl, rfl, rfl⟩
  · rw [if_neg he] at h
    by_cases h5 : Read16 buf = 0x0005
    · simp only [if_pos h5, EnableMotionPlus_ok] at h
      cases h
      refine ⟨Appends.of_requests [_, _, _] rfl ?_ rfl, rfl, rfl⟩
      intro r hr
      simp only [List.mem_cons, List.mem_singleton, List.not_mem_nil, or_false] at hr
      rcases hr with h | h | h <;> rw [h] <;> rfl
    · simp only [if_neg h5] at h
      by_cases h4 : Read16 buf = 0x0405 ∨ Read16 buf = 0x0505 ∨ Read16 buf = 0x0705
      · simp only [if_pos h4, DisableMotionPlus_ok] at h
        cases h
        refine ⟨Appends.of_requests [_, _] rfl ?_ rfl, rfl, rfl⟩
        intro r hr
        simp only [List.mem_cons, List.mem_singleton, List.not_mem_nil, or_false] at hr
        rcases hr with h | h <;> rw [h] <;> rfl
      · simp only [if_neg h4] at h
        cases h
        exact ⟨Appends.of_same rfl rfl, rfl, rfl⟩

theorem ParseMotionPlusIdentifier_total (nd : Bool) (buf : List Nat) (len error : Nat)
    (s : Impl)
    (h : nd = true ∨ s.state.extension.motionPlus.status = WII_STATUS_MP_STARTUP) :
    ∃ r, ParseMotionPlusIdentifier nd buf len error s = .ok r := by
  have c1 : cassert nd (decide (s.state.extension.motionPlus.status = WII_STATUS_MP_STARTUP))
      = .ok () := by
    rcases h with h | h <;> simp [cassert, h]
  unfold ParseMotionPlusIdentifier
  simp only [c1, ok_bind, EnableMotionPlus_ok, DisableMotionPlus_ok]
  split_ifs <;> exact ⟨_, rfl⟩

theorem callHandler_appends (nd : Bool) (h : Handler) (buf : List Nat) (len error : Nat)
    (s : Impl) (r : Bool × Impl) (hr : callHandler nd h buf len error s = .ok r) :
    Appends s r.2 ∧ r.2.output = s.output ∧
      r.2.handled = s.handled ++ [{ handler := h, buf := buf, len := len, error := error }] := by
  unfold callHandler at hr
  cases h
  case ParseCalibrationData => cases hr; exact ⟨Appends.of_same rfl rfl, rfl, rfl⟩
  case ParseExtensionCalibrationData => cases hr; exact ⟨Appends.of_same rfl rfl, rfl, rfl⟩
  case ParseMotionPlusCalibrationData => cases hr; exact ⟨Appends.of_same rfl rfl, rfl, rfl⟩
  case ParseExtensionIdentifier =>
    obtain ⟨s1, h1, a1, o1, l1⟩ := ParseExtensionIdentifier_appends nd buf len error
      { s with handled := s.handled ++
          [{ handler := .ParseExtensionIdentifier, buf := buf, len := len, error := error }] }
    simp only [] at hr
    rw [h1] at hr
    cases hr
    exact ⟨Appends.trans (Appends.of_same rfl rfl) a1, o1, l1⟩
  case ParseMotionPlusIdentifier =>
    simp only [] at hr
    obtain ⟨a1, o1, l1⟩ := ParseMotionPlusIdentifier_appends nd buf len error _ r hr
    exact ⟨Appends.trans (Appends.of_same rfl rfl) a1, o1, l1⟩

theorem callHandler_total (nd : Bool) (h : Handler) (buf : List Nat) (len error : Nat)
    (s : Impl) (ha : nd = true ∨ handlerAssertion h s = true) :
    ∃ r, callHandler nd h buf len error s = .ok r := by
  unfold callHandler
  cases h
  case ParseCalibrationData => exact ⟨_, rfl⟩
  case ParseExtensionCalibrationData => exact ⟨_, rfl⟩
  case ParseMotionPlusCalibrationData => exact ⟨_, rfl⟩
  case ParseExtensionIdentifier =>
    obtain ⟨s1, h1, _⟩ := ParseExtensionIdentifier_appends nd buf len error
      { s with handled := s.handled ++
          [{ handler := .ParseExtensionIdentifier, buf := buf, len := len, error := error }] }
    exact ⟨_, h1⟩
  case ParseMotionPlusIdentifier =>
    apply ParseMotionPlusIdentifier_total
    rcases ha with ha | ha
    · exact Or.inl ha
    · right
      simpa [handlerAssertion] using ha

/-! ## The request queue: the report handlers -/

theorem PopRequest_cons (nd : Bool) (s : Impl) (req : Request) (rest : List Request)
    (h : s.requests = req :: rest) : PopRequest nd s = .ok { s with requests := rest } := by
  unfold PopRequest
  rw [h]
  simp [cassert, ok_bind, pure_eq_ok]

theorem PopRequest_inv (nd : Bool) (s s1 : Impl) (h : PopRequest nd s = .ok s1) :
    ∃ req rest, s.requests = req :: rest ∧ s1 = { s with requests := rest } := by
  cases hq : s.requests with
  | nil =>
    unfold PopRequest at h
    rw [hq] at h
    obtain ⟨_, _, h⟩ := bind_eq_ok h
    cases h
  | cons req rest =>
    rw [PopRequest_cons nd s req rest hq] at h
    cases h
    exact ⟨req, rest, rfl, rfl⟩

theorem SentOnlyFront_appends {s s1 : Impl} (h : SentOnlyFront s.requests) (a : Appends s s1) :
    SentOnlyFront s1.requests := by
  obtain ⟨⟨new, e, u⟩, _⟩ := a
  intro r hr
  rw [e] at hr
  cases hq : s.requests with
  | nil =>
    rw [hq] at hr
    exact u r (List.mem_of_mem_tail (by simpa using hr))
  | cons x xs =>
    rw [hq] at hr
    simp only [List.cons_append, List.tail_cons, List.mem_append] at hr
    rcases hr with hr | hr
    · exact h r (by rw [hq]; exact hr)
    · exact u r hr

theorem SentOnlyFront_of_all_unsent {q : List Request} (h : ∀ r ∈ q, r.sent = false) :
    SentOnlyFront q := fun r hr => h r (List.mem_of_mem_tail hr)

/-- The queue after `ProcessStatusReport`: a sent status request at the front is
removed, every other front stays, and requests are only appended. -/
theorem ProcessStatusReport_queue (nd : Bool) (buf : List Nat) (s : Impl) (r : Bool × Impl)
    (h : ProcessStatusReport nd buf s = .ok r) :
    ∃ s1, Appends s1 r.2 ∧
      ((s1 = s ∧ ∀ req rest, s.requests = req :: rest →
          ¬ (req.type = RequestType.Status ∧ req.sent = true)) ∨
       (∃ req rest, s.requests = req :: rest ∧ req.type = RequestType.Status ∧
          req.sent = true ∧ s1 = { s with requests := rest })) := by
  unfold ProcessStatusReport at h
  dsimp only at h
  obtain ⟨_, _, h⟩ := bind_eq_ok h
  obtain ⟨s1, h1, h⟩ := bind_eq_ok h
  obtain ⟨s2, h2, h⟩ := bind_eq_ok h
  obtain ⟨r4, h4, h⟩ := bind_eq_ok h
  have hr : r = (true, r4.2) := (Except.ok.inj h).symm
  subst hr
  have a12 : Appends s1 s2 := by
    split_ifs at h2
    · obtain ⟨t, ht, h2⟩ := bind_eq_ok h2
      obtain ⟨t1, ht1, ht⟩ := bind_eq_ok ht
      rw [WriteDataByte_ok] at ht1 ht
      cases ht1
      cases ht
      rw [ReadExtensionIdentifier, ReadData_eq] at h2
      cases h2
      refine Appends.of_requests
        [Request.write 0x04A400F0 [0x55], Request.write 0x04A400FB [0x00],
         Request.read 0x04A400FA 6 .ParseExtensionIdentifier] (by simp) ?_ rfl
      intro r hr
      simp only [List.mem_cons, List.mem_singleton, List.not_mem_nil, or_false] at hr
      rcases hr with h | h | h <;> rw [h] <;> rfl
    · obtain ⟨t, ht, h2⟩ := bind_eq_ok h2
      cases ht
      rw [ReadExtensionIdentifier, ReadData_eq] at h2
      cases h2
      refine Appends.of_requests [_] rfl ?_ rfl
      intro r hr
      simp only [List.mem_singleton] at hr
      rw [hr]; rfl
    · cases h2; exact Appends.of_same rfl rfl
    · cases h2; exact Appends.refl _
    · cases h2; exact Appends.refl _
  obtain ⟨s4, e4, a4⟩ := SetReportMode_appends nd s2.reportMode s2.state.ir.sensitivity
    s2.continous
    { s2 with
      state :=
        { s2.state with
          battery := byteAt buf 3
          batteryLow := decide (byteAt buf 0 &&& 0x01 ≠ 0)
          extPresent := decide (byteAt buf 0 &&& 0x02 ≠ 0)
          speakerEnabled := decide (byteAt buf 0 &&& 0x04 ≠ 0)
          irEnabled := decide (byteAt buf 0 &&& 0x08 ≠ 0)
          leds := byteAt buf 0 &&& 0xF0 } }
  rw [e4] at h4
  cases h4
  refine ⟨s1, Appends.trans a12 (Appends.trans (Appends.of_same rfl rfl) a4), ?_⟩
  cases hq : s.requests with
  | nil =>
    rw [hq] at h1
    have e1 : s1 = s := (Except.ok.inj h1).symm
    exact Or.inl ⟨e1, fun req rest hc => by cases hc⟩
  | cons req rest =>
    rw [hq] at h1
    dsimp only at h1
    split_ifs at h1 with hc
    · rw [PopRequest_cons nd s req rest hq] at h1
      exact Or.inr ⟨req, rest, rfl, hc.1, hc.2, (Except.ok.inj h1).symm⟩
    · refine Or.inl ⟨(Except.ok.inj h1).symm, fun req2 rest2 hc2 => ?_⟩
      cases hc2
      exact hc

theorem ProcessAcknowledgeReport_cons (nd : Bool) (buf : List Nat) (s : Impl) (req : Request)
    (rest : List Request) (h : s.requests = req :: rest) :
    ProcessAcknowledgeReport nd buf s =
      .ok (true,
        { s with
          requests :=
            if byteAt buf 0 = WII_OUTPUT_WRITE_MEMORY ∧ req.type = RequestType.Write then rest
            else { req with error := byteAt buf 1 } :: rest }) := by
  unfold ProcessAcknowledgeReport
  have c1 : cassert nd (decide (s.requests ≠ [])) = .ok () := by
    apply cassert_of
    simp [h]
  rw [h] at c1 ⊢
  simp only [c1, ok_bind]
  split_ifs with hc
  · rw [PopRequest_cons nd _ _ _ rfl]
    rfl
  · rfl

theorem ProcessAcknowledgeReport_nil (nd : Bool) (buf : List Nat) (s : Impl)
    (h : s.requests = []) : ∃ e, ProcessAcknowledgeReport nd buf s = .error e := by
  unfold ProcessAcknowledgeReport
  rw [h]
  cases nd
  · exact ⟨Fault.assertion, by simp [cassert, error_bind]⟩
  · exact ⟨Fault.undefined, by simp [cassert, ok_bind, throw_eq_error]⟩

/-- The queue after `ProcessDataReport`: either the front request stays, with
its sent flag as it was, or it is removed and unsent requests are appended. -/
theorem ProcessDataReport_queue (nd : Bool) (buf : List Nat) (s : Impl) (r : Bool × Impl)
    (h : ProcessDataReport nd buf s = .ok r) :
    ∃ req rest, s.requests = req :: rest ∧ r.2.status = s.status ∧
      ((∃ req2, req2.sent = req.sent ∧ r.2.requests = req2 :: rest) ∨
       (∃ new, r.2.requests = rest ++ new ∧ ∀ x ∈ new, x.sent = false)) := by
  unfold ProcessDataReport at h
  dsimp only at h
  obtain ⟨_, _, h⟩ := bind_eq_ok h
  cases hq : s.requests with
  | nil =>
    rw [hq] at h
    cases h
  | cons req rest =>
    rw [hq] at h
    dsimp only at h
    obtain ⟨_, _, h⟩ := bind_eq_ok h
    obtain ⟨_, _, h⟩ := bind_eq_ok h
    obtain ⟨_, _, h⟩ := bind_eq_ok h
    obtain ⟨req2, h2, h⟩ := bind_eq_ok h
    have hsent : req2.sent = req.sent := by
      split_ifs at h2 <;> (cases h2; rfl)
    refine ⟨req, rest, rfl, ?_⟩
    split_ifs at h
    · obtain ⟨_, _, h⟩ := bind_eq_ok h
      cases hh : req2.handler with
      | none =>
        rw [hh] at h
        cases h
      | some hd =>
        rw [hh] at h
        dsimp only at h
        obtain ⟨r1, h3, h⟩ := bind_eq_ok h
        obtain ⟨s3, h4, h⟩ := bind_eq_ok h
        have hr : r = (true, s3) := (Except.ok.inj h).symm
        subst hr
        obtain ⟨⟨⟨new, e, u⟩, st⟩, _, _⟩ := callHandler_appends nd hd _ _ _ _ r1 h3
        dsimp only at e st
        rw [PopRequest_cons nd r1.2 req2 (rest ++ new) (by rw [e]; rfl)] at h4
        have e3 : s3 = { r1.2 with requests := rest ++ new } := (Except.ok.inj h4).symm
        subst e3
        exact ⟨st, Or.inr ⟨new, rfl, u⟩⟩
    · have hr : r = (true, { s with requests := req2 :: rest }) := (Except.ok.inj h).symm
      subst hr
      exact ⟨rfl, Or.inl ⟨req2, hsent, rfl⟩⟩

/-! ## The queue invariant -/

theorem Request_ctor_unsent (nd : Bool) (type : RequestType) (address size : Nat)
    (data : Option (List Nat)) (req : Request)
    (h : Request.ctor nd type address size data = .ok req) : req.sent = false := by
  unfold Request.ctor at h
  cases data with
  | none => cases h; rfl
  | some d =>
    dsimp only at h
    obtain ⟨_, _, h⟩ := bind_eq_ok h
    split_ifs at h
    · cases h
    · rw [← Except.ok.inj h]

theorem PushRequest_appends (nd : Bool) (type : RequestType) (address size : Nat)
    (buffer : Option (List Nat)) (s s1 : Impl)
    (h : PushRequest nd type address size buffer s = .ok s1) : Appends s s1 := by
  unfold PushRequest at h
  obtain ⟨req, h1, h⟩ := bind_eq_ok h
  have e : s1 = { s with requests := s.requests ++ [req] } := (Except.ok.inj h).symm
  subst e
  refine Appends.of_requests [req] rfl ?_ rfl
  intro r hr
  rw [List.mem_singleton] at hr
  rw [hr]
  exact Request_ctor_unsent nd type address size buffer req h1

theorem WriteData_appends (nd : Bool) (address : Nat) (data : List Nat) (s s1 : Impl)
    (h : WriteData nd address data s = .ok s1) : Appends s s1 := by
  unfold WriteData at h
  obtain ⟨_, _, h⟩ := bind_eq_ok h
  exact PushRequest_appends nd _ _ _ _ s s1 h

theorem SentOnlyFront_tail {req : Request} {rest : List Request}
    (h : SentOnlyFront (req :: rest)) : ∀ x ∈ rest, x.sent = false := h

theorem Reachable_SentOnlyFront (nd : Bool) (s : Impl) (h : Reachable nd s) :
    SentOnlyFront s.requests := by
  induction h with
  | empty s h =>
    rw [h]
    intro r hr
    cases hr
  | pushRequest s s1 type address size buffer _ h ih =>
    exact SentOnlyFront_appends ih (PushRequest_appends nd type address size buffer s s1 h)
  | readDataNoHandler s s1 address size _ h ih =>
    exact SentOnlyFront_appends ih (PushRequest_appends nd _ address size none s s1 h)
  | readData s s1 address size handler _ h ih =>
    rw [ReadData_eq] at h
    have e : s1 = _ := (Except.ok.inj h).symm
    rw [e]
    refine SentOnlyFront_appends ih (Appends.of_requests [_] rfl ?_ rfl)
    intro r hr
    rw [List.mem_singleton] at hr
    rw [hr]
    rfl
  | writeData s s1 address data _ h ih =>
    exact SentOnlyFront_appends ih (WriteData_appends nd address data s s1 h)
  | sendNextRequest s r _ h ih =>
    rcases SendNextRequest_cases nd s r h with ⟨h1, _⟩ | ⟨req, rest, h2, _, h3⟩
    · rw [h1]
      exact ih
    · rw [h3]
      rw [h2] at ih
      exact ih
  | popRequest s s1 _ h ih =>
    obtain ⟨req, rest, h1, h2⟩ := PopRequest_inv nd s s1 h
    rw [h2]
    rw [h1] at ih
    exact SentOnlyFront_of_all_unsent (SentOnlyFront_tail ih)
  | processStatusReport s r buf _ h ih =>
    obtain ⟨s1, a, h1 | ⟨req, rest, h2, _, _, h3⟩⟩ := ProcessStatusReport_queue nd buf s r h
    · rw [h1.1] at a
      exact SentOnlyFront_appends ih a
    · refine SentOnlyFront_appends ?_ a
      rw [h3]
      rw [h2] at ih
      exact SentOnlyFront_of_all_unsent (SentOnlyFront_tail ih)
  | processDataReport s r buf _ h ih =>
    obtain ⟨req, rest, h1, _, ⟨req2, _, h2⟩ | ⟨new, h3, u⟩⟩ := ProcessDataReport_queue nd buf s r h
    · rw [h2]
      rw [h1] at ih
      exact ih
    · rw [h3]
      rw [h1] at ih
      apply SentOnlyFront_of_all_unsent
      intro x hx
      rcases List.mem_append.mp hx with hx | hx
      · exact ih x hx
      · exact u x hx
  | processAcknowledgeReport s r buf _ h ih =>
    cases hq : s.requests with
    | nil =>
      obtain ⟨e, he⟩ := ProcessAcknowledgeReport_nil nd buf s hq
      rw [he] at h
      cases h
    | cons req rest =>
      rw [ProcessAcknowledgeReport_cons nd buf s req rest hq] at h
      have e : r = _ := (Except.ok.inj h).symm
      rw [e]
      rw [hq] at ih
      dsimp only
      split_ifs
      · exact SentOnlyFront_of_all_unsent (SentOnlyFront_tail ih)
      · exact ih

/-- C4: in every state reachable from an empty queue by `PushRequest`, `ReadData`,
`WriteData`, `SendNextRequest`, `PopRequest` and the status, data and
acknowledge report handlers, a request whose sent flag is set is the front
request; hence at most one request is in flight. -/
theorem C4_at_most_one_in_flight (nd : Bool) (s : Impl) (h : Reachable nd s) :
    ∀ (i : Nat) (hi : i < s.requests.length), (s.requests.get ⟨i, hi⟩).sent = true → i = 0 := by
  intro i hi hsent
  have inv := Reachable_SentOnlyFront nd s h
  cases hq : s.requests with
  | nil =>
    rw [hq] at hi
    cases hi
  | cons req rest =>
    cases i with
    | zero => rfl
    | succ j =>
      exfalso
      have hj : j < rest.length := by
        rw [hq] at hi
        simpa using hi
      have hm : rest.get ⟨j, hj⟩ ∈ rest := List.get_mem _ _ _
      have e : s.requests.get ⟨j + 1, hi⟩ = rest.get ⟨j, hj⟩ := by
        simp [hq]
      rw [e] at hsent
      have := inv (rest.get ⟨j, hj⟩) (by rw [hq]; exact hm)
      rw [this] at hsent
      cases hsent

/-- C4 on a concrete run: the read of the calibration block and a write are
enqueued on the fresh engine and `SendNextRequest` is called. -/
theorem C4_at_most_one_in_flight_witness :
    Reachable false
      { Impl.ctor with
        requests :=
          [{ Request.read 0x0016 8 .ParseCalibrationData with sent := true },
           Request.write 0x04A400F0 [0x55]]
        output := [[0x17, 0x00, 0x00, 0x00, 0x16, 0x00, 0x08]] } ∧
    ∀ (i : Nat) (hi : i < 2),
      ([{ Request.read 0x0016 8 .ParseCalibrationData with sent := true },
        Request.write 0x04A400F0 [0x55]].get ⟨i, hi⟩).sent = true → i = 0 := by
  have hr : Reachable false
      { Impl.ctor with
        requests :=
          [{ Request.read 0x0016 8 .ParseCalibrationData with sent := true },
           Request.write 0x04A400F0 [0x55]]
        output := [[0x17, 0x00, 0x00, 0x00, 0x16, 0x00, 0x08]] } :=
    Reachable.sendNextRequest
      { Impl.ctor with
        requests := [Request.read 0x0016 8 .ParseCalibrationData, Request.write 0x04A400F0 [0x55]] }
      (true, _)
      (Reachable.writeData
        { Impl.ctor with requests := [Request.read 0x0016 8 .ParseCalibrationData] } _
        0x04A400F0 [0x55]
        (Reachable.readData Impl.ctor _ 0x0016 8 .ParseCalibrationData
          (Reachable.empty Impl.ctor rfl) rfl)
        rfl)
      rfl
  exact ⟨hr, C4_at_most_one_in_flight false _ hr⟩

/-! ## Data reports -/

theorem ProcessDataReport_asserts_ok (nd : Bool) (buf : List Nat) (req : Request)
    (ha : nd = true ∨ dataReportAsserts buf req) :
    cassert nd (decide (req.type = RequestType.Read)) = .ok () ∧
    cassert nd (decide (1 + (byteAt buf 0 >>> 4) ≤ req.pending)) = .ok () ∧
    cassert nd (decide (byteAt buf 1 <<< 8 ||| byteAt buf 2
      = ((req.address + req.done) % 2 ^ 32) &&& 0xFFFF)) = .ok () := by
  rcases ha with ha | ⟨h1, h2, h3⟩
  · subst ha
    exact ⟨cassert_ndebug _, cassert_ndebug _, cassert_ndebug _⟩
  · exact ⟨cassert_of nd (by simpa using h1),
      cassert_of nd (by simpa [dataReportCount] using h2),
      cassert_of nd (by simpa [dataReportAddress] using h3)⟩

theorem cassert_nonempty (nd : Bool) (req : Request) (rest : List Request) :
    cassert nd (decide (req :: rest ≠ [])) = .ok () :=
  cassert_of nd (by simp)

/-- A data report with a non-zero error nibble: nothing is copied, the callback
runs on the request as it stands and the request is popped. -/
theorem ProcessDataReport_error (nd : Bool) (buf : List Nat) (s : Impl) (req : Request)
    (rest : List Request) (h : Handler) (hq : s.requests = req :: rest)
    (ha : nd = true ∨ dataReportAsserts buf req) (he : dataReportError buf ≠ 0)
    (hh : req.handler = some h) :
    ProcessDataReport nd buf s =
      (callHandler nd h req.buffer req.buffer.length (dataReportError buf)
          { s with requests := { req with error := dataReportError buf } :: rest } >>=
        fun r => PopRequest nd r.2 >>= fun s3 => pure (true, s3)) := by
  obtain ⟨c1, c2, c3⟩ := ProcessDataReport_asserts_ok nd buf req ha
  unfold ProcessDataReport
  rw [hq]
  unfold dataReportError at he
  have c4 : cassert nd (some h).isSome = .ok () := cassert_of nd rfl
  simp only [cassert_nonempty, c1, c2, c3, ok_bind, if_neg he, pure_eq_ok, ne_eq,
    not_false_eq_true, true_or, if_true, if_false, hh, c4, he, dataReportError, ↓reduceIte]

/-- An error-free fragment that leaves bytes pending: it is copied at offset
`done` and the request stays at the front. -/
theorem ProcessDataReport_more (nd : Bool) (buf : List Nat) (s : Impl) (req : Request)
    (rest : List Request) (hq : s.requests = req :: rest)
    (ha : nd = true ∨ dataReportAsserts buf req) (he : dataReportError buf = 0)
    (hb : req.done + dataReportCount buf ≤ req.buffer.length)
    (hp : (req.pending + 2 ^ 32 - dataReportCount buf) % 2 ^ 32 ≠ 0) :
    ProcessDataReport nd buf s =
      .ok (true,
        { s with
          requests :=
            { req with
              error := 0
              buffer := memcpy req.buffer req.done (buf.drop 3) (dataReportCount buf)
              done := (req.done + dataReportCount buf) % 2 ^ 32
              pending := (req.pending + 2 ^ 32 - dataReportCount buf) % 2 ^ 32 } :: rest }) := by
  obtain ⟨c1, c2, c3⟩ := ProcessDataReport_asserts_ok nd buf req ha
  unfold ProcessDataReport
  rw [hq]
  unfold dataReportError at he
  unfold dataReportCount at hb hp
  have hb2 : ¬ req.buffer.length < req.done + (1 + (byteAt buf 0 >>> 4)) := by omega
  simp only [cassert_nonempty, c1, c2, c3, ok_bind, he, if_true, if_neg hb2, pure_eq_ok, ne_eq,
    not_true_eq_false, false_or, if_neg hp, dataReportCount, ↓reduceIte, if_false]

/-- The error-free fragment that completes the read: it is copied, the callback
runs on the whole buffer with error 0 and the request is popped. -/
theorem ProcessDataReport_last (nd : Bool) (buf : List Nat) (s : Impl) (req : Request)
    (rest : List Request) (h : Handler) (hq : s.requests = req :: rest)
    (ha : nd = true ∨ dataReportAsserts buf req) (he : dataReportError buf = 0)
    (hb : req.done + dataReportCount buf ≤ req.buffer.length)
    (hp : (req.pending + 2 ^ 32 - dataReportCount buf) % 2 ^ 32 = 0)
    (hh : req.handler = some h) :
    ProcessDataReport nd buf s =
      (callHandler nd h (memcpy req.buffer req.done (buf.drop 3) (dataReportCount buf))
          (memcpy req.buffer req.done (buf.drop 3) (dataReportCount buf)).length 0
          { s with
            requests :=
              { req with
                error := 0
                buffer := memcpy req.buffer req.done (buf.drop 3) (dataReportCount buf)
                done := (req.done + dataReportCount buf) % 2 ^ 32
                pending := 0 } :: rest } >>=
        fun r => PopRequest nd r.2 >>= fun s3 => pure (true, s3)) := by
  obtain ⟨c1, c2, c3⟩ := ProcessDataReport_asserts_ok nd buf req ha
  unfold ProcessDataReport
  rw [hq]
  unfold dataReportError at he
  unfold dataReportCount at hb hp
  have hb2 : ¬ req.buffer.length < req.done + (1 + (byteAt buf 0 >>> 4)) := by omega
  have c4 : cassert nd (some h).isSome = .ok () := cassert_of nd rfl
  simp only [cassert_nonempty, c1, c2, c3, ok_bind, he, if_true, if_neg hb2, pure_eq_ok, ne_eq,
    not_true_eq_false, false_or, hp, dataReportCount, hh, c4, ↓reduceIte, if_false]

theorem dataReportPayload_length (buf : List Nat) :
    (dataReportPayload buf).length = dataReportCount buf := by
  simp [dataReportPayload]

theorem fragmentsPayload_length (bufs : List (List Nat)) :
    (fragmentsPayload bufs).length = fragmentsCount bufs := by
  induction bufs with
  | nil => rfl
  | cons buf more ih => simp [fragmentsPayload, fragmentsCount, dataReportPayload_length, ih]

theorem dataReportCount_pos (buf : List Nat) : 0 < dataReportCount buf := by
  unfold dataReportCount; omega

theorem mod32_and_eq_mod16 (x : Nat) : (x % 2 ^ 32) &&& 0xFFFF = x % 2 ^ 16 := by
  have h : (0xFFFF : Nat) = 2 ^ 16 - 1 := by norm_num
  rw [h, Nat.and_pow_two_sub_one_eq_mod]
  exact Nat.mod_mod_of_dvd x (by norm_num)

theorem memcpy_reading (filled : List Nat) (p : Nat) (buf : List Nat) :
    memcpy (filled ++ List.replicate p 0) filled.length (buf.drop 3) (dataReportCount buf)
      = (filled ++ dataReportPayload buf) ++ List.replicate (p - dataReportCount buf) 0 := by
  unfold memcpy dataReportPayload
  simp [List.take_append_eq_append_take, List.drop_append_eq_append_drop, List.drop_replicate]

theorem callHandler_then_pop (nd : Bool) (h : Handler) (bufr : List Nat) (len error : Nat)
    (s : Impl) (req : Request) (rest : List Request) (hq : s.requests = req :: rest)
    (r : Bool × Impl) (hr : callHandler nd h bufr len error s = .ok r) :
    ∃ new, r.2.requests = req :: (rest ++ new) ∧ (∀ x ∈ new, x.sent = false) ∧
      PopRequest nd r.2 = .ok { r.2 with requests := rest ++ new } ∧
      r.2.handled = s.handled ++ [{ handler := h, buf := bufr, len := len, error := error }] ∧
      r.2.output = s.output ∧ r.2.status = s.status := by
  obtain ⟨⟨⟨new, e, u⟩, st⟩, o, l⟩ := callHandler_appends nd h bufr len error s r hr
  rw [hq] at e
  exact ⟨new, e, u, PopRequest_cons nd r.2 req (rest ++ new) e, l, o, st⟩

theorem bind_ok_right {ε α : Type} (m : Except ε α) : (m >>= fun x => Except.ok x) = m := by
  cases m <;> rfl

theorem ProcessDataReports_reading (nd : Bool) (address : Nat) (h : Handler) (sent : Bool)
    (rest : List Request) (bufs : List (List Nat)) :
    ∀ (filled : List Nat) (p : Nat) (s : Impl),
      s.requests = Request.reading address h sent filled p :: rest →
      filled.length + p < 2 ^ 32 →
      fragmentsFit address filled.length p bufs →
      (fragmentsCount bufs < p →
        ProcessDataReports nd bufs s =
          .ok { s with
                requests :=
                  Request.reading address h sent (filled ++ fragmentsPayload bufs)
                    (p - fragmentsCount bufs) :: rest }) ∧
      (fragmentsCount bufs = p → bufs ≠ [] →
        ProcessDataReports nd bufs s =
          (callHandler nd h (filled ++ fragmentsPayload bufs) (filled.length + p) 0
              { s with
                requests :=
                  Request.reading address h sent (filled ++ fragmentsPayload bufs) 0 :: rest }
            >>= fun r => PopRequest nd r.2)) := by
  induction bufs with
  | nil =>
    intro filled p s hq _ _
    constructor
    · intro _
      simp only [ProcessDataReports, fragmentsPayload, fragmentsCount, List.append_nil,
        Nat.sub_zero, pure_eq_ok, ← hq]
    · intro _ hne
      exact absurd rfl hne
  | cons buf more ih =>
    intro filled p s hq hlt hfit
    obtain ⟨he, hc, haddr, hmore⟩ := hfit
    have hpos := dataReportCount_pos buf
    have hasserts : nd = true ∨ dataReportAsserts buf (Request.reading address h sent filled p) := by
      right
      refine ⟨rfl, hc, ?_⟩
      rw [mod32_and_eq_mod16]
      exact haddr
    have hb : (Request.reading address h sent filled p).done + dataReportCount buf
        ≤ (Request.reading address h sent filled p).buffer.length := by
      simp only [Request.reading, List.length_append, List.length_replicate]
      omega
    have hdone : ((Request.reading address h sent filled p).done + dataReportCount buf) % 2 ^ 32
        = (filled ++ dataReportPayload buf).length := by
      simp only [Request.reading, List.length_append, dataReportPayload_length]
      exact Nat.mod_eq_of_lt (by omega)
    have hpend : ((Request.reading address h sent filled p).pending + 2 ^ 32 - dataReportCount buf)
        % 2 ^ 32 = p - dataReportCount buf := by
      simp only [Request.reading]
      have e : p + 2 ^ 32 - dataReportCount buf = (p - dataReportCount buf) + 2 ^ 32 := by omega
      rw [e, Nat.add_mod_right]
      exact Nat.mod_eq_of_lt (by omega)
    have hmem : memcpy (Request.reading address h sent filled p).buffer
        (Request.reading address h sent filled p).done (buf.drop 3) (dataReportCount buf)
        = (filled ++ dataReportPayload buf) ++ List.replicate (p - dataReportCount buf) 0 :=
      memcpy_reading filled p buf
    by_cases hz : p - dataReportCount buf = 0
    · -- the fragment completes the read
      have hcp : dataReportCount buf = p := by omega
      have hnil : more = [] := by
        cases more with
        | nil => rfl
        | cons b2 m2 =>
          exfalso
          obtain ⟨_, hc2, _⟩ := hmore
          have := dataReportCount_pos b2
          omega
      subst hnil
      constructor
      · intro hlt2
        simp only [fragmentsCount] at hlt2
        omega
      · intro _ _
        have hp0 : ((Request.reading address h sent filled p).pending + 2 ^ 32
            - dataReportCount buf) % 2 ^ 32 = 0 := by rw [hpend, hz]
        simp only [ProcessDataReports]
        rw [ProcessDataReport_last nd buf s _ rest h hq hasserts he hb hp0 rfl]
        have hl : (filled ++ dataReportPayload buf).length = filled.length + p := by
          rw [List.length_append, dataReportPayload_length, hcp]
        simp only [hmem, hdone, hz, List.replicate_zero, List.append_nil, fragmentsPayload,
          bind_assoc, pure_eq_ok, ok_bind, bind_ok_right]
        simp only [Request.reading, hl, List.replicate_zero, List.append_nil]
    · -- bytes remain pending
      have hp0 : ((Request.reading address h sent filled p).pending + 2 ^ 32
          - dataReportCount buf) % 2 ^ 32 ≠ 0 := by rw [hpend]; exact hz
      have step := ProcessDataReport_more nd buf s _ rest hq hasserts he hb hp0
      rw [hmem, hdone, hpend] at step
      have hlen : (filled ++ dataReportPayload buf).length = filled.length + dataReportCount buf := by
        rw [List.length_append, dataReportPayload_length]
      have ih2 := ih (filled ++ dataReportPayload buf) (p - dataReportCount buf)
        { s with
          requests :=
            Request.reading address h sent (filled ++ dataReportPayload buf)
              (p - dataReportCount buf) :: rest }
        rfl (by rw [hlen]; omega) (by rw [hlen]; exact hmore)
      constructor
      · intro hlt2
        simp only [fragmentsCount] at hlt2
        simp only [ProcessDataReports]
        rw [step, ok_bind]
        have := ih2.1 (by omega)
        simp only [Request.reading] at this ⊢
        rw [this]
        simp only [fragmentsPayload, fragmentsCount, List.append_assoc, Nat.sub_sub]
      · intro heq _
        simp only [fragmentsCount] at heq
        have hne : more ≠ [] := by
          intro hm
          rw [hm] at heq
          simp only [fragmentsCount] at heq
          omega
        simp only [ProcessDataReports]
        rw [step, ok_bind]
        have := ih2.2 (by omega) hne
        simp only [Request.reading] at this ⊢
        rw [this]
        simp only [fragmentsPayload, List.append_assoc, hlen]
        have e : filled.length + dataReportCount buf + (p - dataReportCount buf)
            = filled.length + p := by omega
        rw [e]

theorem fragmentsFit_count_le (address : Nat) (bufs : List (List Nat)) :
    ∀ (done pending : Nat), fragmentsFit address done pending bufs →
      fragmentsCount bufs ≤ pending := by
  induction bufs with
  | nil => intro _ _ _; exact Nat.zero_le _
  | cons buf more ih =>
    intro done pending hfit
    obtain ⟨_, hc, _, hm⟩ := hfit
    have := ih _ _ hm
    simp only [fragmentsCount]
    omega

theorem fragmentsFit_take (address : Nat) (bufs : List (List Nat)) :
    ∀ (k done pending : Nat), fragmentsFit address done pending bufs →
      fragmentsFit address done pending (bufs.take k) := by
  induction bufs with
  | nil => intro k _ _ _; simp [fragmentsFit]
  | cons buf more ih =>
    intro k done pending hfit
    cases k with
    | zero => simp [fragmentsFit]
    | succ j =>
      obtain ⟨h1, h2, h3, hm⟩ := hfit
      exact ⟨h1, h2, h3, ih j _ _ hm⟩

theorem fragmentsCount_take_lt (bufs : List (List Nat)) :
    ∀ (k : Nat), k < bufs.length → fragmentsCount (bufs.take k) < fragmentsCount bufs := by
  induction bufs with
  | nil => intro k hk; cases hk
  | cons buf more ih =>
    intro k hk
    cases k with
    | zero =>
      have := dataReportCount_pos buf
      simp only [List.take_zero, fragmentsCount]
      omega
    | succ j =>
      have := ih j (by simpa using hk)
      simp only [List.take_succ_cons, fragmentsCount]
      omega

/-- C5: a read request of size `n` with callback `h` is at the front, and
error-free data reports arrive whose counts fit the bytes pending and whose
addresses are `(address + done) mod 2^16`.  While the counts sum to less than
`n` the callback is not invoked and the request stays at the front with `done`
the sum and `pending = n - done`, after every proper prefix of the reports too;
when they sum to `n` the last report invokes the callback, once, with the `n`
bytes of the concatenated payloads and error 0, and the request is popped. -/
theorem C5_read_completes_when_pending_zero (nd : Bool) (address n : Nat) (h : Handler)
    (sent : Bool) (rest : List Request) (s : Impl) (bufs : List (List Nat))
    (hq : s.requests = { Request.read address n h with sent := sent } :: rest)
    (hn : n < 2 ^ 32) (hfit : fragmentsFit address 0 n bufs) :
    fragmentsCount bufs ≤ n ∧ (fragmentsPayload bufs).length = fragmentsCount bufs ∧
    (∀ k, k < bufs.length ∨ fragmentsCount bufs < n →
      ProcessDataReports nd (bufs.take k) s =
        .ok { s with
              requests :=
                { type := .Read
                  buffer := fragmentsPayload (bufs.take k) ++
                    List.replicate (n - fragmentsCount (bufs.take k)) 0
                  address := address
                  error := 0
                  done := fragmentsCount (bufs.take k)
                  pending := n - fragmentsCount (bufs.take k)
                  sent := sent
                  handler := some h } :: rest } ∧
        0 < n - fragmentsCount (bufs.take k)) ∧
    (fragmentsCount bufs = n → bufs ≠ [] →
      ProcessDataReports nd bufs s =
        (callHandler nd h (fragmentsPayload bufs) n 0
            { s with
              requests :=
                { type := .Read, buffer := fragmentsPayload bufs, address := address, error := 0,
                  done := n, pending := 0, sent := sent, handler := some h } :: rest }
          >>= fun r => PopRequest nd r.2) ∧
      ((nd = true ∨ handlerAssertion h s = true) →
        ∃ r new, callHandler nd h (fragmentsPayload bufs) n 0
            { s with
              requests :=
                { type := .Read, buffer := fragmentsPayload bufs, address := address, error := 0,
                  done := n, pending := 0, sent := sent, handler := some h } :: rest } = .ok r ∧
          ProcessDataReports nd bufs s = .ok { r.2 with requests := rest ++ new } ∧
          (∀ x ∈ new, x.sent = false) ∧
          r.2.handled = s.handled ++
            [{ handler := h, buf := fragmentsPayload bufs, len := n, error := 0 }])) := by
  have hq2 : s.requests = Request.reading address h sent [] n :: rest := hq
  have hle := fragmentsFit_count_le address bufs 0 n hfit
  refine ⟨hle, fragmentsPayload_length bufs, ?_, ?_⟩
  · intro k hk
    have hlt : fragmentsCount (bufs.take k) < n := by
      rcases hk with hk | hk
      · exact lt_of_lt_of_le (fragmentsCount_take_lt bufs k hk) hle
      · by_cases hkl : k < bufs.length
        · exact lt_of_lt_of_le (fragmentsCount_take_lt bufs k hkl) hle
        · rw [List.take_of_length_le (by omega)]
          exact hk
    have g := (ProcessDataReports_reading nd address h sent rest (bufs.take k) [] n s hq2
      (by simpa using hn) (fragmentsFit_take address bufs k 0 n hfit)).1 hlt
    refine ⟨?_, by omega⟩
    rw [g]
    simp only [Request.reading, List.nil_append, fragmentsPayload_length]
  · intro heq hne
    have g := (ProcessDataReports_reading nd address h sent rest bufs [] n s hq2
      (by simpa using hn) hfit).2 heq hne
    have e : Request.reading address h sent ([] ++ fragmentsPayload bufs) 0
        = { type := .Read, buffer := fragmentsPayload bufs, address := address, error := 0,
            done := n, pending := 0, sent := sent, handler := some h } := by
      simp only [Request.reading, List.nil_append, List.replicate_zero, List.append_nil,
        fragmentsPayload_length, heq]
    simp only [List.nil_append, List.length_nil, Nat.zero_add] at g
    rw [List.nil_append] at e
    rw [e] at g
    refine ⟨g, ?_⟩
    intro ha
    obtain ⟨r, hr⟩ := callHandler_total nd h (fragmentsPayload bufs) n 0
      { s with
        requests :=
          { type := .Read, buffer := fragmentsPayload bufs, address := address, error := 0,
            done := n, pending := 0, sent := sent, handler := some h } :: rest } ha
    obtain ⟨new, _, hu, hpop, hl, _, _⟩ := callHandler_then_pop nd h _ _ _ _ _ rest rfl r hr
    refine ⟨r, new, hr, ?_, hu, hl⟩
    rw [g, hr, ok_bind, hpop]

/-- C5 on a concrete transfer: the 8-byte read at `0x0016` is answered by a
5-byte fragment at `0x0016` and a 3-byte fragment at `0x001B`. -/
theorem C5_read_completes_when_pending_zero_witness :
    fragmentsFit 0x0016 0 8
      [[0x40, 0x00, 0x16, 1, 2, 3, 4, 5], [0x20, 0x00, 0x1B, 6, 7, 8]] ∧
    ∃ (r : Impl) (new : List Request),
      ProcessDataReports false
          [[0x40, 0x00, 0x16, 1, 2, 3, 4, 5], [0x20, 0x00, 0x1B, 6, 7, 8]]
          { Impl.ctor with
            requests := [{ Request.read 0x0016 8 .ParseCalibrationData with sent := true }] }
        = .ok { r with requests := [] ++ new } ∧
      r.handled =
        [{ handler := .ParseCalibrationData, buf := [1, 2, 3, 4, 5, 6, 7, 8], len := 8,
           error := 0 }] := by
  have hfit : fragmentsFit 0x0016 0 8
      [[0x40, 0x00, 0x16, 1, 2, 3, 4, 5], [0x20, 0x00, 0x1B, 6, 7, 8]] :=
    ⟨by decide, by decide, by decide, by decide, by decide, by decide, trivial⟩
  obtain ⟨_, _, _, hB⟩ := C5_read_completes_when_pending_zero false 0x0016 8
    .ParseCalibrationData true []
    { Impl.ctor with
      requests := [{ Request.read 0x0016 8 .ParseCalibrationData with sent := true }] }
    [[0x40, 0x00, 0x16, 1, 2, 3, 4, 5], [0x20, 0x00, 0x1B, 6, 7, 8]] rfl (by norm_num) hfit
  obtain ⟨r, new, _, h2, _, h3⟩ := (hB (by decide) (by simp)).2 (Or.inr (by decide))
  exact ⟨hfit, r.2, new, h2, h3⟩

/-! ## Data reports carrying an error -/

/-- C6, as amended: a read request with callback `h` is at the front and a data
report carries a non-zero error nibble.  With assertions compiled out, whatever
the size nibble and the address field are, and with assertions compiled in
provided the report passes them (count at most the bytes pending, address field
`(address + done) mod 2^16`, and the assertion of the callback itself),
`ProcessDataReport` copies nothing, invokes the callback once with the buffer
as it stands and the error code, removes the request and leaves the requests
behind it unchanged and in order (new requests of the callback are appended). -/
theorem C6_error_report_aborts_front_request (nd : Bool) (buf : List Nat) (s : Impl)
    (req : Request) (rest : List Request) (h : Handler)
    (hq : s.requests = req :: rest) (ht : req.type = RequestType.Read)
    (hh : req.handler = some h) (he : dataReportError buf ≠ 0)
    (ha : nd = true ∨
      (dataReportCount buf ≤ req.pending ∧
        dataReportAddress buf = (req.address + req.done) % 2 ^ 16 ∧
        handlerAssertion h s = true)) :
    ∃ r new,
      callHandler nd h req.buffer req.buffer.length (dataReportError buf)
          { s with requests := { req with error := dataReportError buf } :: rest } = .ok r ∧
      ProcessDataReport nd buf s = .ok (true, { r.2 with requests := rest ++ new }) ∧
      (∀ x ∈ new, x.sent = false) ∧
      r.2.handled = s.handled ++
        [{ handler := h, buf := req.buffer, len := req.buffer.length,
           error := dataReportError buf }] ∧
      r.2.output = s.output := by
  have hasserts : nd = true ∨ dataReportAsserts buf req := by
    rcases ha with ha | ⟨h1, h2, _⟩
    · exact Or.inl ha
    · right
      refine ⟨ht, h1, ?_⟩
      rw [mod32_and_eq_mod16]
      exact h2
  have hha : nd = true ∨ handlerAssertion h
      { s with requests := { req with error := dataReportError buf } :: rest } = true := by
    rcases ha with ha | ⟨_, _, h3⟩
    · exact Or.inl ha
    · exact Or.inr h3
  obtain ⟨r, hr⟩ := callHandler_total nd h req.buffer req.buffer.length (dataReportError buf)
    { s with requests := { req with error := dataReportError buf } :: rest } hha
  obtain ⟨new, _, hu, hpop, hl, ho, _⟩ := callHandler_then_pop nd h _ _ _ _ _ rest rfl r hr
  refine ⟨r, new, hr, ?_, hu, hl, ho⟩
  rw [ProcessDataReport_error nd buf s req rest h hq hasserts he hh, hr, ok_bind, hpop, ok_bind]
  rfl

/-- C6 on a concrete report: the read of the calibration block is answered, in
a build with assertions, by `07 00 16` (count 1, error 7, address `0x0016`). -/
theorem C6_error_report_aborts_front_request_witness :
    ∃ (r : Bool × Impl) (new : List Request),
      ProcessDataReport false [0x07, 0x00, 0x16]
          { Impl.ctor with
            requests := [{ Request.read 0x0016 8 .ParseCalibrationData with sent := true }] }
        = .ok (true, { r.2 with requests := [] ++ new }) ∧
      r.2.handled =
        [{ handler := .ParseCalibrationData, buf := [0, 0, 0, 0, 0, 0, 0, 0], len := 8,
           error := 7 }] := by
  obtain ⟨r, new, _, h2, _, h3, _⟩ := C6_error_report_aborts_front_request false
    [0x07, 0x00, 0x16]
    { Impl.ctor with
      requests := [{ Request.read 0x0016 8 .ParseCalibrationData with sent := true }] }
    { Request.read 0x0016 8 .ParseCalibrationData with sent := true } [] .ParseCalibrationData
    rfl rfl rfl (by decide) (Or.inr ⟨by decide, by decide, by decide⟩)
  exact ⟨r, new, h2, h3⟩

/-- C6 as stated fails in a build with assertions: the error report `F8 00 16`
(size nibble 15, so count 16, larger than the 8 bytes pending) stops at
`assert(count <= req.pending)`; no callback is invoked and nothing is popped. -/
theorem C6_counterexample :
    ProcessDataReport false [0xF8, 0x00, 0x16]
        { Impl.ctor with
          requests := [{ Request.read 0x0016 8 .ParseCalibrationData with sent := true }] }
      = .error Fault.assertion := by
  rfl
/-! ## Data reports with a mismatched address -/

/-- C7, as amended: a read request is at the front and an error-free data report
with at most the pending bytes names an address other than
`(address + done) mod 2^16`.  With assertions the run stops at the address
assertion, so nothing is copied, no callback is invoked and nothing is popped;
with assertions compiled out the address field is not looked at, and the result
is that of any report with the same first byte and the same data bytes, so the
fragment is processed as a report with the expected address would be. -/
theorem C7_address_mismatch_not_surfaced (buf : List Nat) (s : Impl) (req : Request)
    (rest : List Request) (hq : s.requests = req :: rest) (ht : req.type = RequestType.Read)
    (hc : dataReportCount buf ≤ req.pending)
    (hm : dataReportAddress buf ≠ (req.address + req.done) % 2 ^ 16) :
    ProcessDataReport false buf s = .error Fault.assertion ∧
    (∀ buf2, byteAt buf2 0 = byteAt buf 0 → buf2.drop 3 = buf.drop 3 →
      ProcessDataReport true buf2 s = ProcessDataReport true buf s) := by
  constructor
  · unfold ProcessDataReport
    rw [hq]
    have c1 : cassert false (decide (req.type = RequestType.Read)) = .ok () :=
      cassert_of false (by simpa using ht)
    have c2 : cassert false (decide (1 + (byteAt buf 0 >>> 4) ≤ req.pending)) = .ok () :=
      cassert_of false (by simpa [dataReportCount] using hc)
    have c3 : cassert false (decide (byteAt buf 1 <<< 8 ||| byteAt buf 2
        = ((req.address + req.done) % 2 ^ 32) &&& 0xFFFF)) = .error Fault.assertion := by
      rw [mod32_and_eq_mod16]
      unfold dataReportAddress at hm
      have hd : decide (byteAt buf 1 <<< 8 ||| byteAt buf 2 = (req.address + req.done) % 2 ^ 16)
          = false := decide_eq_false hm
      simp only [cassert, hd, Bool.or_self, Bool.false_eq_true, if_false]
    simp only [cassert_nonempty, c1, c2, c3, ok_bind, error_bind]
  · intro buf2 h0 h3
    unfold ProcessDataReport
    simp only [cassert_ndebug, ok_bind, h0, h3]

/-- C7, as amended, on a concrete report: the 8-byte read at `0x0016` is at the
front and the error-free report `70 00 20 01 .. 08` names address `0x0020`; with
assertions the run stops, without them the result is that of the report
`70 00 16 01 .. 08`, which names the expected address. -/
theorem C7_address_mismatch_not_surfaced_witness :
    dataReportAddress [0x70, 0x00, 0x20, 1, 2, 3, 4, 5, 6, 7, 8] ≠ (0x0016 + 0) % 2 ^ 16 ∧
    ProcessDataReport false [0x70, 0x00, 0x20, 1, 2, 3, 4, 5, 6, 7, 8]
        { Impl.ctor with
          requests := [{ Request.read 0x0016 8 .ParseCalibrationData with sent := true }] }
      = .error Fault.assertion ∧
    ProcessDataReport true [0x70, 0x00, 0x16, 1, 2, 3, 4, 5, 6, 7, 8]
        { Impl.ctor with
          requests := [{ Request.read 0x0016 8 .ParseCalibrationData with sent := true }] }
      = ProcessDataReport true [0x70, 0x00, 0x20, 1, 2, 3, 4, 5, 6, 7, 8]
        { Impl.ctor with
          requests := [{ Request.read 0x0016 8 .ParseCalibrationData with sent := true }] } :=
  ⟨by decide,
    (C7_address_mismatch_not_surfaced [0x70, 0x00, 0x20, 1, 2, 3, 4, 5, 6, 7, 8]
      { Impl.ctor with
        requests := [{ Request.read 0x0016 8 .ParseCalibrationData with sent := true }] }
      { Request.read 0x0016 8 .ParseCalibrationData with sent := true } [] rfl rfl
      (by decide) (by decide)).1,
    (C7_address_mismatch_not_surfaced [0x70, 0x00, 0x20, 1, 2, 3, 4, 5, 6, 7, 8]
      { Impl.ctor with
        requests := [{ Request.read 0x0016 8 .ParseCalibrationData with sent := true }] }
      { Request.read 0x0016 8 .ParseCalibrationData with sent := true } [] rfl rfl
      (by decide) (by decide)).2 [0x70, 0x00, 0x16, 1, 2, 3, 4, 5, 6, 7, 8] rfl rfl⟩

/-- C7 as stated fails: for the 8-byte read at `0x0016` and the error-free report
`70 00 20 01 .. 08` (address `0x0020`), a build without assertions copies the
eight bytes, runs the callback with error 0 and pops the request, and a build
with assertions stops at the assertion; in neither is the callback invoked with
a non-zero error. -/
theorem C7_counterexample :
    (∃ r, ProcessDataReport true [0x70, 0x00, 0x20, 1, 2, 3, 4, 5, 6, 7, 8]
        { Impl.ctor with
          requests := [{ Request.read 0x0016 8 .ParseCalibrationData with sent := true }] }
      = .ok r ∧ r.2.requests = [] ∧
      r.2.handled =
        [{ handler := .ParseCalibrationData, buf := [1, 2, 3, 4, 5, 6, 7, 8], len := 8,
           error := 0 }]) ∧
    ProcessDataReport false [0x70, 0x00, 0x20, 1, 2, 3, 4, 5, 6, 7, 8]
        { Impl.ctor with
          requests := [{ Request.read 0x0016 8 .ParseCalibrationData with sent := true }] }
      = .error Fault.assertion :=
  ⟨⟨_, rfl, rfl, rfl⟩, rfl⟩

/-! ## Acknowledge and status reports -/

theorem total_bind {ε α β : Type} {a : Except ε α} {f : α → Except ε β}
    (ha : ∃ x, a = .ok x) (hf : ∀ x, ∃ y, f x = .ok y) : ∃ y, (a >>= f) = .ok y := by
  obtain ⟨x, hx⟩ := ha
  obtain ⟨y, hy⟩ := hf x
  exact ⟨y, by rw [hx, ok_bind, hy]⟩

theorem ProcessStatusReport_total (nd : Bool) (buf : List Nat) (s : Impl)
    (h : nd = true ∨ s.reportMode ≠ ReportMode.Undefined) :
    ∃ r, ProcessStatusReport nd buf s = .ok r := by
  have c1 : cassert nd (decide (s.reportMode ≠ ReportMode.Undefined)) = .ok () := by
    rcases h with h | h
    · rw [h]; exact cassert_ndebug _
    · exact cassert_of nd (by simpa using h)
  unfold ProcessStatusReport
  dsimp only
  refine total_bind ⟨(), c1⟩ (fun _ => total_bind ?_ (fun s1 => total_bind ?_
    (fun s2 => total_bind ?_ (fun r4 => ⟨_, rfl⟩))))
  · cases hq : s.requests with
    | nil => exact ⟨s, rfl⟩
    | cons req rest =>
      dsimp only
      split_ifs
      · exact ⟨_, PopRequest_cons nd s req rest hq⟩
      · exact ⟨s, rfl⟩
  · simp only [WriteDataByte_ok, ok_bind, ReadExtensionIdentifier, ReadData_eq, pure_eq_ok]
    split_ifs <;> exact ⟨_, rfl⟩
  · obtain ⟨s4, e4, _⟩ := SetReportMode_appends nd s2.reportMode s2.state.ir.sensitivity
      s2.continous
      { s2 with
        state :=
          { s2.state with
            battery := byteAt buf 3
            batteryLow := decide (byteAt buf 0 &&& 0x01 ≠ 0)
            extPresent := decide (byteAt buf 0 &&& 0x02 ≠ 0)
            speakerEnabled := decide (byteAt buf 0 &&& 0x04 ≠ 0)
            irEnabled := decide (byteAt buf 0 &&& 0x08 ≠ 0)
            leds := byteAt buf 0 &&& 0xF0 } }
    exact ⟨_, e4⟩

/-- C8: for every non-empty queue and every acknowledge report `(reg, err)`,
`ProcessAcknowledgeReport` returns true and removes the front request if and
only if it is a write and `reg` is `0x16`; otherwise the queue keeps its
requests in order, the front one with `err` as its error code.  A status report
never removes a write at the front: it only appends behind it. -/
theorem C8_acknowledge_completes_write (nd : Bool) (buf : List Nat) (s : Impl)
    (req : Request) (rest : List Request) (hq : s.requests = req :: rest) :
    (∃ s1, ProcessAcknowledgeReport nd buf s = .ok (true, s1) ∧
      ((byteAt buf 0 = 0x16 ∧ req.type = RequestType.Write) → s1.requests = rest) ∧
      (¬ (byteAt buf 0 = 0x16 ∧ req.type = RequestType.Write) →
        s1.requests = { req with error := byteAt buf 1 } :: rest) ∧
      s1.handled = s.handled ∧ s1.output = s.output) ∧
    (req.type = RequestType.Write →
      (∀ sbuf r, ProcessStatusReport nd sbuf s = .ok r →
        ∃ new, r.2.requests = req :: (rest ++ new)) ∧
      (∀ sbuf, nd = true ∨ s.reportMode ≠ ReportMode.Undefined →
        ∃ r, ProcessStatusReport nd sbuf s = .ok r)) := by
  constructor
  · refine ⟨_, ProcessAcknowledgeReport_cons nd buf s req rest hq, ?_, ?_, rfl, rfl⟩
    · intro hc
      have hc2 : byteAt buf 0 = WII_OUTPUT_WRITE_MEMORY ∧ req.type = RequestType.Write := hc
      simp only [if_pos hc2]
    · intro hc
      have hc2 : ¬ (byteAt buf 0 = WII_OUTPUT_WRITE_MEMORY ∧ req.type = RequestType.Write) := hc
      simp only [if_neg hc2]
  · intro ht
    constructor
    · intro sbuf r hr
      obtain ⟨s1, ⟨⟨new, e, _⟩, _⟩, h1 | ⟨req2, rest2, h2, h3, _⟩⟩ :=
        ProcessStatusReport_queue nd sbuf s r hr
      · rw [h1.1, hq] at e
        exact ⟨new, e⟩
      · rw [hq] at h2
        cases h2
        rw [ht] at h3
        cases h3
    · intro sbuf h
      exact ProcessStatusReport_total nd sbuf s h

/-- C8 on a concrete queue: the sent write of `0x55` to `0x04A400F0`, followed by
a read, is acknowledged by `16 00`. -/
theorem C8_acknowledge_completes_write_witness :
    ∃ s1, ProcessAcknowledgeReport false [0x16, 0x00]
        { Impl.ctor with
          requests :=
            [{ Request.write 0x04A400F0 [0x55] with sent := true },
             Request.read 0x04A400FA 6 .ParseExtensionIdentifier] } = .ok (true, s1) ∧
      s1.requests = [Request.read 0x04A400FA 6 .ParseExtensionIdentifier] := by
  obtain ⟨⟨s1, h1, h2, _⟩, _⟩ := C8_acknowledge_completes_write false [0x16, 0x00]
    { Impl.ctor with
      requests :=
        [{ Request.write 0x04A400F0 [0x55] with sent := true },
         Request.read 0x04A400FA 6 .ParseExtensionIdentifier] }
    { Request.write 0x04A400F0 [0x55] with sent := true }
    [Request.read 0x04A400FA 6 .ParseExtensionIdentifier] rfl
  exact ⟨s1, h1, h2 ⟨by decide, rfl⟩⟩

/-! ## Write requests -/

theorem range_map_byteAt_map_mod (data : List Nat) :
    (List.range data.length).map (fun i => byteAt (data.map (· % 256)) i)
      = data.map (· % 256) := by
  have h := range_map_byteAt (data.map (· % 256)) (by
    intro x hx
    obtain ⟨y, _, rfl⟩ := List.mem_map.mp hx
    exact Nat.mod_lt _ (by norm_num))
  rw [List.length_map] at h
  exact h

/-- C9, as amended: `WriteData` enqueues a payload of 1..16 bytes unchanged, and
the write report of that request carries the whole payload, padded with zeros
to 16 bytes.  The size is checked by `assert(0 < size && size <= 16)` alone: a
build with assertions enqueues nothing else (a payload of more than 16 bytes
stops the run at the assertion), a build without assertions enqueues a payload
of more than 16 bytes whole, and sending it is undefined; an empty payload
yields no result in either build. -/
theorem C9_WriteData_size_only_asserted (nd : Bool) (address : Nat) (data : List Nat)
    (s : Impl) :
    (0 < data.length → data.length ≤ 16 →
      WriteData nd address data s =
        .ok { s with requests := s.requests ++ [Request.write address data] } ∧
      SendNextRequest nd { s with requests := [Request.write address data] } =
        .ok (true,
          { s with
            requests := [{ Request.write address data with sent := true }]
            output := s.output ++
              [[0x16, B3 address ||| rumbleBit s, B2 address, B1 address, B0 address,
                B0 data.length] ++ data.map (· % 256) ++
                List.replicate (16 - data.length) 0] })) ∧
    (∀ s1, WriteData false address data s = .ok s1 →
      0 < data.length ∧ data.length ≤ 16 ∧
      s1 = { s with requests := s.requests ++ [Request.write address data] }) ∧
    (data.length = 0 → ∃ e, WriteData nd address data s = .error e) ∧
    (16 < data.length →
      WriteData false address data s = .error Fault.assertion ∧
      WriteData true address data s =
        .ok { s with requests := s.requests ++ [Request.write address data] } ∧
      SendNextRequest true { s with requests := [Request.write address data] } =
        .error Fault.undefined) := by
  refine ⟨fun h1 h2 => ⟨WriteData_ok nd address data s h1 (Or.inr h2), ?_⟩, ?_,
    fun h => WriteData_error nd address data s (Or.inl h), fun h => ⟨?_, ?_, ?_⟩⟩
  · rw [SendNextRequest_unsent nd _ (Request.write address data) [] rfl rfl
      (fun _ => ⟨Or.inr h1, h2, by simp [Request.write]⟩)]
    simp only [requestReport, Request.write, range_map_byteAt_map_mod]
    rfl
  · intro s1 h1
    by_cases hl : 0 < data.length ∧ data.length ≤ 16
    · rw [WriteData_ok false address data s hl.1 (Or.inr hl.2)] at h1
      exact ⟨hl.1, hl.2, (Except.ok.inj h1).symm⟩
    · exfalso
      have hd : data.length = 0 ∨ (false = false ∧ 16 < data.length) := by
        by_cases h0 : data.length = 0
        · exact Or.inl h0
        · exact Or.inr ⟨rfl, by omega⟩
      obtain ⟨e, he⟩ := WriteData_error false address data s hd
      rw [he] at h1
      cases h1
  · have hn : ¬ data.length ≤ 16 := by omega
    simp [WriteData, cassert, hn, error_bind]
  · exact WriteData_ok true address data s (by omega) (Or.inl rfl)
  · simp [SendNextRequest, Request.write, SendWriteReport, cassert, ok_bind, h, throw_eq_error,
      error_bind]

/-- C9, as amended, on the two-byte sensitivity block `63 03` written to
`0x04B0001A` on the fresh engine. -/
theorem C9_WriteData_size_only_asserted_witness :
    WriteData false 0x04B0001A [0x63, 0x03] Impl.ctor =
      .ok { Impl.ctor with requests := [Request.write 0x04B0001A [0x63, 0x03]] } ∧
    SendNextRequest false { Impl.ctor with requests := [Request.write 0x04B0001A [0x63, 0x03]] } =
      .ok (true,
        { Impl.ctor with
          requests := [{ Request.write 0x04B0001A [0x63, 0x03] with sent := true }]
          output :=
            [[0x16, 0x04, 0xB0, 0x00, 0x1A, 0x02, 0x63, 0x03, 0, 0, 0, 0, 0, 0, 0, 0, 0, 0, 0, 0,
              0, 0]] }) :=
  (C9_WriteData_size_only_asserted false 0x04B0001A [0x63, 0x03] Impl.ctor).1
    (by decide) (by decide)

/-- C9 as stated fails: with assertions compiled out, `WriteData` enqueues a
payload of 17 bytes whole instead of rejecting it. -/
theorem C9_counterexample :
    WriteData true 0x04B00000 [1, 2, 3, 4, 5, 6, 7, 8, 9, 10, 11, 12, 13, 14, 15, 16, 17]
        Impl.ctor =
      .ok { Impl.ctor with
            requests :=
              [{ type := .Write
                 buffer := [1, 2, 3, 4, 5, 6, 7, 8, 9, 10, 11, 12, 13, 14, 15, 16, 17]
                 address := 0x04B00000, error := 0, done := 0, pending := 17, sent := false,
                 handler := none }] } := by
  rfl

/-! ## The lifecycle: the first poll -/

theorem SendNextRequest_status (nd : Bool) (s : Impl) (r : Bool × Impl)
    (h : SendNextRequest nd s = .ok r) : r.2.status = s.status := by
  rcases SendNextRequest_cases nd s r h with ⟨h1, _⟩ | ⟨_, _, _, _, h3⟩
  · rw [h1]
  · rw [h3]

theorem ProcessStatusReport_status (nd : Bool) (buf : List Nat) (s : Impl) (r : Bool × Impl)
    (h : ProcessStatusReport nd buf s = .ok r) : r.2.status = s.status := by
  obtain ⟨s1, ⟨_, st⟩, h1 | ⟨_, _, _, _, _, h3⟩⟩ := ProcessStatusReport_queue nd buf s r h
  · rw [st, h1.1]
  · rw [st, h3]

theorem ProcessDataReport_status (nd : Bool) (buf : List Nat) (s : Impl) (r : Bool × Impl)
    (h : ProcessDataReport nd buf s = .ok r) : r.2.status = s.status := by
  obtain ⟨_, _, _, st, _⟩ := ProcessDataReport_queue nd buf s r h
  exact st

theorem ProcessAcknowledgeReport_status (nd : Bool) (buf : List Nat) (s : Impl)
    (r : Bool × Impl) (h : ProcessAcknowledgeReport nd buf s = .ok r) :
    r.2.status = s.status := by
  cases hq : s.requests with
  | nil =>
    obtain ⟨e, he⟩ := ProcessAcknowledgeReport_nil nd buf s hq
    rw [he] at h
    cases h
  | cons req rest =>
    rw [ProcessAcknowledgeReport_cons nd buf s req rest hq] at h
    rw [← Except.ok.inj h]

theorem ProcessReport_status (nd : Bool) (buf : List Nat) (now : ℚ) (s : Impl)
    (r : Bool × Impl) (h : ProcessReport nd buf now s = .ok r) : r.2.status = s.status := by
  unfold ProcessReport at h
  dsimp only at h
  by_cases t20 : byteAt buf 0 = 0x20
  · rw [if_pos t20] at h
    obtain ⟨r1, h1, h⟩ := bind_eq_ok h
    have e : (false, r1.2) = r := Except.ok.inj h
    have st := ProcessStatusReport_status nd _ _ r1 h1
    rw [← e]
    exact st
  rw [if_neg t20] at h
  by_cases t21 : byteAt buf 0 = 0x21
  · rw [if_pos t21] at h
    obtain ⟨r1, h1, h⟩ := bind_eq_ok h
    have e : (false, r1.2) = r := Except.ok.inj h
    have st := ProcessDataReport_status nd _ _ r1 h1
    rw [← e]
    exact st
  rw [if_neg t21] at h
  by_cases t22 : byteAt buf 0 = 0x22
  · rw [if_pos t22] at h
    obtain ⟨r1, h1, h⟩ := bind_eq_ok h
    have e : (false, r1.2) = r := Except.ok.inj h
    have st := ProcessAcknowledgeReport_status nd _ _ r1 h1
    rw [← e]
    exact st
  rw [if_neg t22] at h
  by_cases t30 : byteAt buf 0 = 0x30
  · rw [if_pos t30] at h
    have e := Except.ok.inj h
    rw [← e]
  rw [if_neg t30] at h
  by_cases t31 : byteAt buf 0 = 0x31
  · rw [if_pos t31] at h
    have e := Except.ok.inj h
    rw [← e]
  rw [if_neg t31] at h
  by_cases t32 : byteAt buf 0 = 0x32
  · rw [if_pos t32] at h
    have e := Except.ok.inj h
    rw [← e]
  rw [if_neg t32] at h
  by_cases t33 : byteAt buf 0 = 0x33
  · rw [if_pos t33] at h
    have e := Except.ok.inj h
    rw [← e]
  rw [if_neg t33] at h
  by_cases t35 : byteAt buf 0 = 0x35
  · rw [if_pos t35] at h
    have e := Except.ok.inj h
    rw [← e]
  rw [if_neg t35] at h
  by_cases t36 : byteAt buf 0 = 0x36
  · rw [if_pos t36] at h
    have e := Except.ok.inj h
    rw [← e]
  rw [if_neg t36] at h
  by_cases t37 : byteAt buf 0 = 0x37
  · rw [if_pos t37] at h
    have e := Except.ok.inj h
    rw [← e]
  rw [if_neg t37] at h
  obtain ⟨_, _, h⟩ := bind_eq_ok h
  rw [← Except.ok.inj h]

/-- C10: a poll in phase `Connected` whose transport read succeeds and whose
report is processed returns true, sets the phase to `Startup` and appends
exactly `Read(0x00000016, 8)` and then a status request behind everything the
report processing left in the queue. -/
theorem C10_Poll_connected (nd : Bool) (report : List Nat) (now : ℚ) (s : Impl)
    (r1 r2 : Bool × Impl) (hs : s.status = WII_STATUS_CONNECTED)
    (hm : nd = true ∨ s.reportMode ≠ ReportMode.Undefined)
    (h1 : SendNextRequest nd s = .ok r1) (h2 : ProcessReport nd report now r1.2 = .ok r2) :
    Poll nd (some report) now s =
      .ok (true,
        { r2.2 with
          requests := r2.2.requests ++
            [Request.read 0x00000016 8 .ParseCalibrationData, Request.status]
          status := WII_STATUS_STARTUP }) := by
  have c1 : cassert nd (decide (s.reportMode ≠ ReportMode.Undefined)) = .ok () := by
    rcases hm with h | h
    · rw [h]; exact cassert_ndebug _
    · exact cassert_of nd (by simpa using h)
  have st : r2.2.status = WII_STATUS_CONNECTED := by
    rw [ProcessReport_status nd report now r1.2 r2 h2, SendNextRequest_status nd s r1 h1, hs]
  have e1 : ¬ (s.status = WII_STATUS_ERROR ∨ s.status = WII_STATUS_SHUTDOWN_COMPLETE) := by
    rw [hs]; decide
  have e2 : r2.2.status ≠ WII_STATUS_READY := by rw [st]; decide
  unfold Poll
  simp only [c1, ok_bind, if_neg e1, h1, h2, if_pos e2, if_pos st, ReadCalibrationData,
    ReadData_eq, PushRequest_status, pure_eq_ok, List.append_assoc, List.singleton_append]

/-- C10 on the first poll of a connected engine in report mode `Buttons` that
reads the buttons report `30 00 00`. -/
theorem C10_Poll_connected_witness :
    ∃ s1, Poll false (some [0x30, 0x00, 0x00]) 0
        { Impl.ctor with status := WII_STATUS_CONNECTED, reportMode := .Buttons }
      = .ok (true, s1) ∧ s1.status = WII_STATUS_STARTUP ∧
      s1.requests = [Request.read 0x00000016 8 .ParseCalibrationData, Request.status] :=
  ⟨_, C10_Poll_connected false [0x30, 0x00, 0x00] 0
      { Impl.ctor with status := WII_STATUS_CONNECTED, reportMode := .Buttons }
      (true, { Impl.ctor with status := WII_STATUS_CONNECTED, reportMode := .Buttons })
      (false, _) rfl (Or.inr (by decide)) rfl rfl, rfl, rfl⟩

/-! ## The lifecycle: startup -/

theorem cassert_reportMode (nd : Bool) (s : Impl)
    (hm : nd = true ∨ s.reportMode ≠ ReportMode.Undefined) :
    cassert nd (decide (s.reportMode ≠ ReportMode.Undefined)) = .ok () := by
  rcases hm with h | h
  · rw [h]; exact cassert_ndebug _
  · exact cassert_of nd (by simpa using h)

/-- C11: a poll in phase `Startup` whose transport read succeeds and whose
report is processed returns true.  If the queue is non-empty after the report
has been processed, the poll leaves the state as the report processing left it:
the phase is still `Startup`, the motion-sensor sub-phase is not touched and
nothing is enqueued.  If the queue is empty, the queue becomes exactly
`[Read(0x04A600FE, 2)]`, the motion-sensor sub-phase becomes `Startup` and the
phase becomes `Ready`. -/
theorem C11_Poll_startup (nd : Bool) (report : List Nat) (now : ℚ) (s : Impl)
    (r1 r2 : Bool × Impl) (hs : s.status = WII_STATUS_STARTUP)
    (hm : nd = true ∨ s.reportMode ≠ ReportMode.Undefined)
    (h1 : SendNextRequest nd s = .ok r1) (h2 : ProcessReport nd report now r1.2 = .ok r2) :
    (r2.2.requests ≠ [] →
      Poll nd (some report) now s = .ok (true, r2.2) ∧ r2.2.status = WII_STATUS_STARTUP) ∧
    (r2.2.requests = [] →
      Poll nd (some report) now s =
        .ok (true,
          { r2.2 with
            state :=
              { r2.2.state with
                extension :=
                  { r2.2.state.extension with
                    motionPlus :=
                      { r2.2.state.extension.motionPlus with status := WII_STATUS_MP_STARTUP } } }
            requests := [Request.read 0x04A600FE 2 .ParseMotionPlusIdentifier]
            status := WII_STATUS_READY })) := by
  have c1 := cassert_reportMode nd s hm
  have st : r2.2.status = WII_STATUS_STARTUP := by
    rw [ProcessReport_status nd report now r1.2 r2 h2, SendNextRequest_status nd s r1 h1, hs]
  have e1 : ¬ (s.status = WII_STATUS_ERROR ∨ s.status = WII_STATUS_SHUTDOWN_COMPLETE) := by
    rw [hs]; decide
  have e2 : r2.2.status ≠ WII_STATUS_READY := by rw [st]; decide
  have e3 : ¬ r2.2.status = WII_STATUS_CONNECTED := by rw [st]; decide
  constructor
  · intro hq
    refine ⟨?_, st⟩
    unfold Poll
    simp only [c1, ok_bind, if_neg e1, h1, h2, if_pos e2, if_neg e3, if_pos st, if_neg hq,
      pure_eq_ok]
  · intro hq
    unfold Poll
    simp only [c1, ok_bind, if_neg e1, h1, h2, if_pos e2, if_neg e3, if_pos st, if_pos hq,
      ReadMotionPlusIdentifier, ReadData_eq, pure_eq_ok, hq, List.nil_append, ↓reduceIte]

/-- C11 on two polls of an engine in phase `Startup` and report mode `Buttons`
that read the buttons report `30 00 00`: with a status request queued the phase
stays `Startup`, with an empty queue the identifier read is enqueued. -/
theorem C11_Poll_startup_witness :
    (∃ s1, Poll false (some [0x30, 0x00, 0x00]) 0
        { Impl.ctor with
          status := WII_STATUS_STARTUP, reportMode := .Buttons, requests := [Request.status] }
      = .ok (true, s1) ∧ s1.status = WII_STATUS_STARTUP ∧
      s1.requests = [{ Request.status with sent := true }] ∧
      s1.state.extension.motionPlus.status = WII_STATUS_MP_UNKNOWN) ∧
    (∃ s1, Poll false (some [0x30, 0x00, 0x00]) 0
        { Impl.ctor with status := WII_STATUS_STARTUP, reportMode := .Buttons }
      = .ok (true, s1) ∧ s1.status = WII_STATUS_READY ∧
      s1.requests = [Request.read 0x04A600FE 2 .ParseMotionPlusIdentifier] ∧
      s1.state.extension.motionPlus.status = WII_STATUS_MP_STARTUP) :=
  ⟨⟨_, ((C11_Poll_startup false [0x30, 0x00, 0x00] 0
      { Impl.ctor with
        status := WII_STATUS_STARTUP, reportMode := .Buttons, requests := [Request.status] }
      (true, _) (false, _) rfl (Or.inr (by decide)) rfl rfl).1 (by decide)).1, rfl, rfl, rfl⟩,
   ⟨_, (C11_Poll_startup false [0x30, 0x00, 0x00] 0
      { Impl.ctor with status := WII_STATUS_STARTUP, reportMode := .Buttons }
      (true, _) (false, _) rfl (Or.inr (by decide)) rfl rfl).2 rfl, rfl, rfl, rfl⟩⟩

/-! ## The lifecycle: shutdown -/

theorem SetLEDs_ok (nd : Bool) (leds : Nat) (s : Impl) :
    SetLEDs nd leds s =
      .ok (true,
        { s with
          state := { s.state with leds := leds &&& 0xF0 }
          output := s.output ++ [[0x11, (leds &&& 0xF0) % 256 ||| rumbleBit s]] }) := by
  unfold SetLEDs
  simp only [SendReportByte_ok, WII_OUTPUT_LEDS]
  rfl

theorem SetRumble_ok (nd : Bool) (enable : Bool) (s : Impl) :
    SetRumble nd enable s =
      .ok (true,
        { s with
          state := { s.state with rumble := enable, leds := s.state.leds &&& 0xF0 }
          output := s.output ++
            [[0x11, (s.state.leds &&& 0xF0) % 256 ||| (if enable then 0x01 else 0x00)]] }) := by
  unfold SetRumble
  simp only [SetLEDs_ok]
  rfl

theorem Shutdown_active (nd : Bool) (s : Impl)
    (h : ¬ (s.status = WII_STATUS_SHUTDOWN ∨ s.status = WII_STATUS_SHUTDOWN_COMPLETE ∨
      s.status = WII_STATUS_UNKNOWN ∨ s.status = WII_STATUS_STARTUP ∨
      s.status = WII_STATUS_DISCONNECTED ∨ s.status = WII_STATUS_ERROR)) :
    Shutdown nd s =
      .ok (true,
        { s with
          state := { s.state with leds := 0, rumble := false }
          requests := s.requests ++
            [Request.write 0x04A400F0 [0x55], Request.write 0x04A600FE [0x00]]
          output := s.output ++ [[0x11, rumbleBit s], [0x11, 0x00]]
          status := WII_STATUS_SHUTDOWN }) := by
  have e1 : ¬ (s.status = WII_STATUS_SHUTDOWN ∨ s.status = WII_STATUS_SHUTDOWN_COMPLETE) := by
    tauto
  have e2 : ¬ s.status = WII_STATUS_UNKNOWN := by tauto
  have e3 : ¬ s.status = WII_STATUS_STARTUP := by tauto
  have e4 : ¬ s.status = WII_STATUS_DISCONNECTED := by tauto
  have e5 : ¬ s.status = WII_STATUS_ERROR := by tauto
  unfold Shutdown
  simp only [if_neg e1, if_neg e2, if_neg e3, if_neg e4, if_neg e5, DisableMotionPlus_ok,
    ok_bind, SetLEDs_ok, SetRumble_ok, pure_eq_ok]
  simp [rumbleBit]

theorem Shutdown_idle (nd : Bool) (s : Impl)
    (h : s.status = WII_STATUS_SHUTDOWN ∨ s.status = WII_STATUS_SHUTDOWN_COMPLETE ∨
      s.status = WII_STATUS_UNKNOWN ∨ s.status = WII_STATUS_STARTUP ∨
      s.status = WII_STATUS_DISCONNECTED ∨ s.status = WII_STATUS_ERROR) :
    Shutdown nd s = .ok (true, s) := by
  unfold Shutdown
  rcases h with h | h | h | h | h | h <;> rw [h] <;> rfl

/-- C12: `Shutdown` always returns true.  In phase `Shutdown`,
`ShutdownComplete`, `Unknown`, `Startup`, `Disconnected` or `Error` it leaves
the engine as it is: no state change, nothing enqueued, nothing transmitted.
In phase `Connected` or `Ready` it appends exactly `Write(0x04A400F0, [0x55])`
and then `Write(0x04A600FE, [0x00])`, sets the LED mask to 0 and rumble to
false, transmits the two LED reports of `SetLEDs(0)` and `SetRumble(false)`, and
sets the phase to `Shutdown`.  A second call right after the first changes
nothing: state, queue and transmitted reports stay those of the first call. -/
theorem C12_Shutdown_idempotent (nd : Bool) (s : Impl) :
    (∃ s1, Shutdown nd s = .ok (true, s1) ∧ Shutdown nd s1 = .ok (true, s1)) ∧
    (s.status = WII_STATUS_SHUTDOWN ∨ s.status = WII_STATUS_SHUTDOWN_COMPLETE ∨
      s.status = WII_STATUS_UNKNOWN ∨ s.status = WII_STATUS_STARTUP ∨
      s.status = WII_STATUS_DISCONNECTED ∨ s.status = WII_STATUS_ERROR →
        Shutdown nd s = .ok (true, s)) ∧
    (s.status = WII_STATUS_CONNECTED ∨ s.status = WII_STATUS_READY →
      Shutdown nd s =
        .ok (true,
          { s with
            state := { s.state with leds := 0, rumble := false }
            requests := s.requests ++
              [Request.write 0x04A400F0 [0x55], Request.write 0x04A600FE [0x00]]
            output := s.output ++ [[0x11, rumbleBit s], [0x11, 0x00]]
            status := WII_STATUS_SHUTDOWN })) := by
  refine ⟨?_, Shutdown_idle nd s, ?_⟩
  · by_cases h : s.status = WII_STATUS_SHUTDOWN ∨ s.status = WII_STATUS_SHUTDOWN_COMPLETE ∨
        s.status = WII_STATUS_UNKNOWN ∨ s.status = WII_STATUS_STARTUP ∨
        s.status = WII_STATUS_DISCONNECTED ∨ s.status = WII_STATUS_ERROR
    · exact ⟨s, Shutdown_idle nd s h, Shutdown_idle nd s h⟩
    · exact ⟨_, Shutdown_active nd s h, Shutdown_idle nd _ (Or.inl rfl)⟩
  · intro h
    apply Shutdown_active
    rcases h with h | h <;> rw [h] <;> decide

/-- C12 on the fresh engine put in phase `Ready` with LED 1 lit and rumble on:
the first call enqueues the two writes and transmits the two LED reports, the
second call returns the same engine. -/
theorem C12_Shutdown_idempotent_witness :
    ∃ s1, Shutdown false
        { Impl.ctor with
          status := WII_STATUS_READY
          state := { Impl.ctor.state with leds := 0x10, rumble := true } }
      = .ok (true, s1) ∧
      s1.requests = [Request.write 0x04A400F0 [0x55], Request.write 0x04A600FE [0x00]] ∧
      s1.output = [[0x11, 0x01], [0x11, 0x00]] ∧ s1.state.leds = 0 ∧ s1.state.rumble = false ∧
      s1.status = WII_STATUS_SHUTDOWN ∧ Shutdown false s1 = .ok (true, s1) :=
  ⟨_, (C12_Shutdown_idempotent false
      { Impl.ctor with
        status := WII_STATUS_READY
        state := { Impl.ctor.state with leds := 0x10, rumble := true } }).2.2 (Or.inr rfl),
    rfl, rfl, rfl, rfl, rfl, rfl⟩

/-! ## The lifecycle: transport failure -/

theorem Poll_stopped (nd : Bool) (input : Option (List Nat)) (now : ℚ) (s : Impl)
    (hs : s.status = WII_STATUS_ERROR ∨ s.status = WII_STATUS_SHUTDOWN_COMPLETE)
    (hm : nd = true ∨ s.reportMode ≠ ReportMode.Undefined) :
    Poll nd input now s = .ok (false, s) := by
  unfold Poll
  simp only [cassert_reportMode nd s hm, ok_bind, if_pos hs, pure_eq_ok]

theorem calls_stopped (nd : Bool) (s : Impl)
    (hs : s.status = WII_STATUS_ERROR ∨ s.status = WII_STATUS_SHUTDOWN_COMPLETE)
    (hm : nd = true ∨ s.reportMode ≠ ReportMode.Undefined) (cs : List Call) :
    calls nd cs s = .ok (cs.map Call.stopped, s) := by
  induction cs with
  | nil => rfl
  | cons c more ih =>
    have hc : call nd c s = .ok (c.stopped, s) := by
      cases c with
      | poll input now => exact Poll_stopped nd input now s hs hm
      | shutdown =>
        apply Shutdown_idle
        rcases hs with h | h
        · exact Or.inr (Or.inr (Or.inr (Or.inr (Or.inr h))))
        · exact Or.inr (Or.inl h)
    simp only [calls, hc, ok_bind, ih, pure_eq_ok, List.map_cons]

theorem SendNextRequest_state (nd : Bool) (s : Impl) (r : Bool × Impl)
    (h : SendNextRequest nd s = .ok r) :
    r.2.state = s.state ∧ r.2.handled = s.handled ∧ r.2.reportMode = s.reportMode ∧
      r.2.continous = s.continous := by
  rcases SendNextRequest_cases nd s r h with ⟨h1, _⟩ | ⟨_, _, _, _, h3⟩
  · rw [h1]; exact ⟨rfl, rfl, rfl, rfl⟩
  · rw [h3]; exact ⟨rfl, rfl, rfl, rfl⟩

/-- C13: when the transport read fails during a poll in a phase other than
`Error` and `ShutdownComplete`, the poll returns false and sets the phase to
`Error`; nothing is decoded, the state and the callback log being those before
the poll and the queue and the transmitted reports those left by
`SendNextRequest`.  From then on every poll returns false and every shutdown
returns true, each leaving the engine as it is: no report is sent or read and
the phase stays `Error`. -/
theorem C13_transport_failure_is_fatal (nd : Bool) (now : ℚ) (s : Impl) (r1 : Bool × Impl)
    (hs : s.status ≠ WII_STATUS_ERROR ∧ s.status ≠ WII_STATUS_SHUTDOWN_COMPLETE)
    (hm : nd = true ∨ s.reportMode ≠ ReportMode.Undefined)
    (h1 : SendNextRequest nd s = .ok r1) :
    Poll nd none now s = .ok (false, { r1.2 with status := WII_STATUS_ERROR }) ∧
    r1.2.state = s.state ∧ r1.2.handled = s.handled ∧
    (∀ cs : List Call,
      calls nd cs { r1.2 with status := WII_STATUS_ERROR } =
        .ok (cs.map Call.stopped, { r1.2 with status := WII_STATUS_ERROR })) := by
  obtain ⟨e1, e2, e3, _⟩ := SendNextRequest_state nd s r1 h1
  have hn : ¬ (s.status = WII_STATUS_ERROR ∨ s.status = WII_STATUS_SHUTDOWN_COMPLETE) := by
    tauto
  refine ⟨?_, e1, e2, fun cs => calls_stopped nd _ (Or.inl rfl) ?_ cs⟩
  · unfold Poll
    simp only [cassert_reportMode nd s hm, ok_bind, if_neg hn, h1, pure_eq_ok]
  · rcases hm with h | h
    · exact Or.inl h
    · right
      show r1.2.reportMode ≠ ReportMode.Undefined
      rw [e3]
      exact h

/-- C13 on an engine in phase `Ready` and report mode `Buttons` with an unsent
status request: the failing poll transmits the status request and ends in
phase `Error`; a poll on a buttons report, a shutdown and a failing poll after
it return false, true and false and change nothing. -/
theorem C13_transport_failure_is_fatal_witness :
    Poll false none 0
        { Impl.ctor with
          status := WII_STATUS_READY, reportMode := .Buttons, requests := [Request.status] }
      = .ok (false,
        { Impl.ctor with
          status := WII_STATUS_ERROR, reportMode := .Buttons
          requests := [{ Request.status with sent := true }], output := [[0x15, 0x00]] }) ∧
    calls false [.poll (some [0x30, 0x00, 0x00]) 1, .shutdown, .poll none 2]
        { Impl.ctor with
          status := WII_STATUS_ERROR, reportMode := .Buttons
          requests := [{ Request.status with sent := true }], output := [[0x15, 0x00]] }
      = .ok ([false, true, false],
        { Impl.ctor with
          status := WII_STATUS_ERROR, reportMode := .Buttons
          requests := [{ Request.status with sent := true }], output := [[0x15, 0x00]] }) :=
  ⟨(C13_transport_failure_is_fatal false 0
      { Impl.ctor with
        status := WII_STATUS_READY, reportMode := .Buttons, requests := [Request.status] }
      (true, _) ⟨by decide, by decide⟩ (Or.inr (by decide)) rfl).1,
   (C13_transport_failure_is_fatal false 0
      { Impl.ctor with
        status := WII_STATUS_READY, reportMode := .Buttons, requests := [Request.status] }
      (true, _) ⟨by decide, by decide⟩ (Or.inr (by decide)) rfl).2.2.2
      [.poll (some [0x30, 0x00, 0x00]) 1, .shutdown, .poll none 2]⟩

/-! ## The report mode is kept by the report handlers -/

theorem cassert_debug {c : Bool} {u : Unit} (h : cassert false c = .ok u) : c = true := by
  cases c
  · cases h
  · rfl

theorem EnableIR_reportMode (nd : Bool) (m : IRData.Mode) (sens : IRData.Sensitivity)
    (t : Impl) (r : Bool × Impl) (h : EnableIR nd m sens t = .ok r) :
    r.2.reportMode = t.reportMode ∧ r.2.continous = t.continous := by
  by_cases hc : t.state.ir.mode = m ∧ t.state.ir.sensitivity = sens
  · rw [EnableIR_same nd m sens t hc] at h
    cases h
    exact ⟨rfl, rfl⟩
  · rw [EnableIR_change nd m sens t hc] at h
    cases h
    exact ⟨rfl, rfl⟩

theorem DisableIR_reportMode (nd : Bool) (t : Impl) (r : Bool × Impl)
    (h : DisableIR nd t = .ok r) :
    r.2.reportMode = t.reportMode ∧ r.2.continous = t.continous := by
  by_cases hc : t.state.ir.mode = IRData.Mode.Off
  · rw [DisableIR_same nd t hc] at h
    cases h
    exact ⟨rfl, rfl⟩
  · rw [DisableIR_change nd t hc] at h
    cases h
    exact ⟨rfl, rfl⟩

theorem SetReportMode_reportMode (nd : Bool) (mode : ReportMode) (sens : IRData.Sensitivity)
    (c : Bool) (s : Impl) (r : Bool × Impl) (h : SetReportMode nd mode sens c s = .ok r) :
    r.2.reportMode = mode ∧ r.2.continous = c := by
  unfold SetReportMode at h
  dsimp only at h
  obtain ⟨r2, h2, h⟩ := bind_eq_ok h
  rw [SendReport_ok nd _ _ 1 r2.2 (by norm_num) (by simp)] at h
  have e : r2.2.reportMode = mode ∧ r2.2.continous = c := by
    cases mode
    case ButtonsAccelIR => exact EnableIR_reportMode nd _ _ _ r2 h2
    case ButtonsIRExt => exact EnableIR_reportMode nd _ _ _ r2 h2
    case ButtonsAccelIRExt => exact EnableIR_reportMode nd _ _ _ r2 h2
    case Undefined => exact DisableIR_reportMode nd _ r2 h2
    case Buttons => exact DisableIR_reportMode nd _ r2 h2
    case ButtonsAccel => exact DisableIR_reportMode nd _ r2 h2
    case ButtonsExt => exact DisableIR_reportMode nd _ r2 h2
    case ButtonsAccelExt => exact DisableIR_reportMode nd _ r2 h2
  rw [← Except.ok.inj h]
  exact e

theorem callHandler_reportMode (nd : Bool) (h : Handler) (buf : List Nat) (len error : Nat)
    (s : Impl) (r : Bool × Impl) (hr : callHandler nd h buf len error s = .ok r) :
    r.2.reportMode = s.reportMode ∧ r.2.continous = s.continous := by
  unfold callHandler at hr
  cases h
  case ParseCalibrationData => cases hr; exact ⟨rfl, rfl⟩
  case ParseExtensionCalibrationData => cases hr; exact ⟨rfl, rfl⟩
  case ParseMotionPlusCalibrationData => cases hr; exact ⟨rfl, rfl⟩
  case ParseExtensionIdentifier =>
    simp only [] at hr
    unfold ParseExtensionIdentifier at hr
    simp only [ReadMotionPlusCalibrationData, ReadExtensionCalibrationData, ReadData_eq] at hr
    split_ifs at hr <;> (cases hr; exact ⟨rfl, rfl⟩)
  case ParseMotionPlusIdentifier =>
    simp only [] at hr
    unfold ParseMotionPlusIdentifier at hr
    obtain ⟨_, _, hr⟩ := bind_eq_ok hr
    simp only [EnableMotionPlus_ok, DisableMotionPlus_ok] at hr
    split_ifs at hr <;> (cases hr; exact ⟨rfl, rfl⟩)

theorem ProcessStatusReport_reportMode (nd : Bool) (buf : List Nat) (s : Impl)
    (r : Bool × Impl) (h : ProcessStatusReport nd buf s = .ok r) :
    r.2.reportMode = s.reportMode ∧ r.2.continous = s.continous := by
  unfold ProcessStatusReport at h
  dsimp only at h
  obtain ⟨_, _, h⟩ := bind_eq_ok h
  obtain ⟨s1, h1, h⟩ := bind_eq_ok h
  obtain ⟨s2, h2, h⟩ := bind_eq_ok h
  obtain ⟨r4, h4, h⟩ := bind_eq_ok h
  have hr : r = (true, r4.2) := (Except.ok.inj h).symm
  subst hr
  have e1 : s1.reportMode = s.reportMode ∧ s1.continous = s.continous := by
    cases hq : s.requests with
    | nil =>
      rw [hq] at h1
      rw [← Except.ok.inj h1]
      exact ⟨rfl, rfl⟩
    | cons req rest =>
      rw [hq] at h1
      dsimp only at h1
      split_ifs at h1
      · rw [PopRequest_cons nd s req rest hq] at h1
        rw [← Except.ok.inj h1]
        exact ⟨rfl, rfl⟩
      · rw [← Except.ok.inj h1]
        exact ⟨rfl, rfl⟩
  have e2 : s2.reportMode = s1.reportMode ∧ s2.continous = s1.continous := by
    simp only [WriteDataByte_ok, ok_bind, ReadExtensionIdentifier, ReadData_eq, pure_eq_ok]
      at h2
    split_ifs at h2 <;> (cases h2; exact ⟨rfl, rfl⟩)
  obtain ⟨m4, c4⟩ := SetReportMode_reportMode nd _ _ _ _ r4 h4
  exact ⟨by rw [m4]; exact e2.1.trans e1.1, by rw [c4]; exact e2.2.trans e1.2⟩

/-- What a successful `ProcessDataReport` did: the front request stays, with its
type, address and callback, or it had a callback and is removed while unsent
requests are appended; with assertions enabled it is a read request. -/
theorem ProcessDataReport_inv (nd : Bool) (buf : List Nat) (s : Impl) (r : Bool × Impl)
    (h : ProcessDataReport nd buf s = .ok r) :
    ∃ req rest, s.requests = req :: rest ∧ (nd = false → req.type = RequestType.Read) ∧
      r.2.reportMode = s.reportMode ∧ r.2.continous = s.continous ∧
      ((∃ req2, req2.ident = req.ident ∧ r.2.requests = req2 :: rest) ∨
       (∃ new, r.2.requests = rest ++ new ∧ (∀ x ∈ new, x.sent = false) ∧
          req.handler ≠ none)) := by
  unfold ProcessDataReport at h
  dsimp only at h
  obtain ⟨_, _, h⟩ := bind_eq_ok h
  cases hq : s.requests with
  | nil =>
    rw [hq] at h
    cases h
  | cons req rest =>
    rw [hq] at h
    dsimp only at h
    obtain ⟨_, ht, h⟩ := bind_eq_ok h
    obtain ⟨_, _, h⟩ := bind_eq_ok h
    obtain ⟨_, _, h⟩ := bind_eq_ok h
    obtain ⟨req2, h2, h⟩ := bind_eq_ok h
    have hid : req2.ident = req.ident := by
      split_ifs at h2 <;> (cases h2; rfl)
    have hty : nd = false → req.type = RequestType.Read := by
      intro hn
      rw [hn] at ht
      exact of_decide_eq_true (cassert_debug ht)
    refine ⟨req, rest, rfl, hty, ?_⟩
    split_ifs at h
    · obtain ⟨_, _, h⟩ := bind_eq_ok h
      cases hh : req2.handler with
      | none =>
        rw [hh] at h
        cases h
      | some hd =>
        rw [hh] at h
        dsimp only at h
        obtain ⟨r1, h3, h⟩ := bind_eq_ok h
        obtain ⟨s3, h4, h⟩ := bind_eq_ok h
        have hr : r = (true, s3) := (Except.ok.inj h).symm
        subst hr
        obtain ⟨⟨⟨new, e, u⟩, st⟩, _, _⟩ := callHandler_appends nd hd _ _ _ _ r1 h3
        obtain ⟨m1, c1⟩ := callHandler_reportMode nd hd _ _ _ _ r1 h3
        dsimp only at e st m1 c1
        rw [PopRequest_cons nd r1.2 req2 (rest ++ new) (by rw [e]; rfl)] at h4
        have e3 : s3 = { r1.2 with requests := rest ++ new } := (Except.ok.inj h4).symm
        subst e3
        have hne : req.handler ≠ none := by
          have e5 : req2.handler = req.handler := congrArg (fun p => p.2.2) hid
          rw [← e5, hh]
          exact Option.some_ne_none hd
        exact ⟨m1, c1, Or.inr ⟨new, rfl, u, hne⟩⟩
    · have hr : r = (true, { s with requests := req2 :: rest }) := (Except.ok.inj h).symm
      subst hr
      exact ⟨rfl, rfl, Or.inl ⟨req2, hid, rfl⟩⟩

theorem ProcessAcknowledgeReport_inv (nd : Bool) (buf : List Nat) (s : Impl)
    (r : Bool × Impl) (h : ProcessAcknowledgeReport nd buf s = .ok r) :
    ∃ req rest, s.requests = req :: rest ∧
      r = (true,
        { s with
          requests :=
            if byteAt buf 0 = WII_OUTPUT_WRITE_MEMORY ∧ req.type = RequestType.Write then rest
            else { req with error := byteAt buf 1 } :: rest }) := by
  cases hq : s.requests with
  | nil =>
    obtain ⟨x, hx⟩ := ProcessAcknowledgeReport_nil nd buf s hq
    rw [hx] at h
    cases h
  | cons req rest =>
    rw [ProcessAcknowledgeReport_cons nd buf s req rest hq] at h
    exact ⟨req, rest, rfl, (Except.ok.inj h).symm⟩

/-- What a successful `ProcessReport` did to the queue: unsent requests are
appended, and either every request stays in place with its type, address and
callback, or the front request is removed by a report that completes it.  The
report mode and the continuous flag are kept. -/
theorem ProcessReport_queue (nd : Bool) (buf : List Nat) (now : ℚ) (s : Impl)
    (r : Bool × Impl) (h : ProcessReport nd buf now s = .ok r) :
    r.2.reportMode = s.reportMode ∧ r.2.continous = s.continous ∧
    ∃ new, (∀ x ∈ new, x.sent = false) ∧
      ((∃ kept, r.2.requests = kept ++ new ∧
          kept.map Request.ident = s.requests.map Request.ident) ∨
       (∃ req rest, s.requests = req :: rest ∧ r.2.requests = rest ++ new ∧
          completes nd buf req)) := by
  have same : ∀ st : State, (⟨false, { s with state := st }⟩ : Bool × Impl) = r →
      r.2.reportMode = s.reportMode ∧ r.2.continous = s.continous ∧
      ∃ new, (∀ x ∈ new, x.sent = false) ∧
        ((∃ kept, r.2.requests = kept ++ new ∧
            kept.map Request.ident = s.requests.map Request.ident) ∨
         (∃ req rest, s.requests = req :: rest ∧ r.2.requests = rest ++ new ∧
            completes nd buf req)) := by
    intro st e
    rw [← e]
    exact ⟨rfl, rfl, [], by simp, Or.inl ⟨s.requests, by simp, rfl⟩⟩
  unfold ProcessReport at h
  dsimp only at h
  by_cases t20 : byteAt buf 0 = 0x20
  · rw [if_pos t20] at h
    obtain ⟨r1, h1, h⟩ := bind_eq_ok h
    have e : (false, r1.2) = r := Except.ok.inj h
    have hm := ProcessStatusReport_reportMode nd _ _ r1 h1
    have hq := ProcessStatusReport_queue nd _ _ r1 h1
    rw [← e]
    refine ⟨hm.1, hm.2, ?_⟩
    obtain ⟨s1, ⟨⟨new, en, un⟩, _⟩, c | ⟨req, rest, q, ty, _, c⟩⟩ := hq
    · rw [c.1] at en
      exact ⟨new, un, Or.inl ⟨s.requests, en, rfl⟩⟩
    · rw [c] at en
      exact ⟨new, un, Or.inr ⟨req, rest, q, en, Or.inl ⟨t20, ty⟩⟩⟩
  rw [if_neg t20] at h
  by_cases t21 : byteAt buf 0 = 0x21
  · rw [if_pos t21] at h
    obtain ⟨r1, h1, h⟩ := bind_eq_ok h
    have e : (false, r1.2) = r := Except.ok.inj h
    have hq := ProcessDataReport_inv nd _ _ r1 h1
    rw [← e]
    obtain ⟨req, rest, q, ty, m, c, ⟨req2, hid, k⟩ | ⟨new, k, un, hh⟩⟩ := hq
    · refine ⟨m, c, [], by simp, Or.inl ⟨req2 :: rest, by simpa using k, ?_⟩⟩
      have q2 : s.requests = req :: rest := q
      rw [q2, List.map_cons, List.map_cons, hid]
    · exact ⟨m, c, new, un, Or.inr ⟨req, rest, q, k, Or.inr (Or.inl ⟨t21, hh, ty⟩)⟩⟩
  rw [if_neg t21] at h
  by_cases t22 : byteAt buf 0 = 0x22
  · rw [if_pos t22] at h
    obtain ⟨r1, h1, h⟩ := bind_eq_ok h
    have e : (false, r1.2) = r := Except.ok.inj h
    rw [← e]
    obtain ⟨req, rest, hq, h1⟩ := ProcessAcknowledgeReport_inv nd _ _ r1 h1
    rw [h1]
    refine ⟨rfl, rfl, [], by simp, ?_⟩
    by_cases hc : byteAt (buf.drop 3) 0 = WII_OUTPUT_WRITE_MEMORY ∧
        req.type = RequestType.Write
    · right
      refine ⟨req, rest, hq, by simp [if_pos hc], Or.inr (Or.inr ⟨t22, ?_, hc.2⟩)⟩
      have h3 := hc.1
      rw [byteAt_drop] at h3
      exact h3
    · left
      refine ⟨{ req with error := byteAt (buf.drop 3) 1 } :: rest, by simp [if_neg hc], ?_⟩
      have q2 : s.requests = req :: rest := hq
      rw [q2]
      rfl
  rw [if_neg t22] at h
  by_cases t30 : byteAt buf 0 = 0x30
  · rw [if_pos t30] at h
    exact same _ (Except.ok.inj h)
  rw [if_neg t30] at h
  by_cases t31 : byteAt buf 0 = 0x31
  · rw [if_pos t31] at h
    exact same _ (Except.ok.inj h)
  rw [if_neg t31] at h
  by_cases t32 : byteAt buf 0 = 0x32
  · rw [if_pos t32] at h
    exact same _ (Except.ok.inj h)
  rw [if_neg t32] at h
  by_cases t33 : byteAt buf 0 = 0x33
  · rw [if_pos t33] at h
    exact same _ (Except.ok.inj h)
  rw [if_neg t33] at h
  by_cases t35 : byteAt buf 0 = 0x35
  · rw [if_pos t35] at h
    exact same _ (Except.ok.inj h)
  rw [if_neg t35] at h
  by_cases t36 : byteAt buf 0 = 0x36
  · rw [if_pos t36] at h
    exact same _ (Except.ok.inj h)
  rw [if_neg t36] at h
  by_cases t37 : byteAt buf 0 = 0x37
  · rw [if_pos t37] at h
    exact same _ (Except.ok.inj h)
  rw [if_neg t37] at h
  obtain ⟨_, _, h⟩ := bind_eq_ok h
  exact same _ (Except.ok.inj h)

theorem SendNextRequest_idents (nd : Bool) (s : Impl) (r : Bool × Impl)
    (h : SendNextRequest nd s = .ok r) :
    r.2.requests.map Request.ident = s.requests.map Request.ident ∧
    (∀ req rest, s.requests = req :: rest →
      ∃ req1, r.2.requests = req1 :: rest ∧ req1.type = req.type ∧
        req1.handler = req.handler) := by
  rcases SendNextRequest_cases nd s r h with ⟨h1, _⟩ | ⟨req, rest, q, _, h3⟩
  · rw [h1]
    exact ⟨rfl, fun req rest q => ⟨req, q, rfl, rfl⟩⟩
  · rw [h3, q]
    refine ⟨rfl, fun req0 rest0 q0 => ?_⟩
    cases q0
    exact ⟨_, rfl, rfl, rfl⟩

/-! ## The lifecycle: draining the queue during shutdown -/

/-- C14: a poll in phase `Shutdown` whose transport read succeeds and whose
report is processed returns true and leaves what the report processing left,
except that the phase becomes `ShutdownComplete` exactly when the queue is then
empty.  Between the start of the poll and its end every request stays in place
with its type, address and callback, or the front request alone is removed by a
report that completes it; requests are otherwise only appended.  Once the phase
is `ShutdownComplete`, every poll returns false and leaves the engine as it is,
so no report is sent or read. -/
theorem C14_Poll_shutdown_drains (nd : Bool) (report : List Nat) (now : ℚ) (s : Impl)
    (r1 r2 : Bool × Impl) (hs : s.status = WII_STATUS_SHUTDOWN)
    (hm : nd = true ∨ s.reportMode ≠ ReportMode.Undefined)
    (h1 : SendNextRequest nd s = .ok r1) (h2 : ProcessReport nd report now r1.2 = .ok r2) :
    ∃ s3, Poll nd (some report) now s = .ok (true, s3) ∧
      s3 = { r2.2 with
             status :=
               if r2.2.requests = [] then WII_STATUS_SHUTDOWN_COMPLETE
               else WII_STATUS_SHUTDOWN } ∧
      (s3.status = WII_STATUS_SHUTDOWN_COMPLETE ↔ r2.2.requests = []) ∧
      (∃ new, (∀ x ∈ new, x.sent = false) ∧
        ((∃ kept, s3.requests = kept ++ new ∧
            kept.map Request.ident = s.requests.map Request.ident) ∨
         (∃ req rest, s.requests = req :: rest ∧ s3.requests = rest ++ new ∧
            completes nd report req))) ∧
      (s3.status = WII_STATUS_SHUTDOWN_COMPLETE →
        ∀ cs : List Call, calls nd cs s3 = .ok (cs.map Call.stopped, s3)) := by
  have c1 := cassert_reportMode nd s hm
  have st : r2.2.status = WII_STATUS_SHUTDOWN := by
    rw [ProcessReport_status nd report now r1.2 r2 h2, SendNextRequest_status nd s r1 h1, hs]
  have e1 : ¬ (s.status = WII_STATUS_ERROR ∨ s.status = WII_STATUS_SHUTDOWN_COMPLETE) := by
    rw [hs]; decide
  have e2 : r2.2.status ≠ WII_STATUS_READY := by rw [st]; decide
  have e3 : ¬ r2.2.status = WII_STATUS_CONNECTED := by rw [st]; decide
  have e4 : ¬ r2.2.status = WII_STATUS_STARTUP := by rw [st]; decide
  obtain ⟨m2, _, new, un, q2⟩ := ProcessReport_queue nd report now r1.2 r2 h2
  obtain ⟨i1, f1⟩ := SendNextRequest_idents nd s r1 h1
  obtain ⟨_, _, m1, _⟩ := SendNextRequest_state nd s r1 h1
  refine ⟨{ r2.2 with
            status :=
              if r2.2.requests = [] then WII_STATUS_SHUTDOWN_COMPLETE
              else WII_STATUS_SHUTDOWN }, ?_, rfl, ?_, ⟨new, un, ?_⟩, ?_⟩
  · unfold Poll
    simp only [c1, ok_bind, if_neg e1, h1, h2, if_pos e2, if_neg e3, if_neg e4, if_pos st,
      pure_eq_ok]
    by_cases hq : r2.2.requests = []
    · simp only [if_pos hq]
    · simp only [if_neg hq]
      have e : r2.2 = { r2.2 with status := WII_STATUS_SHUTDOWN } := by
        rw [← st]
      rw [← e]
  · by_cases hq : r2.2.requests = []
    · simp only [hq, if_true, iff_true]
    · simp only [if_neg hq, hq, iff_false]
      decide
  · rcases q2 with ⟨kept, k, ki⟩ | ⟨req1, rest, q, k, c⟩
    · exact Or.inl ⟨kept, k, ki.trans i1⟩
    · right
      cases hq : s.requests with
      | nil =>
        rw [hq] at i1
        rw [q] at i1
        cases i1
      | cons req rest0 =>
        obtain ⟨req2, q3, ty, hh⟩ := f1 req rest0 hq
        rw [q] at q3
        cases q3
        refine ⟨req, rest, rfl, k, ?_⟩
        unfold completes at c ⊢
        rw [ty, hh] at c
        exact c
  · intro hc cs
    apply calls_stopped
    · exact Or.inr hc
    · rcases hm with h | h
      · exact Or.inl h
      · right
        show r2.2.reportMode ≠ ReportMode.Undefined
        rw [m2, m1]
        exact h

/-- C14 on an engine in phase `Shutdown` and report mode `Buttons` whose queue
holds the last shutdown write, already sent: the acknowledgement `22 00 00 16
00` removes it and the phase becomes `ShutdownComplete`; the buttons report `30
00 00` leaves it queued and the phase stays `Shutdown`. -/
theorem C14_Poll_shutdown_drains_witness :
    Poll false (some [0x22, 0x00, 0x00, 0x16, 0x00]) 0
        { Impl.ctor with
          status := WII_STATUS_SHUTDOWN, reportMode := .Buttons
          requests := [{ Request.write 0x04A600FE [0x00] with sent := true }] }
      = .ok (true,
        { Impl.ctor with
          status := WII_STATUS_SHUTDOWN_COMPLETE, reportMode := .Buttons
          state := { Impl.ctor.state with data := State.Buttons } }) ∧
    Poll false (some [0x30, 0x00, 0x00]) 0
        { Impl.ctor with
          status := WII_STATUS_SHUTDOWN, reportMode := .Buttons
          requests := [{ Request.write 0x04A600FE [0x00] with sent := true }] }
      = .ok (true,
        { Impl.ctor with
          status := WII_STATUS_SHUTDOWN, reportMode := .Buttons
          requests := [{ Request.write 0x04A600FE [0x00] with sent := true }]
          state := { Impl.ctor.state with data := State.Buttons } }) := by
  obtain ⟨s3, p3, e3, _⟩ := C14_Poll_shutdown_drains false [0x22, 0x00, 0x00, 0x16, 0x00] 0
    { Impl.ctor with
      status := WII_STATUS_SHUTDOWN, reportMode := .Buttons
      requests := [{ Request.write 0x04A600FE [0x00] with sent := true }] }
    (true, _) (false, _) rfl (Or.inr (by decide)) rfl rfl
  obtain ⟨s4, p4, e4, _⟩ := C14_Poll_shutdown_drains false [0x30, 0x00, 0x00] 0
    { Impl.ctor with
      status := WII_STATUS_SHUTDOWN, reportMode := .Buttons
      requests := [{ Request.write 0x04A600FE [0x00] with sent := true }] }
    (true, _) (false, _) rfl (Or.inr (by decide)) rfl rfl
  rw [p3, p4, e3, e4]
  exact ⟨rfl, rfl⟩

/-! ## The motion-sensor identifier -/

/-- C16: `ParseMotionPlusIdentifier` called in sub-phase `Startup` with error 0,
`ID` being the big-endian value of the first two bytes.  For `ID = 0x0005` it
returns true and appends exactly `Write(0x04A600F0, [0x55])`,
`Write(0x04A600FE, [m])` and a status request, in that order, with `m = 0x05`
when the extension type is exactly `Nunchuk`, `0x07` when it is exactly
`ClassicController` and `0x04` otherwise.  For `ID` one of `0x0405`, `0x0505`,
`0x0705` it returns true, sets the sub-phase to `NoLongerActive` and appends
exactly `Write(0x04A400F0, [0x55])` and then `Write(0x04A600FE, [0x00])`.  For
any other `ID` it returns false and leaves the engine as it is. -/
theorem C16_ParseMotionPlusIdentifier_by_id (nd : Bool) (buf : List Nat) (len : Nat) (s : Impl)
    (hs : s.state.extension.motionPlus.status = WII_STATUS_MP_STARTUP) :
    (Read16 buf = 0x0005 →
      ParseMotionPlusIdentifier nd buf len 0 s =
        .ok (true,
          { s with
            requests := s.requests ++
              [Request.write 0x04A600F0 [0x55],
               Request.write 0x04A600FE
                 [if s.state.extension.type = Extension.Nunchuk then 0x05
                  else if s.state.extension.type = Extension.ClassicController then 0x07
                  else 0x04],
               Request.status] })) ∧
    (Read16 buf = 0x0405 ∨ Read16 buf = 0x0505 ∨ Read16 buf = 0x0705 →
      ParseMotionPlusIdentifier nd buf len 0 s =
        .ok (true,
          { s with
            state :=
              { s.state with
                extension :=
                  { s.state.extension with
                    motionPlus :=
                      { s.state.extension.motionPlus with
                        status := WII_STATUS_MP_NO_LONGER_ACTIVE } } }
            requests := s.requests ++
              [Request.write 0x04A400F0 [0x55], Request.write 0x04A600FE [0x00]] })) ∧
    (Read16 buf ≠ 0x0005 ∧ Read16 buf ≠ 0x0405 ∧ Read16 buf ≠ 0x0505 ∧ Read16 buf ≠ 0x0705 →
      ParseMotionPlusIdentifier nd buf len 0 s = .ok (false, s)) := by
  have c1 : cassert nd (decide (s.state.extension.motionPlus.status = WII_STATUS_MP_STARTUP))
      = .ok () := cassert_of nd (by simpa using hs)
  have e0 : ¬ (0 : Nat) ≠ 0 := by simp
  refine ⟨fun h5 => ?_, fun h4 => ?_, fun hn => ?_⟩
  · unfold ParseMotionPlusIdentifier
    simp only [c1, ok_bind, if_neg e0, if_pos h5, EnableMotionPlus_ok]
  · have h5 : ¬ Read16 buf = 0x0005 := by
      rcases h4 with h | h | h <;> rw [h] <;> decide
    unfold ParseMotionPlusIdentifier
    simp only [c1, ok_bind, if_neg e0, if_neg h5, if_pos h4, DisableMotionPlus_ok]
  · have h4 : ¬ (Read16 buf = 0x0405 ∨ Read16 buf = 0x0505 ∨ Read16 buf = 0x0705) := by
      tauto
    unfold ParseMotionPlusIdentifier
    simp only [c1, ok_bind, if_neg e0, if_neg hn.1, if_neg h4, pure_eq_ok]

/-- C16 on an engine in sub-phase `Startup` with a nunchuk as extension: the
identifier `00 05` enqueues the activation writes with mode byte `0x05` and a
status request, the identifier `05 05` the deactivation writes, and the
identifier `00 00` nothing. -/
theorem C16_ParseMotionPlusIdentifier_by_id_witness :
    (∃ s1, ParseMotionPlusIdentifier false [0x00, 0x05] 2 0
        { Impl.ctor with
          state :=
            { Impl.ctor.state with
              extension :=
                { Extension.zero with
                  type := Extension.Nunchuk
                  motionPlus :=
                    { Extension.zero.motionPlus with status := WII_STATUS_MP_STARTUP } } } }
      = .ok (true, s1) ∧
      s1.requests =
        [Request.write 0x04A600F0 [0x55], Request.write 0x04A600FE [0x05], Request.status] ∧
      s1.state.extension.motionPlus.status = WII_STATUS_MP_STARTUP) ∧
    (∃ s1, ParseMotionPlusIdentifier false [0x05, 0x05] 2 0
        { Impl.ctor with
          state :=
            { Impl.ctor.state with
              extension :=
                { Extension.zero with
                  type := Extension.Nunchuk
                  motionPlus :=
                    { Extension.zero.motionPlus with status := WII_STATUS_MP_STARTUP } } } }
      = .ok (true, s1) ∧
      s1.requests = [Request.write 0x04A400F0 [0x55], Request.write 0x04A600FE [0x00]] ∧
      s1.state.extension.motionPlus.status = WII_STATUS_MP_NO_LONGER_ACTIVE) ∧
    ParseMotionPlusIdentifier false [0x00, 0x00] 2 0
        { Impl.ctor with
          state :=
            { Impl.ctor.state with
              extension :=
                { Extension.zero with
                  type := Extension.Nunchuk
                  motionPlus :=
                    { Extension.zero.motionPlus with status := WII_STATUS_MP_STARTUP } } } }
      = .ok (false,
        { Impl.ctor with
          state :=
            { Impl.ctor.state with
              extension :=
                { Extension.zero with
                  type := Extension.Nunchuk
                  motionPlus :=
                    { Extension.zero.motionPlus with status := WII_STATUS_MP_STARTUP } } } }) :=
  ⟨⟨_, (C16_ParseMotionPlusIdentifier_by_id false [0x00, 0x05] 2 _ rfl).1 (by decide),
      rfl, rfl⟩,
   ⟨_, (C16_ParseMotionPlusIdentifier_by_id false [0x05, 0x05] 2 _ rfl).2.1 (by decide),
      rfl, rfl⟩,
   (C16_ParseMotionPlusIdentifier_by_id false [0x00, 0x00] 2 _ rfl).2.2 (by decide)⟩

/-! ## The IR camera -/

/-- C19: `EnableIR` with the stored mode and sensitivity returns the engine as it
is: nothing transmitted, nothing enqueued, nothing changed.  Otherwise it
stores mode and sensitivity, transmits report `0x13` and then report `0x1A`,
each with payload `0x04` (and the rumble bit), and appends exactly five writes
in this order: `(0x04B00030, [0x08])`, `(0x04B00000, block 1 of the level)`,
`(0x04B0001A, block 2 of the level)`, `(0x04B00033, [mode])`,
`(0x04B00030, [0x08])`; block 1 has 9 bytes and block 2 has 2.  A second call of
`EnableIR` with the same arguments right after the first leaves the engine as
the first call left it, and so does a second call of `DisableIR`. -/
theorem C19_EnableIR_idempotent (nd : Bool) (mode : IRData.Mode)
    (sensitivity : IRData.Sensitivity) (s : Impl) :
    (s.state.ir.mode = mode ∧ s.state.ir.sensitivity = sensitivity →
      EnableIR nd mode sensitivity s = .ok (true, s)) ∧
    (¬ (s.state.ir.mode = mode ∧ s.state.ir.sensitivity = sensitivity) →
      EnableIR nd mode sensitivity s =
        .ok (true,
          { s with
            state :=
              { s.state with ir := { s.state.ir with mode := mode, sensitivity := sensitivity } }
            output := s.output ++ [[0x13, 0x04 ||| rumbleBit s], [0x1A, 0x04 ||| rumbleBit s]]
            requests := s.requests ++
              [Request.write 0x04B00030 [0x08],
               Request.write 0x04B00000 (IRBlock.block1 sensitivity),
               Request.write 0x04B0001A (IRBlock.block2 sensitivity),
               Request.write 0x04B00033 [mode.toNat],
               Request.write 0x04B00030 [0x08]] })) ∧
    (IRBlock.block1 sensitivity).length = 9 ∧ (IRBlock.block2 sensitivity).length = 2 ∧
    (∃ s1, EnableIR nd mode sensitivity s = .ok (true, s1) ∧
      EnableIR nd mode sensitivity s1 = .ok (true, s1)) ∧
    (∃ s1, DisableIR nd s = .ok (true, s1) ∧ DisableIR nd s1 = .ok (true, s1)) := by
  refine ⟨EnableIR_same nd mode sensitivity s, EnableIR_change nd mode sensitivity s,
    block1_length sensitivity, block2_length sensitivity, ?_, ?_⟩
  · by_cases h : s.state.ir.mode = mode ∧ s.state.ir.sensitivity = sensitivity
    · exact ⟨s, EnableIR_same nd mode sensitivity s h, EnableIR_same nd mode sensitivity s h⟩
    · exact ⟨_, EnableIR_change nd mode sensitivity s h,
        EnableIR_same nd mode sensitivity _ ⟨rfl, rfl⟩⟩
  · by_cases h : s.state.ir.mode = IRData.Mode.Off
    · exact ⟨s, DisableIR_same nd s h, DisableIR_same nd s h⟩
    · exact ⟨_, DisableIR_change nd s h, DisableIR_same nd _ rfl⟩

/-- C19 on the fresh engine: `EnableIR(Extended, Level3)` transmits `13 04` and
`1A 04` and enqueues the five writes with the level 3 blocks and mode byte
`0x03`; `EnableIR(Basic, Level3)` would write mode byte `0x01`. -/
theorem C19_EnableIR_idempotent_witness :
    EnableIR false .Extended .Level3 Impl.ctor =
      .ok (true,
        { Impl.ctor with
          state :=
            { Impl.ctor.state with
              ir := { Impl.ctor.state.ir with mode := .Extended, sensitivity := .Level3 } }
          output := [[0x13, 0x04], [0x1A, 0x04]]
          requests :=
            [Request.write 0x04B00030 [0x08],
             Request.write 0x04B00000 [0x02, 0x00, 0x00, 0x71, 0x01, 0x00, 0xAA, 0x00, 0x64],
             Request.write 0x04B0001A [0x63, 0x03],
             Request.write 0x04B00033 [0x03],
             Request.write 0x04B00030 [0x08]] }) ∧
    IRData.Mode.Basic.toNat = 0x01 :=
  ⟨(C19_EnableIR_idempotent false .Extended .Level3 Impl.ctor).2.1 (by decide), rfl⟩

/-! ## The report mode and the IR configuration -/

theorem EnableIR_ir (nd : Bool) (m : IRData.Mode) (sens : IRData.Sensitivity)
    (t : Impl) (r : Bool × Impl) (h : EnableIR nd m sens t = .ok r) :
    r.2.state.ir.mode = m ∧ r.2.state.ir.sensitivity = sens := by
  by_cases hc : t.state.ir.mode = m ∧ t.state.ir.sensitivity = sens
  · rw [EnableIR_same nd m sens t hc] at h
    cases h
    exact hc
  · rw [EnableIR_change nd m sens t hc] at h
    cases h
    exact ⟨rfl, rfl⟩

theorem DisableIR_ir (nd : Bool) (t : Impl) (r : Bool × Impl) (h : DisableIR nd t = .ok r) :
    r.2.state.ir.mode = IRData.Mode.Off ∧
      r.2.state.ir.sensitivity = t.state.ir.sensitivity := by
  by_cases hc : t.state.ir.mode = IRData.Mode.Off
  · rw [DisableIR_same nd t hc] at h
    cases h
    exact ⟨hc, rfl⟩
  · rw [DisableIR_change nd t hc] at h
    cases h
    exact ⟨rfl, rfl⟩

/-- Every call of `SetReportMode` leaves the IR camera in the mode of the report
mode it sets. -/
theorem SetReportMode_irConfigured (nd : Bool) (mode : ReportMode)
    (sens : IRData.Sensitivity) (c : Bool) (s : Impl) (r : Bool × Impl)
    (h : SetReportMode nd mode sens c s = .ok r) : irConfigured r.2 := by
  obtain ⟨m, _⟩ := SetReportMode_reportMode nd mode sens c s r h
  unfold irConfigured
  rw [m]
  unfold SetReportMode at h
  dsimp only at h
  obtain ⟨r2, h2, h⟩ := bind_eq_ok h
  rw [SendReport_ok nd _ _ 1 r2.2 (by norm_num) (by simp)] at h
  have e : r2.2.state.ir.mode = irModeOf mode := by
    cases mode
    case ButtonsAccelIR => exact (EnableIR_ir nd _ _ _ r2 h2).1
    case ButtonsIRExt => exact (EnableIR_ir nd _ _ _ r2 h2).1
    case ButtonsAccelIRExt => exact (EnableIR_ir nd _ _ _ r2 h2).1
    case Undefined => exact (DisableIR_ir nd _ r2 h2).1
    case Buttons => exact (DisableIR_ir nd _ r2 h2).1
    case ButtonsAccel => exact (DisableIR_ir nd _ r2 h2).1
    case ButtonsExt => exact (DisableIR_ir nd _ r2 h2).1
    case ButtonsAccelExt => exact (DisableIR_ir nd _ r2 h2).1
  rw [← Except.ok.inj h]
  exact e

theorem ReportMode_toNat_lt (mode : ReportMode) : mode.toNat < 256 := by
  cases mode <;> decide

/-- The call `SetReportMode` on an engine whose IR camera is already in the mode
and sensitivity asked for: only the report-mode report is transmitted. -/
theorem SetReportMode_same (nd : Bool) (mode : ReportMode) (sens : IRData.Sensitivity)
    (c : Bool) (s : Impl) (h : s.state.ir.mode = irModeOf mode)
    (k : s.state.ir.sensitivity = sens) :
    SetReportMode nd mode sens c s =
      .ok (true,
        { s with
          reportMode := mode
          continous := c
          output := s.output ++
            [[0x12, (if c then 0x04 else 0x00) ||| rumbleBit s, mode.toNat]] }) := by
  obtain ⟨s1, h1, _⟩ := SetReportMode_appends nd mode sens c s
  rw [h1]
  unfold SetReportMode at h1
  dsimp only at h1
  obtain ⟨r2, h2, h1⟩ := bind_eq_ok h1
  have e : r2 = (true, { s with reportMode := mode, continous := c }) := by
    cases mode
    case ButtonsAccelIR =>
      have e2 : EnableIR nd .Extended sens { s with reportMode := .ButtonsAccelIR, continous := c }
          = .ok r2 := h2
      rw [EnableIR_same nd .Extended sens { s with reportMode := .ButtonsAccelIR, continous := c }
        ⟨h, k⟩] at e2
      exact (Except.ok.inj e2).symm
    case ButtonsIRExt =>
      have e2 : EnableIR nd .Basic sens { s with reportMode := .ButtonsIRExt, continous := c }
          = .ok r2 := h2
      rw [EnableIR_same nd .Basic sens { s with reportMode := .ButtonsIRExt, continous := c }
        ⟨h, k⟩] at e2
      exact (Except.ok.inj e2).symm
    case ButtonsAccelIRExt =>
      have e2 : EnableIR nd .Basic sens { s with reportMode := .ButtonsAccelIRExt, continous := c }
          = .ok r2 := h2
      rw [EnableIR_same nd .Basic sens { s with reportMode := .ButtonsAccelIRExt, continous := c }
        ⟨h, k⟩] at e2
      exact (Except.ok.inj e2).symm
    case Undefined =>
      have e2 : DisableIR nd { s with reportMode := .Undefined, continous := c } = .ok r2 := h2
      rw [DisableIR_same nd { s with reportMode := .Undefined, continous := c } h] at e2
      exact (Except.ok.inj e2).symm
    case Buttons =>
      have e2 : DisableIR nd { s with reportMode := .Buttons, continous := c } = .ok r2 := h2
      rw [DisableIR_same nd { s with reportMode := .Buttons, continous := c } h] at e2
      exact (Except.ok.inj e2).symm
    case ButtonsAccel =>
      have e2 : DisableIR nd { s with reportMode := .ButtonsAccel, continous := c } = .ok r2 := h2
      rw [DisableIR_same nd { s with reportMode := .ButtonsAccel, continous := c } h] at e2
      exact (Except.ok.inj e2).symm
    case ButtonsExt =>
      have e2 : DisableIR nd { s with reportMode := .ButtonsExt, continous := c } = .ok r2 := h2
      rw [DisableIR_same nd { s with reportMode := .ButtonsExt, continous := c } h] at e2
      exact (Except.ok.inj e2).symm
    case ButtonsAccelExt =>
      have e2 : DisableIR nd { s with reportMode := .ButtonsAccelExt, continous := c } = .ok r2 := h2
      rw [DisableIR_same nd { s with reportMode := .ButtonsAccelExt, continous := c } h] at e2
      exact (Except.ok.inj e2).symm
  subst e
  rw [SendReport_ok nd _ _ 1 _ (by norm_num) (by simp)] at h1
  rw [← Except.ok.inj h1]
  have b0 : byteAt [if c = true then 4 else 0, mode.toNat] 0 = if c = true then 4 else 0 := by
    cases c <;> rfl
  have b1 : byteAt [if c = true then 4 else 0, mode.toNat] 1 = mode.toNat := by
    show mode.toNat % 256 = mode.toNat
    exact Nat.mod_eq_of_lt (ReportMode_toNat_lt mode)
  have er : List.range 1 = [0] := rfl
  simp only [b0, er, List.map_cons, List.map_nil, zero_add, b1, WII_OUTPUT_REPORT_MODE]
  rfl

/-- The result of `ProcessStatusReport` on an engine whose IR camera is in the
mode of the report mode: a sent status request at the front is removed, the
extension requests are appended when the extension-present flag turns on, the
extension type is cleared when it turns off outside the motion-sensor startup,
the status fields are stored and the report-mode report is transmitted. -/
theorem ProcessStatusReport_configured (nd : Bool) (buf : List Nat) (s : Impl)
    (hm : nd = true ∨ s.reportMode ≠ ReportMode.Undefined) (hc : irConfigured s) :
    ProcessStatusReport nd buf s =
      .ok (true,
        { s with
          requests := statusPopped s.requests ++
            (if decide (byteAt buf 0 &&& 0x02 ≠ 0) ≠ s.state.extPresent ∧
                decide (byteAt buf 0 &&& 0x02 ≠ 0) = true then
              (if s.state.extension.motionPlus.status ≠ WII_STATUS_MP_STARTUP then
                [Request.write 0x04A400F0 [0x55], Request.write 0x04A400FB [0x00]]
              else []) ++ [Request.read 0x04A400FA 6 .ParseExtensionIdentifier]
            else [])
          state :=
            { s.state with
              battery := byteAt buf 3
              batteryLow := decide (byteAt buf 0 &&& 0x01 ≠ 0)
              extPresent := decide (byteAt buf 0 &&& 0x02 ≠ 0)
              speakerEnabled := decide (byteAt buf 0 &&& 0x04 ≠ 0)
              irEnabled := decide (byteAt buf 0 &&& 0x08 ≠ 0)
              leds := byteAt buf 0 &&& 0xF0
              extension :=
                { s.state.extension with
                  type :=
                    if decide (byteAt buf 0 &&& 0x02 ≠ 0) ≠ s.state.extPresent ∧
                        decide (byteAt buf 0 &&& 0x02 ≠ 0) = false ∧
                        s.state.extension.motionPlus.status ≠ WII_STATUS_MP_STARTUP then 0
                    else s.state.extension.type } }
          output := s.output ++
            [[0x12, (if s.continous then 0x04 else 0x00) ||| rumbleBit s,
              s.reportMode.toNat]] }) := by
  obtain ⟨r, h⟩ := ProcessStatusReport_total nd buf s hm
  rw [h]
  unfold ProcessStatusReport at h
  dsimp only at h
  obtain ⟨_, _, h⟩ := bind_eq_ok h
  obtain ⟨s1, h1, h⟩ := bind_eq_ok h
  obtain ⟨s2, h2, h⟩ := bind_eq_ok h
  obtain ⟨r4, h4, h⟩ := bind_eq_ok h
  have hr : r = (true, r4.2) := (Except.ok.inj h).symm
  subst hr
  have e1 : s1 = { s with requests := statusPopped s.requests } := by
    cases hq : s.requests with
    | nil =>
      rw [hq] at h1
      rw [← Except.ok.inj h1]
      cases s
      simp only [statusPopped] at hq ⊢
      rw [hq]
    | cons req rest =>
      rw [hq] at h1
      dsimp only at h1
      by_cases hp : req.type = RequestType.Status ∧ req.sent = true
      · rw [if_pos hp, PopRequest_cons nd s req rest hq] at h1
        rw [← Except.ok.inj h1]
        simp only [statusPopped, if_pos hp]
      · rw [if_neg hp] at h1
        rw [← Except.ok.inj h1]
        cases s
        simp only [statusPopped, if_neg hp] at hq ⊢
        rw [hq]
  subst e1
  simp only [WriteDataByte_ok, ok_bind, ReadExtensionIdentifier, ReadData_eq, pure_eq_ok]
    at h2
  by_cases hf : decide (byteAt buf 0 &&& 0x02 ≠ 0) ≠ s.state.extPresent
  · rw [if_pos hf] at h2
    by_cases ht : decide (byteAt buf 0 &&& 0x02 ≠ 0) = true
    · rw [if_pos ht] at h2
      have hnf : ¬ decide (byteAt buf 0 &&& 0x02 ≠ 0) = false := by rw [ht]; decide
      have g1 : decide (byteAt buf 0 &&& 0x02 ≠ 0) ≠ s.state.extPresent ∧
          decide (byteAt buf 0 &&& 0x02 ≠ 0) = true := ⟨hf, ht⟩
      have g2 : ¬ (decide (byteAt buf 0 &&& 0x02 ≠ 0) ≠ s.state.extPresent ∧
          decide (byteAt buf 0 &&& 0x02 ≠ 0) = false ∧
          s.state.extension.motionPlus.status ≠ WII_STATUS_MP_STARTUP) := fun x => hnf x.2.1
      rw [if_pos g1, if_neg g2]
      by_cases hp : s.state.extension.motionPlus.status ≠ WII_STATUS_MP_STARTUP
      · simp only [if_pos hp, ok_bind] at h2
        have e2 := (Except.ok.inj h2).symm
        subst e2
        rw [SetReportMode_same (h := by exact hc) (k := by rfl)] at h4
        rw [← Except.ok.inj h4, if_pos hp]
        simp only [List.append_assoc, List.cons_append, List.nil_append]
        rfl
      · simp only [if_neg hp, ok_bind] at h2
        have e2 := (Except.ok.inj h2).symm
        subst e2
        rw [SetReportMode_same (h := by exact hc) (k := by rfl)] at h4
        rw [← Except.ok.inj h4, if_neg hp]
        simp only [List.append_assoc, List.cons_append, List.nil_append]
        rfl
    · rw [if_neg ht] at h2
      have g1 : ¬ (decide (byteAt buf 0 &&& 0x02 ≠ 0) ≠ s.state.extPresent ∧
          decide (byteAt buf 0 &&& 0x02 ≠ 0) = true) := fun x => ht x.2
      have hff : decide (byteAt buf 0 &&& 0x02 ≠ 0) = false := by
        simpa using ht
      rw [if_neg g1]
      by_cases hp : s.state.extension.motionPlus.status ≠ WII_STATUS_MP_STARTUP
      · simp only [if_pos hp] at h2
        have e2 := (Except.ok.inj h2).symm
        subst e2
        rw [SetReportMode_same (h := by exact hc) (k := by rfl)] at h4
        have g2 : decide (byteAt buf 0 &&& 0x02 ≠ 0) ≠ s.state.extPresent ∧
            decide (byteAt buf 0 &&& 0x02 ≠ 0) = false ∧
            s.state.extension.motionPlus.status ≠ WII_STATUS_MP_STARTUP := ⟨hf, hff, hp⟩
        rw [← Except.ok.inj h4, if_pos g2, List.append_nil]
        rfl
      · simp only [if_neg hp] at h2
        have e2 := (Except.ok.inj h2).symm
        subst e2
        rw [SetReportMode_same (h := by exact hc) (k := by rfl)] at h4
        have g2 : ¬ (decide (byteAt buf 0 &&& 0x02 ≠ 0) ≠ s.state.extPresent ∧
            decide (byteAt buf 0 &&& 0x02 ≠ 0) = false ∧
            s.state.extension.motionPlus.status ≠ WII_STATUS_MP_STARTUP) := fun x => hp x.2.2
        rw [← Except.ok.inj h4, if_neg g2, List.append_nil]
        rfl
  · rw [if_neg hf] at h2
    have e2 := (Except.ok.inj h2).symm
    subst e2
    rw [SetReportMode_same (h := by exact hc) (k := by rfl)] at h4
    have g1 : ¬ (decide (byteAt buf 0 &&& 0x02 ≠ 0) ≠ s.state.extPresent ∧
        decide (byteAt buf 0 &&& 0x02 ≠ 0) = true) := fun x => hf x.1
    have g2 : ¬ (decide (byteAt buf 0 &&& 0x02 ≠ 0) ≠ s.state.extPresent ∧
        decide (byteAt buf 0 &&& 0x02 ≠ 0) = false ∧
        s.state.extension.motionPlus.status ≠ WII_STATUS_MP_STARTUP) := fun x => hf x.1
    rw [← Except.ok.inj h4, if_neg g1, if_neg g2, List.append_nil]
    rfl

/-! ## Status reports: the extension-present flag -/

/-- C17: `ProcessStatusReport` on an engine whose IR camera is in the mode of the
report mode, with `f` the extension-present flag of the report (bit 1 of its
first byte).  The stored flag becomes `f`.  If `f` equals the stored flag,
nothing is enqueued and the extension type is unchanged.  On false to true the
appended requests are exactly `Write(0x04A400F0, [0x55])`,
`Write(0x04A400FB, [0x00])`, `Read(0x04A400FA, 6)` in that order when the
motion-sensor sub-phase is not `Startup`, and only `Read(0x04A400FA, 6)` when
it is; the extension type is unchanged.  On true to false nothing is enqueued,
and the extension type is set to 0 when the sub-phase is not `Startup` and left
unchanged when it is.  The queue the requests are appended to is the queue
without a sent status request at its front. -/
theorem C17_status_report_extension_flag (nd : Bool) (buf : List Nat) (s : Impl)
    (hm : nd = true ∨ s.reportMode ≠ ReportMode.Undefined) (hc : irConfigured s) :
    ∃ s1, ProcessStatusReport nd buf s = .ok (true, s1) ∧
      s1.state.extPresent = decide (byteAt buf 0 &&& 0x02 ≠ 0) ∧
      (decide (byteAt buf 0 &&& 0x02 ≠ 0) = s.state.extPresent →
        s1.requests = statusPopped s.requests ∧
        s1.state.extension.type = s.state.extension.type) ∧
      (s.state.extPresent = false → decide (byteAt buf 0 &&& 0x02 ≠ 0) = true →
        s1.state.extension.type = s.state.extension.type ∧
        (s.state.extension.motionPlus.status ≠ WII_STATUS_MP_STARTUP →
          s1.requests = statusPopped s.requests ++
            [Request.write 0x04A400F0 [0x55], Request.write 0x04A400FB [0x00],
             Request.read 0x04A400FA 6 .ParseExtensionIdentifier]) ∧
        (s.state.extension.motionPlus.status = WII_STATUS_MP_STARTUP →
          s1.requests = statusPopped s.requests ++
            [Request.read 0x04A400FA 6 .ParseExtensionIdentifier])) ∧
      (s.state.extPresent = true → decide (byteAt buf 0 &&& 0x02 ≠ 0) = false →
        s1.requests = statusPopped s.requests ∧
        (s.state.extension.motionPlus.status ≠ WII_STATUS_MP_STARTUP →
          s1.state.extension.type = 0) ∧
        (s.state.extension.motionPlus.status = WII_STATUS_MP_STARTUP →
          s1.state.extension.type = s.state.extension.type)) := by
  refine ⟨_, ProcessStatusReport_configured nd buf s hm hc, rfl, ?_, ?_, ?_⟩
  · intro hf
    have g1 : ¬ (decide (byteAt buf 0 &&& 0x02 ≠ 0) ≠ s.state.extPresent ∧
        decide (byteAt buf 0 &&& 0x02 ≠ 0) = true) := fun x => x.1 hf
    have g2 : ¬ (decide (byteAt buf 0 &&& 0x02 ≠ 0) ≠ s.state.extPresent ∧
        decide (byteAt buf 0 &&& 0x02 ≠ 0) = false ∧
        s.state.extension.motionPlus.status ≠ WII_STATUS_MP_STARTUP) := fun x => x.1 hf
    simp only [if_neg g1, if_neg g2, List.append_nil, and_self]
  · intro he ht
    have g1 : decide (byteAt buf 0 &&& 0x02 ≠ 0) ≠ s.state.extPresent ∧
        decide (byteAt buf 0 &&& 0x02 ≠ 0) = true := ⟨by rw [he, ht]; decide, ht⟩
    have g2 : ¬ (decide (byteAt buf 0 &&& 0x02 ≠ 0) ≠ s.state.extPresent ∧
        decide (byteAt buf 0 &&& 0x02 ≠ 0) = false ∧
        s.state.extension.motionPlus.status ≠ WII_STATUS_MP_STARTUP) := by
      rw [ht]
      exact fun x => Bool.noConfusion x.2.1
    refine ⟨by simp only [if_neg g2], fun hp => ?_, fun hp => ?_⟩
    · simp only [if_pos g1, if_pos hp, List.cons_append, List.nil_append]
    · have hp2 : ¬ s.state.extension.motionPlus.status ≠ WII_STATUS_MP_STARTUP :=
        fun x => x hp
      simp only [if_pos g1, if_neg hp2, List.nil_append]
  · intro he hf
    have g1 : ¬ (decide (byteAt buf 0 &&& 0x02 ≠ 0) ≠ s.state.extPresent ∧
        decide (byteAt buf 0 &&& 0x02 ≠ 0) = true) := by
      rw [hf]
      exact fun x => Bool.noConfusion x.2
    refine ⟨by simp only [if_neg g1, List.append_nil], fun hp => ?_, fun hp => ?_⟩
    · have g2 : decide (byteAt buf 0 &&& 0x02 ≠ 0) ≠ s.state.extPresent ∧
          decide (byteAt buf 0 &&& 0x02 ≠ 0) = false ∧
          s.state.extension.motionPlus.status ≠ WII_STATUS_MP_STARTUP :=
        ⟨by rw [he, hf]; decide, hf, hp⟩
      simp only [if_pos g2]
    · have g2 : ¬ (decide (byteAt buf 0 &&& 0x02 ≠ 0) ≠ s.state.extPresent ∧
          decide (byteAt buf 0 &&& 0x02 ≠ 0) = false ∧
          s.state.extension.motionPlus.status ≠ WII_STATUS_MP_STARTUP) :=
        fun x => x.2.2 hp
      simp only [if_neg g2]

/-- C17 on the fresh engine in report mode `Buttons` with a sent status request
queued: the status report `02 00 00 80` (extension present) removes the status
request and enqueues the two unlock writes and the identifier read. -/
theorem C17_status_report_extension_flag_witness :
    ∃ s1, ProcessStatusReport false [0x02, 0x00, 0x00, 0x80]
        { Impl.ctor with
          reportMode := .Buttons, requests := [{ Request.status with sent := true }] }
      = .ok (true, s1) ∧ s1.state.extPresent = true ∧
      s1.requests =
        [Request.write 0x04A400F0 [0x55], Request.write 0x04A400FB [0x00],
         Request.read 0x04A400FA 6 .ParseExtensionIdentifier] ∧
      s1.state.extension.type = 0 := by
  obtain ⟨s1, h1, h2, _, h4, _⟩ := C17_status_report_extension_flag false
    [0x02, 0x00, 0x00, 0x80]
    { Impl.ctor with
      reportMode := .Buttons, requests := [{ Request.status with sent := true }] }
    (Or.inr (by decide)) rfl
  exact ⟨s1, h1, h2, (h4 rfl rfl).2.1 (by decide), (h4 rfl rfl).1⟩

/-! ## Status reports: the report mode is sent again -/

theorem irWrites_address (m : IRData.Mode) (l : IRData.Sensitivity) (x : Request)
    (h : x ∈ irWrites m l) : B2 x.address = 0xB0 := by
  simp only [irWrites, List.mem_cons, List.mem_singleton, List.not_mem_nil, or_false] at h
  rcases h with h | h | h | h | h <;> rw [h] <;> simp only [Request.write] <;> decide

/-- C18: on an engine whose report mode and IR mode are those left by a call of
`SetReportMode`, every status report makes `ProcessStatusReport` transmit
exactly one report, the report-mode report
`[0x12, (continuous ? 0x04 : 0x00) | rumble bit, current mode]`; the report
mode, the continuous flag and the IR mode and sensitivity stay as they are, and
the requests appended are none, the extension identifier read, or the two
extension unlock writes and that read, so no IR configuration write is
enqueued. -/
theorem C18_status_report_resends_mode (nd : Bool) (buf : List Nat) (s s0 : Impl)
    (mode : ReportMode) (sens : IRData.Sensitivity) (c : Bool) (r0 : Bool × Impl)
    (h0 : SetReportMode nd mode sens c s0 = .ok r0)
    (hmode : s.reportMode = r0.2.reportMode) (hir : s.state.ir.mode = r0.2.state.ir.mode)
    (hm : nd = true ∨ mode ≠ ReportMode.Undefined) :
    ∃ s1, ProcessStatusReport nd buf s = .ok (true, s1) ∧
      s1.output = s.output ++
        [[0x12, (if s.continous then 0x04 else 0x00) ||| rumbleBit s, s.reportMode.toNat]] ∧
      s1.reportMode = s.reportMode ∧ s1.continous = s.continous ∧
      s1.state.ir.mode = s.state.ir.mode ∧
      s1.state.ir.sensitivity = s.state.ir.sensitivity ∧
      ∃ new, s1.requests = statusPopped s.requests ++ new ∧
        (new = [] ∨ new = [Request.read 0x04A400FA 6 .ParseExtensionIdentifier] ∨
          new = [Request.write 0x04A400F0 [0x55], Request.write 0x04A400FB [0x00],
                 Request.read 0x04A400FA 6 .ParseExtensionIdentifier]) ∧
        ∀ x ∈ new, ∀ m l, x ∉ irWrites m l := by
  obtain ⟨e1, _⟩ := SetReportMode_reportMode nd mode sens c s0 r0 h0
  have hc0 := SetReportMode_irConfigured nd mode sens c s0 r0 h0
  have hc : irConfigured s := by
    unfold irConfigured at hc0 ⊢
    rw [hir, hmode]
    exact hc0
  have hm2 : nd = true ∨ s.reportMode ≠ ReportMode.Undefined := by
    rcases hm with h | h
    · exact Or.inl h
    · right
      rw [hmode, e1]
      exact h
  refine ⟨_, ProcessStatusReport_configured nd buf s hm2 hc, rfl, rfl, rfl, rfl, rfl, _, rfl,
    ?_, ?_⟩
  · by_cases g1 : decide (byteAt buf 0 &&& 0x02 ≠ 0) ≠ s.state.extPresent ∧
        decide (byteAt buf 0 &&& 0x02 ≠ 0) = true
    · by_cases hp : s.state.extension.motionPlus.status ≠ WII_STATUS_MP_STARTUP
      · right; right
        simp only [if_pos g1, if_pos hp, List.cons_append, List.nil_append]
      · right; left
        simp only [if_pos g1, if_neg hp, List.nil_append]
    · left
      simp only [if_neg g1]
  · intro x hx m l hi
    have hb := irWrites_address m l x hi
    by_cases g1 : decide (byteAt buf 0 &&& 0x02 ≠ 0) ≠ s.state.extPresent ∧
        decide (byteAt buf 0 &&& 0x02 ≠ 0) = true
    · rw [if_pos g1] at hx
      by_cases hp : s.state.extension.motionPlus.status ≠ WII_STATUS_MP_STARTUP
      · simp only [if_pos hp, List.cons_append, List.nil_append, List.mem_cons,
          List.mem_singleton, List.not_mem_nil, or_false] at hx
        rcases hx with h | h | h <;> rw [h] at hb <;> exact absurd hb (by decide)
      · simp only [if_neg hp, List.nil_append, List.mem_singleton] at hx
        rw [hx] at hb
        exact absurd hb (by decide)
    · rw [if_neg g1] at hx
      cases hx

/-- C18 on the engine left by `SetReportMode(ButtonsAccelIR, Level3, true)` on
the fresh engine: the status report `00 00 00 50` makes the engine transmit
`12 04 33` once more, and mode and IR configuration stay. -/
theorem C18_status_report_resends_mode_witness :
    SetReportMode false .ButtonsAccelIR .Level3 true Impl.ctor =
      .ok (true,
        { Impl.ctor with
          reportMode := .ButtonsAccelIR
          state :=
            { Impl.ctor.state with
              ir := { Impl.ctor.state.ir with mode := .Extended, sensitivity := .Level3 } }
          output := [[0x13, 0x04], [0x1A, 0x04], [0x12, 0x04, 0x33]]
          requests := irWrites .Extended .Level3 }) ∧
    ∃ s2, ProcessStatusReport false [0x00, 0x00, 0x00, 0x50]
        { Impl.ctor with
          reportMode := .ButtonsAccelIR
          state :=
            { Impl.ctor.state with
              ir := { Impl.ctor.state.ir with mode := .Extended, sensitivity := .Level3 } }
          output := [[0x13, 0x04], [0x1A, 0x04], [0x12, 0x04, 0x33]]
          requests := irWrites .Extended .Level3 }
      = .ok (true, s2) ∧
      s2.output = [[0x13, 0x04], [0x1A, 0x04], [0x12, 0x04, 0x33], [0x12, 0x04, 0x33]] ∧
      s2.reportMode = .ButtonsAccelIR ∧ s2.continous = true ∧
      s2.state.ir.mode = .Extended ∧ s2.state.ir.sensitivity = .Level3 := by
  refine ⟨rfl, ?_⟩
  obtain ⟨s2, h, o, m, c, i, l, _⟩ := C18_status_report_resends_mode false
    [0x00, 0x00, 0x00, 0x50]
    { Impl.ctor with
      reportMode := .ButtonsAccelIR
      state :=
        { Impl.ctor.state with
          ir := { Impl.ctor.state.ir with mode := .Extended, sensitivity := .Level3 } }
      output := [[0x13, 0x04], [0x1A, 0x04], [0x12, 0x04, 0x33]]
      requests := irWrites .Extended .Level3 }
    Impl.ctor .ButtonsAccelIR .Level3 true (true, _) rfl rfl rfl (Or.inr (by decide))
  exact ⟨s2, h, o, m, c, i, l⟩

/-! ## The dispatch of data reports -/

theorem decoderKeeps_refl (st : State) : decoderKeeps st st :=
  ⟨rfl, rfl, rfl, rfl, rfl, rfl⟩

theorem decoderKeeps_trans {a b c : State} (h1 : decoderKeeps a b) (h2 : decoderKeeps b c) :
    decoderKeeps a c :=
  ⟨h2.1.trans h1.1, h2.2.1.trans h1.2.1, h2.2.2.1.trans h1.2.2.1,
    h2.2.2.2.1.trans h1.2.2.2.1, h2.2.2.2.2.1.trans h1.2.2.2.2.1,
    h2.2.2.2.2.2.trans h1.2.2.2.2.2⟩

theorem ParseButtons_keeps (st : State) (buf : List Nat) :
    decoderKeeps st (ParseButtons st buf).2 := ⟨rfl, rfl, rfl, rfl, rfl, rfl⟩

theorem ParseAccel_keeps (st : State) (buf : List Nat) :
    decoderKeeps st (ParseAccel st buf).2 := ⟨rfl, rfl, rfl, rfl, rfl, rfl⟩

theorem ParseIR_keeps (st : State) (buf : List Nat) : decoderKeeps st (ParseIR st buf).2 := by
  unfold ParseIR
  cases h : st.ir.mode <;> simp only [h] <;> exact ⟨by simp [h], rfl, rfl, rfl, rfl, rfl⟩

theorem ParseExtension_keeps (st : State) (buf : List Nat) :
    decoderKeeps st (ParseExtension st buf).2 := by
  unfold ParseExtension
  dsimp only
  split_ifs <;> exact ⟨rfl, rfl, rfl, rfl, rfl, rfl⟩

theorem DecodeStep.run_keeps (buf : List Nat) (step : DecodeStep) (st : State) :
    decoderKeeps st (step.run buf st) := by
  cases step
  · exact ParseButtons_keeps st _
  · exact ParseAccel_keeps st _
  · exact ParseIR_keeps st _
  · exact ParseExtension_keeps st _

theorem runSteps_keeps (buf : List Nat) (steps : List DecodeStep) (st : State) :
    decoderKeeps st (runSteps buf steps st) := by
  induction steps generalizing st with
  | nil => exact decoderKeeps_refl st
  | cons step more ih =>
    exact decoderKeeps_trans (DecodeStep.run_keeps buf step st) (ih (step.run buf st))

theorem DecodeStep.run_data (buf : List Nat) (step : DecodeStep) (st : State) (i : Nat)
    (h : (step.run buf st).data.testBit i = true) :
    st.data.testBit i = true ∨ (step.bits.testBit i = true ∧ step.decodes st) := by
  cases step with
  | buttons o =>
    simp only [DecodeStep.run, ParseButtons, Nat.testBit_or, Bool.or_eq_true] at h
    rcases h with h | h
    · exact Or.inl h
    · exact Or.inr ⟨h, trivial⟩
  | accel o =>
    simp only [DecodeStep.run, ParseAccel, Nat.testBit_or, Bool.or_eq_true] at h
    rcases h with h | h
    · exact Or.inl h
    · exact Or.inr ⟨h, trivial⟩
  | ir o =>
    simp only [DecodeStep.run, ParseIR] at h
    cases hm : st.ir.mode with
    | Off =>
      rw [hm] at h
      exact Or.inl h
    | Basic =>
      rw [hm] at h
      simp only [Nat.testBit_or, Bool.or_eq_true] at h
      rcases h with h | h
      · exact Or.inl h
      · exact Or.inr ⟨h, by simp [DecodeStep.decodes, hm]⟩
    | Extended =>
      rw [hm] at h
      simp only [Nat.testBit_or, Bool.or_eq_true] at h
      rcases h with h | h
      · exact Or.inl h
      · exact Or.inr ⟨h, by simp [DecodeStep.decodes, hm]⟩
  | extension o =>
    simp only [DecodeStep.run, ParseExtension] at h
    by_cases h0 : st.extension.type = 0
    · rw [if_pos h0] at h
      exact Or.inl h
    · rw [if_neg h0] at h
      have hb : ∀ b : Nat, (b = State.Nunchuk ∨ b = State.ClassicController ∨
          b = State.MotionPlus) → (st.data ||| b).testBit i = true →
          st.data.testBit i = true ∨
            ((DecodeStep.extension o).bits.testBit i = true ∧
              (DecodeStep.extension o).decodes st) := by
        intro b hb hh
        simp only [Nat.testBit_or, Bool.or_eq_true] at hh
        rcases hh with hh | hh
        · exact Or.inl hh
        · refine Or.inr ⟨?_, h0⟩
          simp only [DecodeStep.bits, Nat.testBit_or, Bool.or_eq_true]
          rcases hb with hb | hb | hb <;> rw [hb] at hh
          · exact Or.inl (Or.inl hh)
          · exact Or.inl (Or.inr hh)
          · exact Or.inr hh
      split_ifs at h
      · exact hb _ (Or.inr (Or.inr rfl)) h
      · exact hb _ (Or.inl rfl) h
      · exact hb _ (Or.inr (Or.inl rfl)) h
      · exact Or.inl h

theorem DecodeStep.decodes_keeps (step : DecodeStep) (st st1 : State)
    (h : decoderKeeps st st1) (hd : step.decodes st1) : step.decodes st := by
  obtain ⟨h1, _, h3, _⟩ := h
  cases step with
  | buttons o => trivial
  | accel o => trivial
  | ir o =>
    simp only [DecodeStep.decodes] at hd ⊢
    rw [← h1]
    exact hd
  | extension o =>
    simp only [DecodeStep.decodes] at hd ⊢
    rw [← h3]
    exact hd

theorem runSteps_data (buf : List Nat) (steps : List DecodeStep) (st : State) (i : Nat)
    (h : (runSteps buf steps st).data.testBit i = true) :
    st.data.testBit i = true ∨
      ∃ step ∈ steps, step.bits.testBit i = true ∧ step.decodes st := by
  induction steps generalizing st with
  | nil => exact Or.inl h
  | cons step more ih =>
    rcases ih (step.run buf st) h with h1 | ⟨x, hx, hb, hd⟩
    · rcases DecodeStep.run_data buf step st i h1 with h2 | h2
      · exact Or.inl h2
      · exact Or.inr ⟨step, List.mem_cons_self _ _, h2⟩
    · exact Or.inr ⟨x, List.mem_cons_of_mem _ hx, hb,
        DecodeStep.decodes_keeps x st _ (DecodeStep.run_keeps buf step st) hd⟩

/-- The seven data report types run the decode steps of the dispatch table on
the state with the data-valid mask cleared and the time stamp set. -/
theorem ProcessReport_decode (nd : Bool) (buf : List Nat) (now : ℚ) (s : Impl)
    (ht : byteAt buf 0 ∈ [0x30, 0x31, 0x32, 0x33, 0x35, 0x36, 0x37]) :
    ProcessReport nd buf now s =
      .ok (false,
        { s with
          state :=
            runSteps buf (decodeSteps (byteAt buf 0))
              { s.state with data := 0, time := now } }) := by
  simp only [List.mem_cons, List.mem_singleton, List.not_mem_nil, or_false] at ht
  unfold ProcessReport
  rcases ht with h | h | h | h | h | h | h <;>
    simp only [h, decodeSteps, runSteps, List.foldl, DecodeStep.run, pure_eq_ok,
      Nat.reduceEqDiff, if_false, if_true, ↓reduceIte]

/-- C20: on a 22-byte input report of one of the seven data types,
`ProcessReport` clears the data-valid mask and then runs exactly the decode
steps of the dispatch table: `0x30` buttons at 1; `0x31` buttons at 1,
accelerometer at 1; `0x32` buttons at 1, extension at 3; `0x33` buttons at 1,
accelerometer at 1, IR at 6; `0x35` buttons at 1, accelerometer at 1, extension
at 6; `0x36` buttons at 1, IR at 3, extension at 13; `0x37` buttons at 1,
accelerometer at 1, IR at 6, extension at 16.  The result does not depend on
the mask before, and every bit set in the resulting mask belongs to a decode
step of the report type that could fill its sub-structure. -/
theorem C20_ProcessReport_dispatch (nd : Bool) (buf : List Nat) (now : ℚ) (s : Impl)
    (_hlen : buf.length = 22)
    (ht : byteAt buf 0 ∈ [0x30, 0x31, 0x32, 0x33, 0x35, 0x36, 0x37]) :
    ProcessReport nd buf now s =
      .ok (false,
        { s with
          state :=
            runSteps buf (decodeSteps (byteAt buf 0))
              { s.state with data := 0, time := now } }) ∧
    (∀ d : Nat,
      ProcessReport nd buf now { s with state := { s.state with data := d } } =
        ProcessReport nd buf now s) ∧
    (∀ i : Nat,
      (runSteps buf (decodeSteps (byteAt buf 0))
          { s.state with data := 0, time := now }).data.testBit i = true →
        ∃ step ∈ decodeSteps (byteAt buf 0),
          step.bits.testBit i = true ∧ step.decodes s.state) ∧
    decodeSteps 0x30 = [.buttons 1] ∧
    decodeSteps 0x31 = [.buttons 1, .accel 1] ∧
    decodeSteps 0x32 = [.buttons 1, .extension 3] ∧
    decodeSteps 0x33 = [.buttons 1, .accel 1, .ir 6] ∧
    decodeSteps 0x35 = [.buttons 1, .accel 1, .extension 6] ∧
    decodeSteps 0x36 = [.buttons 1, .ir 3, .extension 13] ∧
    decodeSteps 0x37 = [.buttons 1, .accel 1, .ir 6, .extension 16] := by
  refine ⟨ProcessReport_decode nd buf now s ht, fun d => ?_, fun i hi => ?_,
    rfl, rfl, rfl, rfl, rfl, rfl, rfl⟩
  · rw [ProcessReport_decode nd buf now s ht, ProcessReport_decode nd buf now _ ht]
  · rcases runSteps_data buf _ _ i hi with h | ⟨step, hs, hb, hd⟩
    · simp at h
    · refine ⟨step, hs, hb, ?_⟩
      cases step <;> exact hd

/-- C20 on the accelerometer report `31 00 00 80 80 80 00 ..` read by the fresh
engine whose mask had every bit set: the resulting mask holds the buttons and
accelerometer bits alone. -/
theorem C20_ProcessReport_dispatch_witness :
    ∃ st, ProcessReport false
        [0x31, 0x00, 0x00, 0x80, 0x80, 0x80, 0, 0, 0, 0, 0, 0, 0, 0, 0, 0, 0, 0, 0, 0, 0, 0] 0
        { Impl.ctor with state := { Impl.ctor.state with data := 0x101F } }
      = .ok (false, { Impl.ctor with state := st }) ∧
      st.data = State.Buttons ||| State.Accel ∧
      st.accel.raw = { x := 0x200, y := 0x200, z := 0x200 } :=
  ⟨_, (C20_ProcessReport_dispatch false
      [0x31, 0x00, 0x00, 0x80, 0x80, 0x80, 0, 0, 0, 0, 0, 0, 0, 0, 0, 0, 0, 0, 0, 0, 0, 0] 0
      { Impl.ctor with state := { Impl.ctor.state with data := 0x101F } } rfl
      (by decide)).1, rfl, rfl⟩

/-! ## The lifecycle: a start without motion sensor -/

theorem irConfigured_ctor : irConfigured Impl.ctor := rfl

/-- What `Poll` does once the request is sent and the report is processed: the
step of the phase the engine is in. -/
theorem Poll_ok (nd : Bool) (report : List Nat) (now : ℚ) (s : Impl) (r1 r2 : Bool × Impl)
    (he : ¬ (s.status = WII_STATUS_ERROR ∨ s.status = WII_STATUS_SHUTDOWN_COMPLETE))
    (hm : nd = true ∨ s.reportMode ≠ ReportMode.Undefined)
    (h1 : SendNextRequest nd s = .ok r1) (h2 : ProcessReport nd report now r1.2 = .ok r2) :
    Poll nd (some report) now s =
      .ok (true,
        if s.status = WII_STATUS_CONNECTED then
          { r2.2 with
            requests := r2.2.requests ++
              [Request.read 0x00000016 8 .ParseCalibrationData, Request.status]
            status := WII_STATUS_STARTUP }
        else if s.status = WII_STATUS_STARTUP ∧ r2.2.requests = [] then
          { r2.2 with
            state :=
              { r2.2.state with
                extension :=
                  { r2.2.state.extension with
                    motionPlus :=
                      { r2.2.state.extension.motionPlus with status := WII_STATUS_MP_STARTUP } } }
            requests := [Request.read 0x04A600FE 2 .ParseMotionPlusIdentifier]
            status := WII_STATUS_READY }
        else if s.status = WII_STATUS_SHUTDOWN ∧ r2.2.requests = [] then
          { r2.2 with status := WII_STATUS_SHUTDOWN_COMPLETE }
        else r2.2) := by
  have c1 := cassert_reportMode nd s hm
  have st : r2.2.status = s.status := by
    rw [ProcessReport_status nd report now r1.2 r2 h2, SendNextRequest_status nd s r1 h1]
  unfold Poll
  simp only [c1, ok_bind, if_neg he, h1, h2, st, ReadCalibrationData, ReadMotionPlusIdentifier,
    ReadData_eq, PushRequest_status, pure_eq_ok, List.append_assoc, List.singleton_append]
  by_cases hr : s.status = WII_STATUS_READY
  · have e1 : ¬ s.status = WII_STATUS_CONNECTED := by rw [hr]; decide
    have e2 : ¬ (s.status = WII_STATUS_STARTUP ∧ r2.2.requests = []) := by
      rw [hr]; exact fun x => absurd x.1 (by decide)
    have e3 : ¬ (s.status = WII_STATUS_SHUTDOWN ∧ r2.2.requests = []) := by
      rw [hr]; exact fun x => absurd x.1 (by decide)
    have e0 : ¬ s.status ≠ WII_STATUS_READY := fun x => x hr
    rw [if_neg e0, if_neg e1, if_neg e2, if_neg e3]
  · rw [if_pos hr]
    by_cases hc : s.status = WII_STATUS_CONNECTED
    · rw [if_pos hc, if_pos hc]
    · rw [if_neg hc, if_neg hc]
      by_cases hs : s.status = WII_STATUS_STARTUP
      · rw [if_pos hs]
        have e3 : ¬ (s.status = WII_STATUS_SHUTDOWN ∧ r2.2.requests = []) := by
          rw [hs]; exact fun x => absurd x.1 (by decide)
        by_cases hq : r2.2.requests = []
        · rw [if_pos hq, if_pos ⟨hs, hq⟩]
          simp only [hq, List.nil_append]
        · have e2 : ¬ (s.status = WII_STATUS_STARTUP ∧ r2.2.requests = []) := fun x => hq x.2
          rw [if_neg hq, if_neg e2, if_neg e3]
      · have e2 : ¬ (s.status = WII_STATUS_STARTUP ∧ r2.2.requests = []) := fun x => hs x.1
        rw [if_neg hs, if_neg e2]
        by_cases hd : s.status = WII_STATUS_SHUTDOWN
        · rw [if_pos hd]
          by_cases hq : r2.2.requests = []
          · rw [if_pos hq, if_pos ⟨hd, hq⟩]
          · have e3 : ¬ (s.status = WII_STATUS_SHUTDOWN ∧ r2.2.requests = []) :=
              fun x => hq x.2
            rw [if_neg hq, if_neg e3]
        · have e3 : ¬ (s.status = WII_STATUS_SHUTDOWN ∧ r2.2.requests = []) := fun x => hd x.1
          rw [if_neg hd, if_neg e3]

theorem ProcessReport_status_report (nd : Bool) (buf : List Nat) (now : ℚ) (s : Impl)
    (h : byteAt buf 0 = 0x20) :
    ProcessReport nd buf now s =
      (ProcessStatusReport nd (buf.drop 3)
          { s with state := (ParseButtons { s.state with data := 0, time := now } (buf.drop 1)).2 }
        >>= fun r => pure (false, r.2)) := by
  unfold ProcessReport
  simp only [h, if_true, ↓reduceIte]

theorem ProcessReport_data_report (nd : Bool) (buf : List Nat) (now : ℚ) (s : Impl)
    (h : byteAt buf 0 = 0x21) :
    ProcessReport nd buf now s =
      (ProcessDataReport nd (buf.drop 3)
          { s with state := (ParseButtons { s.state with data := 0, time := now } (buf.drop 1)).2 }
        >>= fun r => pure (false, r.2)) := by
  unfold ProcessReport
  simp only [h, if_true, ↓reduceIte, Nat.reduceEqDiff, if_false]

/-- A poll in phase `Connected` with an empty queue that reads a report of one
of the seven data types. -/
theorem Poll_connected_data (nd : Bool) (b : List Nat) (t : ℚ) (s : Impl)
    (hs : s.status = WII_STATUS_CONNECTED) (hq : s.requests = [])
    (hm : nd = true ∨ s.reportMode ≠ ReportMode.Undefined)
    (hb : byteAt b 0 ∈ [0x30, 0x31, 0x32, 0x33, 0x35, 0x36, 0x37]) :
    ∃ s1, Poll nd (some b) t s = .ok (true, s1) ∧ s1.status = WII_STATUS_STARTUP ∧
      s1.requests = [Request.read 0x00000016 8 .ParseCalibrationData, Request.status] ∧
      s1.reportMode = s.reportMode ∧ decoderKeeps s.state s1.state := by
  have he : ¬ (s.status = WII_STATUS_ERROR ∨ s.status = WII_STATUS_SHUTDOWN_COMPLETE) := by
    rw [hs]; decide
  refine ⟨_, Poll_ok nd b t s _ _ he hm (SendNextRequest_nil nd s hq)
    (ProcessReport_decode nd b t s hb), ?_⟩
  rw [if_pos hs]
  refine ⟨rfl, ?_, rfl, ?_⟩
  · show s.requests ++ _ = _
    rw [hq]
    rfl
  · exact runSteps_keeps b _ { s.state with data := 0, time := t }

/-- A poll in phase `Ready` with an empty queue that reads a report of one of
the seven data types: only the decoded state changes. -/
theorem Poll_ready_data (nd : Bool) (b : List Nat) (t : ℚ) (s : Impl)
    (hs : s.status = WII_STATUS_READY) (hq : s.requests = [])
    (hm : nd = true ∨ s.reportMode ≠ ReportMode.Undefined)
    (hb : byteAt b 0 ∈ [0x30, 0x31, 0x32, 0x33, 0x35, 0x36, 0x37]) :
    ∃ s1, Poll nd (some b) t s = .ok (true, s1) ∧ s1.status = WII_STATUS_READY ∧
      s1.requests = [] ∧ s1.reportMode = s.reportMode ∧ s1.output = s.output ∧
      decoderKeeps s.state s1.state := by
  have he : ¬ (s.status = WII_STATUS_ERROR ∨ s.status = WII_STATUS_SHUTDOWN_COMPLETE) := by
    rw [hs]; decide
  have e1 : ¬ s.status = WII_STATUS_CONNECTED := by rw [hs]; decide
  have e2 : ∀ p : Prop, ¬ (s.status = WII_STATUS_STARTUP ∧ p) := by
    rw [hs]; exact fun p x => absurd x.1 (by decide)
  have e3 : ∀ p : Prop, ¬ (s.status = WII_STATUS_SHUTDOWN ∧ p) := by
    rw [hs]; exact fun p x => absurd x.1 (by decide)
  refine ⟨_, Poll_ok nd b t s _ _ he hm (SendNextRequest_nil nd s hq)
    (ProcessReport_decode nd b t s hb), ?_⟩
  rw [if_neg e1, if_neg (e2 _), if_neg (e3 _)]
  exact ⟨hs, hq, rfl, rfl, runSteps_keeps b _ { s.state with data := 0, time := t }⟩

/-- A poll in phase `Startup` whose queue holds the calibration read and a
status request and that reads the data report with the 8 bytes at `0x0016`. -/
theorem Poll_startup_calibration (nd : Bool) (d : List Nat) (t : ℚ) (s : Impl)
    (hs : s.status = WII_STATUS_STARTUP)
    (hq : s.requests = [Request.read 0x00000016 8 .ParseCalibrationData, Request.status])
    (hm : nd = true ∨ s.reportMode ≠ ReportMode.Undefined)
    (hd : byteAt d 0 = 0x21 ∧ byteAt d 3 = 0x70 ∧ byteAt d 4 = 0x00 ∧ byteAt d 5 = 0x16) :
    ∃ s1, Poll nd (some d) t s = .ok (true, s1) ∧ s1.status = WII_STATUS_STARTUP ∧
      s1.requests = [Request.status] ∧ s1.reportMode = s.reportMode ∧
      decoderKeeps s.state s1.state := by
  obtain ⟨d0, d3, d4, d5⟩ := hd
  have he : ¬ (s.status = WII_STATUS_ERROR ∨ s.status = WII_STATUS_SHUTDOWN_COMPLETE) := by
    rw [hs]; decide
  have e1 : ¬ s.status = WII_STATUS_CONNECTED := by rw [hs]; decide
  have e3 : ∀ p : Prop, ¬ (s.status = WII_STATUS_SHUTDOWN ∧ p) := by
    rw [hs]; exact fun p x => absurd x.1 (by decide)
  have h1 := SendNextRequest_unsent nd s _ _ hq rfl (fun x => by cases x)
  have b0 : byteAt (d.drop 3) 0 = 0x70 := by rw [byteAt_drop]; exact d3
  have b1 : byteAt (d.drop 3) 1 = 0x00 := by rw [byteAt_drop]; exact d4
  have b2 : byteAt (d.drop 3) 2 = 0x16 := by rw [byteAt_drop]; exact d5
  have cnt : dataReportCount (d.drop 3) = 8 := by rw [dataReportCount, b0]; rfl
  have err : dataReportError (d.drop 3) = 0 := by rw [dataReportError, b0]; rfl
  have adr : dataReportAddress (d.drop 3) = 0x16 := by rw [dataReportAddress, b1, b2]; rfl
  have h2 : ProcessReport nd d t
      { s with
        requests :=
          [{ Request.read 0x00000016 8 .ParseCalibrationData with sent := true }, Request.status]
        output := s.output ++
          [requestReport s (Request.read 0x00000016 8 .ParseCalibrationData)] } =
      .ok (false,
        { s with
          state :=
            (ParseCalibrationData
              (ParseButtons { s.state with data := 0, time := t } (d.drop 1)).2
              (memcpy (List.replicate 8 0) 0 ((d.drop 3).drop 3) 8) 8 0).2
          requests := [Request.status]
          output := s.output ++
            [requestReport s (Request.read 0x00000016 8 .ParseCalibrationData)]
          handled := s.handled ++
            [{ handler := .ParseCalibrationData
               buf := memcpy (List.replicate 8 0) 0 ((d.drop 3).drop 3) 8, len := 8,
               error := 0 }] }) := by
    rw [ProcessReport_data_report nd d t _ d0,
      ProcessDataReport_last nd (d.drop 3) _
        { Request.read 0x00000016 8 .ParseCalibrationData with sent := true } [Request.status]
        .ParseCalibrationData rfl
        (Or.inr ⟨rfl, by rw [cnt]; decide, by rw [adr]; decide⟩) err
        (by rw [cnt]; decide) (by rw [cnt]; decide) rfl]
    simp only [cnt, callHandler, pure_eq_ok, ok_bind]
    rw [PopRequest_cons (h := by rfl)]
    rfl
  refine ⟨_, Poll_ok nd d t s _ _ he hm h1 h2, ?_⟩
  have e2 : ¬ (s.status = WII_STATUS_STARTUP ∧ [Request.status] = []) :=
    fun x => absurd x.2 (by decide)
  rw [if_neg e1, if_neg e2, if_neg (e3 _)]
  exact ⟨hs, rfl, rfl, rfl, rfl, rfl, rfl, rfl, rfl⟩

/-- A poll in phase `Startup` whose queue holds the status request alone and
that reads a status report with the extension-present flag clear: the queue
drains and the motion-sensor identifier read is enqueued. -/
theorem Poll_startup_status (nd : Bool) (st : List Nat) (t : ℚ) (s : Impl)
    (hs : s.status = WII_STATUS_STARTUP) (hq : s.requests = [Request.status])
    (hm : nd = true ∨ s.reportMode ≠ ReportMode.Undefined) (hc : irConfigured s)
    (hst : byteAt st 0 = 0x20 ∧ byteAt st 3 &&& 0x02 = 0) :
    ∃ s1, Poll nd (some st) t s = .ok (true, s1) ∧ s1.status = WII_STATUS_READY ∧
      s1.requests = [Request.read 0x04A600FE 2 .ParseMotionPlusIdentifier] ∧
      s1.state.extension.motionPlus.status = WII_STATUS_MP_STARTUP ∧
      s1.reportMode = s.reportMode ∧ s1.state.ir.mode = s.state.ir.mode := by
  have he : ¬ (s.status = WII_STATUS_ERROR ∨ s.status = WII_STATUS_SHUTDOWN_COMPLETE) := by
    rw [hs]; decide
  have e1 : ¬ s.status = WII_STATUS_CONNECTED := by rw [hs]; decide
  have h1 := SendNextRequest_unsent nd s _ _ hq rfl (fun x => by cases x)
  have hf : decide (byteAt (st.drop 3) 0 &&& 0x02 ≠ 0) = false := by
    rw [byteAt_drop]
    simpa using hst.2
  have hp := ProcessStatusReport_configured nd (st.drop 3)
    { s with
      state := (ParseButtons { s.state with data := 0, time := t } (st.drop 1)).2
      requests := [{ Request.status with sent := true }]
      output := s.output ++ [requestReport s Request.status] } hm hc
  simp only [hf, Bool.false_eq_true, and_false, if_false, List.append_nil, ↓reduceIte] at hp
  have h2 := ProcessReport_status_report nd st t
    { s with
      requests := [{ Request.status with sent := true }]
      output := s.output ++ [requestReport s Request.status] } hst.1
  rw [hp, ok_bind, pure_eq_ok] at h2
  refine ⟨_, Poll_ok nd st t s _ _ he hm h1 h2, ?_⟩
  rw [if_neg e1, if_pos ⟨hs, rfl⟩]
  exact ⟨rfl, rfl, rfl, rfl, rfl⟩

theorem ParseMotionPlusIdentifier_error (nd : Bool) (buf : List Nat) (len error : Nat)
    (s : Impl) (h : s.state.extension.motionPlus.status = WII_STATUS_MP_STARTUP)
    (k : error ≠ 0) :
    ParseMotionPlusIdentifier nd buf len error s =
      .ok (true,
        { s with
          state :=
            { s.state with
              extension :=
                { s.state.extension with
                  motionPlus :=
                    { s.state.extension.motionPlus with
                      status := WII_STATUS_MP_NOT_PRESENT } } } }) := by
  have c1 : cassert nd (decide (s.state.extension.motionPlus.status = WII_STATUS_MP_STARTUP))
      = .ok () := cassert_of nd (by simpa using h)
  unfold ParseMotionPlusIdentifier
  simp only [c1, ok_bind, if_pos k, pure_eq_ok]

/-- A poll in phase `Ready` whose queue holds the motion-sensor identifier read
alone and that reads a data report with a non-zero error for it: the sub-phase
becomes `NotPresent` and the queue is empty. -/
theorem Poll_ready_identifier_error (nd : Bool) (e : List Nat) (t : ℚ) (s : Impl)
    (hs : s.status = WII_STATUS_READY)
    (hq : s.requests = [Request.read 0x04A600FE 2 .ParseMotionPlusIdentifier])
    (hp : s.state.extension.motionPlus.status = WII_STATUS_MP_STARTUP)
    (hm : nd = true ∨ s.reportMode ≠ ReportMode.Undefined)
    (hr : byteAt e 0 = 0x21 ∧ byteAt e 3 &&& 0x0F ≠ 0 ∧
      (nd = true ∨ (byteAt e 3 >>> 4 ≤ 1 ∧ byteAt e 4 = 0x00 ∧ byteAt e 5 = 0xFE))) :
    ∃ s1, Poll nd (some e) t s = .ok (true, s1) ∧ s1.status = WII_STATUS_READY ∧
      s1.requests = [] ∧
      s1.state.extension.motionPlus.status = WII_STATUS_MP_NOT_PRESENT ∧
      s1.reportMode = s.reportMode ∧ s1.state.ir.mode = s.state.ir.mode := by
  obtain ⟨e0, e3, ea⟩ := hr
  have he : ¬ (s.status = WII_STATUS_ERROR ∨ s.status = WII_STATUS_SHUTDOWN_COMPLETE) := by
    rw [hs]; decide
  have e1 : ¬ s.status = WII_STATUS_CONNECTED := by rw [hs]; decide
  have e2 : ∀ p : Prop, ¬ (s.status = WII_STATUS_STARTUP ∧ p) := by
    rw [hs]; exact fun p x => absurd x.1 (by decide)
  have e4 : ∀ p : Prop, ¬ (s.status = WII_STATUS_SHUTDOWN ∧ p) := by
    rw [hs]; exact fun p x => absurd x.1 (by decide)
  have h1 := SendNextRequest_unsent nd s _ _ hq rfl (fun x => by cases x)
  have err : dataReportError (e.drop 3) ≠ 0 := by
    rw [dataReportError, byteAt_drop]
    exact e3
  have ha : nd = true ∨ dataReportAsserts (e.drop 3)
      { Request.read 0x04A600FE 2 .ParseMotionPlusIdentifier with sent := true } := by
    rcases ea with h | ⟨a1, a2, a3⟩
    · exact Or.inl h
    · right
      refine ⟨rfl, ?_, ?_⟩
      · rw [dataReportCount, byteAt_drop]
        show 1 + (byteAt e 3 >>> 4) ≤ 2
        omega
      · rw [dataReportAddress, byteAt_drop, byteAt_drop, a2, a3]
        decide
  have h2 := ProcessReport_data_report nd e t
    { s with
      requests := [{ Request.read 0x04A600FE 2 .ParseMotionPlusIdentifier with sent := true }]
      output := s.output ++
        [requestReport s (Request.read 0x04A600FE 2 .ParseMotionPlusIdentifier)] } e0
  rw [ProcessDataReport_error nd (e.drop 3) _
      { Request.read 0x04A600FE 2 .ParseMotionPlusIdentifier with sent := true } []
      .ParseMotionPlusIdentifier rfl ha err rfl] at h2
  simp only [callHandler] at h2
  rw [ParseMotionPlusIdentifier_error (h := by exact hp) (k := by exact err)] at h2
  simp only [ok_bind] at h2
  rw [PopRequest_cons (h := by rfl), ok_bind] at h2
  simp only [pure_eq_ok, ok_bind] at h2
  refine ⟨_, Poll_ok nd e t s _ _ he hm h1 h2, ?_⟩
  rw [if_neg e1, if_neg (e2 _), if_neg (e4 _)]
  exact ⟨hs, rfl, rfl, rfl, rfl⟩

theorem calls_cons_ok (nd : Bool) (c : Call) (more : List Call) (s s1 s2 : Impl) (b : Bool)
    (bs : List Bool) (h1 : call nd c s = .ok (b, s1)) (h2 : calls nd more s1 = .ok (bs, s2)) :
    calls nd (c :: more) s = .ok (b :: bs, s2) := by
  simp only [calls, h1, ok_bind, h2, pure_eq_ok]

/-- Polls in phase `Ready` with an empty queue that read reports of the seven
data types: every poll returns true, nothing is enqueued or transmitted, and
the phase and the motion-sensor sub-phase stay. -/
theorem calls_ready_data (nd : Bool) (later : List (List Nat × ℚ)) :
    ∀ s : Impl, s.status = WII_STATUS_READY → s.requests = [] →
      (nd = true ∨ s.reportMode ≠ ReportMode.Undefined) →
      (∀ p ∈ later, byteAt p.1 0 ∈ [0x30, 0x31, 0x32, 0x33, 0x35, 0x36, 0x37]) →
      ∃ s5, calls nd (later.map (fun p => Call.poll (some p.1) p.2)) s =
          .ok (later.map (fun _ => true), s5) ∧
        s5.status = WII_STATUS_READY ∧ s5.requests = [] ∧ s5.reportMode = s.reportMode ∧
        s5.output = s.output ∧ decoderKeeps s.state s5.state := by
  induction later with
  | nil =>
    intro s hs hq _ _
    exact ⟨s, rfl, hs, hq, rfl, rfl, decoderKeeps_refl _⟩
  | cons p more ih =>
    intro s hs hq hm hl
    obtain ⟨s1, h1, st1, q1, m1, o1, k1⟩ := Poll_ready_data nd p.1 p.2 s hs hq hm
      (hl p (List.mem_cons_self _ _))
    have hm1 : nd = true ∨ s1.reportMode ≠ ReportMode.Undefined := by
      rw [m1]; exact hm
    obtain ⟨s5, h5, st5, q5, m5, o5, k5⟩ := ih s1 st1 q1 hm1
      (fun x hx => hl x (List.mem_cons_of_mem _ hx))
    refine ⟨s5, ?_, st5, q5, m5.trans m1, o5.trans o1, decoderKeeps_trans k1 k5⟩
    exact calls_cons_ok nd _ _ s s1 s5 true _ h1 h5

/-- C15: an engine in phase `Connected` with a report mode set (and the IR
camera in the mode of that report mode) and an empty queue polls four times and
reads, in this order, a buttons report, the data report delivering the 8 bytes
at `0x0016` without error, a status report with the extension-present flag
clear, and a data report with a non-zero error for the 2-byte read at
`0x04A600FE`.  Every poll returns true, and the engine ends in phase `Ready`
with motion-sensor sub-phase `NotPresent` and an empty queue.  Whatever reports
of the seven data types later polls read, every such poll returns true, the
queue stays empty, so no read of `0x04A600FE` is enqueued again, nothing is
transmitted, and phase and sub-phase stay. -/
theorem C15_startup_without_motion_sensor (nd : Bool) (s : Impl) (b d st e : List Nat)
    (t1 t2 t3 t4 : ℚ)
    (hs : s.status = WII_STATUS_CONNECTED) (hq : s.requests = [])
    (hm : s.reportMode ≠ ReportMode.Undefined) (hc : irConfigured s)
    (hb : byteAt b 0 = 0x30)
    (hd : byteAt d 0 = 0x21 ∧ byteAt d 3 = 0x70 ∧ byteAt d 4 = 0x00 ∧ byteAt d 5 = 0x16)
    (hst : byteAt st 0 = 0x20 ∧ byteAt st 3 &&& 0x02 = 0)
    (he : byteAt e 0 = 0x21 ∧ byteAt e 3 &&& 0x0F ≠ 0 ∧
      (nd = true ∨ (byteAt e 3 >>> 4 ≤ 1 ∧ byteAt e 4 = 0x00 ∧ byteAt e 5 = 0xFE))) :
    ∃ s4,
      calls nd [.poll (some b) t1, .poll (some d) t2, .poll (some st) t3, .poll (some e) t4] s =
        .ok ([true, true, true, true], s4) ∧
      s4.status = WII_STATUS_READY ∧
      s4.state.extension.motionPlus.status = WII_STATUS_MP_NOT_PRESENT ∧
      s4.requests = [] ∧
      ∀ later : List (List Nat × ℚ),
        (∀ p ∈ later, byteAt p.1 0 ∈ [0x30, 0x31, 0x32, 0x33, 0x35, 0x36, 0x37]) →
        ∃ s5, calls nd (later.map (fun p => Call.poll (some p.1) p.2)) s4 =
            .ok (later.map (fun _ => true), s5) ∧
          s5.status = WII_STATUS_READY ∧
          s5.state.extension.motionPlus.status = WII_STATUS_MP_NOT_PRESENT ∧
          s5.requests = [] ∧ s5.output = s4.output := by
  have hm0 : nd = true ∨ s.reportMode ≠ ReportMode.Undefined := Or.inr hm
  obtain ⟨s1, p1, st1, q1, m1, k1⟩ := Poll_connected_data nd b t1 s hs hq hm0
    (by rw [hb]; decide)
  have hm1 : nd = true ∨ s1.reportMode ≠ ReportMode.Undefined := by rw [m1]; exact hm0
  obtain ⟨s2, p2, st2, q2, m2, k2⟩ := Poll_startup_calibration nd d t2 s1 st1 q1 hm1 hd
  have hm2 : nd = true ∨ s2.reportMode ≠ ReportMode.Undefined := by rw [m2]; exact hm1
  have hc2 : irConfigured s2 := by
    unfold irConfigured at hc ⊢
    rw [k2.1, k1.1, m2, m1]
    exact hc
  obtain ⟨s3, p3, st3, q3, mp3, m3, _⟩ := Poll_startup_status nd st t3 s2 st2 q2 hm2 hc2 hst
  have hm3 : nd = true ∨ s3.reportMode ≠ ReportMode.Undefined := by rw [m3]; exact hm2
  obtain ⟨s4, p4, st4, q4, mp4, m4, _⟩ := Poll_ready_identifier_error nd e t4 s3 st3 q3 mp3
    hm3 he
  have hm4 : nd = true ∨ s4.reportMode ≠ ReportMode.Undefined := by rw [m4]; exact hm3
  refine ⟨s4, ?_, st4, mp4, q4, fun later hl => ?_⟩
  · exact calls_cons_ok nd _ _ s s1 s4 true _ p1
      (calls_cons_ok nd _ _ s1 s2 s4 true _ p2
        (calls_cons_ok nd _ _ s2 s3 s4 true _ p3
          (calls_cons_ok nd _ _ s3 s4 s4 true _ p4 rfl)))
  · obtain ⟨s5, h5, st5, q5, _, o5, k5⟩ := calls_ready_data nd later s4 st4 q4 hm4 hl
    exact ⟨s5, h5, st5, by rw [k5.2.2.2.1]; exact mp4, q5, o5⟩

/-- C15 on the fresh engine put in phase `Connected` and report mode `Buttons`,
for four concrete reports, followed by two more buttons reports. -/
theorem C15_startup_without_motion_sensor_witness :
    ∃ s4 s5,
      calls false
          [.poll (some [0x30, 0x00, 0x00]) 1,
           .poll (some [0x21, 0x00, 0x00, 0x70, 0x00, 0x16, 1, 2, 3, 4, 5, 6, 7, 8]) 2,
           .poll (some [0x20, 0x00, 0x00, 0x00, 0x00, 0x00, 0x50]) 3,
           .poll (some [0x21, 0x00, 0x00, 0x07, 0x00, 0xFE]) 4]
          { Impl.ctor with status := WII_STATUS_CONNECTED, reportMode := .Buttons } =
        .ok ([true, true, true, true], s4) ∧
      s4.status = WII_STATUS_READY ∧
      s4.state.extension.motionPlus.status = WII_STATUS_MP_NOT_PRESENT ∧
      s4.requests = [] ∧
      calls false [.poll (some [0x30, 0x00, 0x08]) 5, .poll (some [0x30, 0x00, 0x00]) 6] s4 =
        .ok ([true, true], s5) ∧
      s5.requests = [] ∧ s5.output = s4.output := by
  obtain ⟨s4, h4, st4, mp4, q4, hl⟩ := C15_startup_without_motion_sensor false
    { Impl.ctor with status := WII_STATUS_CONNECTED, reportMode := .Buttons }
    [0x30, 0x00, 0x00] [0x21, 0x00, 0x00, 0x70, 0x00, 0x16, 1, 2, 3, 4, 5, 6, 7, 8]
    [0x20, 0x00, 0x00, 0x00, 0x00, 0x00, 0x50] [0x21, 0x00, 0x00, 0x07, 0x00, 0xFE] 1 2 3 4
    rfl rfl (by decide) rfl (by decide) (by decide) (by decide) (by decide)
  obtain ⟨s5, h5, _, _, q5, o5⟩ := hl [([0x30, 0x00, 0x08], 5), ([0x30, 0x00, 0x00], 6)]
    (by decide)
  exact ⟨s4, s5, h4, st4, mp4, q4, h5, q5, o5⟩

/-! ## The IR configuration is an invariant of the engine -/

theorem callHandler_ir (nd : Bool) (h : Handler) (buf : List Nat) (len error : Nat)
    (s : Impl) (r : Bool × Impl) (hr : callHandler nd h buf len error s = .ok r) :
    r.2.state.ir = s.state.ir := by
  unfold callHandler at hr
  cases h
  case ParseCalibrationData => cases hr; rfl
  case ParseExtensionCalibrationData =>
    simp only [ParseExtensionCalibrationData, pure_eq_ok] at hr
    rw [← Except.ok.inj hr]
    dsimp only
    split_ifs <;> rfl
  case ParseMotionPlusCalibrationData => cases hr; rfl
  case ParseExtensionIdentifier =>
    simp only [] at hr
    unfold ParseExtensionIdentifier at hr
    simp only [ReadMotionPlusCalibrationData, ReadExtensionCalibrationData, ReadData_eq] at hr
    split_ifs at hr <;> (cases hr; rfl)
  case ParseMotionPlusIdentifier =>
    simp only [] at hr
    unfold ParseMotionPlusIdentifier at hr
    obtain ⟨_, _, hr⟩ := bind_eq_ok hr
    simp only [EnableMotionPlus_ok, DisableMotionPlus_ok] at hr
    split_ifs at hr <;> (cases hr; rfl)

theorem ProcessDataReport_ir (nd : Bool) (buf : List Nat) (s : Impl) (r : Bool × Impl)
    (h : ProcessDataReport nd buf s = .ok r) : r.2.state.ir = s.state.ir := by
  unfold ProcessDataReport at h
  dsimp only at h
  obtain ⟨_, _, h⟩ := bind_eq_ok h
  cases hq : s.requests with
  | nil =>
    rw [hq] at h
    cases h
  | cons req rest =>
    rw [hq] at h
    dsimp only at h
    obtain ⟨_, _, h⟩ := bind_eq_ok h
    obtain ⟨_, _, h⟩ := bind_eq_ok h
    obtain ⟨_, _, h⟩ := bind_eq_ok h
    obtain ⟨req2, _, h⟩ := bind_eq_ok h
    split_ifs at h
    · obtain ⟨_, _, h⟩ := bind_eq_ok h
      cases hh : req2.handler with
      | none =>
        rw [hh] at h
        cases h
      | some hd =>
        rw [hh] at h
        dsimp only at h
        obtain ⟨r1, h3, h⟩ := bind_eq_ok h
        obtain ⟨s3, h4, h⟩ := bind_eq_ok h
        obtain ⟨_, _, _, e3⟩ := PopRequest_inv nd r1.2 s3 h4
        have i1 := callHandler_ir nd hd _ _ _ _ r1 h3
        rw [← Except.ok.inj h, e3]
        exact i1
    · rw [← Except.ok.inj h]

theorem ProcessStatusReport_irConfigured (nd : Bool) (buf : List Nat) (s : Impl)
    (r : Bool × Impl) (h : ProcessStatusReport nd buf s = .ok r) : irConfigured r.2 := by
  unfold ProcessStatusReport at h
  dsimp only at h
  obtain ⟨_, _, h⟩ := bind_eq_ok h
  obtain ⟨s1, _, h⟩ := bind_eq_ok h
  obtain ⟨s2, _, h⟩ := bind_eq_ok h
  obtain ⟨r4, h4, h⟩ := bind_eq_ok h
  rw [← Except.ok.inj h]
  exact SetReportMode_irConfigured nd _ _ _ _ r4 h4

theorem ProcessReport_ack_report (nd : Bool) (buf : List Nat) (now : ℚ) (s : Impl)
    (h : byteAt buf 0 = 0x22) :
    ProcessReport nd buf now s =
      (ProcessAcknowledgeReport nd (buf.drop 3)
          { s with state := (ParseButtons { s.state with data := 0, time := now } (buf.drop 1)).2 }
        >>= fun r => pure (false, r.2)) := by
  unfold ProcessReport
  simp only [h, if_true, ↓reduceIte, Nat.reduceEqDiff, if_false]

theorem ProcessReport_other (nd : Bool) (buf : List Nat) (now : ℚ) (s : Impl)
    (h : byteAt buf 0 ∉ [0x20, 0x21, 0x22, 0x30, 0x31, 0x32, 0x33, 0x35, 0x36, 0x37]) :
    ProcessReport nd buf now s =
      (cassert nd false >>= fun _ =>
        pure (false, { s with state := { s.state with data := 0, time := now } })) := by
  simp only [List.mem_cons, List.mem_singleton, List.not_mem_nil, or_false, not_or] at h
  obtain ⟨h0, h1, h2, h3, h4, h5, h6, h7, h8, h9⟩ := h
  unfold ProcessReport
  simp only [if_neg h0, if_neg h1, if_neg h2, if_neg h3, if_neg h4, if_neg h5, if_neg h6,
    if_neg h7, if_neg h8, if_neg h9]

/-- The report processing keeps the IR camera in the mode of the report mode. -/
theorem ProcessReport_irConfigured (nd : Bool) (buf : List Nat) (now : ℚ) (s : Impl)
    (r : Bool × Impl) (hc : irConfigured s) (h : ProcessReport nd buf now s = .ok r) :
    irConfigured r.2 := by
  obtain ⟨m, _, _⟩ := ProcessReport_queue nd buf now s r h
  by_cases t20 : byteAt buf 0 = 0x20
  · rw [ProcessReport_status_report nd buf now s t20] at h
    obtain ⟨r1, h1, h⟩ := bind_eq_ok h
    rw [← Except.ok.inj h]
    exact ProcessStatusReport_irConfigured nd _ _ r1 h1
  have keep : r.2.state.ir.mode = s.state.ir.mode → irConfigured r.2 := by
    intro hi
    unfold irConfigured at hc ⊢
    rw [hi, m]
    exact hc
  apply keep
  by_cases t21 : byteAt buf 0 = 0x21
  · rw [ProcessReport_data_report nd buf now s t21] at h
    obtain ⟨r1, h1, h⟩ := bind_eq_ok h
    rw [← Except.ok.inj h]
    have i1 := ProcessDataReport_ir nd _ _ r1 h1
    exact congrArg IRData.mode i1
  by_cases t22 : byteAt buf 0 = 0x22
  · rw [ProcessReport_ack_report nd buf now s t22] at h
    obtain ⟨r1, h1, h⟩ := bind_eq_ok h
    obtain ⟨_, _, _, e1⟩ := ProcessAcknowledgeReport_inv nd _ _ r1 h1
    rw [← Except.ok.inj h, e1]
    rfl
  by_cases ht : byteAt buf 0 ∈ [0x30, 0x31, 0x32, 0x33, 0x35, 0x36, 0x37]
  · rw [ProcessReport_decode nd buf now s ht] at h
    rw [← Except.ok.inj h]
    exact (runSteps_keeps buf _ { s.state with data := 0, time := now }).1
  · have hn : byteAt buf 0 ∉ [0x20, 0x21, 0x22, 0x30, 0x31, 0x32, 0x33, 0x35, 0x36, 0x37] := by
      simp only [List.mem_cons, List.mem_singleton, List.not_mem_nil, or_false, not_or]
        at ht ⊢
      exact ⟨t20, t21, t22, ht⟩
    rw [ProcessReport_other nd buf now s hn] at h
    obtain ⟨_, _, h⟩ := bind_eq_ok h
    rw [← Except.ok.inj h]

/-- Every call of `Poll` and `Shutdown` keeps the IR camera in the mode of the
report mode; the constructor and `SetReportMode` establish it. -/
theorem call_irConfigured (nd : Bool) (c : Call) (s : Impl) (r : Bool × Impl)
    (hc : irConfigured s) (h : call nd c s = .ok r) : irConfigured r.2 := by
  cases c with
  | shutdown =>
    simp only [call] at h
    by_cases hi : s.status = WII_STATUS_SHUTDOWN ∨ s.status = WII_STATUS_SHUTDOWN_COMPLETE ∨
        s.status = WII_STATUS_UNKNOWN ∨ s.status = WII_STATUS_STARTUP ∨
        s.status = WII_STATUS_DISCONNECTED ∨ s.status = WII_STATUS_ERROR
    · rw [Shutdown_idle nd s hi] at h
      rw [← Except.ok.inj h]
      exact hc
    · rw [Shutdown_active nd s hi] at h
      rw [← Except.ok.inj h]
      exact hc
  | poll input now =>
    simp only [call] at h
    unfold Poll at h
    obtain ⟨_, hm, h⟩ := bind_eq_ok h
    by_cases he : s.status = WII_STATUS_ERROR ∨ s.status = WII_STATUS_SHUTDOWN_COMPLETE
    · rw [if_pos he] at h
      rw [← Except.ok.inj h]
      exact hc
    · rw [if_neg he] at h
      obtain ⟨r1, h1, h⟩ := bind_eq_ok h
      obtain ⟨e1, _, m1, _⟩ := SendNextRequest_state nd s r1 h1
      have c1 : irConfigured r1.2 := by
        unfold irConfigured at hc ⊢
        rw [e1, m1]
        exact hc
      cases input with
      | none =>
        rw [← Except.ok.inj h]
        exact c1
      | some report =>
        dsimp only at h
        obtain ⟨r2, h2, h⟩ := bind_eq_ok h
        have c2 := ProcessReport_irConfigured nd report now r1.2 r2 c1 h2
        simp only [ReadCalibrationData, ReadMotionPlusIdentifier, ReadData_eq,
          PushRequest_status, ok_bind, pure_eq_ok] at h
        split_ifs at h <;> (rw [← Except.ok.inj h]; exact c2)

/-! ## Decode steps that do not apply -/

theorem ParseIR_off (st : State) (buf : List Nat) (h : st.ir.mode = IRData.Mode.Off) :
    ParseIR st buf = (false, st) := by
  unfold ParseIR
  simp only [h]

theorem ParseExtension_none (st : State) (buf : List Nat) (h : st.extension.type = 0) :
    ParseExtension st buf = (true, st) := by
  unfold ParseExtension
  rw [if_pos h]

theorem ParseExtension_nunchuk (st : State) (buf : List Nat)
    (h : st.extension.type = Extension.Nunchuk) :
    ParseExtension st buf = ParseNunchuk st buf false := by
  unfold ParseExtension
  rw [h]
  rfl

/-- C21: a report of type `0x36` or `0x37` processed while the IR mode is `Off`
and the extension type is `Nunchuk`.  The IR step returns false and leaves the
state as it is, and the buttons step, the accelerometer step (type `0x37`) and
the nunchuk decoder of the extension step run on the report at their offsets;
the IR data is that before the report and the mask afterwards is
`Buttons | Nunchuk` for `0x36` and `Buttons | Accel | Nunchuk` for `0x37`,
without the IR bit. -/
theorem C21_ir_step_fails_locally (nd : Bool) (buf : List Nat) (now : ℚ) (s : Impl)
    (hi : s.state.ir.mode = IRData.Mode.Off)
    (he : s.state.extension.type = Extension.Nunchuk) :
    (byteAt buf 0 = 0x36 →
      ParseIR (ParseButtons { s.state with data := 0, time := now } (buf.drop 1)).2 (buf.drop 3)
        = (false, (ParseButtons { s.state with data := 0, time := now } (buf.drop 1)).2) ∧
      ProcessReport nd buf now s =
        .ok (false,
          { s with
            state :=
              (ParseNunchuk (ParseButtons { s.state with data := 0, time := now } (buf.drop 1)).2
                (buf.drop 13) false).2 }) ∧
      (ParseNunchuk (ParseButtons { s.state with data := 0, time := now } (buf.drop 1)).2
          (buf.drop 13) false).2.data = State.Buttons ||| State.Nunchuk ∧
      (ParseNunchuk (ParseButtons { s.state with data := 0, time := now } (buf.drop 1)).2
          (buf.drop 13) false).2.ir = s.state.ir) ∧
    (byteAt buf 0 = 0x37 →
      ParseIR
          (ParseAccel (ParseButtons { s.state with data := 0, time := now } (buf.drop 1)).2
            (buf.drop 1)).2 (buf.drop 6)
        = (false,
          (ParseAccel (ParseButtons { s.state with data := 0, time := now } (buf.drop 1)).2
            (buf.drop 1)).2) ∧
      ProcessReport nd buf now s =
        .ok (false,
          { s with
            state :=
              (ParseNunchuk
                (ParseAccel (ParseButtons { s.state with data := 0, time := now } (buf.drop 1)).2
                  (buf.drop 1)).2 (buf.drop 16) false).2 }) ∧
      (ParseNunchuk
          (ParseAccel (ParseButtons { s.state with data := 0, time := now } (buf.drop 1)).2
            (buf.drop 1)).2 (buf.drop 16) false).2.data
        = State.Buttons ||| State.Accel ||| State.Nunchuk ∧
      (ParseNunchuk
          (ParseAccel (ParseButtons { s.state with data := 0, time := now } (buf.drop 1)).2
            (buf.drop 1)).2 (buf.drop 16) false).2.ir = s.state.ir) := by
  constructor
  · intro ht
    have i1 := ParseIR_off (ParseButtons { s.state with data := 0, time := now } (buf.drop 1)).2
      (buf.drop 3) hi
    refine ⟨i1, ?_, by simp only [ParseNunchuk, ParseAccel, ParseButtons]; decide, rfl⟩
    rw [ProcessReport_decode nd buf now s (by rw [ht]; decide), ht]
    simp only [decodeSteps, runSteps, List.foldl, DecodeStep.run, Nat.reduceEqDiff, if_false,
      if_true, ↓reduceIte, i1]
    rw [ParseExtension_nunchuk (h := by exact he)]
  · intro ht
    have i1 := ParseIR_off
      (ParseAccel (ParseButtons { s.state with data := 0, time := now } (buf.drop 1)).2
        (buf.drop 1)).2 (buf.drop 6) hi
    refine ⟨i1, ?_, by simp only [ParseNunchuk, ParseAccel, ParseButtons]; decide, rfl⟩
    rw [ProcessReport_decode nd buf now s (by rw [ht]; decide), ht]
    simp only [decodeSteps, runSteps, List.foldl, DecodeStep.run, Nat.reduceEqDiff, if_false,
      if_true, ↓reduceIte, i1]
    rw [ParseExtension_nunchuk (h := by exact he)]

/-- C21 on the report `36 00 08 ..` read by the fresh engine with a nunchuk
attached and the IR camera off: the mask becomes `0x0009`, button `0x0800` is
held and the nunchuk stick reads `(0x80, 0x7F)`. -/
theorem C21_ir_step_fails_locally_witness :
    ∃ st, ProcessReport false
        [0x36, 0x00, 0x08, 0, 0, 0, 0, 0, 0, 0, 0, 0, 0, 0x80, 0x7F, 0x80, 0x80, 0x80, 0x03]
        0
        { Impl.ctor with
          state :=
            { Impl.ctor.state with
              extension := { Extension.zero with type := Extension.Nunchuk } } }
      = .ok (false,
        { Impl.ctor with state := st }) ∧
      st.data = 0x0009 ∧ st.buttons = 0x0800 ∧ st.ir = Impl.ctor.state.ir ∧
      ∃ nc, st.extension.nunchuk = some nc ∧ nc.stick.raw = { x := 0x80, y := 0x7F } :=
  ⟨_, ((C21_ir_step_fails_locally false
      [0x36, 0x00, 0x08, 0, 0, 0, 0, 0, 0, 0, 0, 0, 0, 0x80, 0x7F, 0x80, 0x80, 0x80, 0x03] 0
      { Impl.ctor with
        state :=
          { Impl.ctor.state with
            extension := { Extension.zero with type := Extension.Nunchuk } } }
      rfl rfl).1 rfl).2.1, rfl, rfl, rfl, _, rfl, rfl⟩

/-! ## The decoders of the peripherals on the union -/

/-- On a union that holds a value `nc` of the member `nunchuk`, `ParseNunchuk`
leaves the union holding the decoded member; the calibrations are those of
`nc`. -/
theorem ParseNunchuk_member (st : State) (buf : List Nat) (p : Bool) (nc : NunchukData)
    (h : st.extension.nunchuk = some nc) :
    ∃ nc1, (ParseNunchuk st buf p).2.extension.members = .nunchuk nc1 ∧
      nc1.stick =
        (NormalizeStick
          { nc.stick with raw := { x := (byteAt buf 0 : Nat), y := (byteAt buf 1 : Nat) } }).2 ∧
      nc1.buttons =
        (if p then (not32 (byteAt buf 5) >>> 2) &&& 0x03 else not32 (byteAt buf 5) &&& 0x03) ∧
      nc1.buttonsPressed = RecentlySet nc.buttons nc1.buttons ∧
      nc1.buttonsReleased = RecentlyCleared nc.buttons nc1.buttons ∧
      nc1.accel.cal = nc.accel.cal ∧ nc1.stick.cal = nc.stick.cal := by
  simp only [ParseNunchuk, h]
  refine ⟨_, rfl, rfl, ?_, ?_, ?_, ?_, ?_⟩
  · cases p <;> rfl
  · cases p <;> rfl
  · cases p <;> rfl
  · unfold NormalizeAccel
    split_ifs <;> rfl
  · unfold NormalizeStick
    split_ifs <;> rfl

/-- On a union that holds a value `cc` of the member `classic`,
`ParseClassicController` leaves the union holding the decoded member; the
calibrations are those of `cc`. -/
theorem ParseClassicController_member (st : State) (buf : List Nat) (p : Bool)
    (cc : ClassicControllerData) (h : st.extension.classic = some cc) :
    ∃ cc1, (ParseClassicController st buf p).2.extension.members = .classic cc1 ∧
      cc1.buttons =
        (if p then
          ((not32 (byteAt buf 4) &&& 0xFE) <<< 0) ||| ((not32 (byteAt buf 5) &&& 0xFC) <<< 8) |||
            ((not32 (byteAt buf 0) &&& 0x01) <<< 8) ||| ((not32 (byteAt buf 1) &&& 0x01) <<< 9)
        else
          ((not32 (byteAt buf 4) &&& 0xFE) <<< 0) ||| ((not32 (byteAt buf 5) &&& 0xFF) <<< 8)) ∧
      cc1.buttonsPressed = RecentlySet cc.buttons cc1.buttons ∧
      cc1.buttonsReleased = RecentlyCleared cc.buttons cc1.buttons ∧
      cc1.stickL.cal = cc.stickL.cal ∧ cc1.stickR.cal = cc.stickR.cal := by
  simp only [ParseClassicController, h]
  refine ⟨_, rfl, ?_, ?_, ?_, ?_, ?_⟩
  · cases p <;> rfl
  · cases p <;> rfl
  · cases p <;> rfl
  · unfold NormalizeStick
    split_ifs <;> rfl
  · unfold NormalizeStick
    split_ifs <;> rfl

/-! ## The value returned by the decoders -/

/-- C22, as the code has it: `ParseButtons`, `ParseAccel`, `ParseNunchuk` and
`ParseMotionPlus` always return true; `ParseIR` returns false exactly when the
IR mode is `Off`, and then leaves the state as it is; `ParseClassicController`
returns false although it ORs the `ClassicController` bit into the data-valid
mask and stores the decoded buttons in the member `classic` (for every union
that holds a value of that member); and `ParseExtension` returns
false either with the state as it is or with the result of
`ParseClassicController`. -/
theorem C22_decoders_true_except_classic (st : State) (buf : List Nat) (p : Bool) :
    (ParseButtons st buf).1 = true ∧ (ParseAccel st buf).1 = true ∧
    ((ParseIR st buf).1 = false ↔ st.ir.mode = IRData.Mode.Off) ∧
    ((ParseIR st buf).1 = false → (ParseIR st buf).2 = st) ∧
    (ParseNunchuk st buf p).1 = true ∧ (ParseMotionPlus st buf).1 = true ∧
    ((ParseClassicController st buf p).1 = false ∧
      (ParseClassicController st buf p).2.data = st.data ||| State.ClassicController ∧
      (∀ cc, st.extension.classic = some cc →
        ∃ cc1, (ParseClassicController st buf p).2.extension.classic = some cc1 ∧
          cc1.buttons =
            (if p then
              ((not32 (byteAt buf 4) &&& 0xFE) <<< 0) |||
                ((not32 (byteAt buf 5) &&& 0xFC) <<< 8) |||
                ((not32 (byteAt buf 0) &&& 0x01) <<< 8) |||
                ((not32 (byteAt buf 1) &&& 0x01) <<< 9)
            else
              ((not32 (byteAt buf 4) &&& 0xFE) <<< 0) |||
                ((not32 (byteAt buf 5) &&& 0xFF) <<< 8)))) ∧
    ((ParseExtension st buf).1 = false →
      (ParseExtension st buf).2 = st ∨
      ∃ q, ParseExtension st buf = ParseClassicController st buf q) := by
  refine ⟨rfl, rfl, ?_, ?_, rfl, rfl, ⟨rfl, rfl, ?_⟩, ?_⟩
  · unfold ParseIR
    cases h : st.ir.mode <;> simp [h]
  · unfold ParseIR
    cases h : st.ir.mode <;> simp [h]
  · intro cc h
    obtain ⟨cc1, e, b, _⟩ := ParseClassicController_member st buf p cc h
    exact ⟨cc1, by unfold Extension.classic; rw [e], b⟩
  · unfold ParseExtension
    dsimp only
    split_ifs
    · intro h
      cases h
    · intro h
      cases h
    · intro h
      cases h
    · intro _
      exact Or.inr ⟨_, rfl⟩
    · intro _
      exact Or.inl rfl

/-- C22 on the classic-controller payload `20 20 10 00 FF FF` (nothing pressed)
decoded on the cleared state: the decoder returns false and the mask holds the
`ClassicController` bit. -/
theorem C22_decoders_true_except_classic_witness :
    (ParseClassicController Impl.ctor.state [0x20, 0x20, 0x10, 0x00, 0xFF, 0xFF] false).1 = false ∧
    (ParseClassicController Impl.ctor.state [0x20, 0x20, 0x10, 0x00, 0xFF, 0xFF] false).2.data
      = 0 ||| State.ClassicController :=
  ⟨(C22_decoders_true_except_classic Impl.ctor.state [0x20, 0x20, 0x10, 0x00, 0xFF, 0xFF]
      false).2.2.2.2.2.2.1.1,
   (C22_decoders_true_except_classic Impl.ctor.state [0x20, 0x20, 0x10, 0x00, 0xFF, 0xFF]
      false).2.2.2.2.2.2.1.2.1⟩

/-! ## The extension step without an extension -/

/-- C23, as amended: with extension type 0, `ParseExtension` returns true and
leaves the whole state, the data-valid mask included, as it is. -/
theorem C23_ParseExtension_without_extension (st : State) (buf : List Nat)
    (h : st.extension.type = 0) : ParseExtension st buf = (true, st) :=
  ParseExtension_none st buf h

/-- C23, as amended, on the cleared state and the payload `80 80 80 80 80 03`. -/
theorem C23_ParseExtension_without_extension_witness :
    Impl.ctor.state.extension.type = 0 ∧
    ParseExtension Impl.ctor.state [0x80, 0x80, 0x80, 0x80, 0x80, 0x03] =
      (true, Impl.ctor.state) :=
  ⟨rfl, C23_ParseExtension_without_extension Impl.ctor.state
    [0x80, 0x80, 0x80, 0x80, 0x80, 0x03] rfl⟩

/-- C23 as stated fails: on the cleared state, whose extension type is 0,
`ParseExtension` returns true, not false. -/
theorem C23_counterexample :
    Impl.ctor.state.extension.type = 0 ∧
    (ParseExtension Impl.ctor.state [0x80, 0x80, 0x80, 0x80, 0x80, 0x03]).1 = true :=
  ⟨rfl, rfl⟩

/-! ## The extension step: motion sensor and pass-through -/

theorem testBit_three (i : Nat) : (3 : Nat).testBit i = decide (i < 2) := by
  have h : (3 : Nat) = 2 ^ 2 - 1 := by norm_num
  rw [h, Nat.testBit_two_pow_sub_one]

theorem nunchuk_buttons_direct (b i : Nat) :
    (not32 b &&& 0x03).testBit i = (decide (i < 2) && !b.testBit i) := by
  rw [Nat.testBit_and, testBit_not32, testBit_three]
  by_cases h : i < 2
  · have h32 : i < 32 := by omega
    simp [h, h32]
  · simp [h]

theorem nunchuk_buttons_passthrough (b i : Nat) :
    ((not32 b >>> 2) &&& 0x03).testBit i = (decide (i < 2) && !b.testBit (i + 2)) := by
  rw [Nat.testBit_and, Nat.testBit_shiftRight, testBit_not32, testBit_three]
  by_cases h : i < 2
  · have h32 : i + 2 < 32 := by omega
    simp [h, h32, Nat.add_comm]
  · simp [h]

/-- C24: the decoder `ParseExtension` selects by extension type.  With
`MotionPlus` together with `Nunchuk` or `ClassicController` it decodes
motion-sensor data when bit 1 of byte 5 is set and otherwise the peripheral with
the pass-through layout; with `MotionPlus` alone it decodes motion-sensor data;
with a peripheral alone it decodes the peripheral with the direct layout.
`ParseMotionPlus` changes the motion-sensor data and ORs the `MotionPlus` bit
into the mask and nothing else, so the union of the peripherals is as before;
`ParseNunchuk` and `ParseClassicController` change the union of the peripherals
and OR the bit of their peripheral and nothing else, so the motion-sensor data
and the type are as before; on a union that holds a value of their member they
leave it holding that member.  The nunchuk buttons are the inverted bits 2..3 of
byte 5 in the pass-through layout and the inverted bits 0..1 in the direct
layout. -/
theorem C24_ParseExtension_selects_decoder (st : State) (buf : List Nat) :
    (st.extension.type = Extension.MotionPlus ||| Extension.Nunchuk ∨
        st.extension.type = Extension.MotionPlus ||| Extension.ClassicController →
      byteAt buf 5 &&& 0x02 ≠ 0 → ParseExtension st buf = ParseMotionPlus st buf) ∧
    (st.extension.type = Extension.MotionPlus ||| Extension.Nunchuk →
      byteAt buf 5 &&& 0x02 = 0 → ParseExtension st buf = ParseNunchuk st buf true) ∧
    (st.extension.type = Extension.MotionPlus ||| Extension.ClassicController →
      byteAt buf 5 &&& 0x02 = 0 → ParseExtension st buf = ParseClassicController st buf true) ∧
    (st.extension.type = Extension.MotionPlus → ParseExtension st buf = ParseMotionPlus st buf) ∧
    (st.extension.type = Extension.Nunchuk → ParseExtension st buf = ParseNunchuk st buf false) ∧
    (st.extension.type = Extension.ClassicController →
      ParseExtension st buf = ParseClassicController st buf false) ∧
    (∃ mp, (ParseMotionPlus st buf).2 =
      { st with
        extension := { st.extension with motionPlus := mp }
        data := st.data ||| State.MotionPlus }) ∧
    (∀ p, ∃ m, (ParseNunchuk st buf p).2 =
      { st with
        extension := { st.extension with members := m }
        data := st.data ||| State.Nunchuk }) ∧
    (∀ p, ∃ m, (ParseClassicController st buf p).2 =
      { st with
        extension := { st.extension with members := m }
        data := st.data ||| State.ClassicController }) ∧
    (∀ p nc, st.extension.nunchuk = some nc →
      ∃ nc1, (ParseNunchuk st buf p).2.extension.members = .nunchuk nc1) ∧
    (∀ p cc, st.extension.classic = some cc →
      ∃ cc1, (ParseClassicController st buf p).2.extension.members = .classic cc1) ∧
    (∀ nc, st.extension.nunchuk = some nc →
      ∃ nc1, (ParseNunchuk st buf true).2.extension.nunchuk = some nc1 ∧
        ∀ i, nc1.buttons.testBit i = (decide (i < 2) && !(byteAt buf 5).testBit (i + 2))) ∧
    (∀ nc, st.extension.nunchuk = some nc →
      ∃ nc1, (ParseNunchuk st buf false).2.extension.nunchuk = some nc1 ∧
        ∀ i, nc1.buttons.testBit i = (decide (i < 2) && !(byteAt buf 5).testBit i)) := by
  refine ⟨?_, ?_, ?_, ?_, ?_, ?_, ⟨_, rfl⟩, fun p => ⟨_, rfl⟩, fun p => ⟨_, rfl⟩, ?_, ?_, ?_, ?_⟩
  · intro ht hb
    have hd : decide (byteAt buf 5 &&& 0x02 ≠ 0) = true := by simpa using hb
    unfold ParseExtension
    rcases ht with ht | ht <;> rw [ht] <;> simp only [hd] <;> rfl
  · intro ht hb
    have hd : decide (byteAt buf 5 &&& 0x02 ≠ 0) = false := by simpa using hb
    unfold ParseExtension
    rw [ht]
    simp only [hd]
    rfl
  · intro ht hb
    have hd : decide (byteAt buf 5 &&& 0x02 ≠ 0) = false := by simpa using hb
    unfold ParseExtension
    rw [ht]
    simp only [hd]
    rfl
  · intro ht
    unfold ParseExtension
    rw [ht]
    rfl
  · exact ParseExtension_nunchuk st buf
  · intro ht
    unfold ParseExtension
    rw [ht]
    rfl
  · intro p nc h
    obtain ⟨nc1, e, _⟩ := ParseNunchuk_member st buf p nc h
    exact ⟨nc1, e⟩
  · intro p cc h
    obtain ⟨cc1, e, _⟩ := ParseClassicController_member st buf p cc h
    exact ⟨cc1, e⟩
  · intro nc h
    obtain ⟨nc1, e, _, b, _⟩ := ParseNunchuk_member st buf true nc h
    refine ⟨nc1, by unfold Extension.nunchuk; rw [e], fun i => ?_⟩
    rw [b]
    exact nunchuk_buttons_passthrough _ i
  · intro nc h
    obtain ⟨nc1, e, _, b, _⟩ := ParseNunchuk_member st buf false nc h
    refine ⟨nc1, by unfold Extension.nunchuk; rw [e], fun i => ?_⟩
    rw [b]
    exact nunchuk_buttons_direct _ i

/-- C24 on the state with a nunchuk behind the motion sensor: the payload with
bit 1 of byte 5 set changes the motion-sensor data and leaves the union zeroed,
the payload with the bit clear and bits 2..3 clear leaves the motion-sensor
data alone and the union holding a nunchuk with both buttons down. -/
theorem C24_ParseExtension_selects_decoder_witness :
    (ParseExtension
        { Impl.ctor.state with
          extension :=
            { Extension.zero with type := Extension.MotionPlus ||| Extension.Nunchuk } }
        [0x10, 0x20, 0x30, 0x03, 0x03, 0x02]).2.extension.members = .zero ∧
    (ParseExtension
        { Impl.ctor.state with
          extension :=
            { Extension.zero with type := Extension.MotionPlus ||| Extension.Nunchuk } }
        [0x10, 0x20, 0x30, 0x03, 0x03, 0x02]).2.data = 0 ||| State.MotionPlus ∧
    (ParseExtension
        { Impl.ctor.state with
          extension :=
            { Extension.zero with type := Extension.MotionPlus ||| Extension.Nunchuk } }
        [0x80, 0x80, 0x80, 0x80, 0x80, 0x00]).2.extension.motionPlus
      = Extension.zero.motionPlus ∧
    (∃ nc,
      (ParseExtension
          { Impl.ctor.state with
            extension :=
              { Extension.zero with type := Extension.MotionPlus ||| Extension.Nunchuk } }
          [0x80, 0x80, 0x80, 0x80, 0x80, 0x00]).2.extension.members = .nunchuk nc ∧
      nc.buttons = 0x03) := by
  have h := C24_ParseExtension_selects_decoder
    { Impl.ctor.state with
      extension := { Extension.zero with type := Extension.MotionPlus ||| Extension.Nunchuk } }
    [0x10, 0x20, 0x30, 0x03, 0x03, 0x02]
  have k := C24_ParseExtension_selects_decoder
    { Impl.ctor.state with
      extension := { Extension.zero with type := Extension.MotionPlus ||| Extension.Nunchuk } }
    [0x80, 0x80, 0x80, 0x80, 0x80, 0x00]
  rw [h.1 (Or.inl rfl) (by decide), k.2.1 rfl (by decide)]
  exact ⟨rfl, rfl, rfl, _, rfl, by decide⟩

/-! ## The extension record after the identifier is read -/

theorem extensionTypeOfId_cases (Id1 : Nat) :
    extensionTypeOfId Id1 = 0 ∨ extensionTypeOfId Id1 = Extension.Nunchuk ∨
    extensionTypeOfId Id1 = Extension.ClassicController ∨
    extensionTypeOfId Id1 = Extension.MotionPlus ∨
    extensionTypeOfId Id1 = Extension.MotionPlus ||| Extension.Nunchuk ∨
    extensionTypeOfId Id1 = Extension.MotionPlus ||| Extension.ClassicController := by
  unfold extensionTypeOfId
  split_ifs <;> simp

theorem extensionTypeOfId_other (Id1 : Nat) :
    extensionTypeOfId Id1 &&& not32 Extension.MotionPlus ≠ 0 ↔
      extensionTypeOfId Id1 &&& (Extension.Nunchuk ||| Extension.ClassicController) ≠ 0 := by
  rcases extensionTypeOfId_cases Id1 with h | h | h | h | h | h <;> rw [h] <;> decide

/-- C25: for every identity block and every previous state,
`ParseExtensionIdentifier` returns true and replaces the extension record by the
all-zero record with the type `t` of the table and the motion-sensor status
`WII_STATUS_MP_ACTIVE` if `t` contains `MotionPlus` and `WII_STATUS_MP_INACTIVE`
otherwise; it appends `Read(0x04A40000, 0x100)` if `t` contains `MotionPlus`,
then `Read(0x04A40020, 16)` if `t` contains `Nunchuk` or `ClassicController`,
and nothing for type 0; nothing else of the object changes.  In the all-zero
record the union is zeroed storage, which reads as the zero value of `nunchuk`
and of `classic`; every calibration is invalid and every button word is 0. -/
theorem C25_ParseExtensionIdentifier_resets (nd : Bool) (buf : List Nat) (len error : Nat)
    (s : Impl) :
    ParseExtensionIdentifier nd buf len error s =
      .ok (true,
        { s with
          state :=
            { s.state with
              extension :=
                { Extension.zero with
                  type := extensionTypeOfId (Read32 (buf.drop 2))
                  motionPlus :=
                    { Extension.zero.motionPlus with
                      status :=
                        if extensionTypeOfId (Read32 (buf.drop 2)) &&& Extension.MotionPlus ≠ 0
                        then WII_STATUS_MP_ACTIVE else WII_STATUS_MP_INACTIVE } } }
          requests := s.requests ++
            ((if extensionTypeOfId (Read32 (buf.drop 2)) &&& Extension.MotionPlus ≠ 0
              then [Request.read 0x04A40000 0x100 .ParseMotionPlusCalibrationData] else []) ++
             (if extensionTypeOfId (Read32 (buf.drop 2)) &&&
                  (Extension.Nunchuk ||| Extension.ClassicController) ≠ 0
              then [Request.read 0x04A40020 16 .ParseExtensionCalibrationData] else [])) }) ∧
    (extensionTypeOfId (Read32 (buf.drop 2)) = 0 →
      ∃ s1, ParseExtensionIdentifier nd buf len error s = .ok (true, s1) ∧
        s1.requests = s.requests) ∧
    (Extension.zero.members = .zero ∧
      Extension.zero.nunchuk = some NunchukData.zero ∧
      Extension.zero.classic = some ClassicControllerData.zero ∧
      Extension.zero.motionPlus.cal.valid = false ∧
      NunchukData.zero.accel.cal.valid = false ∧
      NunchukData.zero.stick.cal.valid = false ∧
      ClassicControllerData.zero.stickL.cal.valid = false ∧
      ClassicControllerData.zero.stickR.cal.valid = false ∧
      NunchukData.zero.buttons = 0 ∧ ClassicControllerData.zero.buttons = 0 ∧
      Extension.zero.motionPlus.raw = ⟨0, 0, 0⟩ ∧ NunchukData.zero.accel.raw = ⟨0, 0, 0⟩ ∧
      NunchukData.zero.stick.raw = ⟨0, 0⟩ ∧ ClassicControllerData.zero.stickL.raw = ⟨0, 0⟩ ∧
      ClassicControllerData.zero.stickR.raw = ⟨0, 0⟩) := by
  refine ⟨?_, ?_, by decide⟩
  · have e := extensionTypeOfId_other (Read32 (buf.drop 2))
    unfold ParseExtensionIdentifier
    simp only [ReadMotionPlusCalibrationData, ReadExtensionCalibrationData, ReadData_eq]
    by_cases a : extensionTypeOfId (Read32 (buf.drop 2)) &&& Extension.MotionPlus ≠ 0 <;>
      by_cases b : extensionTypeOfId (Read32 (buf.drop 2)) &&& not32 Extension.MotionPlus ≠ 0
    · simp only [if_pos a, if_pos b, if_pos (e.1 b), ok_bind, pure_eq_ok, List.append_assoc]
    · simp only [if_pos a, if_neg b, if_neg (fun c => b (e.2 c)), ok_bind, pure_eq_ok,
        List.append_nil]
    · simp only [if_neg a, if_pos b, if_pos (e.1 b), ok_bind, pure_eq_ok, List.nil_append]
    · simp only [if_neg a, if_neg b, if_neg (fun c => b (e.2 c)), ok_bind, pure_eq_ok,
        List.append_nil]
  · intro h
    unfold ParseExtensionIdentifier
    simp only [ReadMotionPlusCalibrationData, ReadExtensionCalibrationData, ReadData_eq]
    rw [h]
    exact ⟨_, rfl, rfl⟩

/-- C25 on the identity block `00 00 A4 20 05 05` (motion sensor with a nunchuk
behind it) after a state with a valid nunchuk calibration: both calibration
reads are appended, in that order, and the nunchuk calibration is invalid
again. -/
theorem C25_ParseExtensionIdentifier_resets_witness :
    ∃ s1,
      ParseExtensionIdentifier false [0x00, 0x00, 0xA4, 0x20, 0x05, 0x05] 6 0
        { Impl.ctor with
          state :=
            { Impl.ctor.state with
              extension :=
                { Extension.zero with
                  type := Extension.Nunchuk
                  members :=
                    .nunchuk
                      { NunchukData.zero with
                        buttons := 3
                        stick :=
                          { JoystickData.zero with
                            cal :=
                              { max := ⟨230, 230⟩, min := ⟨30, 30⟩, center := ⟨130, 130⟩,
                                valid := true } } } } } } = .ok (true, s1) ∧
      s1.state.extension.type = Extension.MotionPlus ||| Extension.Nunchuk ∧
      s1.state.extension.motionPlus.status = WII_STATUS_MP_ACTIVE ∧
      s1.state.extension.nunchuk = some NunchukData.zero ∧
      s1.requests =
        [Request.read 0x04A40000 0x100 .ParseMotionPlusCalibrationData,
         Request.read 0x04A40020 16 .ParseExtensionCalibrationData] :=
  ⟨_, (C25_ParseExtensionIdentifier_resets false [0x00, 0x00, 0xA4, 0x20, 0x05, 0x05] 6 0 _).1,
    rfl, rfl, rfl, rfl⟩

/-! ## Calibration blocks -/

theorem packed_axis (a b k m : Nat) (h : m >>> k < 4) :
    (a <<< 2) ||| ((b &&& m) >>> k) = 4 * a + ((b >>> k) &&& (m >>> k)) := by
  have e : (b &&& m) >>> k = (b >>> k) &&& (m >>> k) := by
    apply Nat.eq_of_testBit_eq
    intro i
    simp only [Nat.testBit_shiftRight, Nat.testBit_and]
  have l : (b >>> k) &&& (m >>> k) < 2 ^ 2 := lt_of_le_of_lt Nat.and_le_right h
  rw [e, shiftLeft_or_eq_add a l]
  omega

theorem packed_axis_lt (a b n : Nat) (h : a < 256) : 4 * a + (b &&& n % 4) < 1024 := by
  have l : b &&& n % 4 ≤ n % 4 := Nat.and_le_right
  have m : n % 4 < 4 := Nat.mod_lt _ (by norm_num)
  omega

/-- C26: for every block, `ParseAccelCalibrationData` yields
`zero = (4*b0 + ((b3>>4)&3), 4*b1 + ((b3>>2)&3), 4*b2 + (b3&3))` and `g`
likewise from bytes 4..7, every component in 0..1023; the value returned is the
flag `valid`, and the flag is set if and only if `zero` and `g` differ on all
three axes.  `ParseStickCalibrationData` reads max, min, center of the x axis
from bytes 0..2 and of the y axis from bytes 3..5, returns the flag `valid`, and
sets it if and only if min < center < max on both axes. -/
theorem C26_calibration_blocks (buf : List Nat) :
    ((ParseAccelCalibrationData buf).2.zero =
        { x := ((4 * byteAt buf 0 + ((byteAt buf 3 >>> 4) &&& 3) : Nat) : Int)
          y := ((4 * byteAt buf 1 + ((byteAt buf 3 >>> 2) &&& 3) : Nat) : Int)
          z := ((4 * byteAt buf 2 + (byteAt buf 3 &&& 3) : Nat) : Int) } ∧
      (ParseAccelCalibrationData buf).2.g =
        { x := ((4 * byteAt buf 4 + ((byteAt buf 7 >>> 4) &&& 3) : Nat) : Int)
          y := ((4 * byteAt buf 5 + ((byteAt buf 7 >>> 2) &&& 3) : Nat) : Int)
          z := ((4 * byteAt buf 6 + (byteAt buf 7 &&& 3) : Nat) : Int) }) ∧
    ((0 ≤ (ParseAccelCalibrationData buf).2.zero.x ∧ (ParseAccelCalibrationData buf).2.zero.x ≤ 1023) ∧
      (0 ≤ (ParseAccelCalibrationData buf).2.zero.y ∧ (ParseAccelCalibrationData buf).2.zero.y ≤ 1023) ∧
      (0 ≤ (ParseAccelCalibrationData buf).2.zero.z ∧ (ParseAccelCalibrationData buf).2.zero.z ≤ 1023) ∧
      (0 ≤ (ParseAccelCalibrationData buf).2.g.x ∧ (ParseAccelCalibrationData buf).2.g.x ≤ 1023) ∧
      (0 ≤ (ParseAccelCalibrationData buf).2.g.y ∧ (ParseAccelCalibrationData buf).2.g.y ≤ 1023) ∧
      (0 ≤ (ParseAccelCalibrationData buf).2.g.z ∧ (ParseAccelCalibrationData buf).2.g.z ≤ 1023)) ∧
    ((ParseAccelCalibrationData buf).1 = (ParseAccelCalibrationData buf).2.valid ∧
      ((ParseAccelCalibrationData buf).2.valid = true ↔
        (ParseAccelCalibrationData buf).2.zero.x ≠ (ParseAccelCalibrationData buf).2.g.x ∧
        (ParseAccelCalibrationData buf).2.zero.y ≠ (ParseAccelCalibrationData buf).2.g.y ∧
        (ParseAccelCalibrationData buf).2.zero.z ≠ (ParseAccelCalibrationData buf).2.g.z)) ∧
    ((ParseStickCalibrationData buf).2.max = { x := (byteAt buf 0 : Nat), y := (byteAt buf 3 : Nat) } ∧
      (ParseStickCalibrationData buf).2.min = { x := (byteAt buf 1 : Nat), y := (byteAt buf 4 : Nat) } ∧
      (ParseStickCalibrationData buf).2.center =
        { x := (byteAt buf 2 : Nat), y := (byteAt buf 5 : Nat) }) ∧
    ((ParseStickCalibrationData buf).1 = (ParseStickCalibrationData buf).2.valid ∧
      ((ParseStickCalibrationData buf).2.valid = true ↔
        ((ParseStickCalibrationData buf).2.min.x < (ParseStickCalibrationData buf).2.center.x ∧
          (ParseStickCalibrationData buf).2.center.x < (ParseStickCalibrationData buf).2.max.x) ∧
        ((ParseStickCalibrationData buf).2.min.y < (ParseStickCalibrationData buf).2.center.y ∧
          (ParseStickCalibrationData buf).2.center.y < (ParseStickCalibrationData buf).2.max.y))) := by
  have z : ∀ b : Nat, (b &&& 0x03) >>> 0 = b &&& 3 := fun _ => rfl
  have e : ∀ a b : Nat,
      ((a <<< 2) ||| ((b &&& 0x30) >>> 4) = 4 * a + ((b >>> 4) &&& 3)) ∧
      ((a <<< 2) ||| ((b &&& 0x0C) >>> 2) = 4 * a + ((b >>> 2) &&& 3)) ∧
      ((a <<< 2) ||| ((b &&& 0x03) >>> 0) = 4 * a + (b &&& 3)) := fun a b =>
    ⟨packed_axis a b 4 0x30 (by decide), packed_axis a b 2 0x0C (by decide),
      packed_axis a b 0 0x03 (by decide)⟩
  have l : ∀ i b : Nat, 4 * byteAt buf i + (b &&& 3) < 1024 := fun i b =>
    packed_axis_lt (byteAt buf i) b 3 (byteAt_lt buf i)
  have hz : (ParseAccelCalibrationData buf).2.zero =
        { x := ((4 * byteAt buf 0 + ((byteAt buf 3 >>> 4) &&& 3) : Nat) : Int)
          y := ((4 * byteAt buf 1 + ((byteAt buf 3 >>> 2) &&& 3) : Nat) : Int)
          z := ((4 * byteAt buf 2 + (byteAt buf 3 &&& 3) : Nat) : Int) } := by
    simp only [ParseAccelCalibrationData, (e _ _).1, (e _ _).2.1, (e _ _).2.2]
  have hg : (ParseAccelCalibrationData buf).2.g =
        { x := ((4 * byteAt buf 4 + ((byteAt buf 7 >>> 4) &&& 3) : Nat) : Int)
          y := ((4 * byteAt buf 5 + ((byteAt buf 7 >>> 2) &&& 3) : Nat) : Int)
          z := ((4 * byteAt buf 6 + (byteAt buf 7 &&& 3) : Nat) : Int) } := by
    simp only [ParseAccelCalibrationData, (e _ _).1, (e _ _).2.1, (e _ _).2.2]
  refine ⟨⟨hz, hg⟩, ?_, ⟨rfl, ?_⟩, ⟨rfl, rfl, rfl⟩, rfl, ?_⟩
  · rw [hz, hg]
    have a0 := l 0 (byteAt buf 3 >>> 4)
    have a1 := l 1 (byteAt buf 3 >>> 2)
    have a2 := l 2 (byteAt buf 3)
    have a4 := l 4 (byteAt buf 7 >>> 4)
    have a5 := l 5 (byteAt buf 7 >>> 2)
    have a6 := l 6 (byteAt buf 7)
    dsimp only
    omega
  · simp only [ParseAccelCalibrationData, Bool.and_eq_true, decide_eq_true_eq, and_assoc]
  · simp only [ParseStickCalibrationData, Bool.and_eq_true, decide_eq_true_eq, and_assoc]

/-- C26 on concrete blocks: the accelerometer block `80 80 80 1B 99 99 9A 00`
gives zero = (513, 514, 515), g = (612, 612, 616) and is valid; the block whose
two halves agree on the x axis is invalid; the stick block `E6 1E 82 E6 1E 82`
(min 30, center 130, max 230) is valid and the block with center = max on the y
axis is invalid. -/
theorem C26_calibration_blocks_witness :
    (ParseAccelCalibrationData [0x80, 0x80, 0x80, 0x1B, 0x99, 0x99, 0x9A, 0x00]).2.zero =
      ⟨513, 514, 515⟩ ∧
    (ParseAccelCalibrationData [0x80, 0x80, 0x80, 0x1B, 0x99, 0x99, 0x9A, 0x00]).2.g =
      ⟨612, 612, 616⟩ ∧
    (ParseAccelCalibrationData [0x80, 0x80, 0x80, 0x1B, 0x99, 0x99, 0x9A, 0x00]).1 = true ∧
    (ParseAccelCalibrationData [0x80, 0x80, 0x80, 0x1B, 0x80, 0x99, 0x9A, 0x10]).1 = false ∧
    (ParseStickCalibrationData [0xE6, 0x1E, 0x82, 0xE6, 0x1E, 0x82]).2 =
      { max := ⟨230, 230⟩, min := ⟨30, 30⟩, center := ⟨130, 130⟩, valid := true } ∧
    (ParseStickCalibrationData [0xE6, 0x1E, 0x82, 0xE6, 0x1E, 0xE6]).1 = false :=
  ⟨(C26_calibration_blocks [0x80, 0x80, 0x80, 0x1B, 0x99, 0x99, 0x9A, 0x00]).1.1.trans
      (by decide),
    (C26_calibration_blocks [0x80, 0x80, 0x80, 0x1B, 0x99, 0x99, 0x9A, 0x00]).1.2.trans
      (by decide),
    by decide, by decide, by decide, by decide⟩

/-! ## Normalized accelerometer reading -/

theorem ParseAccel_cal (st : State) (buf : List Nat) :
    (ParseAccel st buf).2.accel.cal = st.accel.cal := by
  unfold ParseAccel NormalizeAccel
  dsimp only
  split_ifs <;> rfl

theorem ParseAccel_valid (st : State) (buf : List Nat) (h : st.accel.cal.valid = true) :
    (ParseAccel st buf).2.accel.normalized =
      { x := F32.div (F32.ofInt ((ParseAccel st buf).2.accel.raw.x - st.accel.cal.zero.x))
          (F32.ofInt (st.accel.cal.g.x - st.accel.cal.zero.x))
        y := F32.div (F32.ofInt ((ParseAccel st buf).2.accel.raw.y - st.accel.cal.zero.y))
          (F32.ofInt (st.accel.cal.g.y - st.accel.cal.zero.y))
        z := F32.div (F32.ofInt ((ParseAccel st buf).2.accel.raw.z - st.accel.cal.zero.z))
          (F32.ofInt (st.accel.cal.g.z - st.accel.cal.zero.z)) } := by
  unfold ParseAccel NormalizeAccel
  dsimp only
  rw [if_pos h]

theorem F32.div_sub_self (a b : Int) (h : a ≠ b) :
    F32.div (F32.ofInt (a - b)) (F32.ofInt (a - b)) = 1 :=
  F32.div_same _ (F32.ofInt_ne_zero _ (sub_ne_zero.mpr h))

theorem F32.sub_self_div (a : Int) (b : ℚ) : F32.div (F32.ofInt (a - a)) b = 0 := by
  rw [sub_self, F32.ofInt_zero, F32.div_zero_num]

theorem roundedQuotient_div (a b : Int) (ha : a.natAbs ≤ 2 ^ 24) (hb : b.natAbs ≤ 2 ^ 24)
    (h0 : b ≠ 0) : roundedQuotient a b (F32.div (F32.ofInt a) (F32.ofInt b)) := by
  unfold roundedQuotient
  rw [F32.div_ofInt a b ha hb]
  exact ⟨rfl, f32_quotient_error a b hb h0⟩

/-- C27, as amended: for every state and every buffer, after
`ParseAccel` the raw reading is the 10-bit decode of the bytes and the `Accel`
bit is set in the mask (the other bits as before); with the calibration flag
clear the normalized reading is (0, 0, 1); with the flag set it is, per axis,
the `float` quotient of raw - zero and g - zero, which need not be the exact
rational quotient: for differences of at most 24 bits and g different from zero
it is that quotient rounded once to binary32, at most `2 ^ (-24)` of it away.  With the flag
set, raw = zero gives exactly 0 on that axis, and raw = g gives exactly 1 on an
axis where g and zero differ; a calibration stored by `ParseCalibrationData`
with the flag set has g and zero different on all three axes, so there raw = g
gives 1 on every axis. -/
theorem C27_ParseAccel_normalized (st : State) (buf : List Nat) :
    ((ParseAccel st buf).2.accel.raw =
        { x := ((byteAt buf 2 <<< 2) ||| ((byteAt buf 0 &&& 0x60) >>> 5) : Nat)
          y := ((byteAt buf 3 <<< 2) ||| ((byteAt buf 1 &&& 0x20) >>> 4) : Nat)
          z := ((byteAt buf 4 <<< 2) ||| ((byteAt buf 1 &&& 0x40) >>> 5) : Nat) } ∧
      (ParseAccel st buf).2.data = st.data ||| State.Accel ∧
      (ParseAccel st buf).2.data &&& State.Accel = State.Accel ∧
      (ParseAccel st buf).2.accel.cal = st.accel.cal) ∧
    (st.accel.cal.valid = true →
      (ParseAccel st buf).2.accel.normalized =
        { x := F32.div (F32.ofInt ((ParseAccel st buf).2.accel.raw.x - st.accel.cal.zero.x))
            (F32.ofInt (st.accel.cal.g.x - st.accel.cal.zero.x))
          y := F32.div (F32.ofInt ((ParseAccel st buf).2.accel.raw.y - st.accel.cal.zero.y))
            (F32.ofInt (st.accel.cal.g.y - st.accel.cal.zero.y))
          z := F32.div (F32.ofInt ((ParseAccel st buf).2.accel.raw.z - st.accel.cal.zero.z))
            (F32.ofInt (st.accel.cal.g.z - st.accel.cal.zero.z)) }) ∧
    (st.accel.cal.valid = false →
      (ParseAccel st buf).2.accel.normalized = { x := 0, y := 0, z := 1 }) ∧
    (st.accel.cal.valid = true →
      ((ParseAccel st buf).2.accel.raw.x = st.accel.cal.zero.x →
        (ParseAccel st buf).2.accel.normalized.x = 0) ∧
      ((ParseAccel st buf).2.accel.raw.y = st.accel.cal.zero.y →
        (ParseAccel st buf).2.accel.normalized.y = 0) ∧
      ((ParseAccel st buf).2.accel.raw.z = st.accel.cal.zero.z →
        (ParseAccel st buf).2.accel.normalized.z = 0) ∧
      (st.accel.cal.g.x ≠ st.accel.cal.zero.x →
        (ParseAccel st buf).2.accel.raw.x = st.accel.cal.g.x →
        (ParseAccel st buf).2.accel.normalized.x = 1) ∧
      (st.accel.cal.g.y ≠ st.accel.cal.zero.y →
        (ParseAccel st buf).2.accel.raw.y = st.accel.cal.g.y →
        (ParseAccel st buf).2.accel.normalized.y = 1) ∧
      (st.accel.cal.g.z ≠ st.accel.cal.zero.z →
        (ParseAccel st buf).2.accel.raw.z = st.accel.cal.g.z →
        (ParseAccel st buf).2.accel.normalized.z = 1)) ∧
    (∀ (cbuf : List Nat) (len error : Nat),
      (ParseCalibrationData st cbuf len error).2.accel.cal.valid = true →
      ((ParseAccel (ParseCalibrationData st cbuf len error).2 buf).2.accel.raw.x =
          (ParseCalibrationData st cbuf len error).2.accel.cal.g.x →
        (ParseAccel (ParseCalibrationData st cbuf len error).2 buf).2.accel.normalized.x = 1) ∧
      ((ParseAccel (ParseCalibrationData st cbuf len error).2 buf).2.accel.raw.y =
          (ParseCalibrationData st cbuf len error).2.accel.cal.g.y →
        (ParseAccel (ParseCalibrationData st cbuf len error).2 buf).2.accel.normalized.y = 1) ∧
      ((ParseAccel (ParseCalibrationData st cbuf len error).2 buf).2.accel.raw.z =
          (ParseCalibrationData st cbuf len error).2.accel.cal.g.z →
        (ParseAccel (ParseCalibrationData st cbuf len error).2 buf).2.accel.normalized.z = 1)) ∧
    (st.accel.cal.valid = true →
      (((ParseAccel st buf).2.accel.raw.x - st.accel.cal.zero.x).natAbs ≤ 2 ^ 24 →
        (st.accel.cal.g.x - st.accel.cal.zero.x).natAbs ≤ 2 ^ 24 →
        st.accel.cal.g.x - st.accel.cal.zero.x ≠ 0 →
        roundedQuotient ((ParseAccel st buf).2.accel.raw.x - st.accel.cal.zero.x)
          (st.accel.cal.g.x - st.accel.cal.zero.x) (ParseAccel st buf).2.accel.normalized.x) ∧
      (((ParseAccel st buf).2.accel.raw.y - st.accel.cal.zero.y).natAbs ≤ 2 ^ 24 →
        (st.accel.cal.g.y - st.accel.cal.zero.y).natAbs ≤ 2 ^ 24 →
        st.accel.cal.g.y - st.accel.cal.zero.y ≠ 0 →
        roundedQuotient ((ParseAccel st buf).2.accel.raw.y - st.accel.cal.zero.y)
          (st.accel.cal.g.y - st.accel.cal.zero.y) (ParseAccel st buf).2.accel.normalized.y) ∧
      (((ParseAccel st buf).2.accel.raw.z - st.accel.cal.zero.z).natAbs ≤ 2 ^ 24 →
        (st.accel.cal.g.z - st.accel.cal.zero.z).natAbs ≤ 2 ^ 24 →
        st.accel.cal.g.z - st.accel.cal.zero.z ≠ 0 →
        roundedQuotient ((ParseAccel st buf).2.accel.raw.z - st.accel.cal.zero.z)
          (st.accel.cal.g.z - st.accel.cal.zero.z) (ParseAccel st buf).2.accel.normalized.z)) := by
  have gen : ∀ s : State, s.accel.cal.valid = true →
      ((ParseAccel s buf).2.accel.raw.x = s.accel.cal.zero.x →
        (ParseAccel s buf).2.accel.normalized.x = 0) ∧
      ((ParseAccel s buf).2.accel.raw.y = s.accel.cal.zero.y →
        (ParseAccel s buf).2.accel.normalized.y = 0) ∧
      ((ParseAccel s buf).2.accel.raw.z = s.accel.cal.zero.z →
        (ParseAccel s buf).2.accel.normalized.z = 0) ∧
      (s.accel.cal.g.x ≠ s.accel.cal.zero.x →
        (ParseAccel s buf).2.accel.raw.x = s.accel.cal.g.x →
        (ParseAccel s buf).2.accel.normalized.x = 1) ∧
      (s.accel.cal.g.y ≠ s.accel.cal.zero.y →
        (ParseAccel s buf).2.accel.raw.y = s.accel.cal.g.y →
        (ParseAccel s buf).2.accel.normalized.y = 1) ∧
      (s.accel.cal.g.z ≠ s.accel.cal.zero.z →
        (ParseAccel s buf).2.accel.raw.z = s.accel.cal.g.z →
        (ParseAccel s buf).2.accel.normalized.z = 1) := by
    intro s hv
    rw [ParseAccel_valid s buf hv]
    refine ⟨?_, ?_, ?_, ?_, ?_, ?_⟩
    · intro e; dsimp only; rw [e]; exact F32.sub_self_div _ _
    · intro e; dsimp only; rw [e]; exact F32.sub_self_div _ _
    · intro e; dsimp only; rw [e]; exact F32.sub_self_div _ _
    · intro n e; dsimp only; rw [e]; exact F32.div_sub_self _ _ n
    · intro n e; dsimp only; rw [e]; exact F32.div_sub_self _ _ n
    · intro n e; dsimp only; rw [e]; exact F32.div_sub_self _ _ n
  refine ⟨⟨?_, rfl, ?_, ParseAccel_cal st buf⟩, ParseAccel_valid st buf, ?_, gen st, ?_, ?_⟩
  · unfold ParseAccel NormalizeAccel
    dsimp only
    split_ifs <;> rfl
  · show (st.data ||| State.Accel) &&& State.Accel = State.Accel
    apply Nat.eq_of_testBit_eq
    intro i
    simp only [Nat.testBit_and, Nat.testBit_or]
    cases State.Accel.testBit i <;> simp
  · intro h
    unfold ParseAccel NormalizeAccel
    dsimp only
    rw [h]
    rfl
  · intro cbuf len error hv
    have hc : (ParseAccelCalibrationData cbuf).2.valid = true := hv
    have hn : (ParseAccelCalibrationData cbuf).2.zero.x ≠ (ParseAccelCalibrationData cbuf).2.g.x ∧
        (ParseAccelCalibrationData cbuf).2.zero.y ≠ (ParseAccelCalibrationData cbuf).2.g.y ∧
        (ParseAccelCalibrationData cbuf).2.zero.z ≠ (ParseAccelCalibrationData cbuf).2.g.z := by
      simpa only [ParseAccelCalibrationData, Bool.and_eq_true, decide_eq_true_eq, and_assoc]
        using hc
    have k := gen (ParseCalibrationData st cbuf len error).2 hv
    exact ⟨k.2.2.2.1 (Ne.symm hn.1), k.2.2.2.2.1 (Ne.symm hn.2.1), k.2.2.2.2.2 (Ne.symm hn.2.2)⟩
  · intro hv
    rw [ParseAccel_valid st buf hv]
    exact ⟨fun a b c => roundedQuotient_div _ _ a b c, fun a b c => roundedQuotient_div _ _ a b c,
      fun a b c => roundedQuotient_div _ _ a b c⟩

/-- C27 on the calibration zero = (513, 514, 515), g = (612, 612, 616): the
reading raw = (612, 514, 566) normalizes to (1, 0, 529479/1048576), the last
being 51/101 rounded to binary32; on the initial state, whose calibration is
invalid, the same bytes normalize to (0, 0, 1); the mask is `Accel` in both
cases. -/
theorem C27_ParseAccel_normalized_witness :
    (ParseAccel
        (ParseCalibrationData Impl.ctor.state [0x80, 0x80, 0x80, 0x1B, 0x99, 0x99, 0x9A, 0x00] 8 0).2
        [0x00, 0x60, 0x99, 0x80, 0x8D]).2.accel.raw = ⟨612, 514, 566⟩ ∧
    (ParseAccel
        (ParseCalibrationData Impl.ctor.state [0x80, 0x80, 0x80, 0x1B, 0x99, 0x99, 0x9A, 0x00] 8 0).2
        [0x00, 0x60, 0x99, 0x80, 0x8D]).2.accel.normalized = ⟨1, 0, 529479 / 1048576⟩ ∧
    (ParseAccel Impl.ctor.state [0x00, 0x60, 0x99, 0x80, 0x8D]).2.accel.normalized = ⟨0, 0, 1⟩ ∧
    (ParseAccel Impl.ctor.state [0x00, 0x60, 0x99, 0x80, 0x8D]).2.data = State.Accel := by
  have r : (ParseAccel
      (ParseCalibrationData Impl.ctor.state [0x80, 0x80, 0x80, 0x1B, 0x99, 0x99, 0x9A, 0x00] 8 0).2
      [0x00, 0x60, 0x99, 0x80, 0x8D]).2.accel.raw = ⟨612, 514, 566⟩ := by decide
  have c : (ParseCalibrationData Impl.ctor.state
      [0x80, 0x80, 0x80, 0x1B, 0x99, 0x99, 0x9A, 0x00] 8 0).2.accel.cal =
      { zero := ⟨513, 514, 515⟩, g := ⟨612, 612, 616⟩, valid := true } := by decide
  refine ⟨r, ?_, ?_, by decide⟩
  · rw [(C27_ParseAccel_normalized _ _).2.1 (by decide), r, c]
    decide!
  · exact (C27_ParseAccel_normalized _ _).2.2.1 (by decide)

/-- C27 as stated fails: on the calibration zero = (0, 0, 0), g = (3, 3, 3),
which `ParseCalibrationData` stores as valid, the reading raw = (1, 0, 0) has
the normalized x 11184811/33554432, the binary32 value nearest to 1/3, and not
the rational 1/3. -/
theorem C27_counterexample :
    (ParseCalibrationData Impl.ctor.state [0, 0, 0, 0x00, 0, 0, 0, 0x3F] 8 0).2.accel.cal =
      { zero := ⟨0, 0, 0⟩, g := ⟨3, 3, 3⟩, valid := true } ∧
    (ParseAccel (ParseCalibrationData Impl.ctor.state [0, 0, 0, 0x00, 0, 0, 0, 0x3F] 8 0).2
        [0x20, 0x00, 0x00, 0x00, 0x00]).2.accel.raw = ⟨1, 0, 0⟩ ∧
    (ParseAccel (ParseCalibrationData Impl.ctor.state [0, 0, 0, 0x00, 0, 0, 0, 0x3F] 8 0).2
        [0x20, 0x00, 0x00, 0x00, 0x00]).2.accel.normalized.x = 11184811 / 33554432 ∧
    (11184811 : ℚ) / 33554432 ≠ ((1 - 0 : Int) : ℚ) / ((3 - 0 : Int) : ℚ) := by
  refine ⟨by decide, by decide, by decide!, by norm_num⟩

/-! ## Normalized joystick reading -/

theorem NormalizeStick_valid (stick : JoystickData) (h : stick.cal.valid = true) :
    (NormalizeStick stick).2.normalized =
      { x := F32.div (F32.mul 2 (F32.ofInt (stick.raw.x - stick.cal.center.x)))
          (F32.ofInt (stick.cal.max.x - stick.cal.min.x))
        y := F32.div (F32.mul 2 (F32.ofInt (stick.raw.y - stick.cal.center.y)))
          (F32.ofInt (stick.cal.max.y - stick.cal.min.y)) } := by
  unfold NormalizeStick
  rw [if_pos h]

theorem NormalizeStick_invalid (stick : JoystickData) (h : stick.cal.valid = false) :
    (NormalizeStick stick).2.normalized =
      { x := F32.div (F32.mul 2 (F32.sub (F32.ofInt stick.raw.x) 127)) 255
        y := F32.div (F32.mul 2 (F32.sub (F32.ofInt stick.raw.y) 127)) 255 } := by
  unfold NormalizeStick
  rw [h]
  rfl

theorem NormalizeStick_frame (stick : JoystickData) :
    (NormalizeStick stick).1 = stick.cal.valid ∧ (NormalizeStick stick).2.raw = stick.raw ∧
      (NormalizeStick stick).2.cal = stick.cal := by
  unfold NormalizeStick
  split_ifs <;> exact ⟨rfl, rfl, rfl⟩

/-- The expression `2.0f * (float)a / (float)b` for integers of at most 23 bits
is the exact quotient `2 * a / b` rounded once. -/
theorem stick_valid_quotient (a b : Int) (ha : a.natAbs ≤ 2 ^ 23) (hb : b.natAbs ≤ 2 ^ 23) :
    F32.div (F32.mul 2 (F32.ofInt a)) (F32.ofInt b) = f32 (((2 * a : Int) : ℚ) / b) := by
  rw [F32.mul_two_ofInt a ha, F32.ofInt_exact b (by omega)]
  rfl

/-- The expression `2.0f * (r - 127.0f) / 255.0f` for an integer of at most 22
bits is the exact quotient `2 * (r - 127) / 255` rounded once. -/
theorem stick_invalid_quotient (r : Int) (hr : r.natAbs ≤ 2 ^ 22) :
    F32.div (F32.mul 2 (F32.sub (F32.ofInt r) 127)) 255 =
      f32 (((2 * (r - 127) : Int) : ℚ) / ((255 : Int) : ℚ)) := by
  have s := F32.sub_ofInt r 127 (by omega) (by norm_num)
  rw [Nat.cast_ofNat] at s
  have m : F32.mul 2 ((r - (127 : Nat) : Int) : ℚ) = ((2 * (r - (127 : Nat)) : Int) : ℚ) := by
    have k := F32.mul_two_ofInt (r - (127 : Nat)) (by omega)
    rw [F32.ofInt_exact _ (by omega)] at k
    exact k
  rw [s, m]
  unfold F32.div
  norm_num

theorem roundedQuotient_stick_valid (a b : Int) (ha : a.natAbs ≤ 2 ^ 23)
    (hb : b.natAbs ≤ 2 ^ 23) (h0 : b ≠ 0) :
    roundedQuotient (2 * a) b (F32.div (F32.mul 2 (F32.ofInt a)) (F32.ofInt b)) := by
  unfold roundedQuotient
  rw [stick_valid_quotient a b ha hb]
  exact ⟨rfl, f32_quotient_error (2 * a) b (by omega) h0⟩

theorem roundedQuotient_stick_invalid (r : Int) (hr : r.natAbs ≤ 2 ^ 22) :
    roundedQuotient (2 * (r - 127)) 255 (F32.div (F32.mul 2 (F32.sub (F32.ofInt r) 127)) 255) := by
  unfold roundedQuotient
  rw [stick_invalid_quotient r hr]
  exact ⟨rfl, f32_quotient_error (2 * (r - 127)) 255 (by decide) (by decide)⟩

/-- C28, as amended: `NormalizeStick` changes the normalized value alone
and returns the calibration flag.  With the flag set the value is, per axis, the
`float` expression `2.0f * (raw - center) / (max - min)` and with the flag clear
`2.0f * (raw - 127.0f) / 255.0f`, which need not be the exact rational
quotient: for integers of at most 22 bits (and max different from min) each is that quotient
rounded once to binary32, at most `2 ^ (-24)` of it away.  With min = 30,
center = 130, max = 230 on an axis, raw = 130 gives exactly 0 and raw = 230
exactly 1 on that axis; the block with these values on both axes is accepted as
valid by `ParseStickCalibrationData`.  The nunchuk decoder applies
`NormalizeStick` to the raw reading taken from bytes 0 and 1, on every union
that holds a value of the member `nunchuk`. -/
theorem C28_NormalizeStick_formula (stick : JoystickData) :
    ((NormalizeStick stick).1 = stick.cal.valid ∧ (NormalizeStick stick).2.raw = stick.raw ∧
      (NormalizeStick stick).2.cal = stick.cal) ∧
    (stick.cal.valid = true →
      (NormalizeStick stick).2.normalized =
        { x := F32.div (F32.mul 2 (F32.ofInt (stick.raw.x - stick.cal.center.x)))
            (F32.ofInt (stick.cal.max.x - stick.cal.min.x))
          y := F32.div (F32.mul 2 (F32.ofInt (stick.raw.y - stick.cal.center.y)))
            (F32.ofInt (stick.cal.max.y - stick.cal.min.y)) }) ∧
    (stick.cal.valid = false →
      (NormalizeStick stick).2.normalized =
        { x := F32.div (F32.mul 2 (F32.sub (F32.ofInt stick.raw.x) 127)) 255
          y := F32.div (F32.mul 2 (F32.sub (F32.ofInt stick.raw.y) 127)) 255 }) ∧
    (stick.cal.valid = true →
      ((stick.raw.x - stick.cal.center.x).natAbs ≤ 2 ^ 22 →
        (stick.cal.max.x - stick.cal.min.x).natAbs ≤ 2 ^ 22 →
        stick.cal.max.x - stick.cal.min.x ≠ 0 →
        roundedQuotient (2 * (stick.raw.x - stick.cal.center.x))
          (stick.cal.max.x - stick.cal.min.x) (NormalizeStick stick).2.normalized.x) ∧
      ((stick.raw.y - stick.cal.center.y).natAbs ≤ 2 ^ 22 →
        (stick.cal.max.y - stick.cal.min.y).natAbs ≤ 2 ^ 22 →
        stick.cal.max.y - stick.cal.min.y ≠ 0 →
        roundedQuotient (2 * (stick.raw.y - stick.cal.center.y))
          (stick.cal.max.y - stick.cal.min.y) (NormalizeStick stick).2.normalized.y)) ∧
    (stick.cal.valid = false →
      (stick.raw.x.natAbs ≤ 2 ^ 22 →
        roundedQuotient (2 * (stick.raw.x - 127)) 255 (NormalizeStick stick).2.normalized.x) ∧
      (stick.raw.y.natAbs ≤ 2 ^ 22 →
        roundedQuotient (2 * (stick.raw.y - 127)) 255 (NormalizeStick stick).2.normalized.y)) ∧
    (stick.cal.valid = true →
      (stick.cal.min.x = 30 → stick.cal.center.x = 130 → stick.cal.max.x = 230 →
        (stick.raw.x = 130 → (NormalizeStick stick).2.normalized.x = 0) ∧
        (stick.raw.x = 230 → (NormalizeStick stick).2.normalized.x = 1)) ∧
      (stick.cal.min.y = 30 → stick.cal.center.y = 130 → stick.cal.max.y = 230 →
        (stick.raw.y = 130 → (NormalizeStick stick).2.normalized.y = 0) ∧
        (stick.raw.y = 230 → (NormalizeStick stick).2.normalized.y = 1))) ∧
    (ParseStickCalibrationData [230, 30, 130, 230, 30, 130] =
      (true, { max := ⟨230, 230⟩, min := ⟨30, 30⟩, center := ⟨130, 130⟩, valid := true })) ∧
    (∀ (st : State) (buf : List Nat) (p : Bool) (nc : NunchukData),
      st.extension.nunchuk = some nc →
      ∃ nc1, (ParseNunchuk st buf p).2.extension.nunchuk = some nc1 ∧
        nc1.stick =
          (NormalizeStick
            { nc.stick with
              raw := { x := (byteAt buf 0 : Nat), y := (byteAt buf 1 : Nat) } }).2) := by
  have z : F32.div (F32.mul 2 (F32.ofInt (130 - 130))) (F32.ofInt (230 - 30)) = 0 := by decide!
  have o : F32.div (F32.mul 2 (F32.ofInt (230 - 130))) (F32.ofInt (230 - 30)) = 1 := by decide!
  have n : ∀ (st : State) (buf : List Nat) (p : Bool) (nc : NunchukData),
      st.extension.nunchuk = some nc →
      ∃ nc1, (ParseNunchuk st buf p).2.extension.nunchuk = some nc1 ∧
        nc1.stick =
          (NormalizeStick
            { nc.stick with
              raw := { x := (byteAt buf 0 : Nat), y := (byteAt buf 1 : Nat) } }).2 := by
    intro st buf p nc h
    obtain ⟨nc1, e, s, _⟩ := ParseNunchuk_member st buf p nc h
    exact ⟨nc1, by unfold Extension.nunchuk; rw [e], s⟩
  refine ⟨NormalizeStick_frame stick, NormalizeStick_valid stick, NormalizeStick_invalid stick,
    ?_, ?_, ?_, by decide, n⟩
  · intro hv
    rw [NormalizeStick_valid stick hv]
    exact ⟨fun a b c => roundedQuotient_stick_valid _ _ (by omega) (by omega) c,
      fun a b c => roundedQuotient_stick_valid _ _ (by omega) (by omega) c⟩
  · intro hv
    rw [NormalizeStick_invalid stick hv]
    exact ⟨fun a => roundedQuotient_stick_invalid _ a, fun a => roundedQuotient_stick_invalid _ a⟩
  · intro hv
    rw [NormalizeStick_valid stick hv]
    dsimp only
    constructor
    · intro a b c
      rw [a, b, c]
      constructor <;> intro r <;> rw [r]
      · exact z
      · exact o
    · intro a b c
      rw [a, b, c]
      constructor <;> intro r <;> rw [r]
      · exact z
      · exact o

/-- C28 on the calibration min = 30, center = 130, max = 230: the reading
(130, 230) normalizes to (0, 1), and with the calibration invalid the same
reading normalizes to (12632257/536870912, 13553359/16777216), which are 6/255
and 206/255 rounded to binary32. -/
theorem C28_NormalizeStick_formula_witness :
    (NormalizeStick
        { raw := ⟨130, 230⟩, normalized := ⟨0, 0⟩,
          cal := (ParseStickCalibrationData [230, 30, 130, 230, 30, 130]).2 }).2.normalized
      = ⟨0, 1⟩ ∧
    (NormalizeStick
        { raw := ⟨130, 230⟩, normalized := ⟨0, 0⟩,
          cal := { max := ⟨0, 0⟩, min := ⟨0, 0⟩, center := ⟨0, 0⟩, valid := false } }).2.normalized
      = ⟨12632257 / 536870912, 13553359 / 16777216⟩ := by
  constructor
  · rw [(C28_NormalizeStick_formula _).2.1 (by decide)]
    have c : (ParseStickCalibrationData [230, 30, 130, 230, 30, 130]).2 =
        { max := ⟨230, 230⟩, min := ⟨30, 30⟩, center := ⟨130, 130⟩, valid := true } := by decide
    rw [c]
    decide!
  · rw [(C28_NormalizeStick_formula _).2.2.1 rfl]
    decide!

/-- C28 as stated fails: with the calibration invalid the reading raw = 200 has
the normalized value 9605779/16777216, the binary32 value nearest to
2 * (200 - 127) / 255 = 146/255, and not that rational. -/
theorem C28_counterexample :
    (NormalizeStick
        { raw := ⟨200, 200⟩, normalized := ⟨0, 0⟩,
          cal := { max := ⟨0, 0⟩, min := ⟨0, 0⟩, center := ⟨0, 0⟩, valid := false } }).2.normalized
      = ⟨9605779 / 16777216, 9605779 / 16777216⟩ ∧
    (9605779 : ℚ) / 16777216 ≠ 2 * ((200 : ℚ) - 127) / 255 := by
  refine ⟨by decide!, by norm_num⟩

/-! ## Range of the normalized joystick reading -/

theorem one_representable : (1 : ℚ) = ((1 : Nat) : ℚ) * 2 ^ (0 : Int) := by norm_num

/-- With the calibration flag clear and raw in 0..254 the rounded value stays
within 511/512 of zero; at raw = 255 it is 8421505/8388608. -/
theorem stick_invalid_range (r : Int) (h0 : 0 ≤ r) (h1 : r ≤ 255) :
    -1 < F32.div (F32.mul 2 (F32.sub (F32.ofInt r) 127)) 255 ∧
      F32.div (F32.mul 2 (F32.sub (F32.ofInt r) 127)) 255 ≤ 8421505 / 8388608 ∧
      (F32.div (F32.mul 2 (F32.sub (F32.ofInt r) 127)) 255 ≤ 1 ↔ r ≤ 254) := by
  rw [stick_invalid_quotient r (by omega)]
  rcases eq_or_lt_of_le h1 with e | l
  · rw [e]
    have v : f32 (((2 * (255 - 127) : Int) : ℚ) / ((255 : Int) : ℚ)) = 8421505 / 8388608 := by
      decide!
    rw [v]
    norm_num
  · have r1 : r ≤ 254 := by omega
    have a0 : (0 : ℚ) ≤ (r : ℚ) := by exact_mod_cast h0
    have a1 : (r : ℚ) ≤ 254 := by exact_mod_cast r1
    have b : |((2 * (r - 127) : Int) : ℚ) / ((255 : Int) : ℚ)| ≤ ((511 : Nat) : ℚ) * 2 ^ (-9 : Int) := by
      rw [abs_le]
      push_cast
      constructor
      · rw [le_div_iff₀ (by norm_num)]
        norm_num
        linarith
      · rw [div_le_iff₀ (by norm_num)]
        norm_num
        linarith
    have k := abs_le.mp (f32_abs_le _ 511 (-9) (by norm_num) (by norm_num) b)
    have v : ((511 : Nat) : ℚ) * 2 ^ (-9 : Int) = 511 / 512 := by norm_num
    rw [v] at k
    refine ⟨by linarith [k.1], by linarith [k.2], ?_⟩
    constructor
    · intro _
      exact r1
    · intro _
      linarith [k.2]

/-- With the calibration flag set, min < center < max, min <= raw <= max and
max - min of at most 22 bits, the rounded value lies strictly between -2 and 2
and is within [-1, 1] exactly when the exact quotient is. -/
theorem stick_valid_range (r c lo hi : Int) (h1 : lo < c) (h2 : c < hi) (h3 : lo ≤ r)
    (h4 : r ≤ hi) (hb : hi - lo ≤ 2 ^ 22) :
    -2 < F32.div (F32.mul 2 (F32.ofInt (r - c))) (F32.ofInt (hi - lo)) ∧
      F32.div (F32.mul 2 (F32.ofInt (r - c))) (F32.ofInt (hi - lo)) < 2 ∧
      (F32.div (F32.mul 2 (F32.ofInt (r - c))) (F32.ofInt (hi - lo)) ≤ 1 ↔
        2 * (r - c) ≤ hi - lo) ∧
      (-1 ≤ F32.div (F32.mul 2 (F32.ofInt (r - c))) (F32.ofInt (hi - lo)) ↔
        2 * (c - r) ≤ hi - lo) := by
  rw [stick_valid_quotient (r - c) (hi - lo) (by omega) (by omega)]
  have d : (0 : ℚ) < ((hi - lo : Int) : ℚ) := by exact_mod_cast sub_pos.mpr (h1.trans h2)
  have dle : ((hi - lo : Int) : ℚ) ≤ 2 ^ 22 := by exact_mod_cast hb
  generalize hx : ((2 * (r - c) : Int) : ℚ) / ((hi - lo : Int) : ℚ) = x
  -- the exact quotient is a multiple of 1 / (hi - lo)
  have up : 2 * (r - c) ≤ 2 * (hi - lo) - 2 := by omega
  have dn : -(2 * (hi - lo) - 2) ≤ 2 * (r - c) := by omega
  have upq : ((2 * (r - c) : Int) : ℚ) ≤ 2 * ((hi - lo : Int) : ℚ) - 2 := by exact_mod_cast up
  have dnq : -(2 * ((hi - lo : Int) : ℚ) - 2) ≤ ((2 * (r - c) : Int) : ℚ) := by exact_mod_cast dn
  have inv : (1 : ℚ) / 2 ^ 22 ≤ 1 / ((hi - lo : Int) : ℚ) :=
    one_div_le_one_div_of_le d dle
  have xle : x ≤ 2 - 2 / 2 ^ 22 := by
    rw [← hx, div_le_iff₀ d]
    have : (2 - 2 / 2 ^ 22 : ℚ) * ((hi - lo : Int) : ℚ) =
        2 * ((hi - lo : Int) : ℚ) - 2 * (((hi - lo : Int) : ℚ) / 2 ^ 22) := by ring
    rw [this]
    have : ((hi - lo : Int) : ℚ) / 2 ^ 22 ≤ 1 := (div_le_one (by norm_num)).mpr dle
    linarith
  have xge : -(2 - 2 / 2 ^ 22) ≤ x := by
    rw [← hx, le_div_iff₀ d]
    have : (-(2 - 2 / 2 ^ 22) : ℚ) * ((hi - lo : Int) : ℚ) =
        -(2 * ((hi - lo : Int) : ℚ)) + 2 * (((hi - lo : Int) : ℚ) / 2 ^ 22) := by ring
    rw [this]
    have : ((hi - lo : Int) : ℚ) / 2 ^ 22 ≤ 1 := (div_le_one (by norm_num)).mpr dle
    linarith
  have B : ((8388606 : Nat) : ℚ) * 2 ^ (-22 : Int) = 2 - 2 / 2 ^ 22 := by norm_num
  have k := abs_le.mp (f32_abs_le x 8388606 (-22) (by norm_num) (by norm_num)
    (by rw [B]; exact abs_le.mpr ⟨xge, xle⟩))
  rw [B] at k
  refine ⟨by linarith [k.1], by linarith [k.2], ?_, ?_⟩
  · constructor
    · intro h
      by_contra n
      have n1 : hi - lo + 1 ≤ 2 * (r - c) := by omega
      have n2 : ((hi - lo : Int) : ℚ) + 1 ≤ ((2 * (r - c) : Int) : ℚ) := by exact_mod_cast n1
      have big : 1 + 1 / 2 ^ 22 ≤ x := by
        rw [← hx, le_div_iff₀ d]
        have : (1 + 1 / 2 ^ 22 : ℚ) * ((hi - lo : Int) : ℚ) =
            ((hi - lo : Int) : ℚ) + ((hi - lo : Int) : ℚ) / 2 ^ 22 := by ring
        rw [this]
        have : ((hi - lo : Int) : ℚ) / 2 ^ 22 ≤ 1 := (div_le_one (by norm_num)).mpr dle
        linarith
      have C : ((4194305 : Nat) : ℚ) * 2 ^ (-22 : Int) = 1 + 1 / 2 ^ 22 := by norm_num
      have g := f32_ge x 4194305 (-22) (by norm_num) (by norm_num) (by rw [C]; exact big)
      rw [C] at g
      have : (0 : ℚ) < 1 / 2 ^ 22 := by norm_num
      linarith
    · intro h
      have hq : ((2 * (r - c) : Int) : ℚ) ≤ ((hi - lo : Int) : ℚ) := by exact_mod_cast h
      have x1 : x ≤ 1 := by
        rw [← hx]
        exact (div_le_one d).mpr hq
      rcases le_or_lt 0 x with s | s
      · have := f32_le x 1 0 (by norm_num) (by norm_num) s (by simpa using x1)
        simpa using this
      · have := f32_nonneg (-x) (by linarith)
        rw [f32_neg] at this
        linarith
  · constructor
    · intro h
      by_contra n
      have n1 : hi - lo + 1 ≤ 2 * (c - r) := by omega
      have n2 : ((hi - lo : Int) : ℚ) + 1 ≤ ((2 * (c - r) : Int) : ℚ) := by exact_mod_cast n1
      have e : ((2 * (c - r) : Int) : ℚ) = -((2 * (r - c) : Int) : ℚ) := by push_cast; ring
      have big : 1 + 1 / 2 ^ 22 ≤ -x := by
        rw [← hx, ← neg_div, ← e, le_div_iff₀ d]
        have : (1 + 1 / 2 ^ 22 : ℚ) * ((hi - lo : Int) : ℚ) =
            ((hi - lo : Int) : ℚ) + ((hi - lo : Int) : ℚ) / 2 ^ 22 := by ring
        rw [this]
        have : ((hi - lo : Int) : ℚ) / 2 ^ 22 ≤ 1 := (div_le_one (by norm_num)).mpr dle
        linarith
      have C : ((4194305 : Nat) : ℚ) * 2 ^ (-22 : Int) = 1 + 1 / 2 ^ 22 := by norm_num
      have g := f32_ge (-x) 4194305 (-22) (by norm_num) (by norm_num) (by rw [C]; exact big)
      rw [C, f32_neg] at g
      have : (0 : ℚ) < 1 / 2 ^ 22 := by norm_num
      linarith
    · intro h
      have hq : ((2 * (c - r) : Int) : ℚ) ≤ ((hi - lo : Int) : ℚ) := by exact_mod_cast h
      have e : ((2 * (c - r) : Int) : ℚ) = -((2 * (r - c) : Int) : ℚ) := by push_cast; ring
      have x1 : -x ≤ 1 := by
        rw [← hx, ← neg_div, ← e]
        exact (div_le_one d).mpr hq
      rcases le_or_lt 0 (-x) with s | s
      · have := f32_le (-x) 1 0 (by norm_num) (by norm_num) s (by simpa using x1)
        rw [f32_neg] at this
        have : -f32 x ≤ 1 := by simpa using this
        linarith
      · have := f32_nonneg x (by linarith)
        linarith

/-- C29, as the code has it: the normalized joystick value can leave [-1, 1].
With the calibration flag clear and raw in 0..255 it lies in
(-1, 8421505/8388608], the upper end being 256/255 rounded to binary32, and is
at most 1 exactly when raw is at most 254.  With the flag set,
min < center < max, min <= raw <= max and max - min of at most 22 bits on an
axis, it lies in (-2, 2) and is in [-1, 1] exactly when twice the distance of
raw from center is at most max - min. -/
theorem C29_NormalizeStick_range (stick : JoystickData) :
    (stick.cal.valid = false →
      (0 ≤ stick.raw.x → stick.raw.x ≤ 255 →
        -1 < (NormalizeStick stick).2.normalized.x ∧
        (NormalizeStick stick).2.normalized.x ≤ 8421505 / 8388608 ∧
        ((NormalizeStick stick).2.normalized.x ≤ 1 ↔ stick.raw.x ≤ 254)) ∧
      (0 ≤ stick.raw.y → stick.raw.y ≤ 255 →
        -1 < (NormalizeStick stick).2.normalized.y ∧
        (NormalizeStick stick).2.normalized.y ≤ 8421505 / 8388608 ∧
        ((NormalizeStick stick).2.normalized.y ≤ 1 ↔ stick.raw.y ≤ 254))) ∧
    (stick.cal.valid = true →
      (stick.cal.min.x < stick.cal.center.x → stick.cal.center.x < stick.cal.max.x →
        stick.cal.min.x ≤ stick.raw.x → stick.raw.x ≤ stick.cal.max.x →
        stick.cal.max.x - stick.cal.min.x ≤ 2 ^ 22 →
        -2 < (NormalizeStick stick).2.normalized.x ∧ (NormalizeStick stick).2.normalized.x < 2 ∧
        ((NormalizeStick stick).2.normalized.x ≤ 1 ↔
          2 * (stick.raw.x - stick.cal.center.x) ≤ stick.cal.max.x - stick.cal.min.x) ∧
        (-1 ≤ (NormalizeStick stick).2.normalized.x ↔
          2 * (stick.cal.center.x - stick.raw.x) ≤ stick.cal.max.x - stick.cal.min.x)) ∧
      (stick.cal.min.y < stick.cal.center.y → stick.cal.center.y < stick.cal.max.y →
        stick.cal.min.y ≤ stick.raw.y → stick.raw.y ≤ stick.cal.max.y →
        stick.cal.max.y - stick.cal.min.y ≤ 2 ^ 22 →
        -2 < (NormalizeStick stick).2.normalized.y ∧ (NormalizeStick stick).2.normalized.y < 2 ∧
        ((NormalizeStick stick).2.normalized.y ≤ 1 ↔
          2 * (stick.raw.y - stick.cal.center.y) ≤ stick.cal.max.y - stick.cal.min.y) ∧
        (-1 ≤ (NormalizeStick stick).2.normalized.y ↔
          2 * (stick.cal.center.y - stick.raw.y) ≤ stick.cal.max.y - stick.cal.min.y))) := by
  constructor
  · intro hv
    rw [NormalizeStick_invalid stick hv]
    exact ⟨stick_invalid_range _, stick_invalid_range _⟩
  · intro hv
    rw [NormalizeStick_valid stick hv]
    exact ⟨stick_valid_range _ _ _ _, stick_valid_range _ _ _ _⟩

/-- C29 at raw = 255 with the calibration flag clear: the normalized value
exceeds 1. -/
theorem C29_NormalizeStick_range_witness :
    ¬ (NormalizeStick
        { raw := ⟨255, 255⟩, normalized := ⟨0, 0⟩,
          cal := { max := ⟨0, 0⟩, min := ⟨0, 0⟩, center := ⟨0, 0⟩, valid := false } }).2.normalized.x
      ≤ 1 := by
  intro h
  have k := (((C29_NormalizeStick_range
    { raw := ⟨255, 255⟩, normalized := ⟨0, 0⟩,
      cal := { max := ⟨0, 0⟩, min := ⟨0, 0⟩, center := ⟨0, 0⟩, valid := false } }).1 rfl).1
    (by decide) (by decide)).2.2.1 h
  exact absurd k (by decide)

/-- C29 fails on the code: on a nunchuk without calibration the stick byte 0xFF
normalizes to 8421505/8388608, and the calibration block `FF 00 01 FF 00 01`
(min 0, center 1, max 255) is accepted as valid and normalizes raw = 255 to
16711423/8388608; both exceed 1. -/
theorem C29_counterexample :
    (∃ nc,
      (ParseNunchuk Impl.ctor.state [0xFF, 0x80, 0x80, 0x80, 0x80, 0x03] false).2.extension.nunchuk
        = some nc ∧
      nc.stick.normalized.x = 8421505 / 8388608) ∧
    (ParseStickCalibrationData [0xFF, 0x00, 0x01, 0xFF, 0x00, 0x01]).1 = true ∧
    (NormalizeStick
        { raw := ⟨255, 1⟩, normalized := ⟨0, 0⟩,
          cal := (ParseStickCalibrationData [0xFF, 0x00, 0x01, 0xFF, 0x00, 0x01]).2 }).2.normalized
      = ⟨16711423 / 8388608, 0⟩ ∧
    ¬ ((8421505 : ℚ) / 8388608 ≤ 1) ∧ ¬ ((16711423 : ℚ) / 8388608 ≤ 1) := by
  refine ⟨⟨_, rfl, by decide!⟩, by decide, by decide!, by norm_num, by norm_num⟩

/-! ## Visibility of the infrared dots -/

theorem setDot_visible (dot : IRData.Dot) (x y size : Nat) :
    ((setDot dot x y size).visible = false ↔
      (setDot dot x y size).raw.x = 0x3FF ∨ (setDot dot x y size).raw.y = 0x3FF) ∧
    ((setDot dot x y size).raw = ⟨0x3FF, 0x3FF⟩ → (setDot dot x y size).visible = false) ∧
    ((setDot dot x y size).raw = ⟨512, 384⟩ → (setDot dot x y size).visible = true) := by
  have e : (setDot dot x y size).visible =
      (decide ((setDot dot x y size).raw.x ≠ 0x3FF) &&
        decide ((setDot dot x y size).raw.y ≠ 0x3FF)) := rfl
  refine ⟨?_, ?_, ?_⟩
  · rw [e, Bool.and_eq_false_iff, decide_eq_false_iff_not, decide_eq_false_iff_not, not_not,
      not_not]
  · intro h
    rw [e, h]
    rfl
  · intro h
    rw [e, h]
    rfl

theorem ParseIR_dots (st : State) (buf : List Nat)
    (h : st.ir.mode = IRData.Mode.Basic ∨ st.ir.mode = IRData.Mode.Extended) :
    ∃ x0 y0 z0 x1 y1 z1 x2 y2 z2 x3 y3 z3,
      (ParseIR st buf).2.ir.dot0 = setDot st.ir.dot0 x0 y0 z0 ∧
      (ParseIR st buf).2.ir.dot1 = setDot st.ir.dot1 x1 y1 z1 ∧
      (ParseIR st buf).2.ir.dot2 = setDot st.ir.dot2 x2 y2 z2 ∧
      (ParseIR st buf).2.ir.dot3 = setDot st.ir.dot3 x3 y3 z3 := by
  rcases h with h | h <;> simp only [ParseIR, h] <;>
    exact ⟨_, _, _, _, _, _, _, _, _, _, _, _, rfl, rfl, rfl, rfl⟩

/-- C30: for every buffer and IR mode Basic or Extended, after `ParseIR` each
of the four dots has `visible = false` if and only if its raw x is 0x3FF or its
raw y is 0x3FF; a dot whose raw position is (0x3FF, 0x3FF) is invisible and a
dot whose raw position is (512, 384) is visible.  The step returns true and sets
the `IR` bit of the mask. -/
theorem C30_ParseIR_dot_visibility (st : State) (buf : List Nat)
    (h : st.ir.mode = IRData.Mode.Basic ∨ st.ir.mode = IRData.Mode.Extended) :
    (∀ d ∈ [(ParseIR st buf).2.ir.dot0, (ParseIR st buf).2.ir.dot1, (ParseIR st buf).2.ir.dot2,
        (ParseIR st buf).2.ir.dot3],
      (d.visible = false ↔ d.raw.x = 0x3FF ∨ d.raw.y = 0x3FF) ∧
      (d.raw = ⟨0x3FF, 0x3FF⟩ → d.visible = false) ∧
      (d.raw = ⟨512, 384⟩ → d.visible = true)) ∧
    (ParseIR st buf).1 = true ∧ (ParseIR st buf).2.data = st.data ||| State.IR ∧
    (ParseIR st buf).2.ir.mode = st.ir.mode := by
  obtain ⟨x0, y0, z0, x1, y1, z1, x2, y2, z2, x3, y3, z3, e0, e1, e2, e3⟩ := ParseIR_dots st buf h
  refine ⟨?_, ?_⟩
  · intro d hd
    simp only [List.mem_cons, List.mem_singleton, List.not_mem_nil, or_false] at hd
    rcases hd with k | k | k | k
    · rw [k, e0]; exact setDot_visible _ _ _ _
    · rw [k, e1]; exact setDot_visible _ _ _ _
    · rw [k, e2]; exact setDot_visible _ _ _ _
    · rw [k, e3]; exact setDot_visible _ _ _ _
  · rcases h with h | h <;> simp only [ParseIR, h, and_self]

/-- C30 in both modes: the buffers below decode dot 0 as (0x3FF, 0x3FF) and dot 1
as (512, 384); dot 0 is invisible and dot 1 is visible. -/
theorem C30_ParseIR_dot_visibility_witness :
    ((ParseIR { Impl.ctor.state with ir := { Impl.ctor.state.ir with mode := .Basic } }
        [0xFF, 0xFF, 0xF6, 0x00, 0x80, 0xFF, 0xFF, 0xFF, 0xFF, 0xFF]).2.ir.dot0.raw
        = ⟨0x3FF, 0x3FF⟩ ∧
      (ParseIR { Impl.ctor.state with ir := { Impl.ctor.state.ir with mode := .Basic } }
        [0xFF, 0xFF, 0xF6, 0x00, 0x80, 0xFF, 0xFF, 0xFF, 0xFF, 0xFF]).2.ir.dot0.visible = false ∧
      (ParseIR { Impl.ctor.state with ir := { Impl.ctor.state.ir with mode := .Basic } }
        [0xFF, 0xFF, 0xF6, 0x00, 0x80, 0xFF, 0xFF, 0xFF, 0xFF, 0xFF]).2.ir.dot1.raw
        = ⟨512, 384⟩ ∧
      (ParseIR { Impl.ctor.state with ir := { Impl.ctor.state.ir with mode := .Basic } }
        [0xFF, 0xFF, 0xF6, 0x00, 0x80, 0xFF, 0xFF, 0xFF, 0xFF, 0xFF]).2.ir.dot1.visible = true) ∧
    ((ParseIR { Impl.ctor.state with ir := { Impl.ctor.state.ir with mode := .Extended } }
        [0xFF, 0xFF, 0xFF, 0x00, 0x80, 0x65, 0xFF, 0xFF, 0xFF, 0xFF, 0xFF, 0xFF]).2.ir.dot0.raw
        = ⟨0x3FF, 0x3FF⟩ ∧
      (ParseIR { Impl.ctor.state with ir := { Impl.ctor.state.ir with mode := .Extended } }
        [0xFF, 0xFF, 0xFF, 0x00, 0x80, 0x65, 0xFF, 0xFF, 0xFF, 0xFF, 0xFF, 0xFF]).2.ir.dot0.visible
        = false ∧
      (ParseIR { Impl.ctor.state with ir := { Impl.ctor.state.ir with mode := .Extended } }
        [0xFF, 0xFF, 0xFF, 0x00, 0x80, 0x65, 0xFF, 0xFF, 0xFF, 0xFF, 0xFF, 0xFF]).2.ir.dot1.raw
        = ⟨512, 384⟩ ∧
      (ParseIR { Impl.ctor.state with ir := { Impl.ctor.state.ir with mode := .Extended } }
        [0xFF, 0xFF, 0xFF, 0x00, 0x80, 0x65, 0xFF, 0xFF, 0xFF, 0xFF, 0xFF, 0xFF]).2.ir.dot1.visible
        = true) := by
  have b := (C30_ParseIR_dot_visibility
    { Impl.ctor.state with ir := { Impl.ctor.state.ir with mode := .Basic } }
    [0xFF, 0xFF, 0xF6, 0x00, 0x80, 0xFF, 0xFF, 0xFF, 0xFF, 0xFF] (Or.inl rfl)).1
  have e := (C30_ParseIR_dot_visibility
    { Impl.ctor.state with ir := { Impl.ctor.state.ir with mode := .Extended } }
    [0xFF, 0xFF, 0xFF, 0x00, 0x80, 0x65, 0xFF, 0xFF, 0xFF, 0xFF, 0xFF, 0xFF] (Or.inr rfl)).1
  have b0 := b _ (List.mem_cons_self _ _)
  have b1 := b _ (List.mem_cons_of_mem _ (List.mem_cons_self _ _))
  have e0 := e _ (List.mem_cons_self _ _)
  have e1 := e _ (List.mem_cons_of_mem _ (List.mem_cons_self _ _))
  exact ⟨⟨by decide, b0.2.1 (by decide), by decide, b1.2.2 (by decide)⟩,
    ⟨by decide, e0.2.1 (by decide), by decide, e1.2.2 (by decide)⟩⟩

/-! ## The motion sensor reading -/

/-- The literal `0.05f` is 13421773 / 2 ^ 28 and the product `0.05f * 4.54f` is
952107 / 2 ^ 22. -/
theorem motionPlus_scales :
    f32 (1 / 20) = 13421773 / 268435456 ∧
      F32.mul (f32 (1 / 20)) (f32 (227 / 50)) = 952107 / 4194304 ∧
      F32.mul (13421773 / 268435456) (f32 (227 / 50)) = 952107 / 4194304 := by
  refine ⟨?_, ?_, ?_⟩ <;> decide!

theorem NormalizeMotionPlus_frame (mp : MotionPlusData) :
    (NormalizeMotionPlus mp).2.raw = mp.raw ∧ (NormalizeMotionPlus mp).2.fast = mp.fast ∧
    (NormalizeMotionPlus mp).2.cal = mp.cal := ⟨rfl, rfl, rfl⟩

theorem truncToInt_nonneg (q : ℚ) (h : 0 ≤ q) : truncToInt q = ⌊q⌋ := by
  unfold truncToInt
  rw [if_pos h]
  rfl

/-- The literals `4.54f`, `4.4f` and `0.5f`. -/
theorem biasFast_constants :
    f32 (227 / 50) = 4760535 / 1048576 ∧ f32 (22 / 5) = 9227469 / 2097152 ∧
      f32 (1 / 2) = 1 / 2 := by
  refine ⟨?_, ?_, ?_⟩ <;> decide!

/-- Away from the half-way points the three roundings do not change the
integer part: the `float` expression truncates to `(227 * b + 110) / 220`. -/
theorem biasFastOf_generic (b : Int) (h0 : 0 ≤ b) (h1 : b ≤ 16383)
    (hr : (227 * b + 110) % 220 ≠ 0) : biasFastOf b = (227 * b + 110) / 220 := by
  obtain ⟨c1, c2, ch⟩ := biasFast_constants
  unfold biasFastOf
  rw [c1, c2, ch, F32.ofInt_exact b (by omega)]
  unfold F32.add F32.div F32.mul
  have B0 : (0 : ℚ) ≤ (b : ℚ) := by exact_mod_cast h0
  have B1 : (b : ℚ) ≤ 16383 := by exact_mod_cast h1
  generalize hB : (b : ℚ) = B at B0 B1
  -- first rounding
  have p1 : (0 : ℚ) ≤ B * (4760535 / 1048576) := by positivity
  have e1 := f32_abs_error (B * (4760535 / 1048576)) 16 (by norm_num)
    (by rw [abs_of_nonneg p1]; norm_num; linarith)
  have n1 := f32_nonneg _ p1
  generalize f32 (B * (4760535 / 1048576)) = t1 at e1 n1
  have e1b := abs_le.mp e1
  norm_num at e1b
  -- second rounding
  have p2 : (0 : ℚ) ≤ t1 / (9227469 / 2097152) := by positivity
  have u2 : t1 / (9227469 / 2097152) < 16905 := by
    rw [div_lt_iff₀ (by norm_num)]
    linarith [e1b.2]
  have e2 := f32_abs_error (t1 / (9227469 / 2097152)) 14 (by norm_num)
    (by rw [abs_of_nonneg p2]; norm_num; linarith)
  have n2 := f32_nonneg _ p2
  generalize f32 (t1 / (9227469 / 2097152)) = t2 at e2 n2
  have e2b := abs_le.mp e2
  norm_num at e2b
  -- third rounding
  have p3 : (0 : ℚ) ≤ t2 + 1 / 2 := by positivity
  have e3 := f32_abs_error (t2 + 1 / 2) 14 (by norm_num)
    (by rw [abs_of_nonneg p3]; norm_num; linarith [e2b.2])
  have n3 := f32_nonneg _ p3
  generalize f32 (t2 + 1 / 2) = t3 at e3 n3
  have e3b := abs_le.mp e3
  norm_num at e3b
  -- the exact value
  have dm := Int.ediv_add_emod (227 * b + 110) 220
  have r0 := Int.emod_nonneg (227 * b + 110) (by norm_num : (220 : Int) ≠ 0)
  have r1 := Int.emod_lt_of_pos (227 * b + 110) (by norm_num : (0 : Int) < 220)
  have ra : 1 ≤ (227 * b + 110) % 220 := by omega
  have rb : (227 * b + 110) % 220 ≤ 219 := by omega
  generalize (227 * b + 110) % 220 = r at dm ra rb
  generalize hm : (227 * b + 110) / 220 = m at dm ⊢
  have dq : (227 : ℚ) * B + 110 = 220 * (m : ℚ) + (r : ℚ) := by
    rw [← hB]
    have : ((220 * m + r : Int) : ℚ) = ((227 * b + 110 : Int) : ℚ) := by rw [dm]
    push_cast at this
    linarith
  have raq : (1 : ℚ) ≤ (r : ℚ) := by exact_mod_cast ra
  have rbq : (r : ℚ) ≤ 219 := by exact_mod_cast rb
  -- the distance of the computed value from the exact one
  have q1 : t1 / (9227469 / 2097152) - B * (4760535 / 1048576) / (9227469 / 2097152) =
      (t1 - B * (4760535 / 1048576)) / (9227469 / 2097152) := by ring
  have d1 : |t1 / (9227469 / 2097152) - B * (4760535 / 1048576) / (9227469 / 2097152)| ≤
      1 / 1126 := by
    rw [q1, abs_le]
    constructor
    · rw [le_div_iff₀ (by norm_num)]
      linarith [e1b.1]
    · rw [div_le_iff₀ (by norm_num)]
      linarith [e1b.2]
  have d1b := abs_le.mp d1
  have q2 : B * (4760535 / 1048576) / (9227469 / 2097152) = B * (227 / 220) - B * (63 / 2030043180) := by
    ring
  rw [truncToInt_nonneg t3 n3, Int.floor_eq_iff]
  constructor
  · have : (m : ℚ) + 1 / 220 ≤ B * (227 / 220) + 1 / 2 := by linarith
    have : B * (63 / 2030043180) ≤ 16383 * (63 / 2030043180) :=
      mul_le_mul_of_nonneg_right B1 (by norm_num)
    linarith [e3b.1, e2b.1, d1b.1]
  · have : B * (227 / 220) + 1 / 2 ≤ (m : ℚ) + 219 / 220 := by linarith
    have : (0 : ℚ) ≤ B * (63 / 2030043180) := by positivity
    linarith [e3b.2, e2b.2, d1b.2]

/-- At the half-way points `110 + 220 * j` the `float` expression is evaluated
case by case. -/
theorem biasFastOf_tie : ∀ j : Fin 74,
    biasFastOf (110 + 220 * (j.val : Int)) =
      (227 * (110 + 220 * (j.val : Int)) + 110) / 220 -
        (if (110 + 220 * (j.val : Int)) ∈ biasFastExceptions then 1 else 0) := by
  decide!

theorem biasFastExceptions_tie : ∀ b ∈ biasFastExceptions, (227 * b + 110) % 220 = 0 := by
  decide

/-- The `float` expression for `biasFast` on every `biasSlow` in 0..16383: the
exact value rounded half up, less one on the 27 exceptions. -/
theorem biasFastOf_eq (b : Int) (h0 : 0 ≤ b) (h1 : b ≤ 16383) :
    biasFastOf b =
      (227 * b + 110) / 220 - (if b ∈ biasFastExceptions then 1 else 0) := by
  by_cases hr : (227 * b + 110) % 220 = 0
  · have e : b % 220 = 110 := by omega
    have k := biasFastOf_tie ⟨((b - 110) / 220).toNat, by omega⟩
    have v : (110 : Int) + 220 * (((b - 110) / 220).toNat : Int) = b := by
      rw [Int.toNat_of_nonneg (by omega)]
      omega
    dsimp only at k
    rw [v] at k
    exact k
  · have n : b ∉ biasFastExceptions := fun c => hr (biasFastExceptions_tie b c)
    rw [if_neg n, sub_zero]
    exact biasFastOf_generic b h0 h1 hr

theorem bias_word (hi lo : Nat) (h : lo < 256) :
    (hi <<< 8 ||| lo) / 4 = (256 * hi + lo) / 4 := by
  rw [shiftLeft_or_eq_add _ (by simpa using h)]
  congr 1
  omega

/-- C32, as amended: for every calibration block, length and error
code, `ParseMotionPlusCalibrationData` returns true, changes the motion-sensor
calibration alone and marks it valid.  It sets biasSlow.x = (256*b2 + b3) / 4,
biasSlow.y = (256*b4 + b5) / 4, biasSlow.z = (256*b0 + b1) / 4 (integer
division), each in 0..16383.  biasFast.x is the `float` expression
`biasSlow.x * 4.54f/4.4f + 0.5f` truncated, biasFast.y that function of
biasSlow.z and biasFast.z that function of biasSlow.y; the function is
biasSlow * 4.54/4.4 rounded half up, `(227 * b + 110) / 220` in integers, on
all of 0..16383 but the 27 values of `biasFastExceptions`, where it is one less.
The slow scale is `0.05f` = 13421773 / 2 ^ 28 and the fast scale
`0.05f * 4.54f` = 952107 / 2 ^ 22 on every axis.  biasFast.y is determined by
bytes 0..1 and biasFast.z by bytes 4..5. -/
theorem C32_ParseMotionPlusCalibrationData_values (st : State) (buf : List Nat)
    (len error : Nat) :
    ((ParseMotionPlusCalibrationData st buf len error).1 = true ∧
      (ParseMotionPlusCalibrationData st buf len error).2 =
        { st with
          extension :=
            { st.extension with
              motionPlus :=
                { st.extension.motionPlus with
                  cal := (ParseMotionPlusCalibrationData st buf len error).2.extension.motionPlus.cal } } } ∧
      (ParseMotionPlusCalibrationData st buf len error).2.extension.motionPlus.cal.valid = true) ∧
    ((ParseMotionPlusCalibrationData st buf len error).2.extension.motionPlus.cal.biasSlow =
        { x := (((256 * byteAt buf 2 + byteAt buf 3) / 4 : Nat) : Int)
          y := (((256 * byteAt buf 4 + byteAt buf 5) / 4 : Nat) : Int)
          z := (((256 * byteAt buf 0 + byteAt buf 1) / 4 : Nat) : Int) } ∧
      (0 ≤ (ParseMotionPlusCalibrationData st buf len error).2.extension.motionPlus.cal.biasSlow.x ∧
        (ParseMotionPlusCalibrationData st buf len error).2.extension.motionPlus.cal.biasSlow.x ≤ 16383) ∧
      (0 ≤ (ParseMotionPlusCalibrationData st buf len error).2.extension.motionPlus.cal.biasSlow.y ∧
        (ParseMotionPlusCalibrationData st buf len error).2.extension.motionPlus.cal.biasSlow.y ≤ 16383) ∧
      (0 ≤ (ParseMotionPlusCalibrationData st buf len error).2.extension.motionPlus.cal.biasSlow.z ∧
        (ParseMotionPlusCalibrationData st buf len error).2.extension.motionPlus.cal.biasSlow.z ≤ 16383)) ∧
    ((ParseMotionPlusCalibrationData st buf len error).2.extension.motionPlus.cal.biasFast =
        { x := biasFastOf (((256 * byteAt buf 2 + byteAt buf 3) / 4 : Nat) : Int)
          y := biasFastOf (((256 * byteAt buf 0 + byteAt buf 1) / 4 : Nat) : Int)
          z := biasFastOf (((256 * byteAt buf 4 + byteAt buf 5) / 4 : Nat) : Int) } ∧
      (ParseMotionPlusCalibrationData st buf len error).2.extension.motionPlus.cal.biasFast =
        { x := (227 * (((256 * byteAt buf 2 + byteAt buf 3) / 4 : Nat) : Int) + 110) / 220 -
            (if ((((256 * byteAt buf 2 + byteAt buf 3) / 4 : Nat) : Int)) ∈ biasFastExceptions
              then 1 else 0)
          y := (227 * (((256 * byteAt buf 0 + byteAt buf 1) / 4 : Nat) : Int) + 110) / 220 -
            (if ((((256 * byteAt buf 0 + byteAt buf 1) / 4 : Nat) : Int)) ∈ biasFastExceptions
              then 1 else 0)
          z := (227 * (((256 * byteAt buf 4 + byteAt buf 5) / 4 : Nat) : Int) + 110) / 220 -
            (if ((((256 * byteAt buf 4 + byteAt buf 5) / 4 : Nat) : Int)) ∈ biasFastExceptions
              then 1 else 0) }) ∧
    ((∀ b : Int, 0 ≤ b → b ≤ 16383 →
        biasFastOf b = (227 * b + 110) / 220 - (if b ∈ biasFastExceptions then 1 else 0)) ∧
      (∀ b : Int, (227 * b + 110) / 220 = ⌊(b : ℚ) * (227 / 50) / (22 / 5) + 1 / 2⌋) ∧
      biasFastExceptions.length = 27) ∧
    ((ParseMotionPlusCalibrationData st buf len error).2.extension.motionPlus.cal.scaleSlow =
        { x := 13421773 / 268435456, y := 13421773 / 268435456, z := 13421773 / 268435456 } ∧
      (ParseMotionPlusCalibrationData st buf len error).2.extension.motionPlus.cal.scaleFast =
        { x := 952107 / 4194304, y := 952107 / 4194304, z := 952107 / 4194304 }) ∧
    (∀ (st1 : State) (buf1 : List Nat) (len1 error1 : Nat),
      (byteAt buf1 0 = byteAt buf 0 → byteAt buf1 1 = byteAt buf 1 →
        (ParseMotionPlusCalibrationData st1 buf1 len1 error1).2.extension.motionPlus.cal.biasFast.y =
          (ParseMotionPlusCalibrationData st buf len error).2.extension.motionPlus.cal.biasFast.y) ∧
      (byteAt buf1 4 = byteAt buf 4 → byteAt buf1 5 = byteAt buf 5 →
        (ParseMotionPlusCalibrationData st1 buf1 len1 error1).2.extension.motionPlus.cal.biasFast.z =
          (ParseMotionPlusCalibrationData st buf len error).2.extension.motionPlus.cal.biasFast.z)) := by
  have hs : (ParseMotionPlusCalibrationData st buf len error).2.extension.motionPlus.cal.biasSlow =
        { x := (((256 * byteAt buf 2 + byteAt buf 3) / 4 : Nat) : Int)
          y := (((256 * byteAt buf 4 + byteAt buf 5) / 4 : Nat) : Int)
          z := (((256 * byteAt buf 0 + byteAt buf 1) / 4 : Nat) : Int) } := by
    show ({ x := _, y := _, z := _ } : Point3i) = _
    rw [bias_word _ _ (byteAt_lt buf 3), bias_word _ _ (byteAt_lt buf 5),
      bias_word _ _ (byteAt_lt buf 1)]
  have hf : ∀ (t : State) (p : List Nat) (l e : Nat),
      (ParseMotionPlusCalibrationData t p l e).2.extension.motionPlus.cal.biasFast =
        { x := biasFastOf (((256 * byteAt p 2 + byteAt p 3) / 4 : Nat) : Int)
          y := biasFastOf (((256 * byteAt p 0 + byteAt p 1) / 4 : Nat) : Int)
          z := biasFastOf (((256 * byteAt p 4 + byteAt p 5) / 4 : Nat) : Int) } := by
    intro t p l e
    show ({ x := _, y := _, z := _ } : Point3i) = _
    rw [bias_word _ _ (byteAt_lt p 3), bias_word _ _ (byteAt_lt p 5),
      bias_word _ _ (byteAt_lt p 1)]
  have rng : ∀ hi lo : Nat, hi < 256 → lo < 256 →
      (0 : Int) ≤ (((256 * hi + lo) / 4 : Nat) : Int) ∧
        (((256 * hi + lo) / 4 : Nat) : Int) ≤ 16383 := by
    intro hi lo a b
    omega
  have a0 := byteAt_lt buf 0
  have a1 := byteAt_lt buf 1
  have a2 := byteAt_lt buf 2
  have a3 := byteAt_lt buf 3
  have a4 := byteAt_lt buf 4
  have a5 := byteAt_lt buf 5
  refine ⟨⟨rfl, rfl, rfl⟩, ⟨hs, ?_⟩, ⟨hf st buf len error, ?_⟩,
    ⟨biasFastOf_eq, ?_, by decide⟩, ⟨?_, ?_⟩, ?_⟩
  · rw [hs]
    exact ⟨rng _ _ a2 a3, rng _ _ a4 a5, rng _ _ a0 a1⟩
  · rw [hf, biasFastOf_eq _ (rng _ _ a2 a3).1 (rng _ _ a2 a3).2,
      biasFastOf_eq _ (rng _ _ a0 a1).1 (rng _ _ a0 a1).2,
      biasFastOf_eq _ (rng _ _ a4 a5).1 (rng _ _ a4 a5).2]
  · intro b
    have e : (b : ℚ) * (227 / 50) / (22 / 5) + 1 / 2 =
        ((227 * b + 110 : Int) : ℚ) / ((220 : Nat) : ℚ) := by
      push_cast
      ring
    rw [e, Rat.floor_intCast_div_natCast]
    rfl
  · show ({ x := _, y := _, z := _ } : Point3f) = _
    rw [motionPlus_scales.1]
  · show ({ x := _, y := _, z := _ } : Point3f) = _
    rw [motionPlus_scales.2.1]
  · intro st1 buf1 len1 error1
    constructor
    · intro a b
      rw [hf, hf, a, b]
    · intro a b
      rw [hf, hf, a, b]

/-- C32 on the block `7D FC 7E 00 00 DC`: biasSlow = (8064, 55, 8063) and
biasFast = (8321, 8320, 57), the y and z axes being exchanged. -/
theorem C32_ParseMotionPlusCalibrationData_values_witness :
    (ParseMotionPlusCalibrationData Impl.ctor.state
        [0x7D, 0xFC, 0x7E, 0x00, 0x00, 0xDC] 6 0).2.extension.motionPlus.cal.biasSlow
      = ⟨8064, 55, 8063⟩ ∧
    (ParseMotionPlusCalibrationData Impl.ctor.state
        [0x7D, 0xFC, 0x7E, 0x00, 0x00, 0xDC] 6 0).2.extension.motionPlus.cal.biasFast
      = ⟨8321, 8320, 57⟩ :=
  ⟨(C32_ParseMotionPlusCalibrationData_values Impl.ctor.state
      [0x7D, 0xFC, 0x7E, 0x00, 0x00, 0xDC] 6 0).2.1.1.trans (by decide),
    (C32_ParseMotionPlusCalibrationData_values Impl.ctor.state
      [0x7D, 0xFC, 0x7E, 0x00, 0x00, 0xDC] 6 0).2.2.1.2.trans (by decide)⟩

/-- C32 as stated fails: on the block `00 00 01 B8 00 00` biasSlow.x is 110 and
biasFast.x is 113, although 110 * 4.54/4.4 = 113.5 rounded half up is 114: in
single precision the sum falls just below 114. -/
theorem C32_counterexample :
    (ParseMotionPlusCalibrationData Impl.ctor.state
        [0x00, 0x00, 0x01, 0xB8, 0x00, 0x00] 6 0).2.extension.motionPlus.cal.biasSlow.x = 110 ∧
    (ParseMotionPlusCalibrationData Impl.ctor.state
        [0x00, 0x00, 0x01, 0xB8, 0x00, 0x00] 6 0).2.extension.motionPlus.cal.biasFast.x = 113 ∧
    ⌊((110 : Int) : ℚ) * (227 / 50) / (22 / 5) + 1 / 2⌋ = 114 := by
  refine ⟨by decide, by decide!, ?_⟩
  rw [Int.floor_eq_iff]
  norm_num

/-! ## Layout of the infrared dots -/

set_option maxRecDepth 100000 in
theorem byte_fields (b : Nat) (h : b < 256) :
    (b &&& 0x30) <<< 4 = (b / 16 % 4) <<< 8 ∧ (b &&& 0xC0) <<< 2 = (b / 64) <<< 8 ∧
    (b &&& 0x03) <<< 8 = (b % 4) <<< 8 ∧ (b &&& 0x0C) <<< 6 = (b / 4 % 4) <<< 8 ∧
    b &&& 0x0F = b % 16 := by
  revert b
  decide

theorem or_high (lo k : Nat) (h : lo < 256) : lo ||| (k <<< 8) = 256 * k + lo := by
  rw [Nat.lor_comm, shiftLeft_or_eq_add _ (by simpa using h)]
  omega

theorem dot_fields (lo b : Nat) (h : lo < 256) (k : b < 256) :
    lo ||| ((b &&& 0x30) <<< 4) = 256 * (b / 16 % 4) + lo ∧
    lo ||| ((b &&& 0xC0) <<< 2) = 256 * (b / 64) + lo ∧
    lo ||| ((b &&& 0x03) <<< 8) = 256 * (b % 4) + lo ∧
    lo ||| ((b &&& 0x0C) <<< 6) = 256 * (b / 4 % 4) + lo := by
  obtain ⟨e1, e2, e3, e4, _⟩ := byte_fields b k
  rw [e1, e2, e3, e4]
  exact ⟨or_high _ _ h, or_high _ _ h, or_high _ _ h, or_high _ _ h⟩

theorem ParseIR_basic (st : State) (buf : List Nat) (h : st.ir.mode = IRData.Mode.Basic) :
    ParseIR st buf =
      (true,
        { st with
          ir :=
            { st.ir with
              dot0 := setDot st.ir.dot0 (byteAt buf 0 ||| ((byteAt buf 2 &&& 0x30) <<< 4))
                        (byteAt buf 1 ||| ((byteAt buf 2 &&& 0xC0) <<< 2)) 0
              dot1 := setDot st.ir.dot1 (byteAt buf 3 ||| ((byteAt buf 2 &&& 0x03) <<< 8))
                        (byteAt buf 4 ||| ((byteAt buf 2 &&& 0x0C) <<< 6)) 0
              dot2 := setDot st.ir.dot2 (byteAt buf 5 ||| ((byteAt buf 5 &&& 0x30) <<< 4))
                        (byteAt buf 6 ||| ((byteAt buf 5 &&& 0xC0) <<< 2)) 0
              dot3 := setDot st.ir.dot3 (byteAt buf 8 ||| ((byteAt buf 5 &&& 0x03) <<< 8))
                        (byteAt buf 9 ||| ((byteAt buf 5 &&& 0x0C) <<< 6)) 0 }
          data := st.data ||| State.IR }) := by
  simp only [ParseIR, h]

theorem ParseIR_extended (st : State) (buf : List Nat) (h : st.ir.mode = IRData.Mode.Extended) :
    ParseIR st buf =
      (true,
        { st with
          ir :=
            { st.ir with
              dot0 := setDot st.ir.dot0 (byteAt buf 0 ||| ((byteAt buf 2 &&& 0x30) <<< 4))
                        (byteAt buf 1 ||| ((byteAt buf 2 &&& 0xC0) <<< 2)) (byteAt buf 2 &&& 0x0F)
              dot1 := setDot st.ir.dot1 (byteAt buf 3 ||| ((byteAt buf 5 &&& 0x30) <<< 4))
                        (byteAt buf 4 ||| ((byteAt buf 5 &&& 0xC0) <<< 2)) (byteAt buf 5 &&& 0x0F)
              dot2 := setDot st.ir.dot2 (byteAt buf 6 ||| ((byteAt buf 8 &&& 0x30) <<< 4))
                        (byteAt buf 7 ||| ((byteAt buf 8 &&& 0xC0) <<< 2)) (byteAt buf 8 &&& 0x0F)
              dot3 := setDot st.ir.dot3 (byteAt buf 9 ||| ((byteAt buf 11 &&& 0x30) <<< 4))
                        (byteAt buf 10 ||| ((byteAt buf 11 &&& 0xC0) <<< 2))
                        (byteAt buf 11 &&& 0x0F) }
          data := st.data ||| State.IR }) := by
  simp only [ParseIR, h]

theorem setDot_raw (dot : IRData.Dot) (x y size : Nat) :
    (setDot dot x y size).raw = { x := (x : Int), y := (y : Int) } ∧
      (setDot dot x y size).size = size := ⟨rfl, rfl⟩

/-- C33, as the code has it: in Basic mode dots 0 and 1 are decoded from bytes
0..4 by the layout of the comment (`basicGroupSpec`), and every pair of 10-bit
positions can be decoded for them.  Dots 2 and 3 are not decoded by that layout
from bytes 5..9: the high bits of their coordinates are taken from byte 5, the
low byte of dot 2's x, where the layout has byte 7; byte 7 is not read at all,
and the x position of dot 2 is one of 256 values, its bits 8..9 repeating its
bits 4..5. -/
theorem C33_basic_second_group_reads_byte5 (st : State) (buf : List Nat)
    (h : st.ir.mode = IRData.Mode.Basic) :
    (((ParseIR st buf).2.ir.dot0.raw =
          { x := ((basicGroupSpec buf).1.1 : Nat), y := ((basicGroupSpec buf).1.2 : Nat) } ∧
        (ParseIR st buf).2.ir.dot1.raw =
          { x := ((basicGroupSpec buf).2.1 : Nat), y := ((basicGroupSpec buf).2.2 : Nat) }) ∧
      ∀ x0 y0 x1 y1 : Nat, x0 < 1024 → y0 < 1024 → x1 < 1024 → y1 < 1024 →
        ∃ g : List Nat, g.length = 5 ∧ ∀ rest : List Nat,
          (ParseIR st (g ++ rest)).2.ir.dot0.raw = { x := (x0 : Int), y := (y0 : Int) } ∧
          (ParseIR st (g ++ rest)).2.ir.dot1.raw = { x := (x1 : Int), y := (y1 : Int) }) ∧
    ((ParseIR st buf).2.ir.dot2.raw =
        { x := ((256 * (byteAt buf 5 / 16 % 4) + byteAt buf 5 : Nat) : Int)
          y := ((256 * (byteAt buf 5 / 64) + byteAt buf 6 : Nat) : Int) } ∧
      (ParseIR st buf).2.ir.dot3.raw =
        { x := ((256 * (byteAt buf 5 % 4) + byteAt buf 8 : Nat) : Int)
          y := ((256 * (byteAt buf 5 / 4 % 4) + byteAt buf 9 : Nat) : Int) }) ∧
    (∀ buf1 : List Nat, (∀ i, i ≠ 7 → byteAt buf1 i = byteAt buf i) →
      ParseIR st buf1 = ParseIR st buf) ∧
    ((ParseIR st buf).2.ir.dot2.raw.x / 256 = (ParseIR st buf).2.ir.dot2.raw.x % 256 / 16 % 4 ∧
      (ParseIR st buf).2.ir.dot2.raw.x ≠ 0x100) := by
  have b5 := byteAt_lt buf 5
  have d2 : (ParseIR st buf).2.ir.dot2.raw =
        { x := ((256 * (byteAt buf 5 / 16 % 4) + byteAt buf 5 : Nat) : Int)
          y := ((256 * (byteAt buf 5 / 64) + byteAt buf 6 : Nat) : Int) } := by
    rw [ParseIR_basic st buf h]
    show (setDot _ _ _ _).raw = _
    rw [(setDot_raw _ _ _ _).1, (dot_fields _ _ b5 b5).1,
      (dot_fields _ _ (byteAt_lt buf 6) b5).2.1]
  have d3 : (ParseIR st buf).2.ir.dot3.raw =
        { x := ((256 * (byteAt buf 5 % 4) + byteAt buf 8 : Nat) : Int)
          y := ((256 * (byteAt buf 5 / 4 % 4) + byteAt buf 9 : Nat) : Int) } := by
    rw [ParseIR_basic st buf h]
    show (setDot _ _ _ _).raw = _
    rw [(setDot_raw _ _ _ _).1, (dot_fields _ _ (byteAt_lt buf 8) b5).2.2.1,
      (dot_fields _ _ (byteAt_lt buf 9) b5).2.2.2]
  refine ⟨⟨⟨?_, ?_⟩, ?_⟩, ⟨d2, d3⟩, ?_, ?_⟩
  · rw [ParseIR_basic st buf h]
    rfl
  · rw [ParseIR_basic st buf h]
    rfl
  · intro x0 y0 x1 y1 hx0 hy0 hx1 hy1
    refine ⟨[x0 % 256, y0 % 256, 64 * (y0 / 256) + 16 * (x0 / 256) + 4 * (y1 / 256) + x1 / 256,
      x1 % 256, y1 % 256], rfl, ?_⟩
    intro rest
    have m : ∀ n : Nat, n < 256 → n % 256 = n := fun n hn => Nat.mod_eq_of_lt hn
    have c0 : byteAt ([x0 % 256, y0 % 256,
        64 * (y0 / 256) + 16 * (x0 / 256) + 4 * (y1 / 256) + x1 / 256,
        x1 % 256, y1 % 256] ++ rest) 0 = x0 % 256 := by
      show x0 % 256 % 256 = _
      omega
    have c1 : byteAt ([x0 % 256, y0 % 256,
        64 * (y0 / 256) + 16 * (x0 / 256) + 4 * (y1 / 256) + x1 / 256,
        x1 % 256, y1 % 256] ++ rest) 1 = y0 % 256 := by
      show y0 % 256 % 256 = _
      omega
    have c2 : byteAt ([x0 % 256, y0 % 256,
        64 * (y0 / 256) + 16 * (x0 / 256) + 4 * (y1 / 256) + x1 / 256,
        x1 % 256, y1 % 256] ++ rest) 2 =
        64 * (y0 / 256) + 16 * (x0 / 256) + 4 * (y1 / 256) + x1 / 256 := by
      show (64 * (y0 / 256) + 16 * (x0 / 256) + 4 * (y1 / 256) + x1 / 256) % 256 = _
      omega
    have c3 : byteAt ([x0 % 256, y0 % 256,
        64 * (y0 / 256) + 16 * (x0 / 256) + 4 * (y1 / 256) + x1 / 256,
        x1 % 256, y1 % 256] ++ rest) 3 = x1 % 256 := by
      show x1 % 256 % 256 = _
      omega
    have c4 : byteAt ([x0 % 256, y0 % 256,
        64 * (y0 / 256) + 16 * (x0 / 256) + 4 * (y1 / 256) + x1 / 256,
        x1 % 256, y1 % 256] ++ rest) 4 = y1 % 256 := by
      show y1 % 256 % 256 = _
      omega
    have l2 : 64 * (y0 / 256) + 16 * (x0 / 256) + 4 * (y1 / 256) + x1 / 256 < 256 := by omega
    rw [ParseIR_basic _ _ h]
    constructor
    · show (setDot _ _ _ _).raw = _
      rw [(setDot_raw _ _ _ _).1, c0, c1, c2,
        (dot_fields _ _ (Nat.mod_lt _ (by norm_num)) l2).1,
        (dot_fields _ _ (Nat.mod_lt _ (by norm_num)) l2).2.1]
      congr 1 <;> congr 1 <;> omega
    · show (setDot _ _ _ _).raw = _
      rw [(setDot_raw _ _ _ _).1, c2, c3, c4,
        (dot_fields _ _ (Nat.mod_lt _ (by norm_num)) l2).2.2.1,
        (dot_fields _ _ (Nat.mod_lt _ (by norm_num)) l2).2.2.2]
      congr 1 <;> congr 1 <;> omega
  · intro buf1 hb
    rw [ParseIR_basic st buf1 h, ParseIR_basic st buf h, hb 0 (by decide), hb 1 (by decide),
      hb 2 (by decide), hb 3 (by decide), hb 4 (by decide), hb 5 (by decide), hb 6 (by decide),
      hb 8 (by decide), hb 9 (by decide)]
  · rw [d2]
    dsimp only
    omega

/-- C33 on the group `FF 00 30 00 00` placed at bytes 5..9: dot 2 gets the
position (1023, 768), and replacing byte 7 by `CF` changes nothing. -/
theorem C33_basic_second_group_reads_byte5_witness :
    (ParseIR { Impl.ctor.state with ir := { Impl.ctor.state.ir with mode := .Basic } }
        [0xFF, 0x00, 0x30, 0x00, 0x00, 0xFF, 0x00, 0x30, 0x00, 0x00]).2.ir.dot2.raw
      = ⟨1023, 768⟩ ∧
    ParseIR { Impl.ctor.state with ir := { Impl.ctor.state.ir with mode := .Basic } }
        [0xFF, 0x00, 0x30, 0x00, 0x00, 0xFF, 0x00, 0xCF, 0x00, 0x00] =
      ParseIR { Impl.ctor.state with ir := { Impl.ctor.state.ir with mode := .Basic } }
        [0xFF, 0x00, 0x30, 0x00, 0x00, 0xFF, 0x00, 0x30, 0x00, 0x00] := by
  have k := C33_basic_second_group_reads_byte5
    { Impl.ctor.state with ir := { Impl.ctor.state.ir with mode := .Basic } }
    [0xFF, 0x00, 0x30, 0x00, 0x00, 0xFF, 0x00, 0x30, 0x00, 0x00] rfl
  refine ⟨k.2.1.1.trans (by decide), k.2.2.1 _ ?_⟩
  intro i hi
  match i, hi with
  | 7, c => exact absurd rfl c
  | n + 10, _ => rfl
  | 0, _ | 1, _ | 2, _ | 3, _ | 4, _ | 5, _ | 6, _ | 8, _ | 9, _ => rfl

/-- C33 fails on the code: in Basic mode the group `00 00 30 00 00` is decoded
as (768, 0) for dot 0 when it stands at bytes 0..4 and as (0, 0) for dot 2 when
it stands at bytes 5..9. -/
theorem C33_counterexample :
    (ParseIR { Impl.ctor.state with ir := { Impl.ctor.state.ir with mode := .Basic } }
        ([0x00, 0x00, 0x30, 0x00, 0x00] ++ [0x00, 0x00, 0x00, 0x00, 0x00])).2.ir.dot0.raw
      = ⟨768, 0⟩ ∧
    (ParseIR { Impl.ctor.state with ir := { Impl.ctor.state.ir with mode := .Basic } }
        ([0x00, 0x00, 0x00, 0x00, 0x00] ++ [0x00, 0x00, 0x30, 0x00, 0x00])).2.ir.dot2.raw
      = ⟨0, 0⟩ ∧
    (basicGroupSpec [0x00, 0x00, 0x30, 0x00, 0x00]).1 = (768, 0) := by
  decide

/-! ## The extended layout of the infrared dots -/

theorem extendedDotSpec_eq (b0 b1 b2 : Nat) (h0 : b0 < 256) (h1 : b1 < 256) (h2 : b2 < 256) :
    extendedDotSpec b0 b1 b2 = (256 * (b2 / 16 % 4) + b0, 256 * (b2 / 64) + b1, b2 % 16) := by
  unfold extendedDotSpec
  rw [(dot_fields b0 b2 h0 h2).1, (dot_fields b1 b2 h1 h2).2.1, (byte_fields b2 h2).2.2.2.2]

/-- C34: in Extended mode dot i of the result is the decode `extendedDotSpec` of
bytes 3i, 3i+1, 3i+2 (x = b0 | ((b2 & 0x30) << 4), y = b1 | ((b2 & 0xC0) << 2),
size = b2 & 0x0F), so it is the same for two buffers that agree on these three
bytes.  On bytes the decode yields x and y in 0..1023 and size in 0..15, and for
every such triple exactly one group of three bytes decodes to it.  In Basic
mode the size of every dot is 0. -/
theorem C34_extended_dot_bijection (st : State) (buf : List Nat) :
    (st.ir.mode = IRData.Mode.Extended →
      ((ParseIR st buf).2.ir.dot0.raw =
          { x := ((extendedDotSpec (byteAt buf 0) (byteAt buf 1) (byteAt buf 2)).1 : Nat)
            y := ((extendedDotSpec (byteAt buf 0) (byteAt buf 1) (byteAt buf 2)).2.1 : Nat) } ∧
        (ParseIR st buf).2.ir.dot0.size =
          (extendedDotSpec (byteAt buf 0) (byteAt buf 1) (byteAt buf 2)).2.2) ∧
      ((ParseIR st buf).2.ir.dot1.raw =
          { x := ((extendedDotSpec (byteAt buf 3) (byteAt buf 4) (byteAt buf 5)).1 : Nat)
            y := ((extendedDotSpec (byteAt buf 3) (byteAt buf 4) (byteAt buf 5)).2.1 : Nat) } ∧
        (ParseIR st buf).2.ir.dot1.size =
          (extendedDotSpec (byteAt buf 3) (byteAt buf 4) (byteAt buf 5)).2.2) ∧
      ((ParseIR st buf).2.ir.dot2.raw =
          { x := ((extendedDotSpec (byteAt buf 6) (byteAt buf 7) (byteAt buf 8)).1 : Nat)
            y := ((extendedDotSpec (byteAt buf 6) (byteAt buf 7) (byteAt buf 8)).2.1 : Nat) } ∧
        (ParseIR st buf).2.ir.dot2.size =
          (extendedDotSpec (byteAt buf 6) (byteAt buf 7) (byteAt buf 8)).2.2) ∧
      ((ParseIR st buf).2.ir.dot3.raw =
          { x := ((extendedDotSpec (byteAt buf 9) (byteAt buf 10) (byteAt buf 11)).1 : Nat)
            y := ((extendedDotSpec (byteAt buf 9) (byteAt buf 10) (byteAt buf 11)).2.1 : Nat) } ∧
        (ParseIR st buf).2.ir.dot3.size =
          (extendedDotSpec (byteAt buf 9) (byteAt buf 10) (byteAt buf 11)).2.2) ∧
      (∀ buf1 : List Nat,
        (byteAt buf1 0 = byteAt buf 0 → byteAt buf1 1 = byteAt buf 1 →
          byteAt buf1 2 = byteAt buf 2 →
          (ParseIR st buf1).2.ir.dot0 = (ParseIR st buf).2.ir.dot0) ∧
        (byteAt buf1 3 = byteAt buf 3 → byteAt buf1 4 = byteAt buf 4 →
          byteAt buf1 5 = byteAt buf 5 →
          (ParseIR st buf1).2.ir.dot1 = (ParseIR st buf).2.ir.dot1) ∧
        (byteAt buf1 6 = byteAt buf 6 → byteAt buf1 7 = byteAt buf 7 →
          byteAt buf1 8 = byteAt buf 8 →
          (ParseIR st buf1).2.ir.dot2 = (ParseIR st buf).2.ir.dot2) ∧
        (byteAt buf1 9 = byteAt buf 9 → byteAt buf1 10 = byteAt buf 10 →
          byteAt buf1 11 = byteAt buf 11 →
          (ParseIR st buf1).2.ir.dot3 = (ParseIR st buf).2.ir.dot3))) ∧
    (∀ b0 b1 b2 : Nat, b0 < 256 → b1 < 256 → b2 < 256 →
      (extendedDotSpec b0 b1 b2).1 < 1024 ∧ (extendedDotSpec b0 b1 b2).2.1 < 1024 ∧
        (extendedDotSpec b0 b1 b2).2.2 < 16) ∧
    (∀ x y size : Nat, x < 1024 → y < 1024 → size < 16 →
      ∃! g : Nat × Nat × Nat,
        (g.1 < 256 ∧ g.2.1 < 256 ∧ g.2.2 < 256) ∧ extendedDotSpec g.1 g.2.1 g.2.2 = (x, y, size)) ∧
    (st.ir.mode = IRData.Mode.Basic →
      (ParseIR st buf).2.ir.dot0.size = 0 ∧ (ParseIR st buf).2.ir.dot1.size = 0 ∧
      (ParseIR st buf).2.ir.dot2.size = 0 ∧ (ParseIR st buf).2.ir.dot3.size = 0) := by
  refine ⟨?_, ?_, ?_, ?_⟩
  · intro h
    rw [ParseIR_extended st buf h]
    refine ⟨⟨rfl, rfl⟩, ⟨rfl, rfl⟩, ⟨rfl, rfl⟩, ⟨rfl, rfl⟩, ?_⟩
    intro buf1
    rw [ParseIR_extended st buf1 h]
    refine ⟨?_, ?_, ?_, ?_⟩ <;> intro a b c <;> dsimp only <;> rw [a, b, c]
  · intro b0 b1 b2 h0 h1 h2
    rw [extendedDotSpec_eq b0 b1 b2 h0 h1 h2]
    dsimp only
    omega
  · intro x y size hx hy hs
    refine ⟨(x % 256, y % 256, 64 * (y / 256) + 16 * (x / 256) + size), ⟨?_, ?_⟩, ?_⟩
    · dsimp only
      omega
    · dsimp only
      rw [extendedDotSpec_eq _ _ _ (by omega) (by omega) (by omega)]
      refine Prod.ext ?_ (Prod.ext ?_ ?_) <;> dsimp only <;> omega
    · rintro ⟨g0, g1, g2⟩ ⟨⟨l0, l1, l2⟩, e⟩
      dsimp only at l0 l1 l2 e
      rw [extendedDotSpec_eq _ _ _ l0 l1 l2] at e
      have e0 := congrArg Prod.fst e
      have e1 := congrArg (fun t => t.2.1) e
      have e2 := congrArg (fun t => t.2.2) e
      dsimp only at e0 e1 e2
      refine Prod.ext ?_ (Prod.ext ?_ ?_) <;> dsimp only <;> omega
  · intro h
    rw [ParseIR_basic st buf h]
    exact ⟨rfl, rfl, rfl, rfl⟩

/-- C34 on the group `00 80 65`: it decodes to x = 512, y = 384, size = 5, and in
Extended mode dot 1 takes these values from bytes 3..5. -/
theorem C34_extended_dot_bijection_witness :
    extendedDotSpec 0x00 0x80 0x65 = (512, 384, 5) ∧
    (ParseIR { Impl.ctor.state with ir := { Impl.ctor.state.ir with mode := .Extended } }
        [0xFF, 0xFF, 0xFF, 0x00, 0x80, 0x65, 0xFF, 0xFF, 0xFF, 0xFF, 0xFF, 0xFF]).2.ir.dot1.raw
      = ⟨512, 384⟩ ∧
    (ParseIR { Impl.ctor.state with ir := { Impl.ctor.state.ir with mode := .Extended } }
        [0xFF, 0xFF, 0xFF, 0x00, 0x80, 0x65, 0xFF, 0xFF, 0xFF, 0xFF, 0xFF, 0xFF]).2.ir.dot1.size
      = 5 := by
  have k := (C34_extended_dot_bijection
    { Impl.ctor.state with ir := { Impl.ctor.state.ir with mode := .Extended } }
    [0xFF, 0xFF, 0xFF, 0x00, 0x80, 0x65, 0xFF, 0xFF, 0xFF, 0xFF, 0xFF, 0xFF]).1 rfl
  exact ⟨by decide, k.2.1.1.trans (by decide), k.2.1.2.trans (by decide)⟩

/-! ## Big-endian fields of the memory reports -/

theorem and_0xFF (x : Nat) : x &&& 0xFF = x % 256 := by
  have h : (0xFF : Nat) = 2 ^ 8 - 1 := by norm_num
  rw [h, Nat.and_pow_two_sub_one_eq_mod]

theorem B_eq (n : Nat) :
    B0 n = n % 256 ∧ B1 n = n / 256 % 256 ∧ B2 n = n / 65536 % 256 ∧ B3 n = n / 16777216 % 256 := by
  unfold B0 B1 B2 B3
  simp only [and_0xFF, Nat.shiftRight_eq_div_pow]
  norm_num

theorem Read16_eq (p : List Nat) : Read16 p = byteAt p 0 * 256 + byteAt p 1 := by
  unfold Read16
  rw [shiftLeft_or_eq_add _ (by simpa using byteAt_lt p 1)]
  norm_num

theorem or_rumbleBit_off (x : Nat) (s : Impl) (h : s.state.rumble = false) :
    x ||| rumbleBit s = x := by
  unfold rumbleBit
  rw [h]
  simp

/-- C35: for every 32-bit address `a` and every size `sz < 65536`, with rumble
off, `SendReadReport` hands the transport the seven bytes
`17, a>>24, (a>>16)&FF, (a>>8)&FF, a&FF, sz>>8, sz&FF`; `Read32` of bytes 1..4
of that report is `a` and `Read16` of bytes 5..6 is `sz`.  For every payload of
1..16 bytes `SendWriteReport` hands over 22 bytes: `16`, the four address bytes
in the same order, the size, the payload and zeros up to 16 data bytes.  For
every `n < 2^32`, `Read32 (Write32 n) = n`, and for every `n`,
`Read16 (Write16 n) = n mod 2^16`. -/
theorem C35_memory_report_fields (nd : Bool) (a sz : Nat) (data : List Nat) (s : Impl) :
    (a < 2 ^ 32 → sz < 65536 → s.state.rumble = false →
      SendReadReport nd a sz s =
        .ok (true,
          { s with
            output := s.output ++
              [[0x17, a >>> 24, (a >>> 16) &&& 0xFF, (a >>> 8) &&& 0xFF, a &&& 0xFF, sz >>> 8,
                sz &&& 0xFF]] }) ∧
      Read32 ([0x17, a >>> 24, (a >>> 16) &&& 0xFF, (a >>> 8) &&& 0xFF, a &&& 0xFF, sz >>> 8,
        sz &&& 0xFF].drop 1) = a ∧
      Read16 ([0x17, a >>> 24, (a >>> 16) &&& 0xFF, (a >>> 8) &&& 0xFF, a &&& 0xFF, sz >>> 8,
        sz &&& 0xFF].drop 5) = sz) ∧
    (a < 2 ^ 32 → 1 ≤ data.length → data.length ≤ 16 → s.state.rumble = false →
      SendWriteReport nd a data.length data s =
        .ok (true,
          { s with
            output := s.output ++
              [[0x16, a >>> 24, (a >>> 16) &&& 0xFF, (a >>> 8) &&& 0xFF, a &&& 0xFF, data.length]
                ++ data.map (· % 256) ++ List.replicate (16 - data.length) 0] }) ∧
      ([0x16, a >>> 24, (a >>> 16) &&& 0xFF, (a >>> 8) &&& 0xFF, a &&& 0xFF, data.length]
          ++ data.map (· % 256) ++ List.replicate (16 - data.length) 0).length = 22) ∧
    (a < 2 ^ 32 → Read32 (Write32 a) = a) ∧
    Read16 (Write16 a) = a % 2 ^ 16 := by
  obtain ⟨e0, e1, e2, e3⟩ := B_eq a
  have r32 : a < 2 ^ 32 → Read32 (Write32 a) = a := by
    intro ha
    rw [Read32_eq]
    show (B3 a % 256) * 2 ^ 24 + (B2 a % 256) * 2 ^ 16 + (B1 a % 256) * 2 ^ 8 + B0 a % 256 = a
    rw [e0, e1, e2, e3]
    norm_num at ha ⊢
    omega
  have r16 : ∀ n : Nat, Read16 (Write16 n) = n % 2 ^ 16 := by
    intro n
    obtain ⟨f0, f1, _, _⟩ := B_eq n
    rw [Read16_eq]
    show (B1 n % 256) * 256 + B0 n % 256 = _
    rw [f0, f1]
    norm_num
    omega
  have h3 : a < 2 ^ 32 → B3 a = a >>> 24 := by
    intro ha
    rw [e3, Nat.shiftRight_eq_div_pow]
    norm_num at ha ⊢
    omega
  refine ⟨?_, ?_, r32, r16 a⟩
  · intro ha hs hr
    have s1 : B1 sz = sz >>> 8 := by
      rw [(B_eq sz).2.1, Nat.shiftRight_eq_div_pow]
      norm_num
      omega
    have w : [0x17, a >>> 24, (a >>> 16) &&& 0xFF, (a >>> 8) &&& 0xFF, a &&& 0xFF, sz >>> 8,
        sz &&& 0xFF] = [0x17, B3 a, B2 a, B1 a, B0 a, B1 sz, B0 sz] := by
      rw [h3 ha, s1]
      rfl
    refine ⟨?_, ?_, ?_⟩
    · rw [SendReadReport_ok, or_rumbleBit_off _ s hr, w]
    · rw [w]
      exact r32 ha
    · rw [w]
      have k := r16 sz
      rw [Nat.mod_eq_of_lt (by norm_num; exact hs)] at k
      exact k
  · intro ha h1 h2 hr
    have w : [0x16, a >>> 24, (a >>> 16) &&& 0xFF, (a >>> 8) &&& 0xFF, a &&& 0xFF, data.length] =
        [0x16, B3 a, B2 a, B1 a, B0 a, B0 data.length] := by
      rw [h3 ha, (B_eq data.length).1, Nat.mod_eq_of_lt (by omega)]
      rfl
    constructor
    · rw [SendWriteReport_ok nd a data.length data s (Or.inr h1) h2 (le_refl _),
        or_rumbleBit_off _ s hr, range_map_byteAt_eq_map, w]
    · simp only [List.length_append, List.length_cons, List.length_nil, List.length_map,
        List.length_replicate]
      omega

/-- C35 for the read of the extension identifier, `Read(0x04A400FA, 6)`, and the
write of `55` to `0x04A400F0`, on the initial engine. -/
theorem C35_memory_report_fields_witness :
    SendReadReport false 0x04A400FA 6 Impl.ctor =
      .ok (true, { Impl.ctor with output := [[0x17, 0x04, 0xA4, 0x00, 0xFA, 0x00, 0x06]] }) ∧
    SendWriteReport false 0x04A400F0 1 [0x55] Impl.ctor =
      .ok (true,
        { Impl.ctor with
          output := [[0x16, 0x04, 0xA4, 0x00, 0xF0, 0x01, 0x55, 0, 0, 0, 0, 0, 0, 0, 0, 0, 0, 0,
            0, 0, 0, 0]] }) :=
  ⟨((C35_memory_report_fields false 0x04A400FA 6 [] Impl.ctor).1 (by norm_num) (by norm_num)
      rfl).1,
    ((C35_memory_report_fields false 0x04A400F0 0 [0x55] Impl.ctor).2.1 (by norm_num)
      (by decide) (by decide) rfl).1⟩

/-! ## What the engine operations change -/

theorem rumbleTagged_or (s : Impl) (ty d : Nat) (tl : List Nat) (h : d % 2 = 0) :
    rumbleTagged s (ty :: (d ||| rumbleBit s) :: tl) := by
  unfold rumbleTagged
  have e : byteAt (ty :: (d ||| rumbleBit s) :: tl) 1 = (d ||| rumbleBit s) % 2 ^ 8 := rfl
  rw [e, Nat.testBit_mod_two_pow, Nat.testBit_or, Nat.testBit_zero, Nat.testBit_zero]
  unfold rumbleBit
  cases s.state.rumble <;> simp [h]

theorem enqueued_write (a : Nat) (d : List Nat) (ha : a ∈ engineWriteAddresses)
    (h0 : 0 < d.length) (h1 : d.length ≤ 16) : enqueued (Request.write a d) :=
  Or.inr (Or.inl ⟨a, d, ha, h0, h1, rfl⟩)

theorem enqueued_read (a n : Nat) (h : Handler) (he : (a, n, h) ∈ engineReads) :
    enqueued (Request.read a n h) :=
  Or.inr (Or.inr ⟨(a, n, h), he, rfl⟩)

theorem enqueuedByReport_write (a : Nat) (d : List Nat) (ha : a ∈ engineWriteAddresses)
    (h0 : 0 < d.length) (h1 : d.length ≤ 16) : enqueuedByReport (Request.write a d) :=
  ⟨enqueued_write a d ha h0 h1, fun c => Option.noConfusion c⟩

theorem irWrites_enqueued (m : IRData.Mode) (sens : IRData.Sensitivity) :
    ∀ q ∈ irWrites m sens, enqueuedByReport q := by
  intro q hq
  simp only [irWrites, List.mem_cons, List.mem_singleton, List.not_mem_nil, or_false] at hq
  rcases hq with h | h | h | h | h <;> rw [h]
  · exact enqueuedByReport_write _ _ (by decide) (by decide) (by decide)
  · exact enqueuedByReport_write _ _ (by decide) (by rw [block1_length]; decide)
      (by rw [block1_length]; decide)
  · exact enqueuedByReport_write _ _ (by decide) (by rw [block2_length]; decide)
      (by rw [block2_length]; decide)
  · exact enqueuedByReport_write _ _ (by decide) (by simp) (by simp)
  · exact enqueuedByReport_write _ _ (by decide) (by decide) (by decide)

theorem EnableIR_effect (nd : Bool) (m : IRData.Mode) (sens : IRData.Sensitivity) (t : Impl) :
    ∃ ir1 new out,
      EnableIR nd m sens t =
        .ok (true,
          { t with
            state := { t.state with ir := ir1 }
            requests := t.requests ++ new
            output := t.output ++ out }) ∧
      (∀ q ∈ new, enqueuedByReport q) ∧ (∀ rep ∈ out, rumbleTagged t rep) := by
  by_cases h : t.state.ir.mode = m ∧ t.state.ir.sensitivity = sens
  · refine ⟨t.state.ir, [], [], ?_, by simp, by simp⟩
    rw [EnableIR_same nd m sens t h]
    simp
  · refine ⟨_, _, _, EnableIR_change nd m sens t h, irWrites_enqueued m sens, ?_⟩
    intro rep hr
    simp only [List.mem_cons, List.mem_singleton, List.not_mem_nil, or_false] at hr
    rcases hr with e | e <;> rw [e] <;> exact rumbleTagged_or t _ _ _ (by decide)

theorem DisableIR_effect (nd : Bool) (t : Impl) :
    ∃ ir1 new out,
      DisableIR nd t =
        .ok (true,
          { t with
            state := { t.state with ir := ir1 }
            requests := t.requests ++ new
            output := t.output ++ out }) ∧
      (∀ q ∈ new, enqueuedByReport q) ∧ (∀ rep ∈ out, rumbleTagged t rep) := by
  by_cases h : t.state.ir.mode = IRData.Mode.Off
  · refine ⟨t.state.ir, [], [], ?_, by simp, by simp⟩
    rw [DisableIR_same nd t h]
    simp
  · refine ⟨{ t.state.ir with mode := .Off }, [],
      [[0x13, 0x00 ||| rumbleBit t], [0x1A, 0x00 ||| rumbleBit t]], ?_, by simp, ?_⟩
    · rw [DisableIR_change nd t h]
      simp
    · intro rep hr
      simp only [List.mem_cons, List.mem_singleton, List.not_mem_nil, or_false] at hr
      rcases hr with e | e <;> rw [e] <;> exact rumbleTagged_or t _ _ _ (by decide)

theorem SetReportMode_effect (nd : Bool) (mode : ReportMode) (sens : IRData.Sensitivity)
    (c : Bool) (s : Impl) :
    ∃ ir1 new out,
      SetReportMode nd mode sens c s =
        .ok (true,
          { s with
            reportMode := mode
            continous := c
            state := { s.state with ir := ir1 }
            requests := s.requests ++ new
            output := s.output ++ out }) ∧
      (∀ q ∈ new, enqueuedByReport q) ∧ (∀ rep ∈ out, rumbleTagged s rep) := by
  have key : ∀ (a : Except Fault (Bool × Impl)),
      (∃ ir1 new out,
        a = .ok (true,
          { ({ s with reportMode := mode, continous := c } : Impl) with
            state := { s.state with ir := ir1 }
            requests := s.requests ++ new
            output := s.output ++ out }) ∧
        (∀ q ∈ new, enqueuedByReport q) ∧ (∀ rep ∈ out, rumbleTagged s rep)) →
      ∃ ir1 new out,
        (a >>= fun r2 =>
          SendReport nd WII_OUTPUT_REPORT_MODE
            [if r2.2.continous then 0x04 else 0x00, mode.toNat] 2 r2.2) =
          .ok (true,
            { s with
              reportMode := mode
              continous := c
              state := { s.state with ir := ir1 }
              requests := s.requests ++ new
              output := s.output ++ out }) ∧
        (∀ q ∈ new, enqueuedByReport q) ∧ (∀ rep ∈ out, rumbleTagged s rep) := by
    rintro a ⟨ir1, new, out, ha, hn, ho⟩
    refine ⟨ir1, new, out ++ [[0x12, (if c then 0x04 else 0x00) ||| rumbleBit s, mode.toNat]],
      ?_, hn, ?_⟩
    · rw [ha, ok_bind, SendReport_ok nd _ _ 1 _ (by norm_num) (by simp)]
      simp only [List.append_assoc]
      have e : byteAt [if c = true then 4 else 0, mode.toNat] 0 = if c then 0x04 else 0x00 := by
        cases c <;> rfl
      have e2 : (List.range 1).map
          (fun i => byteAt [if c = true then 4 else 0, mode.toNat] (i + 1)) = [mode.toNat] := by
        have l := ReportMode_toNat_lt mode
        show [mode.toNat % 256] = _
        rw [Nat.mod_eq_of_lt (by omega)]
      dsimp only
      rw [e, e2]
      rfl
    · intro rep hr
      rw [List.mem_append] at hr
      rcases hr with hr | hr
      · exact ho rep hr
      · rw [List.mem_singleton] at hr
        rw [hr]
        exact rumbleTagged_or s _ _ _ (by cases c <;> rfl)
  unfold SetReportMode
  dsimp only
  cases mode
  case ButtonsAccelIR => exact key _ (EnableIR_effect nd _ sens _)
  case ButtonsIRExt => exact key _ (EnableIR_effect nd _ sens _)
  case ButtonsAccelIRExt => exact key _ (EnableIR_effect nd _ sens _)
  case Undefined => exact key _ (DisableIR_effect nd _)
  case Buttons => exact key _ (DisableIR_effect nd _)
  case ButtonsAccel => exact key _ (DisableIR_effect nd _)
  case ButtonsExt => exact key _ (DisableIR_effect nd _)
  case ButtonsAccelExt => exact key _ (DisableIR_effect nd _)

theorem ProcessStatusReport_effect (nd : Bool) (buf : List Nat) (s : Impl) (r : Bool × Impl)
    (h : ProcessStatusReport nd buf s = .ok r) :
    ∃ t ir1 new out,
      r = (true,
        { s with
          state :=
            { s.state with
              battery := byteAt buf 3
              batteryLow := decide (byteAt buf 0 &&& 0x01 ≠ 0)
              extPresent := decide (byteAt buf 0 &&& 0x02 ≠ 0)
              speakerEnabled := decide (byteAt buf 0 &&& 0x04 ≠ 0)
              irEnabled := decide (byteAt buf 0 &&& 0x08 ≠ 0)
              leds := byteAt buf 0 &&& 0xF0
              extension := { s.state.extension with type := t }
              ir := ir1 }
          requests := statusPopped s.requests ++ new
          output := s.output ++ out }) ∧
      (∀ q ∈ new, enqueuedByReport q) ∧ (∀ rep ∈ out, rumbleTagged s rep) ∧
      (t = s.state.extension.type ∨ t = 0) := by
  unfold ProcessStatusReport at h
  dsimp only at h
  obtain ⟨_, _, h⟩ := bind_eq_ok h
  obtain ⟨s1, h1, h⟩ := bind_eq_ok h
  obtain ⟨s2, h2, h⟩ := bind_eq_ok h
  obtain ⟨r4, h4, h⟩ := bind_eq_ok h
  have e1 : s1 = { s with requests := statusPopped s.requests } := by
    cases hq : s.requests with
    | nil =>
      rw [hq] at h1
      have k : statusPopped [] = s.requests := by rw [hq]; rfl
      rw [← Except.ok.inj h1, k]
    | cons req rest =>
      rw [hq] at h1
      dsimp only at h1
      have k : statusPopped (req :: rest) =
          if req.type = RequestType.Status ∧ req.sent = true then rest else req :: rest := rfl
      by_cases c : req.type = RequestType.Status ∧ req.sent = true
      · rw [if_pos c, PopRequest_cons nd s req rest hq] at h1
        rw [← Except.ok.inj h1, k, if_pos c]
      · rw [if_neg c] at h1
        rw [← Except.ok.inj h1, k, if_neg c, ← hq]
  have e2 : ∃ t new,
      s2 = { s1 with
        state := { s1.state with extension := { s1.state.extension with type := t } }
        requests := s1.requests ++ new } ∧ (∀ q ∈ new, enqueuedByReport q) ∧
      (t = s1.state.extension.type ∨ t = 0) := by
    have w1 : enqueuedByReport (Request.write 0x04A400F0 [0x55]) :=
      enqueuedByReport_write _ _ (by decide) (by decide) (by decide)
    have w2 : enqueuedByReport (Request.write 0x04A400FB [0x00]) :=
      enqueuedByReport_write _ _ (by decide) (by decide) (by decide)
    have w3 : enqueuedByReport (Request.read 0x04A400FA 6 .ParseExtensionIdentifier) :=
      ⟨enqueued_read _ _ _ (by decide), by decide⟩
    simp only [WriteDataByte_ok, ok_bind, ReadExtensionIdentifier, ReadData_eq, pure_eq_ok] at h2
    split_ifs at h2 <;> rw [← Except.ok.inj h2]
    · refine ⟨s1.state.extension.type,
        [Request.write 0x04A400F0 [0x55], Request.write 0x04A400FB [0x00],
          Request.read 0x04A400FA 6 .ParseExtensionIdentifier], by simp, ?_, Or.inl rfl⟩
      intro q hq
      simp only [List.mem_cons, List.mem_singleton, List.not_mem_nil, or_false] at hq
      rcases hq with e | e | e <;> rw [e] <;> assumption
    · refine ⟨s1.state.extension.type,
        [Request.read 0x04A400FA 6 .ParseExtensionIdentifier], rfl, ?_, Or.inl rfl⟩
      intro q hq
      rw [List.mem_singleton] at hq
      rw [hq]
      exact w3
    · exact ⟨0, [], by simp, by simp, Or.inr rfl⟩
    · exact ⟨s1.state.extension.type, [], by simp, by simp, Or.inl rfl⟩
    · exact ⟨s1.state.extension.type, [], by simp, by simp, Or.inl rfl⟩
  obtain ⟨t, new2, e2, n2, ht⟩ := e2
  have ht2 : t = s.state.extension.type ∨ t = 0 := by
    rw [e1] at ht
    exact ht
  rw [e2, e1] at h4
  dsimp only at h4
  obtain ⟨ir1, new4, out, e4, n4, o4⟩ := SetReportMode_effect nd s.reportMode
    s.state.ir.sensitivity s.continous
    { s with
      requests := statusPopped s.requests ++ new2
      state :=
        { s.state with
          battery := byteAt buf 3
          batteryLow := decide (byteAt buf 0 &&& 0x01 ≠ 0)
          extPresent := decide (byteAt buf 0 &&& 0x02 ≠ 0)
          speakerEnabled := decide (byteAt buf 0 &&& 0x04 ≠ 0)
          irEnabled := decide (byteAt buf 0 &&& 0x08 ≠ 0)
          leds := byteAt buf 0 &&& 0xF0
          extension := { s.state.extension with type := t } } }
  have h5 := h4.symm.trans e4
  refine ⟨t, ir1, new2 ++ new4, out, ?_, ?_, o4, ht2⟩
  · rw [← Except.ok.inj h, Except.ok.inj h5]
    simp only [List.append_assoc]
  · intro q hq
    rw [List.mem_append] at hq
    rcases hq with c | c
    · exact n2 q c
    · exact n4 q c

theorem ParseAccelCalibrationData_sound (buf : List Nat) :
    accelCalSound (ParseAccelCalibrationData buf).2 := by
  intro hv
  have hn : (ParseAccelCalibrationData buf).2.zero.x ≠ (ParseAccelCalibrationData buf).2.g.x ∧
      (ParseAccelCalibrationData buf).2.zero.y ≠ (ParseAccelCalibrationData buf).2.g.y ∧
      (ParseAccelCalibrationData buf).2.zero.z ≠ (ParseAccelCalibrationData buf).2.g.z := by
    simpa only [ParseAccelCalibrationData, Bool.and_eq_true, decide_eq_true_eq, and_assoc]
      using hv
  exact ⟨sub_ne_zero.mpr (Ne.symm hn.1), sub_ne_zero.mpr (Ne.symm hn.2.1),
    sub_ne_zero.mpr (Ne.symm hn.2.2)⟩

theorem ParseStickCalibrationData_sound (buf : List Nat) :
    stickCalSound (ParseStickCalibrationData buf).2 := by
  intro hv
  have hn : ((ParseStickCalibrationData buf).2.min.x < (ParseStickCalibrationData buf).2.center.x ∧
      (ParseStickCalibrationData buf).2.center.x < (ParseStickCalibrationData buf).2.max.x) ∧
      ((ParseStickCalibrationData buf).2.min.y < (ParseStickCalibrationData buf).2.center.y ∧
      (ParseStickCalibrationData buf).2.center.y < (ParseStickCalibrationData buf).2.max.y) := by
    simpa only [ParseStickCalibrationData, Bool.and_eq_true, decide_eq_true_eq, and_assoc]
      using hv
  constructor <;> omega

theorem accelCalSound_invalid (c : AccelData.CalibrationData) (h : c.valid = false) :
    accelCalSound c := by
  intro hv
  rw [h] at hv
  cases hv

theorem stickCalSound_invalid (c : JoystickData.CalibrationData) (h : c.valid = false) :
    stickCalSound c := by
  intro hv
  rw [h] at hv
  cases hv

/-- A consistent union whose type selects the nunchuk holds a value of the
member `nunchuk`. -/
theorem Extension.consistent_nunchuk {e : Extension} (k : e.consistent)
    (t : e.type &&& not32 Extension.MotionPlus = Extension.Nunchuk) :
    ∃ nc, e.nunchuk = some nc := by
  cases h : e.members with
  | zero => exact ⟨NunchukData.zero, by simp only [Extension.nunchuk, h]⟩
  | nunchuk nc => exact ⟨nc, by simp only [Extension.nunchuk, h]⟩
  | classic cc =>
    simp only [Extension.consistent, h] at k
    rcases k with k | k
    · rw [k] at t
      exact absurd t (by decide)
    · rw [k] at t
      exact absurd t (by decide)
  | overlaid =>
    simp only [Extension.consistent, h] at k

/-- A consistent union whose type selects the classic controller holds a value
of the member `classic`. -/
theorem Extension.consistent_classic {e : Extension} (k : e.consistent)
    (t : e.type &&& not32 Extension.MotionPlus = Extension.ClassicController) :
    ∃ cc, e.classic = some cc := by
  cases h : e.members with
  | zero => exact ⟨ClassicControllerData.zero, by simp only [Extension.classic, h]⟩
  | classic cc => exact ⟨cc, by simp only [Extension.classic, h]⟩
  | nunchuk nc =>
    simp only [Extension.consistent, h] at k
    rcases k with k | k
    · rw [k] at t
      exact absurd t (by decide)
    · rw [k] at t
      exact absurd t (by decide)
  | overlaid =>
    simp only [Extension.consistent, h] at k

theorem calibrationsSound_nunchuk {st : State} {nc : NunchukData}
    (a : accelCalSound st.accel.cal) (m : st.extension.members = .nunchuk nc)
    (t : st.extension.type = 0 ∨
      st.extension.type &&& not32 Extension.MotionPlus = Extension.Nunchuk)
    (s1 : accelCalSound nc.accel.cal) (s2 : stickCalSound nc.stick.cal) :
    calibrationsSound st := by
  refine ⟨a, ?_, ?_, ?_⟩
  · intro nc1 h
    simp only [Extension.nunchuk, m, Option.some.injEq] at h
    rw [← h]
    exact ⟨s1, s2⟩
  · intro cc h
    simp only [Extension.classic, m] at h
    cases h
  · simp only [Extension.consistent, m]
    exact t

theorem calibrationsSound_classic {st : State} {cc : ClassicControllerData}
    (a : accelCalSound st.accel.cal) (m : st.extension.members = .classic cc)
    (t : st.extension.type = 0 ∨
      st.extension.type &&& not32 Extension.MotionPlus = Extension.ClassicController)
    (s1 : stickCalSound cc.stickL.cal) (s2 : stickCalSound cc.stickR.cal) :
    calibrationsSound st := by
  refine ⟨a, ?_, ?_, ?_⟩
  · intro nc h
    simp only [Extension.nunchuk, m] at h
    cases h
  · intro cc1 h
    simp only [Extension.classic, m, Option.some.injEq] at h
    rw [← h]
    exact ⟨s1, s2⟩
  · simp only [Extension.consistent, m]
    exact t

theorem calibrationsSound_zero {st : State} (a : accelCalSound st.accel.cal)
    (m : st.extension.members = .zero) : calibrationsSound st := by
  refine ⟨a, ?_, ?_, ?_⟩
  · intro nc h
    simp only [Extension.nunchuk, m, Option.some.injEq] at h
    rw [← h]
    exact ⟨accelCalSound_invalid _ rfl, stickCalSound_invalid _ rfl⟩
  · intro cc h
    simp only [Extension.classic, m, Option.some.injEq] at h
    rw [← h]
    exact ⟨stickCalSound_invalid _ rfl, stickCalSound_invalid _ rfl⟩
  · simp only [Extension.consistent, m]

/-- Soundness depends on the accelerometer calibration, the union and the type
only, and survives the reset of the type to 0. -/
theorem calibrationsSound_congr {st st1 : State} (k : calibrationsSound st)
    (a : st1.accel.cal = st.accel.cal) (m : st1.extension.members = st.extension.members)
    (t : st1.extension.type = st.extension.type ∨ st1.extension.type = 0) :
    calibrationsSound st1 := by
  obtain ⟨ka, kn, kc, kk⟩ := k
  refine ⟨by rw [a]; exact ka, ?_, ?_, ?_⟩
  · intro nc h
    exact kn nc (by simp only [Extension.nunchuk, m] at h; simp only [Extension.nunchuk, h])
  · intro cc h
    exact kc cc (by simp only [Extension.classic, m] at h; simp only [Extension.classic, h])
  · cases h : st.extension.members with
    | zero => simp only [Extension.consistent, m, h]
    | nunchuk nc =>
      simp only [Extension.consistent, h] at kk
      simp only [Extension.consistent, m, h]
      rcases t with t | t
      · rw [t]
        exact kk
      · exact Or.inl t
    | classic cc =>
      simp only [Extension.consistent, h] at kk
      simp only [Extension.consistent, m, h]
      rcases t with t | t
      · rw [t]
        exact kk
      · exact Or.inl t
    | overlaid => simp only [Extension.consistent, h] at kk

theorem ParseNunchuk_sound (st : State) (buf : List Nat) (p : Bool)
    (t : st.extension.type &&& not32 Extension.MotionPlus = Extension.Nunchuk)
    (k : calibrationsSound st) : calibrationsSound (ParseNunchuk st buf p).2 := by
  obtain ⟨nc, h⟩ := Extension.consistent_nunchuk k.2.2.2 t
  obtain ⟨nc1, e, _, _, _, _, c1, c2⟩ := ParseNunchuk_member st buf p nc h
  refine calibrationsSound_nunchuk k.1 e (Or.inr t) ?_ ?_
  · rw [c1]
    exact (k.2.1 nc h).1
  · rw [c2]
    exact (k.2.1 nc h).2

theorem ParseClassicController_sound (st : State) (buf : List Nat) (p : Bool)
    (t : st.extension.type &&& not32 Extension.MotionPlus = Extension.ClassicController)
    (k : calibrationsSound st) : calibrationsSound (ParseClassicController st buf p).2 := by
  obtain ⟨cc, h⟩ := Extension.consistent_classic k.2.2.2 t
  obtain ⟨cc1, e, _, _, _, c1, c2⟩ := ParseClassicController_member st buf p cc h
  refine calibrationsSound_classic k.1 e (Or.inr t) ?_ ?_
  · rw [c1]
    exact (k.2.2.1 cc h).1
  · rw [c2]
    exact (k.2.2.1 cc h).2

theorem ParseNunchukCalibrationData_sound (st : State) (buf : List Nat) (len error : Nat)
    (t : st.extension.type &&& not32 Extension.MotionPlus = Extension.Nunchuk)
    (k : calibrationsSound st) :
    calibrationsSound (ParseNunchukCalibrationData st buf len error).2 := by
  obtain ⟨nc, h⟩ := Extension.consistent_nunchuk k.2.2.2 t
  have e : (ParseNunchukCalibrationData st buf len error).2.extension.members =
      .nunchuk
        { nc with
          accel := { nc.accel with cal := (ParseAccelCalibrationData (buf.drop 0)).2 }
          stick := { nc.stick with cal := (ParseStickCalibrationData (buf.drop 8)).2 } } := by
    simp only [ParseNunchukCalibrationData, h]
  exact calibrationsSound_nunchuk k.1 e (Or.inr t) (ParseAccelCalibrationData_sound _)
    (ParseStickCalibrationData_sound _)

theorem ParseClassicControllerCalibrationData_sound (st : State) (buf : List Nat)
    (len error : Nat)
    (t : st.extension.type &&& not32 Extension.MotionPlus = Extension.ClassicController)
    (k : calibrationsSound st) :
    calibrationsSound (ParseClassicControllerCalibrationData st buf len error).2 := by
  obtain ⟨cc, h⟩ := Extension.consistent_classic k.2.2.2 t
  have e : (ParseClassicControllerCalibrationData st buf len error).2.extension.members =
      .classic
        { cc with
          stickL := { cc.stickL with cal := (ParseStickCalibrationData (buf.drop 0)).2 }
          stickR := { cc.stickR with cal := (ParseStickCalibrationData (buf.drop 6)).2 } } := by
    simp only [ParseClassicControllerCalibrationData, h]
  exact calibrationsSound_classic k.1 e (Or.inr t) (ParseStickCalibrationData_sound _)
    (ParseStickCalibrationData_sound _)

theorem ParseExtensionIdentifier_eq (nd : Bool) (buf : List Nat) (len error : Nat) (s : Impl) :
    ∃ t st new,
      ParseExtensionIdentifier nd buf len error s =
        .ok (true,
          { s with
            state :=
              { s.state with
                extension :=
                  { Extension.zero with
                    type := t
                    motionPlus := { Extension.zero.motionPlus with status := st } } }
            requests := s.requests ++ new }) ∧
      (∀ q ∈ new, enqueuedByReport q) := by
  have r1 : enqueuedByReport (Request.read 0x04A40000 0x100 .ParseMotionPlusCalibrationData) :=
    ⟨enqueued_read _ _ _ (by decide), by decide⟩
  have r2 : enqueuedByReport (Request.read 0x04A40020 16 .ParseExtensionCalibrationData) :=
    ⟨enqueued_read _ _ _ (by decide), by decide⟩
  unfold ParseExtensionIdentifier
  simp only [ReadMotionPlusCalibrationData, ReadExtensionCalibrationData, ReadData_eq]
  split_ifs
  · refine ⟨extensionTypeOfId (Read32 (buf.drop 2)), WII_STATUS_MP_ACTIVE,
      [Request.read 0x04A40000 0x100 .ParseMotionPlusCalibrationData,
        Request.read 0x04A40020 16 .ParseExtensionCalibrationData], ?_, ?_⟩
    · simp only [ok_bind, pure_eq_ok, List.append_assoc, List.singleton_append]
    · intro q hq
      simp only [List.mem_cons, List.mem_singleton, List.not_mem_nil, or_false] at hq
      rcases hq with e | e <;> rw [e] <;> assumption
  · refine ⟨_, _, [_], rfl, ?_⟩
    intro q hq
    rw [List.mem_singleton] at hq
    rw [hq]
    exact r1
  · refine ⟨_, _, [_], rfl, ?_⟩
    intro q hq
    rw [List.mem_singleton] at hq
    rw [hq]
    exact r2
  · refine ⟨extensionTypeOfId (Read32 (buf.drop 2)), WII_STATUS_MP_INACTIVE, [], ?_, by simp⟩
    simp only [ok_bind, pure_eq_ok, List.append_nil]

theorem ParseMotionPlusIdentifier_eq (nd : Bool) (buf : List Nat) (len error : Nat) (s : Impl)
    (r : Bool × Impl) (h : ParseMotionPlusIdentifier nd buf len error s = .ok r) :
    ∃ st new,
      r.2 =
        { s with
          state :=
            { s.state with
              extension :=
                { s.state.extension with
                  motionPlus := { s.state.extension.motionPlus with status := st } } }
          requests := s.requests ++ new } ∧
      (∀ q ∈ new, enqueuedByReport q) := by
  have w : ∀ a d, a ∈ engineWriteAddresses → d < 256 → enqueuedByReport (Request.write a [d]) :=
    fun a d ha _ => enqueuedByReport_write a [d] ha (by simp) (by simp)
  have st : enqueuedByReport Request.status := ⟨Or.inl rfl, by decide⟩
  unfold ParseMotionPlusIdentifier at h
  obtain ⟨_, _, h⟩ := bind_eq_ok h
  by_cases he : error ≠ 0
  · rw [if_pos he] at h
    rw [← Except.ok.inj h]
    exact ⟨WII_STATUS_MP_NOT_PRESENT, [], by simp, by simp⟩
  · rw [if_neg he] at h
    by_cases h5 : Read16 buf = 0x0005
    · simp only [if_pos h5, EnableMotionPlus_ok] at h
      rw [← Except.ok.inj h]
      refine ⟨s.state.extension.motionPlus.status, [_, _, _], rfl, ?_⟩
      intro q hq
      simp only [List.mem_cons, List.mem_singleton, List.not_mem_nil, or_false] at hq
      rcases hq with e | e | e <;> rw [e]
      · exact w _ _ (by decide) (by decide)
      · exact enqueuedByReport_write _ _ (by decide) (by simp) (by simp)
      · exact st
    · simp only [if_neg h5] at h
      by_cases h4 : Read16 buf = 0x0405 ∨ Read16 buf = 0x0505 ∨ Read16 buf = 0x0705
      · simp only [if_pos h4, DisableMotionPlus_ok] at h
        rw [← Except.ok.inj h]
        refine ⟨WII_STATUS_MP_NO_LONGER_ACTIVE, [_, _], rfl, ?_⟩
        intro q hq
        simp only [List.mem_cons, List.mem_singleton, List.not_mem_nil, or_false] at hq
        rcases hq with e | e <;> rw [e]
        · exact w _ _ (by decide) (by decide)
        · exact w _ _ (by decide) (by decide)
      · simp only [if_neg h4] at h
        rw [← Except.ok.inj h]
        exact ⟨s.state.extension.motionPlus.status, [], by simp, by simp⟩

/-- What a completion callback does: it changes the device state, keeping the
rumble flag, the LED mask and the soundness of the calibrations, and appends
requests of the engine. -/
theorem callHandler_effect (nd : Bool) (h : Handler) (buf : List Nat) (len error : Nat)
    (s : Impl) (r : Bool × Impl) (hr : callHandler nd h buf len error s = .ok r) :
    ∃ st1 new,
      r.2 =
        { s with
          state := st1
          requests := s.requests ++ new
          handled := s.handled ++ [{ handler := h, buf := buf, len := len, error := error }] } ∧
      (∀ q ∈ new, enqueuedByReport q) ∧ st1.rumble = s.state.rumble ∧ st1.leds = s.state.leds ∧
      (calibrationsSound s.state → calibrationsSound st1) := by
  unfold callHandler at hr
  cases h
  case ParseCalibrationData =>
    cases hr
    refine ⟨(ParseCalibrationData s.state buf len error).2, [], by simp, by simp, rfl, rfl, ?_⟩
    intro k
    exact ⟨ParseAccelCalibrationData_sound buf, k.2.1, k.2.2.1, k.2.2.2⟩
  case ParseExtensionCalibrationData =>
    simp only [pure_eq_ok] at hr
    rw [← Except.ok.inj hr]
    refine ⟨(ParseExtensionCalibrationData s.state buf len error).2, [], by simp, by simp,
      ?_, ?_, ?_⟩
    · unfold ParseExtensionCalibrationData
      dsimp only
      split_ifs <;> rfl
    · unfold ParseExtensionCalibrationData
      dsimp only
      split_ifs <;> rfl
    · intro k
      unfold ParseExtensionCalibrationData
      dsimp only
      split_ifs with c1 c2
      · exact ParseNunchukCalibrationData_sound _ _ _ _ c1 k
      · exact ParseClassicControllerCalibrationData_sound _ _ _ _ c2 k
      · exact k
      · exact k
  case ParseMotionPlusCalibrationData =>
    cases hr
    exact ⟨(ParseMotionPlusCalibrationData s.state buf len error).2, [], by simp, by simp, rfl,
      rfl, fun k => k⟩
  case ParseExtensionIdentifier =>
    simp only [] at hr
    obtain ⟨t, st, new, e, hn⟩ := ParseExtensionIdentifier_eq nd buf len error
      { s with handled := s.handled ++
          [{ handler := .ParseExtensionIdentifier, buf := buf, len := len, error := error }] }
    rw [e] at hr
    rw [← Except.ok.inj hr]
    refine ⟨_, new, rfl, hn, rfl, rfl, ?_⟩
    intro k
    exact calibrationsSound_zero k.1 rfl
  case ParseMotionPlusIdentifier =>
    simp only [] at hr
    obtain ⟨st, new, e, hn⟩ := ParseMotionPlusIdentifier_eq nd buf len error _ r hr
    rw [e]
    exact ⟨_, new, rfl, hn, rfl, rfl, fun k => k⟩

/-- What a data report does: with assertions enabled the front request is a
read that the fragment fits; an error-free fragment lies within the buffer; the
front request either stays, updated by the copy step, or is handed to its
callback and removed. -/
theorem ProcessDataReport_effect (nd : Bool) (buf : List Nat) (s : Impl) (r : Bool × Impl)
    (h : ProcessDataReport nd buf s = .ok r) :
    ∃ req rest, s.requests = req :: rest ∧
      (nd = false → dataReportAsserts buf req) ∧
      (dataReportError buf = 0 → req.done + dataReportCount buf ≤ req.buffer.length) ∧
      ((¬ ((req.received buf).error ≠ 0 ∨ (req.received buf).pending = 0) ∧
          r = (true, { s with requests := req.received buf :: rest })) ∨
       (((req.received buf).error ≠ 0 ∨ (req.received buf).pending = 0) ∧
          ∃ hd st1 new, (req.received buf).handler = some hd ∧
            r = (true,
              { s with
                state := st1
                requests := rest ++ new
                handled := s.handled ++
                  [{ handler := hd, buf := (req.received buf).buffer,
                     len := (req.received buf).buffer.length,
                     error := (req.received buf).error }] }) ∧
            (∀ q ∈ new, enqueuedByReport q) ∧ st1.rumble = s.state.rumble ∧
            st1.leds = s.state.leds ∧ (calibrationsSound s.state → calibrationsSound st1))) := by
  unfold ProcessDataReport at h
  dsimp only at h
  obtain ⟨_, _, h⟩ := bind_eq_ok h
  cases hq : s.requests with
  | nil =>
    rw [hq] at h
    cases h
  | cons req rest =>
    rw [hq] at h
    dsimp only at h
    obtain ⟨_, a1, h⟩ := bind_eq_ok h
    obtain ⟨_, a2, h⟩ := bind_eq_ok h
    obtain ⟨_, a3, h⟩ := bind_eq_ok h
    obtain ⟨req2, h2, h⟩ := bind_eq_ok h
    have hb : dataReportError buf = 0 →
        req.done + dataReportCount buf ≤ req.buffer.length := by
      intro he
      unfold dataReportError at he
      rw [if_pos he] at h2
      by_cases c : req.buffer.length < req.done + (1 + (byteAt buf 0 >>> 4))
      · rw [if_pos c] at h2
        cases h2
      · unfold dataReportCount
        omega
    have e2 : req2 = req.received buf := by
      unfold Request.received dataReportError dataReportCount
      by_cases he : byteAt buf 0 &&& 0x0F = 0
      · have c := hb he
        unfold dataReportCount at c
        rw [if_pos he, if_neg (by omega)] at h2
        rw [if_pos he, ← Except.ok.inj h2]
      · rw [if_neg he] at h2
        rw [if_neg he, ← Except.ok.inj h2]
    rw [e2] at h
    refine ⟨req, rest, rfl, ?_, hb, ?_⟩
    · intro hn
      subst hn
      have b1 := cassert_debug a1
      have b2 := cassert_debug a2
      have b3 := cassert_debug a3
      simp only [decide_eq_true_eq] at b1 b2 b3
      exact ⟨b1, b2, b3⟩
    · by_cases c : (req.received buf).error ≠ 0 ∨ (req.received buf).pending = 0
      · right
        rw [if_pos c] at h
        obtain ⟨_, _, h⟩ := bind_eq_ok h
        cases hh : (req.received buf).handler with
        | none =>
          rw [hh] at h
          cases h
        | some hd =>
          rw [hh] at h
          dsimp only at h
          obtain ⟨r1, h3, h⟩ := bind_eq_ok h
          obtain ⟨s3, h4, h⟩ := bind_eq_ok h
          obtain ⟨st1, new, e1, hn, er, el, ec⟩ := callHandler_effect nd hd _ _ _ _ r1 h3
          rw [e1, PopRequest_cons nd _ (req.received buf) (rest ++ new) rfl] at h4
          refine ⟨c, hd, st1, new, rfl, ?_, hn, er, el, ec⟩
          rw [← Except.ok.inj h, ← Except.ok.inj h4]
      · left
        rw [if_neg c] at h
        exact ⟨c, (Except.ok.inj h).symm⟩

theorem ParseExtension_frame (st : State) (buf : List Nat) :
    (ParseExtension st buf).2.leds = st.leds ∧
      (calibrationsSound st → calibrationsSound (ParseExtension st buf).2) := by
  unfold ParseExtension
  dsimp only
  split_ifs with c1 c2 c3 c4
  · exact ⟨rfl, fun k => k⟩
  · exact ⟨rfl, fun k => k⟩
  · exact ⟨rfl, ParseNunchuk_sound st buf _ c3⟩
  · exact ⟨rfl, ParseClassicController_sound st buf _ c4⟩
  · exact ⟨rfl, fun k => k⟩

/-- The decoders of input reports keep the LED mask and the soundness of the
calibrations. -/
theorem DecodeStep.run_frame (buf : List Nat) (step : DecodeStep) (st : State) :
    (step.run buf st).leds = st.leds ∧
      (calibrationsSound st → calibrationsSound (step.run buf st)) := by
  cases step
  · exact ⟨rfl, fun k => k⟩
  · refine ⟨rfl, fun k => calibrationsSound_congr k ?_ rfl (Or.inl rfl)⟩
    unfold DecodeStep.run ParseAccel NormalizeAccel
    dsimp only
    split_ifs <;> rfl
  · rename_i o
    have e : (ParseIR st (buf.drop o)).2.leds = st.leds ∧
        (ParseIR st (buf.drop o)).2.accel = st.accel ∧
        (ParseIR st (buf.drop o)).2.extension = st.extension := by
      unfold ParseIR
      cases h : st.ir.mode <;> simp [h]
    exact ⟨e.1, fun k => calibrationsSound_congr k (by rw [DecodeStep.run, e.2.1])
      (by rw [DecodeStep.run, e.2.2]) (Or.inl (by rw [DecodeStep.run, e.2.2]))⟩
  · exact ParseExtension_frame st _

theorem runSteps_frame (buf : List Nat) (steps : List DecodeStep) (st : State) :
    (runSteps buf steps st).leds = st.leds ∧
      (calibrationsSound st → calibrationsSound (runSteps buf steps st)) := by
  induction steps generalizing st with
  | nil => exact ⟨rfl, fun k => k⟩
  | cons step more ih =>
    have a := DecodeStep.run_frame buf step st
    have b := ih (step.run buf st)
    exact ⟨b.1.trans a.1, fun k => b.2 (a.2 k)⟩

/-- The five ways `ProcessReport` can return: through the status, data or
acknowledgement handler, through the decode steps of a data report type, or, in
a build without assertions, past an unknown type byte. -/
theorem ProcessReport_cases (nd : Bool) (buf : List Nat) (now : ℚ) (s : Impl)
    (r : Bool × Impl) (h : ProcessReport nd buf now s = .ok r) :
    (byteAt buf 0 = 0x20 ∧ ∃ r1,
      ProcessStatusReport nd (buf.drop 3)
        { s with state := (ParseButtons { s.state with data := 0, time := now } (buf.drop 1)).2 }
        = .ok r1 ∧ r = (false, r1.2)) ∨
    (byteAt buf 0 = 0x21 ∧ ∃ r1,
      ProcessDataReport nd (buf.drop 3)
        { s with state := (ParseButtons { s.state with data := 0, time := now } (buf.drop 1)).2 }
        = .ok r1 ∧ r = (false, r1.2)) ∨
    (byteAt buf 0 = 0x22 ∧ ∃ r1,
      ProcessAcknowledgeReport nd (buf.drop 3)
        { s with state := (ParseButtons { s.state with data := 0, time := now } (buf.drop 1)).2 }
        = .ok r1 ∧ r = (false, r1.2)) ∨
    (byteAt buf 0 ∈ [0x30, 0x31, 0x32, 0x33, 0x35, 0x36, 0x37] ∧
      r = (false,
        { s with
          state := runSteps buf (decodeSteps (byteAt buf 0))
            { s.state with data := 0, time := now } })) ∨
    (byteAt buf 0 ∉ [0x20, 0x21, 0x22, 0x30, 0x31, 0x32, 0x33, 0x35, 0x36, 0x37] ∧ nd = true ∧
      r = (false, { s with state := { s.state with data := 0, time := now } })) := by
  by_cases t20 : byteAt buf 0 = 0x20
  · rw [ProcessReport_status_report nd buf now s t20] at h
    obtain ⟨r1, h1, h⟩ := bind_eq_ok h
    exact Or.inl ⟨t20, r1, h1, (Except.ok.inj h).symm⟩
  by_cases t21 : byteAt buf 0 = 0x21
  · rw [ProcessReport_data_report nd buf now s t21] at h
    obtain ⟨r1, h1, h⟩ := bind_eq_ok h
    exact Or.inr (Or.inl ⟨t21, r1, h1, (Except.ok.inj h).symm⟩)
  by_cases t22 : byteAt buf 0 = 0x22
  · rw [ProcessReport_ack_report nd buf now s t22] at h
    obtain ⟨r1, h1, h⟩ := bind_eq_ok h
    exact Or.inr (Or.inr (Or.inl ⟨t22, r1, h1, (Except.ok.inj h).symm⟩))
  by_cases ht : byteAt buf 0 ∈ [0x30, 0x31, 0x32, 0x33, 0x35, 0x36, 0x37]
  · rw [ProcessReport_decode nd buf now s ht] at h
    exact Or.inr (Or.inr (Or.inr (Or.inl ⟨ht, (Except.ok.inj h).symm⟩)))
  · have hn : byteAt buf 0 ∉ [0x20, 0x21, 0x22, 0x30, 0x31, 0x32, 0x33, 0x35, 0x36, 0x37] := by
      simp only [List.mem_cons, List.mem_singleton, List.not_mem_nil, or_false, not_or]
        at ht ⊢
      exact ⟨t20, t21, t22, ht⟩
    rw [ProcessReport_other nd buf now s hn] at h
    obtain ⟨_, a, h⟩ := bind_eq_ok h
    have hd : nd = true := by
      cases nd
      · cases a
      · rfl
    exact Or.inr (Or.inr (Or.inr (Or.inr ⟨hn, hd, (Except.ok.inj h).symm⟩)))

/-- The three ways `Poll` can return: at once in phase `Error` or
`ShutdownComplete`; after `SendNextRequest` when the transport read fails; after
`SendNextRequest` and `ProcessReport`, with the phase step that follows. -/
theorem Poll_cases (nd : Bool) (input : Option (List Nat)) (now : ℚ) (s : Impl)
    (r : Bool × Impl) (h : Poll nd input now s = .ok r) :
    ((s.status = WII_STATUS_ERROR ∨ s.status = WII_STATUS_SHUTDOWN_COMPLETE) ∧ r = (false, s)) ∨
    (¬ (s.status = WII_STATUS_ERROR ∨ s.status = WII_STATUS_SHUTDOWN_COMPLETE) ∧
      ∃ r1, SendNextRequest nd s = .ok r1 ∧
        ((input = none ∧ r = (false, { r1.2 with status := WII_STATUS_ERROR })) ∨
         (∃ report r2, input = some report ∧ ProcessReport nd report now r1.2 = .ok r2 ∧
            r = (true,
              if s.status = WII_STATUS_CONNECTED then
                { r2.2 with
                  requests := r2.2.requests ++
                    [Request.read 0x00000016 8 .ParseCalibrationData, Request.status]
                  status := WII_STATUS_STARTUP }
              else if s.status = WII_STATUS_STARTUP ∧ r2.2.requests = [] then
                { r2.2 with
                  state :=
                    { r2.2.state with
                      extension :=
                        { r2.2.state.extension with
                          motionPlus :=
                            { r2.2.state.extension.motionPlus with
                              status := WII_STATUS_MP_STARTUP } } }
                  requests := [Request.read 0x04A600FE 2 .ParseMotionPlusIdentifier]
                  status := WII_STATUS_READY }
              else if s.status = WII_STATUS_SHUTDOWN ∧ r2.2.requests = [] then
                { r2.2 with status := WII_STATUS_SHUTDOWN_COMPLETE }
              else r2.2)))) := by
  have h0 := h
  unfold Poll at h
  obtain ⟨_, hm, h⟩ := bind_eq_ok h
  have hm2 : nd = true ∨ s.reportMode ≠ ReportMode.Undefined := by
    cases nd
    · right
      simpa using cassert_debug hm
    · exact Or.inl rfl
  by_cases he : s.status = WII_STATUS_ERROR ∨ s.status = WII_STATUS_SHUTDOWN_COMPLETE
  · rw [if_pos he] at h
    exact Or.inl ⟨he, (Except.ok.inj h).symm⟩
  · rw [if_neg he] at h
    obtain ⟨r1, h1, h⟩ := bind_eq_ok h
    refine Or.inr ⟨he, r1, h1, ?_⟩
    cases input with
    | none => exact Or.inl ⟨rfl, (Except.ok.inj h).symm⟩
    | some report =>
      dsimp only at h
      obtain ⟨r2, h2, _⟩ := bind_eq_ok h
      refine Or.inr ⟨report, r2, rfl, h2, ?_⟩
      have k := Poll_ok nd report now s r1 r2 he hm2 h1 h2
      rw [k] at h0
      exact (Except.ok.inj h0).symm

/-! ## No normalization divides by zero -/

theorem ProcessReport_calibrationsSound (nd : Bool) (buf : List Nat) (now : ℚ) (s : Impl)
    (r : Bool × Impl) (hc : calibrationsSound s.state)
    (h : ProcessReport nd buf now s = .ok r) : calibrationsSound r.2.state := by
  have hb : calibrationsSound
      (ParseButtons { s.state with data := 0, time := now } (buf.drop 1)).2 := hc
  rcases ProcessReport_cases nd buf now s r h with
    ⟨_, r1, h1, e⟩ | ⟨_, r1, h1, e⟩ | ⟨_, r1, h1, e⟩ | ⟨_, e⟩ | ⟨_, _, e⟩
  · obtain ⟨t, ir1, new, out, e1, _, _, ht⟩ := ProcessStatusReport_effect nd _ _ r1 h1
    rw [e, e1]
    exact calibrationsSound_congr hb rfl rfl ht
  · obtain ⟨req, rest, _, _, _, ⟨_, e1⟩ | ⟨_, hd, st1, new, _, e1, _, _, _, k⟩⟩ :=
      ProcessDataReport_effect nd _ _ r1 h1
    · rw [e, e1]
      exact hc
    · rw [e, e1]
      exact k hb
  · obtain ⟨req, rest, _, e1⟩ := ProcessAcknowledgeReport_inv nd _ _ r1 h1
    rw [e, e1]
    exact hc
  · rw [e]
    exact (runSteps_frame buf _ _).2 hb
  · rw [e]
    exact hc

/-- Every call of `Poll` and `Shutdown` keeps the calibrations sound. -/
theorem call_calibrationsSound (nd : Bool) (c : Call) (s : Impl) (r : Bool × Impl)
    (hc : calibrationsSound s.state) (h : call nd c s = .ok r) :
    calibrationsSound r.2.state := by
  cases c with
  | shutdown =>
    simp only [call] at h
    by_cases hi : s.status = WII_STATUS_SHUTDOWN ∨ s.status = WII_STATUS_SHUTDOWN_COMPLETE ∨
        s.status = WII_STATUS_UNKNOWN ∨ s.status = WII_STATUS_STARTUP ∨
        s.status = WII_STATUS_DISCONNECTED ∨ s.status = WII_STATUS_ERROR
    · rw [Shutdown_idle nd s hi] at h
      rw [← Except.ok.inj h]
      exact hc
    · rw [Shutdown_active nd s hi] at h
      rw [← Except.ok.inj h]
      exact hc
  | poll input now =>
    simp only [call] at h
    rcases Poll_cases nd input now s r h with ⟨_, e⟩ | ⟨_, r1, h1, ⟨_, e⟩ | ⟨rep, r2, _, h2, e⟩⟩
    · rw [e]
      exact hc
    · rw [e]
      show calibrationsSound r1.2.state
      rw [(SendNextRequest_state nd s r1 h1).1]
      exact hc
    · have c1 : calibrationsSound r1.2.state := by
        rw [(SendNextRequest_state nd s r1 h1).1]
        exact hc
      have c2 := ProcessReport_calibrationsSound nd rep now r1.2 r2 c1 h2
      rw [e]
      dsimp only
      split_ifs <;> exact c2

/-- C36: a calibration whose flag was set by `ParseAccelCalibrationData` has
g - zero different from 0 on all three axes, and one whose flag was set by
`ParseStickCalibrationData` has max - min at least 2 on both axes; the
zero-initialised calibrations of the constructor and of the zeroed extension
record are invalid.  With a sound valid calibration the `float` divisors of
`NormalizeAccel` and `NormalizeStick`, the conversions of g - zero and of
max - min, are different from 0, and for operands of at most 23 bits the
normalized value is the true quotient rounded once to binary32; with an invalid
stick calibration the only divisor is the constant 255, and with an invalid
accelerometer calibration nothing is divided.  The calibrations of the device
state are sound initially and stay sound under every call of `Poll` and
`Shutdown`, the union of the extension record staying consistent with the
extension type, so that the member decoded for a nunchuk or a classic controller
has a value and sound calibrations. -/
theorem C36_normalization_divisors_nonzero (buf : List Nat) (accel : AccelData)
    (stick : JoystickData) :
    (accelCalSound (ParseAccelCalibrationData buf).2 ∧
      stickCalSound (ParseStickCalibrationData buf).2 ∧
      calibrationsSound Impl.ctor.state ∧
      Extension.zero.nunchuk = some NunchukData.zero ∧
      Extension.zero.classic = some ClassicControllerData.zero ∧
      NunchukData.zero.accel.cal.valid = false ∧
      NunchukData.zero.stick.cal.valid = false ∧
      ClassicControllerData.zero.stickL.cal.valid = false ∧
      ClassicControllerData.zero.stickR.cal.valid = false) ∧
    (accelCalSound accel.cal →
      (accel.cal.valid = true →
        (F32.ofInt (accel.cal.g.x - accel.cal.zero.x) ≠ 0 ∧
          F32.ofInt (accel.cal.g.y - accel.cal.zero.y) ≠ 0 ∧
          F32.ofInt (accel.cal.g.z - accel.cal.zero.z) ≠ 0) ∧
        (NormalizeAccel accel).2.normalized =
          { x := F32.div (F32.ofInt (accel.raw.x - accel.cal.zero.x))
              (F32.ofInt (accel.cal.g.x - accel.cal.zero.x))
            y := F32.div (F32.ofInt (accel.raw.y - accel.cal.zero.y))
              (F32.ofInt (accel.cal.g.y - accel.cal.zero.y))
            z := F32.div (F32.ofInt (accel.raw.z - accel.cal.zero.z))
              (F32.ofInt (accel.cal.g.z - accel.cal.zero.z)) } ∧
        ((accel.raw.x - accel.cal.zero.x).natAbs ≤ 2 ^ 23 →
          (accel.cal.g.x - accel.cal.zero.x).natAbs ≤ 2 ^ 23 →
          roundedQuotient (accel.raw.x - accel.cal.zero.x) (accel.cal.g.x - accel.cal.zero.x)
            (NormalizeAccel accel).2.normalized.x) ∧
        ((accel.raw.y - accel.cal.zero.y).natAbs ≤ 2 ^ 23 →
          (accel.cal.g.y - accel.cal.zero.y).natAbs ≤ 2 ^ 23 →
          roundedQuotient (accel.raw.y - accel.cal.zero.y) (accel.cal.g.y - accel.cal.zero.y)
            (NormalizeAccel accel).2.normalized.y) ∧
        ((accel.raw.z - accel.cal.zero.z).natAbs ≤ 2 ^ 23 →
          (accel.cal.g.z - accel.cal.zero.z).natAbs ≤ 2 ^ 23 →
          roundedQuotient (accel.raw.z - accel.cal.zero.z) (accel.cal.g.z - accel.cal.zero.z)
            (NormalizeAccel accel).2.normalized.z)) ∧
      (accel.cal.valid = false → (NormalizeAccel accel).2.normalized = { x := 0, y := 0, z := 1 })) ∧
    (stickCalSound stick.cal →
      (stick.cal.valid = true →
        (F32.ofInt (stick.cal.max.x - stick.cal.min.x) ≠ 0 ∧
          F32.ofInt (stick.cal.max.y - stick.cal.min.y) ≠ 0) ∧
        (NormalizeStick stick).2.normalized =
          { x := F32.div (F32.mul 2 (F32.ofInt (stick.raw.x - stick.cal.center.x)))
              (F32.ofInt (stick.cal.max.x - stick.cal.min.x))
            y := F32.div (F32.mul 2 (F32.ofInt (stick.raw.y - stick.cal.center.y)))
              (F32.ofInt (stick.cal.max.y - stick.cal.min.y)) } ∧
        ((stick.raw.x - stick.cal.center.x).natAbs ≤ 2 ^ 23 →
          (stick.cal.max.x - stick.cal.min.x).natAbs ≤ 2 ^ 23 →
          roundedQuotient (2 * (stick.raw.x - stick.cal.center.x))
            (stick.cal.max.x - stick.cal.min.x) (NormalizeStick stick).2.normalized.x) ∧
        ((stick.raw.y - stick.cal.center.y).natAbs ≤ 2 ^ 23 →
          (stick.cal.max.y - stick.cal.min.y).natAbs ≤ 2 ^ 23 →
          roundedQuotient (2 * (stick.raw.y - stick.cal.center.y))
            (stick.cal.max.y - stick.cal.min.y) (NormalizeStick stick).2.normalized.y)) ∧
      (stick.cal.valid = false →
        (NormalizeStick stick).2.normalized =
          { x := F32.div (F32.mul 2 (F32.sub (F32.ofInt stick.raw.x) 127)) 255
            y := F32.div (F32.mul 2 (F32.sub (F32.ofInt stick.raw.y) 127)) 255 } ∧
        (stick.raw.x.natAbs ≤ 2 ^ 22 →
          roundedQuotient (2 * (stick.raw.x - 127)) 255 (NormalizeStick stick).2.normalized.x) ∧
        (stick.raw.y.natAbs ≤ 2 ^ 22 →
          roundedQuotient (2 * (stick.raw.y - 127)) 255
            (NormalizeStick stick).2.normalized.y))) ∧
    (∀ (nd : Bool) (cs : List Call) (s : Impl) (r : List Bool × Impl),
      calibrationsSound s.state → calls nd cs s = .ok r → calibrationsSound r.2.state) ∧
    (∀ st : State, calibrationsSound st →
      (st.extension.type &&& not32 Extension.MotionPlus = Extension.Nunchuk →
        ∃ nc, st.extension.nunchuk = some nc ∧ accelCalSound nc.accel.cal ∧
          stickCalSound nc.stick.cal) ∧
      (st.extension.type &&& not32 Extension.MotionPlus = Extension.ClassicController →
        ∃ cc, st.extension.classic = some cc ∧ stickCalSound cc.stickL.cal ∧
          stickCalSound cc.stickR.cal)) := by
  refine ⟨⟨ParseAccelCalibrationData_sound buf, ParseStickCalibrationData_sound buf,
    calibrationsSound_zero (accelCalSound_invalid _ rfl) rfl, rfl, rfl, rfl, rfl, rfl, rfl⟩,
    ?_, ?_, ?_, ?_⟩
  · intro hs
    constructor
    · intro hv
      obtain ⟨nx, ny, nz⟩ := hs hv
      have e : (NormalizeAccel accel).2.normalized =
          { x := F32.div (F32.ofInt (accel.raw.x - accel.cal.zero.x))
              (F32.ofInt (accel.cal.g.x - accel.cal.zero.x))
            y := F32.div (F32.ofInt (accel.raw.y - accel.cal.zero.y))
              (F32.ofInt (accel.cal.g.y - accel.cal.zero.y))
            z := F32.div (F32.ofInt (accel.raw.z - accel.cal.zero.z))
              (F32.ofInt (accel.cal.g.z - accel.cal.zero.z)) } := by
        unfold NormalizeAccel
        rw [if_pos hv]
      rw [e]
      exact ⟨⟨F32.ofInt_ne_zero _ nx, F32.ofInt_ne_zero _ ny, F32.ofInt_ne_zero _ nz⟩, rfl,
        fun a b => roundedQuotient_div _ _ (by omega) (by omega) nx,
        fun a b => roundedQuotient_div _ _ (by omega) (by omega) ny,
        fun a b => roundedQuotient_div _ _ (by omega) (by omega) nz⟩
    · intro hv
      unfold NormalizeAccel
      rw [hv]
      rfl
  · intro hs
    constructor
    · intro hv
      obtain ⟨nx, ny⟩ := hs hv
      have qx : stick.cal.max.x - stick.cal.min.x ≠ 0 := by omega
      have qy : stick.cal.max.y - stick.cal.min.y ≠ 0 := by omega
      rw [NormalizeStick_valid stick hv]
      exact ⟨⟨F32.ofInt_ne_zero _ qx, F32.ofInt_ne_zero _ qy⟩, rfl,
        fun a b => roundedQuotient_stick_valid _ _ a b qx,
        fun a b => roundedQuotient_stick_valid _ _ a b qy⟩
    · intro hv
      rw [NormalizeStick_invalid stick hv]
      exact ⟨rfl, fun a => roundedQuotient_stick_invalid _ a,
        fun a => roundedQuotient_stick_invalid _ a⟩
  · intro nd cs
    induction cs with
    | nil =>
      intro s r hc h
      rw [← Except.ok.inj h]
      exact hc
    | cons c more ih =>
      intro s r hc h
      simp only [calls] at h
      obtain ⟨r1, h1, h⟩ := bind_eq_ok h
      obtain ⟨rs, h2, h⟩ := bind_eq_ok h
      rw [← Except.ok.inj h]
      exact ih r1.2 rs (call_calibrationsSound nd c s r1 hc h1) h2
  · intro st k
    constructor
    · intro t
      obtain ⟨nc, h⟩ := Extension.consistent_nunchuk k.2.2.2 t
      exact ⟨nc, h, k.2.1 nc h⟩
    · intro t
      obtain ⟨cc, h⟩ := Extension.consistent_classic k.2.2.2 t
      exact ⟨cc, h, k.2.2.1 cc h⟩

/-- C36 on the accelerometer block `80 80 80 1B 99 99 9A 00` and the stick
block `E6 1E 82 E6 1E 82`: both are valid, with g - zero = (99, 98, 101) and
max - min = (200, 200). -/
theorem C36_normalization_divisors_nonzero_witness :
    (ParseAccelCalibrationData [0x80, 0x80, 0x80, 0x1B, 0x99, 0x99, 0x9A, 0x00]).2.valid = true ∧
    ((ParseAccelCalibrationData [0x80, 0x80, 0x80, 0x1B, 0x99, 0x99, 0x9A, 0x00]).2.g.x -
        (ParseAccelCalibrationData [0x80, 0x80, 0x80, 0x1B, 0x99, 0x99, 0x9A, 0x00]).2.zero.x ≠ 0 ∧
      (ParseAccelCalibrationData [0x80, 0x80, 0x80, 0x1B, 0x99, 0x99, 0x9A, 0x00]).2.g.y -
        (ParseAccelCalibrationData [0x80, 0x80, 0x80, 0x1B, 0x99, 0x99, 0x9A, 0x00]).2.zero.y ≠ 0 ∧
      (ParseAccelCalibrationData [0x80, 0x80, 0x80, 0x1B, 0x99, 0x99, 0x9A, 0x00]).2.g.z -
        (ParseAccelCalibrationData [0x80, 0x80, 0x80, 0x1B, 0x99, 0x99, 0x9A, 0x00]).2.zero.z ≠ 0) ∧
    (2 ≤ (ParseStickCalibrationData [0xE6, 0x1E, 0x82, 0xE6, 0x1E, 0x82]).2.max.x -
        (ParseStickCalibrationData [0xE6, 0x1E, 0x82, 0xE6, 0x1E, 0x82]).2.min.x ∧
      2 ≤ (ParseStickCalibrationData [0xE6, 0x1E, 0x82, 0xE6, 0x1E, 0x82]).2.max.y -
        (ParseStickCalibrationData [0xE6, 0x1E, 0x82, 0xE6, 0x1E, 0x82]).2.min.y) :=
  ⟨by decide,
    (C36_normalization_divisors_nonzero [0x80, 0x80, 0x80, 0x1B, 0x99, 0x99, 0x9A, 0x00]
      Impl.ctor.state.accel JoystickData.zero).1.1 (by decide),
    (C36_normalization_divisors_nonzero [0xE6, 0x1E, 0x82, 0xE6, 0x1E, 0x82]
      Impl.ctor.state.accel JoystickData.zero).1.2.1 (by decide)⟩

/-! ## The bytes of the input report that are read -/

theorem reads_drop (rs : List Nat) (o : Nat) (b1 b : List Nat)
    (h : ∀ i ∈ rs.map (· + o), byteAt b1 i = byteAt b i) :
    ∀ i ∈ rs, byteAt (b1.drop o) i = byteAt (b.drop o) i := by
  intro i hi
  rw [byteAt_drop, byteAt_drop, Nat.add_comm]
  exact h (i + o) (List.mem_map.mpr ⟨i, hi, rfl⟩)

theorem ParseButtons_congr (st : State) (b1 b : List Nat)
    (h : ∀ i ∈ ParseButtons.reads, byteAt b1 i = byteAt b i) :
    ParseButtons st b1 = ParseButtons st b := by
  unfold ParseButtons
  rw [h 0 (by decide), h 1 (by decide)]

theorem ParseAccel_congr (st : State) (b1 b : List Nat)
    (h : ∀ i ∈ ParseAccel.reads, byteAt b1 i = byteAt b i) :
    ParseAccel st b1 = ParseAccel st b := by
  unfold ParseAccel
  rw [h 0 (by decide), h 1 (by decide), h 2 (by decide), h 3 (by decide), h 4 (by decide)]

theorem ParseIR_congr (st : State) (b1 b : List Nat)
    (h : ∀ i ∈ ParseIR.reads st.ir.mode, byteAt b1 i = byteAt b i) :
    ParseIR st b1 = ParseIR st b := by
  cases hm : st.ir.mode with
  | Off => rw [ParseIR_off st b1 hm, ParseIR_off st b hm]
  | Basic =>
    rw [hm] at h
    rw [ParseIR_basic st b1 hm, ParseIR_basic st b hm, h 0 (by decide), h 1 (by decide),
      h 2 (by decide), h 3 (by decide), h 4 (by decide), h 5 (by decide), h 6 (by decide),
      h 8 (by decide), h 9 (by decide)]
  | Extended =>
    rw [hm] at h
    rw [ParseIR_extended st b1 hm, ParseIR_extended st b hm, h 0 (by decide), h 1 (by decide),
      h 2 (by decide), h 3 (by decide), h 4 (by decide), h 5 (by decide), h 6 (by decide),
      h 7 (by decide), h 8 (by decide), h 9 (by decide), h 10 (by decide), h 11 (by decide)]

theorem ParseNunchuk_congr (st : State) (p : Bool) (b1 b : List Nat)
    (h : ∀ i ∈ ParseNunchuk.reads p, byteAt b1 i = byteAt b i) :
    ParseNunchuk st b1 p = ParseNunchuk st b p := by
  have m : ∀ i, i ∈ [0, 1, 2, 3, 4, 5] → i ∈ ParseNunchuk.reads p := by
    cases p <;> decide
  unfold ParseNunchuk
  rw [h 0 (m 0 (by decide)), h 1 (m 1 (by decide)), h 2 (m 2 (by decide)),
    h 3 (m 3 (by decide)), h 4 (m 4 (by decide)), h 5 (m 5 (by decide))]

theorem ParseClassicController_congr (st : State) (p : Bool) (b1 b : List Nat)
    (h : ∀ i ∈ ParseClassicController.reads p, byteAt b1 i = byteAt b i) :
    ParseClassicController st b1 p = ParseClassicController st b p := by
  have m : ∀ i, i ∈ [0, 1, 2, 4, 5] → i ∈ ParseClassicController.reads p := by
    cases p <;> decide
  unfold ParseClassicController
  rw [h 0 (m 0 (by decide)), h 1 (m 1 (by decide)), h 2 (m 2 (by decide)),
    h 4 (m 4 (by decide)), h 5 (m 5 (by decide))]

theorem ParseMotionPlus_congr (st : State) (b1 b : List Nat)
    (h : ∀ i ∈ ParseMotionPlus.reads, byteAt b1 i = byteAt b i) :
    ParseMotionPlus st b1 = ParseMotionPlus st b := by
  unfold ParseMotionPlus
  rw [h 0 (by decide), h 1 (by decide), h 2 (by decide), h 3 (by decide), h 4 (by decide),
    h 5 (by decide)]

theorem ParseExtension_congr (st : State) (b1 b : List Nat)
    (h : ∀ i ∈ ParseExtension.reads st.extension.type b, byteAt b1 i = byteAt b i) :
    ParseExtension st b1 = ParseExtension st b := by
  unfold ParseExtension.reads at h
  unfold ParseExtension
  by_cases t0 : st.extension.type = 0
  · rw [if_pos t0, if_pos t0]
  · rw [if_neg t0, if_neg t0]
    rw [if_neg t0] at h
    dsimp only at h ⊢
    generalize (decide (st.extension.type &&& Extension.MotionPlus ≠ 0) &&
      decide (st.extension.type &&& not32 Extension.MotionPlus = 0)) = A at h ⊢
    generalize (decide (st.extension.type &&& Extension.MotionPlus ≠ 0) &&
      decide (st.extension.type &&& not32 Extension.MotionPlus ≠ 0)) = P at h ⊢
    cases A
    · cases P
      · simp only [Bool.false_or, Bool.false_and, Bool.false_eq_true, if_false,
          List.nil_append] at h ⊢
        split_ifs at h ⊢
        · exact ParseNunchuk_congr st false b1 b h
        · exact ParseClassicController_congr st false b1 b h
        · rfl
      · simp only [Bool.false_or, Bool.true_and, Bool.false_eq_true, if_false, if_true] at h ⊢
        have h5 : byteAt b1 5 = byteAt b 5 := h 5 (List.mem_append_left _ (List.mem_singleton_self 5))
        rw [h5]
        have k := fun i hi => h i (List.mem_append_right [5] hi)
        split_ifs at k ⊢
        · exact ParseMotionPlus_congr st b1 b k
        · exact ParseNunchuk_congr st true b1 b k
        · exact ParseClassicController_congr st true b1 b k
        · rfl
    · simp only [Bool.true_or, if_true, List.nil_append] at h ⊢
      exact ParseMotionPlus_congr st b1 b h

theorem DecodeStep.run_congr (b1 b : List Nat) (step : DecodeStep) (st : State)
    (h : ∀ i ∈ step.reads st.ir.mode st.extension.type b, byteAt b1 i = byteAt b i) :
    step.run b1 st = step.run b st := by
  cases step with
  | buttons o =>
    exact congrArg Prod.snd (ParseButtons_congr st _ _ (reads_drop _ o b1 b h))
  | accel o =>
    exact congrArg Prod.snd (ParseAccel_congr st _ _ (reads_drop _ o b1 b h))
  | ir o =>
    exact congrArg Prod.snd (ParseIR_congr st _ _ (reads_drop _ o b1 b h))
  | extension o =>
    exact congrArg Prod.snd (ParseExtension_congr st _ _ (reads_drop _ o b1 b h))

theorem runSteps_congr (b1 b : List Nat) (mode : IRData.Mode) (type : Nat)
    (steps : List DecodeStep) :
    ∀ st : State, st.ir.mode = mode → st.extension.type = type →
      (∀ i ∈ (steps.map (DecodeStep.reads mode type b)).flatten, byteAt b1 i = byteAt b i) →
      runSteps b1 steps st = runSteps b steps st := by
  induction steps with
  | nil => intro st _ _ _; rfl
  | cons step more ih =>
    intro st hm ht h
    have e : step.run b1 st = step.run b st := by
      apply DecodeStep.run_congr
      rw [hm, ht]
      intro i hi
      exact h i (by simp [hi])
    have k := DecodeStep.run_keeps b step st
    show runSteps b1 more (step.run b1 st) = runSteps b more (step.run b st)
    rw [e]
    exact ih (step.run b st) (k.1.trans hm) (k.2.2.1.trans ht) (fun i hi => h i (by simp [hi]))

theorem ProcessStatusReport_congr (nd : Bool) (b1 b : List Nat) (s : Impl)
    (h : ∀ i ∈ ProcessStatusReport.reads, byteAt b1 i = byteAt b i) :
    ProcessStatusReport nd b1 s = ProcessStatusReport nd b s := by
  unfold ProcessStatusReport
  rw [h 0 (by decide), h 3 (by decide)]

theorem ProcessAcknowledgeReport_congr (nd : Bool) (b1 b : List Nat) (s : Impl)
    (h : ∀ i ∈ ProcessAcknowledgeReport.reads, byteAt b1 i = byteAt b i) :
    ProcessAcknowledgeReport nd b1 s = ProcessAcknowledgeReport nd b s := by
  unfold ProcessAcknowledgeReport
  rw [h 0 (by decide), h 1 (by decide)]

theorem ProcessDataReport_congr (nd : Bool) (b1 b : List Nat) (s : Impl)
    (h : ∀ i ∈ ProcessDataReport.reads b, byteAt b1 i = byteAt b i) :
    ProcessDataReport nd b1 s = ProcessDataReport nd b s := by
  have h0 : byteAt b1 0 = byteAt b 0 := h 0 (by simp [ProcessDataReport.reads])
  have h1 : byteAt b1 1 = byteAt b 1 := h 1 (by simp [ProcessDataReport.reads])
  have h2 : byteAt b1 2 = byteAt b 2 := h 2 (by simp [ProcessDataReport.reads])
  unfold ProcessDataReport
  rw [h0, h1, h2]
  by_cases he : byteAt b 0 &&& 0x0F = 0
  · have m : memcpy = fun (dst : List Nat) (off : Nat) (src : List Nat) (n : Nat) =>
        dst.take off ++ (List.range n).map (fun i => byteAt src i) ++ dst.drop (off + n) := rfl
    have e : (List.range (1 + (byteAt b 0 >>> 4))).map (fun i => byteAt (b1.drop 3) i) =
        (List.range (1 + (byteAt b 0 >>> 4))).map (fun i => byteAt (b.drop 3) i) := by
      apply List.map_congr_left
      intro i hi
      rw [byteAt_drop, byteAt_drop, Nat.add_comm 3 i]
      apply h
      simp only [ProcessDataReport.reads, dataReportError, dataReportCount, he, if_true,
        List.mem_append, List.mem_map, List.mem_range]
      exact Or.inr ⟨i, List.mem_range.mp hi, rfl⟩
    simp only [m, e]
  · simp only [he, if_false]

theorem decodeSteps_mem (ty : Nat) :
    ∀ step ∈ decodeSteps ty,
      step ∈ [DecodeStep.buttons 1, DecodeStep.accel 1, DecodeStep.ir 3, DecodeStep.ir 6,
        DecodeStep.extension 3, DecodeStep.extension 6, DecodeStep.extension 13,
        DecodeStep.extension 16] := by
  unfold decodeSteps
  split_ifs <;> decide

/-- C37: every index of the input report that `ProcessReport` and the steps it
runs read is below `WII_REPORT_LENGTH` = 22, for every engine state (any IR
mode, any extension type, any queue) and every report, whatever its type byte:
the type byte, the button bytes 1..2, bytes 3 and 6 of a status report, bytes
3..5 and the up to 16 payload bytes 6..21 of a data report, bytes 3..4 of an
acknowledgement, and the bytes of the decode steps at their offsets, among them
the 12 IR bytes 6..17 in Extended mode.  The indices listed are all that
matters: two reports that agree on them give the same result. -/
theorem C37_report_reads_in_bounds (nd : Bool) (buf : List Nat) (now : ℚ) (s : Impl) :
    (∀ i ∈ ProcessReport.reads s buf, i < WII_REPORT_LENGTH) ∧
    (∀ buf1 : List Nat, (∀ i ∈ ProcessReport.reads s buf, byteAt buf1 i = byteAt buf i) →
      ProcessReport nd buf1 now s = ProcessReport nd buf now s) := by
  constructor
  · intro i hi
    unfold ProcessReport.reads at hi
    rw [List.mem_cons] at hi
    rcases hi with hi | hi
    · rw [hi]; decide
    by_cases t20 : byteAt buf 0 = 0x20
    · rw [if_pos t20] at hi
      revert i
      decide
    rw [if_neg t20] at hi
    by_cases t21 : byteAt buf 0 = 0x21
    · rw [if_pos t21] at hi
      simp only [ProcessDataReport.reads, ParseButtons.reads, List.map_cons, List.map_nil,
        List.mem_append, List.mem_cons, List.mem_map, List.not_mem_nil, or_false,
        List.map_append] at hi
      have c : dataReportCount (buf.drop 3) ≤ 16 := by
        unfold dataReportCount
        have l := byteAt_lt (buf.drop 3) 0
        have q : byteAt (buf.drop 3) 0 >>> 4 = byteAt (buf.drop 3) 0 / 16 := by
          rw [Nat.shiftRight_eq_div_pow]
        omega
      unfold WII_REPORT_LENGTH
      rcases hi with (h | h) | (h | h | h | h) | h
      · omega
      · omega
      · omega
      · omega
      · omega
      · omega
      · split_ifs at h
        · simp only [List.mem_map, List.mem_range] at h
          obtain ⟨a, ⟨j, hj, rfl⟩, rfl⟩ := h
          omega
        · simp at h
    rw [if_neg t21] at hi
    by_cases t22 : byteAt buf 0 = 0x22
    · rw [if_pos t22] at hi
      revert i
      decide
    rw [if_neg t22] at hi
    have ext : ∀ (p : List Nat), ∀ j ∈ ParseExtension.reads s.state.extension.type p,
        j ≤ 5 := by
      intro p j hj
      unfold ParseExtension.reads at hj
      have a : ∀ q : Bool, ∀ x ∈ ParseNunchuk.reads q, x ≤ 5 := by decide
      have c : ∀ q : Bool, ∀ x ∈ ParseClassicController.reads q, x ≤ 5 := by decide
      have m : ∀ x ∈ ParseMotionPlus.reads, x ≤ 5 := by decide
      by_cases t0 : s.state.extension.type = 0
      · rw [if_pos t0] at hj
        cases hj
      · rw [if_neg t0] at hj
        dsimp only at hj
        rw [List.mem_append] at hj
        rcases hj with hj | hj
        · split_ifs at hj
          · cases hj
          · rw [List.mem_singleton] at hj
            omega
          · cases hj
        · split_ifs at hj
          · exact m j hj
          · exact a _ j hj
          · exact c _ j hj
          · cases hj
    have ir : ∀ j ∈ ParseIR.reads s.state.ir.mode, j ≤ 11 := by
      cases s.state.ir.mode <;> decide
    have bt : ∀ j ∈ ParseButtons.reads, j ≤ 1 := by decide
    have ac : ∀ j ∈ ParseAccel.reads, j ≤ 4 := by decide
    unfold WII_REPORT_LENGTH
    simp only [List.mem_flatten, List.mem_map] at hi
    obtain ⟨l, ⟨step, hs, rfl⟩, hl⟩ := hi
    have hs2 := decodeSteps_mem _ step hs
    simp only [List.mem_cons, List.mem_singleton, List.not_mem_nil, or_false] at hs2
    rcases hs2 with e | e | e | e | e | e | e | e <;> rw [e] at hl <;>
      simp only [DecodeStep.reads, List.mem_map] at hl <;> obtain ⟨j, hj, rfl⟩ := hl
    · have := bt j hj; omega
    · have := ac j hj; omega
    · have := ir j hj; omega
    · have := ir j hj; omega
    · have := ext _ j hj; omega
    · have := ext _ j hj; omega
    · have := ext _ j hj; omega
    · have := ext _ j hj; omega
  · intro buf1 h
    have h0 : byteAt buf1 0 = byteAt buf 0 := h 0 (List.mem_cons_self _ _)
    unfold ProcessReport.reads at h
    by_cases t20 : byteAt buf 0 = 0x20
    · rw [if_pos t20] at h
      rw [ProcessReport_status_report nd buf now s t20,
        ProcessReport_status_report nd buf1 now s (h0.trans t20),
        ParseButtons_congr _ _ _ (reads_drop _ 1 buf1 buf (fun i hi => h i (by simp [hi]))),
        ProcessStatusReport_congr nd _ _ _
          (reads_drop _ 3 buf1 buf (fun i hi => h i (by simp [hi])))]
    rw [if_neg t20] at h
    by_cases t21 : byteAt buf 0 = 0x21
    · rw [if_pos t21] at h
      rw [ProcessReport_data_report nd buf now s t21,
        ProcessReport_data_report nd buf1 now s (h0.trans t21),
        ParseButtons_congr _ _ _ (reads_drop _ 1 buf1 buf (fun i hi => h i (by simp [hi]))),
        ProcessDataReport_congr nd _ _ _
          (reads_drop _ 3 buf1 buf (fun i hi => h i (by simp [hi])))]
    rw [if_neg t21] at h
    by_cases t22 : byteAt buf 0 = 0x22
    · rw [if_pos t22] at h
      rw [ProcessReport_ack_report nd buf now s t22,
        ProcessReport_ack_report nd buf1 now s (h0.trans t22),
        ParseButtons_congr _ _ _ (reads_drop _ 1 buf1 buf (fun i hi => h i (by simp [hi]))),
        ProcessAcknowledgeReport_congr nd _ _ _
          (reads_drop _ 3 buf1 buf (fun i hi => h i (by simp [hi])))]
    rw [if_neg t22] at h
    by_cases ht : byteAt buf 0 ∈ [0x30, 0x31, 0x32, 0x33, 0x35, 0x36, 0x37]
    · rw [ProcessReport_decode nd buf now s ht,
        ProcessReport_decode nd buf1 now s (by rw [h0]; exact ht), h0,
        runSteps_congr buf1 buf s.state.ir.mode s.state.extension.type _
          { s.state with data := 0, time := now } rfl rfl
          (fun i hi => h i (List.mem_cons_of_mem _ hi))]
    · have hn : byteAt buf 0 ∉ [0x20, 0x21, 0x22, 0x30, 0x31, 0x32, 0x33, 0x35, 0x36, 0x37] := by
        simp only [List.mem_cons, List.mem_singleton, List.not_mem_nil, or_false, not_or]
          at ht ⊢
        exact ⟨t20, t21, t22, ht⟩
      rw [ProcessReport_other nd buf now s hn,
        ProcessReport_other nd buf1 now s (by rw [h0]; exact hn)]

/-- C37 on a data report with size nibble `F` (16 payload bytes), a report of
type `0x37` with a nunchuk and a report of type `0x33` in Extended mode: the
greatest index read is 21, 21 and 17. -/
theorem C37_report_reads_in_bounds_witness :
    (∀ i ∈ ProcessReport.reads Impl.ctor
        [0x21, 0, 0, 0xF0, 0, 0x16, 1, 2, 3, 4, 5, 6, 7, 8, 9, 10, 11, 12, 13, 14, 15, 16],
      i < 22) ∧
    21 ∈ ProcessReport.reads Impl.ctor
      [0x21, 0, 0, 0xF0, 0, 0x16, 1, 2, 3, 4, 5, 6, 7, 8, 9, 10, 11, 12, 13, 14, 15, 16] ∧
    21 ∈ ProcessReport.reads
      { Impl.ctor with
        state :=
          { Impl.ctor.state with
            extension := { Extension.zero with type := Extension.Nunchuk } } }
      [0x37, 0, 0, 0, 0, 0, 0, 0, 0, 0, 0, 0, 0, 0, 0, 0, 0, 0, 0, 0, 0, 0] ∧
    17 ∈ ProcessReport.reads
      { Impl.ctor with
        state := { Impl.ctor.state with ir := { Impl.ctor.state.ir with mode := .Extended } } }
      [0x33, 0, 0, 0, 0, 0, 0, 0, 0, 0, 0, 0, 0, 0, 0, 0, 0, 0, 0, 0, 0, 0] :=
  ⟨(C37_report_reads_in_bounds false
      [0x21, 0, 0, 0xF0, 0, 0x16, 1, 2, 3, 4, 5, 6, 7, 8, 9, 10, 11, 12, 13, 14, 15, 16] 0
      Impl.ctor).1, by decide, by decide, by decide⟩

/-! ## The rumble bit of the output reports and the LED mask -/

theorem engineAddresses_even : ∀ a ∈ engineAddresses, B3 a % 2 = 0 := by decide

theorem rumbleTagged_congr {s s1 : Impl} (rep : List Nat)
    (h : s1.state.rumble = s.state.rumble) (k : rumbleTagged s rep) : rumbleTagged s1 rep := by
  unfold rumbleTagged at k ⊢
  rw [h]
  exact k

theorem enqueued_engine (q : Request) (h : enqueued q) :
    q.type = RequestType.Status ∨ q.address ∈ engineAddresses := by
  rcases h with h | ⟨a, d, ha, _, _, h⟩ | ⟨e, he, h⟩
  · rw [h]
    exact Or.inl rfl
  · rw [h]
    exact Or.inr (List.mem_append_right _ ha)
  · rw [h]
    exact Or.inr (List.mem_append_left _ (List.mem_map.mpr ⟨e, he, rfl⟩))

theorem and_0xF0_idem (x : Nat) : (x &&& 0xF0) &&& 0xF0 = x &&& 0xF0 := by
  apply Nat.eq_of_testBit_eq
  intro i
  simp only [Nat.testBit_and, Bool.and_assoc, Bool.and_self]

theorem requestReport_tagged (s : Impl) (req : Request)
    (h : req.type = RequestType.Status ∨ req.address ∈ engineAddresses) :
    rumbleTagged s (requestReport s req) := by
  have z : rumbleTagged s [0x15, rumbleBit s] := by
    have k := rumbleTagged_or s 0x15 0 [] rfl
    rw [Nat.zero_or] at k
    exact k
  unfold requestReport
  cases ht : req.type with
  | Status => exact z
  | Read =>
    rw [ht] at h
    rcases h with h | h
    · cases h
    · exact rumbleTagged_or s _ _ _ (engineAddresses_even _ h)
  | Write =>
    rw [ht] at h
    rcases h with h | h
    · cases h
    · exact rumbleTagged_or s _ _ _ (engineAddresses_even _ h)

theorem SendNextRequest_tagged (nd : Bool) (s : Impl) (r : Bool × Impl) (hq : engineQueue s)
    (h : SendNextRequest nd s = .ok r) :
    r.2.state = s.state ∧ engineQueue r.2 ∧
      ∃ out, r.2.output = s.output ++ out ∧ ∀ rep ∈ out, rumbleTagged s rep := by
  rcases SendNextRequest_cases nd s r h with ⟨h1, _⟩ | ⟨req, rest, q, _, h3⟩
  · rw [h1]
    exact ⟨rfl, hq, [], by simp, by simp⟩
  · rw [h3]
    refine ⟨rfl, ?_, [requestReport s req], rfl, ?_⟩
    · intro x hx
      dsimp only at hx
      rw [List.mem_cons] at hx
      rcases hx with hx | hx
      · rw [hx]
        exact hq req (by rw [q]; exact List.mem_cons_self _ _)
      · exact hq x (by rw [q]; exact List.mem_cons_of_mem _ hx)
    · intro rep hr
      rw [List.mem_singleton] at hr
      rw [hr]
      exact requestReport_tagged s req (hq req (by rw [q]; exact List.mem_cons_self _ _))

theorem engineQueue_append (q new : List Request)
    (h : ∀ x ∈ q, x.type = RequestType.Status ∨ x.address ∈ engineAddresses)
    (k : ∀ x ∈ new, enqueuedByReport x) :
    ∀ x ∈ q ++ new, x.type = RequestType.Status ∨ x.address ∈ engineAddresses := by
  intro x hx
  rw [List.mem_append] at hx
  rcases hx with hx | hx
  · exact h x hx
  · exact enqueued_engine x (k x hx).1

theorem statusPopped_sub (q : List Request) : ∀ x ∈ statusPopped q, x ∈ q := by
  intro x hx
  cases q with
  | nil => exact hx
  | cons req rest =>
    have k : statusPopped (req :: rest) =
        if req.type = RequestType.Status ∧ req.sent = true then rest else req :: rest := rfl
    rw [k] at hx
    split_ifs at hx
    · exact List.mem_cons_of_mem _ hx
    · exact hx

/-- The report processing keeps the rumble flag, the LED mask within `0xF0` and
the queue on the registers of the engine, and every report it transmits carries
the rumble flag in bit 0 of its second byte. -/
theorem ProcessReport_tagged (nd : Bool) (buf : List Nat) (now : ℚ) (s : Impl)
    (r : Bool × Impl) (hl : ledsMasked s) (hq : engineQueue s)
    (h : ProcessReport nd buf now s = .ok r) :
    r.2.state.rumble = s.state.rumble ∧ ledsMasked r.2 ∧ engineQueue r.2 ∧
      ∃ out, r.2.output = s.output ++ out ∧ ∀ rep ∈ out, rumbleTagged s rep := by
  rcases ProcessReport_cases nd buf now s r h with
    ⟨_, r1, h1, e⟩ | ⟨_, r1, h1, e⟩ | ⟨_, r1, h1, e⟩ | ⟨_, e⟩ | ⟨_, _, e⟩
  · obtain ⟨t, ir1, new, out, e1, hn, ho, _⟩ := ProcessStatusReport_effect nd _ _ r1 h1
    rw [e, e1]
    refine ⟨rfl, and_0xF0_idem _, ?_, out, rfl, fun rep hr => ho rep hr⟩
    exact engineQueue_append _ _ (fun x hx => hq x (statusPopped_sub _ x hx)) hn
  · obtain ⟨req, rest, q, _, _, ⟨_, e1⟩ | ⟨_, hd, st1, new, _, e1, hn, er, el, _⟩⟩ :=
      ProcessDataReport_effect nd _ _ r1 h1
    · rw [e, e1]
      refine ⟨rfl, hl, ?_, [], by simp, by simp⟩
      intro x hx
      dsimp only at hx q
      rw [List.mem_cons] at hx
      rcases hx with hx | hx
      · have k := hq req (by rw [q]; exact List.mem_cons_self _ _)
        rw [hx]
        unfold Request.received
        split_ifs <;> exact k
      · exact hq x (by rw [q]; exact List.mem_cons_of_mem _ hx)
    · rw [e, e1]
      dsimp only at q
      refine ⟨er, ?_, ?_, [], by simp, by simp⟩
      · unfold ledsMasked
        dsimp only
        rw [el]
        exact hl
      · exact engineQueue_append _ _
          (fun x hx => hq x (by rw [q]; exact List.mem_cons_of_mem _ hx)) hn
  · obtain ⟨req, rest, q, e1⟩ := ProcessAcknowledgeReport_inv nd _ _ r1 h1
    rw [e, e1]
    dsimp only at q
    refine ⟨rfl, hl, ?_, [], by simp, by simp⟩
    intro x hx
    dsimp only at hx
    split_ifs at hx
    · exact hq x (by rw [q]; exact List.mem_cons_of_mem _ hx)
    · rw [List.mem_cons] at hx
      rcases hx with hx | hx
      · rw [hx]
        exact hq req (by rw [q]; exact List.mem_cons_self _ _)
      · exact hq x (by rw [q]; exact List.mem_cons_of_mem _ hx)
  · rw [e]
    refine ⟨(runSteps_keeps buf _ _).2.2.2.2.2, ?_, hq, [], by simp, by simp⟩
    unfold ledsMasked
    dsimp only
    rw [(runSteps_frame buf _ _).1]
    exact hl
  · rw [e]
    exact ⟨rfl, hl, hq, [], by simp, by simp⟩

/-- Every call of `Poll` and `Shutdown` keeps the LED mask within `0xF0` and the
queue on the registers of the engine; every report it transmits carries, in
bit 0 of its second byte, the rumble flag before or after the call, and `Poll`
does not change the flag. -/
theorem call_tagged (nd : Bool) (c : Call) (s : Impl) (r : Bool × Impl) (hl : ledsMasked s)
    (hq : engineQueue s) (h : call nd c s = .ok r) :
    ledsMasked r.2 ∧ engineQueue r.2 ∧
      (∃ out, r.2.output = s.output ++ out ∧
        ∀ rep ∈ out, rumbleTagged s rep ∨ rumbleTagged r.2 rep) ∧
      (c ≠ Call.shutdown → r.2.state.rumble = s.state.rumble) := by
  cases c with
  | shutdown =>
    simp only [call] at h
    by_cases hi : s.status = WII_STATUS_SHUTDOWN ∨ s.status = WII_STATUS_SHUTDOWN_COMPLETE ∨
        s.status = WII_STATUS_UNKNOWN ∨ s.status = WII_STATUS_STARTUP ∨
        s.status = WII_STATUS_DISCONNECTED ∨ s.status = WII_STATUS_ERROR
    · rw [Shutdown_idle nd s hi] at h
      rw [← Except.ok.inj h]
      exact ⟨hl, hq, ⟨[], by simp, by simp⟩, fun _ => rfl⟩
    · rw [Shutdown_active nd s hi] at h
      rw [← Except.ok.inj h]
      refine ⟨(show (0 : Nat) &&& 0xF0 = 0 from rfl), ?_, ⟨_, rfl, ?_⟩, fun k => absurd rfl k⟩
      · intro x hx
        dsimp only at hx
        rw [List.mem_append] at hx
        rcases hx with hx | hx
        · exact hq x hx
        · simp only [List.mem_cons, List.mem_singleton, List.not_mem_nil, or_false] at hx
          rcases hx with hx | hx <;> rw [hx] <;> exact Or.inr (by decide)
      · intro rep hr
        simp only [List.mem_cons, List.mem_singleton, List.not_mem_nil, or_false] at hr
        rcases hr with hr | hr
        · left
          rw [hr]
          have k := rumbleTagged_or s 0x11 0 [] rfl
          rw [Nat.zero_or] at k
          exact k
        · right
          rw [hr]
          rfl
  | poll input now =>
    simp only [call] at h
    rcases Poll_cases nd input now s r h with ⟨_, e⟩ | ⟨_, r1, h1, ⟨_, e⟩ | ⟨rep, r2, _, h2, e⟩⟩
    · rw [e]
      exact ⟨hl, hq, ⟨[], by simp, by simp⟩, fun _ => rfl⟩
    · obtain ⟨es, q1, out, eo, t1⟩ := SendNextRequest_tagged nd s r1 hq h1
      rw [e]
      refine ⟨?_, q1, ⟨out, eo, fun x hx => Or.inl (t1 x hx)⟩, fun _ => ?_⟩
      · unfold ledsMasked
        dsimp only
        rw [es]
        exact hl
      · dsimp only
        rw [es]
    · obtain ⟨es, q1, out1, eo1, t1⟩ := SendNextRequest_tagged nd s r1 hq h1
      have l1 : ledsMasked r1.2 := by
        unfold ledsMasked
        rw [es]
        exact hl
      obtain ⟨er, l2, q2, out2, eo2, t2⟩ := ProcessReport_tagged nd rep now r1.2 r2 l1 q1 h2
      have er2 : r2.2.state.rumble = s.state.rumble := by rw [er, es]
      have tall : ∀ x ∈ out1 ++ out2, rumbleTagged s x := by
        intro x hx
        rw [List.mem_append] at hx
        rcases hx with hx | hx
        · exact t1 x hx
        · exact rumbleTagged_congr x (by rw [es]) (t2 x hx)
      have eo : r2.2.output = s.output ++ (out1 ++ out2) := by
        rw [eo2, eo1, List.append_assoc]
      rw [e]
      dsimp only
      split_ifs
      · refine ⟨l2, ?_, ⟨_, eo, fun x hx => Or.inl (tall x hx)⟩, fun _ => er2⟩
        intro x hx
        dsimp only at hx
        rw [List.mem_append] at hx
        rcases hx with hx | hx
        · exact q2 x hx
        · simp only [List.mem_cons, List.mem_singleton, List.not_mem_nil, or_false] at hx
          rcases hx with hx | hx <;> rw [hx]
          · exact Or.inr (by decide)
          · exact Or.inl rfl
      · refine ⟨l2, ?_, ⟨_, eo, fun x hx => Or.inl (tall x hx)⟩, fun _ => er2⟩
        intro x hx
        dsimp only at hx
        rw [List.mem_singleton] at hx
        rw [hx]
        exact Or.inr (by decide)
      · exact ⟨l2, q2, ⟨_, eo, fun x hx => Or.inl (tall x hx)⟩, fun _ => er2⟩
      · exact ⟨l2, q2, ⟨_, eo, fun x hx => Or.inl (tall x hx)⟩, fun _ => er2⟩

/-- C38: every output report that the engine builds has bit 0 of the byte after
the type byte equal to the rumble flag at that moment: the status request, the
memory read and the memory write at each register the engine uses, the LED
report, the report-mode report and the IR enable and disable reports; so has
every report transmitted by a call of `Poll` or `Shutdown` on a queue of the
engine.  `SetLEDs` changes the LED mask alone and `SetRumble`, on a mask within
`0xF0`, the rumble flag alone, each transmitting one LED report.  The LED mask
is within `0xF0` initially and after `SetLEDs`, `SetRumble`, `SetReportMode`,
`Poll` and `Shutdown`. -/
theorem C38_rumble_bit_and_led_mask (nd : Bool) (s : Impl) :
    ((∃ rep, SendStatusReport nd s = .ok (true, { s with output := s.output ++ [rep] }) ∧
        rumbleTagged s rep) ∧
      (∀ a size : Nat, a ∈ engineAddresses →
        ∃ rep, SendReadReport nd a size s = .ok (true, { s with output := s.output ++ [rep] }) ∧
          rumbleTagged s rep) ∧
      (∀ (a size : Nat) (data : List Nat) (r : Bool × Impl), a ∈ engineAddresses →
        SendWriteReport nd a size data s = .ok r →
        ∃ rep, r = (true, { s with output := s.output ++ [rep] }) ∧ rumbleTagged s rep) ∧
      (∀ (m : IRData.Mode) (sens : IRData.Sensitivity),
        ∃ r out, EnableIR nd m sens s = .ok (true, r) ∧ r.output = s.output ++ out ∧
          (∀ rep ∈ out, rumbleTagged s rep) ∧ r.state.rumble = s.state.rumble ∧
          r.state.leds = s.state.leds) ∧
      (∃ r out, DisableIR nd s = .ok (true, r) ∧ r.output = s.output ++ out ∧
        (∀ rep ∈ out, rumbleTagged s rep) ∧ r.state.rumble = s.state.rumble ∧
        r.state.leds = s.state.leds) ∧
      (∀ (mode : ReportMode) (sens : IRData.Sensitivity) (c : Bool),
        ∃ r out, SetReportMode nd mode sens c s = .ok (true, r) ∧ r.output = s.output ++ out ∧
          (∀ rep ∈ out, rumbleTagged s rep) ∧ r.state.rumble = s.state.rumble ∧
          r.state.leds = s.state.leds)) ∧
    ((∀ leds : Nat,
        ∃ rep,
          SetLEDs nd leds s =
            .ok (true,
              { s with
                state := { s.state with leds := leds &&& 0xF0 }
                output := s.output ++ [rep] }) ∧
          rumbleTagged s rep) ∧
      (∀ enable : Bool, ledsMasked s →
        ∃ rep,
          SetRumble nd enable s =
            .ok (true,
              { s with
                state := { s.state with rumble := enable }
                output := s.output ++ [rep] }) ∧
          (byteAt rep 1).testBit 0 = enable)) ∧
    (ledsMasked Impl.ctor ∧
      (∀ (leds : Nat) (r : Bool × Impl), SetLEDs nd leds s = .ok r → ledsMasked r.2) ∧
      (∀ (enable : Bool) (r : Bool × Impl), SetRumble nd enable s = .ok r → ledsMasked r.2) ∧
      (∀ (c : Call) (r : Bool × Impl), ledsMasked s → engineQueue s → call nd c s = .ok r →
        ledsMasked r.2 ∧ engineQueue r.2 ∧
          (∃ out, r.2.output = s.output ++ out ∧
            ∀ rep ∈ out, rumbleTagged s rep ∨ rumbleTagged r.2 rep) ∧
          (c ≠ Call.shutdown → r.2.state.rumble = s.state.rumble))) := by
  have z : ∀ (t : Impl) (ty : Nat), rumbleTagged t [ty, rumbleBit t] := by
    intro t ty
    have k := rumbleTagged_or t ty 0 [] rfl
    rw [Nat.zero_or] at k
    exact k
  have led : ∀ (t : Impl) (x : Nat), rumbleTagged t [0x11, (x &&& 0xF0) % 256 ||| rumbleBit t] := by
    intro t x
    apply rumbleTagged_or
    have b : (x &&& 0xF0).testBit 0 = false := by
      rw [Nat.testBit_and]
      have c : (0xF0 : Nat).testBit 0 = false := by decide
      rw [c, Bool.and_false]
    rw [Nat.testBit_zero] at b
    have d : ¬ (x &&& 0xF0) % 2 = 1 := of_decide_eq_false b
    omega
  refine ⟨⟨?_, ?_, ?_, ?_, ?_, ?_⟩, ⟨?_, ?_⟩, ?_, ?_, ?_, ?_⟩
  · exact ⟨_, SendStatusReport_ok nd s, z s _⟩
  · intro a size ha
    exact ⟨_, SendReadReport_ok nd a size s, rumbleTagged_or s _ _ _ (engineAddresses_even a ha)⟩
  · intro a size data r ha h
    by_cases c : (nd = false ∧ size = 0) ∨ 16 < size ∨ data.length < size
    · obtain ⟨x, hx⟩ := SendWriteReport_error nd a size data s c
      rw [hx] at h
      cases h
    · rw [not_or, not_or] at c
      obtain ⟨c0, c3, c4⟩ := c
      have c1 : nd = true ∨ 0 < size := by
        cases nd
        · right
          by_contra n
          exact c0 ⟨rfl, by omega⟩
        · exact Or.inl rfl
      rw [SendWriteReport_ok nd a size data s c1 (by omega) (by omega)] at h
      refine ⟨_, (Except.ok.inj h).symm, ?_⟩
      exact rumbleTagged_or s _ _ _ (engineAddresses_even a ha)
  · intro m sens
    obtain ⟨ir1, new, out, e, _, ho⟩ := EnableIR_effect nd m sens s
    exact ⟨_, out, e, rfl, ho, rfl, rfl⟩
  · obtain ⟨ir1, new, out, e, _, ho⟩ := DisableIR_effect nd s
    exact ⟨_, out, e, rfl, ho, rfl, rfl⟩
  · intro mode sens c
    obtain ⟨ir1, new, out, e, _, ho⟩ := SetReportMode_effect nd mode sens c s
    exact ⟨_, out, e, rfl, ho, rfl, rfl⟩
  · intro leds
    exact ⟨_, SetLEDs_ok nd leds s, led s leds⟩
  · intro enable hm
    refine ⟨[0x11, (s.state.leds &&& 0xF0) % 256 ||| (if enable then 0x01 else 0x00)], ?_, ?_⟩
    · rw [SetRumble_ok nd enable s]
      unfold ledsMasked at hm
      rw [hm]
    · exact led { s with state := { s.state with rumble := enable } } s.state.leds
  · rfl
  · intro leds r h
    rw [SetLEDs_ok nd leds s] at h
    rw [← Except.ok.inj h]
    exact and_0xF0_idem leds
  · intro enable r h
    rw [SetRumble_ok nd enable s] at h
    rw [← Except.ok.inj h]
    exact and_0xF0_idem s.state.leds
  · intro c r hl hq h
    exact call_tagged nd c s r hl hq h

/-- C38 with rumble on: the read of the extension identifier is transmitted as
`17 05 A4 00 FA 00 06`, the top address byte `04` carrying the rumble bit, and
`SetRumble(false)` on the LED mask `0x10` transmits `11 10` and keeps the
mask. -/
theorem C38_rumble_bit_and_led_mask_witness :
    (∃ rep,
      SendReadReport false 0x04A400FA 6
          { Impl.ctor with state := { Impl.ctor.state with rumble := true, leds := 0x10 } } =
        .ok (true,
          { Impl.ctor with
            state := { Impl.ctor.state with rumble := true, leds := 0x10 }
            output := [] ++ [rep] }) ∧
      rumbleTagged
        { Impl.ctor with state := { Impl.ctor.state with rumble := true, leds := 0x10 } } rep) ∧
    SendReadReport false 0x04A400FA 6
        { Impl.ctor with state := { Impl.ctor.state with rumble := true, leds := 0x10 } } =
      .ok (true,
        { Impl.ctor with
          state := { Impl.ctor.state with rumble := true, leds := 0x10 }
          output := [[0x17, 0x05, 0xA4, 0x00, 0xFA, 0x00, 0x06]] }) ∧
    SetRumble false false
        { Impl.ctor with state := { Impl.ctor.state with rumble := true, leds := 0x10 } } =
      .ok (true,
        { Impl.ctor with
          state := { Impl.ctor.state with rumble := false, leds := 0x10 }
          output := [[0x11, 0x10]] }) :=
  ⟨(C38_rumble_bit_and_led_mask false
      { Impl.ctor with state := { Impl.ctor.state with rumble := true, leds := 0x10 } }).1.2.1
      0x04A400FA 6 (by decide), rfl, rfl⟩

/-! ## The lifecycle phase never moves backwards -/

theorem call_status (nd : Bool) (c : Call) (s : Impl) (r : Bool × Impl)
    (hs : s.status ≤ WII_STATUS_ERROR) (h : call nd c s = .ok r) :
    s.status ≤ r.2.status ∧ r.2.status ≤ WII_STATUS_ERROR := by
  unfold WII_STATUS_ERROR at hs ⊢
  cases c with
  | shutdown =>
    simp only [call] at h
    by_cases hi : s.status = WII_STATUS_SHUTDOWN ∨ s.status = WII_STATUS_SHUTDOWN_COMPLETE ∨
        s.status = WII_STATUS_UNKNOWN ∨ s.status = WII_STATUS_STARTUP ∨
        s.status = WII_STATUS_DISCONNECTED ∨ s.status = WII_STATUS_ERROR
    · rw [Shutdown_idle nd s hi] at h
      rw [← Except.ok.inj h]
      exact ⟨le_refl _, hs⟩
    · rw [Shutdown_active nd s hi] at h
      rw [← Except.ok.inj h]
      simp only [WII_STATUS_SHUTDOWN, WII_STATUS_SHUTDOWN_COMPLETE, WII_STATUS_UNKNOWN,
        WII_STATUS_STARTUP, WII_STATUS_DISCONNECTED, WII_STATUS_ERROR, not_or] at hi ⊢
      omega
  | poll input now =>
    simp only [call] at h
    rcases Poll_cases nd input now s r h with ⟨_, e⟩ | ⟨_, r1, h1, ⟨_, e⟩ | ⟨rep, r2, _, h2, e⟩⟩
    · rw [e]
      exact ⟨le_refl _, hs⟩
    · rw [e]
      exact ⟨hs, le_refl _⟩
    · have st : r2.2.status = s.status := by
        rw [ProcessReport_status nd rep now r1.2 r2 h2, SendNextRequest_status nd s r1 h1]
      rw [e]
      dsimp only
      rw [← st] at hs ⊢
      split_ifs with a b c
      · rw [a]
        dsimp only
        exact ⟨by decide, by decide⟩
      · rw [b.1]
        dsimp only
        exact ⟨by decide, by decide⟩
      · rw [c.1]
        dsimp only
        exact ⟨by decide, by decide⟩
      · exact ⟨le_refl _, hs⟩

theorem calls_status (nd : Bool) (cs : List Call) :
    ∀ (s : Impl) (r : List Bool × Impl), s.status ≤ WII_STATUS_ERROR → calls nd cs s = .ok r →
      s.status ≤ r.2.status ∧ r.2.status ≤ WII_STATUS_ERROR := by
  induction cs with
  | nil =>
    intro s r hs h
    rw [← Except.ok.inj h]
    exact ⟨le_refl _, hs⟩
  | cons c more ih =>
    intro s r hs h
    simp only [calls] at h
    obtain ⟨r1, h1, h⟩ := bind_eq_ok h
    obtain ⟨rs, h2, h⟩ := bind_eq_ok h
    obtain ⟨a1, b1⟩ := call_status nd c s r1 hs h1
    obtain ⟨a2, b2⟩ := ih r1.2 rs b1 h2
    rw [← Except.ok.inj h]
    exact ⟨le_trans a1 a2, b2⟩

theorem identifierReadsIssued_bound (nd : Bool) (cs : List Call) :
    ∀ s : Impl, s.status ≤ WII_STATUS_ERROR →
      identifierReadsIssued nd cs s ≤ 1 ∧
      (WII_STATUS_READY ≤ s.status → identifierReadsIssued nd cs s = 0) := by
  induction cs with
  | nil => intro s _; exact ⟨Nat.zero_le _, fun _ => rfl⟩
  | cons c more ih =>
    intro s hs
    unfold identifierReadsIssued
    cases h : call nd c s with
    | error e => exact ⟨Nat.zero_le _, fun _ => rfl⟩
    | ok r =>
      dsimp only
      obtain ⟨a, b⟩ := call_status nd c s r hs h
      obtain ⟨i1, i2⟩ := ih r.2 b
      constructor
      · by_cases t : s.status = WII_STATUS_STARTUP ∧ r.2.status = WII_STATUS_READY
        · rw [if_pos t, i2 (by rw [t.2])]
        · rw [if_neg t]
          omega
      · intro hr
        have t : ¬ (s.status = WII_STATUS_STARTUP ∧ r.2.status = WII_STATUS_READY) := by
          rintro ⟨t1, _⟩
          rw [t1] at hr
          exact absurd hr (by decide)
        rw [if_neg t, i2 (le_trans hr a)]

theorem identifierReadsQueued_append (q new : List Request)
    (h : ∀ x ∈ new, enqueuedByReport x) :
    identifierReadsQueued (q ++ new) = identifierReadsQueued q := by
  unfold identifierReadsQueued
  rw [List.countP_append]
  have z : new.countP (fun x => decide (x.handler = some Handler.ParseMotionPlusIdentifier)) = 0 := by
    rw [List.countP_eq_zero]
    intro x hx
    simpa using (h x hx).2
  rw [z, Nat.add_zero]

theorem identifierReadsQueued_idents (q q1 : List Request)
    (h : q1.map Request.ident = q.map Request.ident) :
    identifierReadsQueued q1 = identifierReadsQueued q := by
  have e : ∀ l : List Request, identifierReadsQueued l =
      (l.map Request.ident).countP
        (fun i => decide (i.2.2 = some Handler.ParseMotionPlusIdentifier)) := by
    intro l
    unfold identifierReadsQueued
    rw [List.countP_map]
    rfl
  rw [e, e, h]

theorem identifierReadsQueued_tail (req : Request) (rest : List Request) :
    identifierReadsQueued rest ≤ identifierReadsQueued (req :: rest) := by
  unfold identifierReadsQueued
  rw [List.countP_cons]
  exact Nat.le_add_right _ _

theorem identifierReadsQueued_front (req req1 : Request) (rest : List Request)
    (h : req1.handler = req.handler) :
    identifierReadsQueued (req1 :: rest) = identifierReadsQueued (req :: rest) := by
  unfold identifierReadsQueued
  rw [List.countP_cons, List.countP_cons, h]

theorem ProcessReport_identifierReads (nd : Bool) (buf : List Nat) (now : ℚ) (s : Impl)
    (r : Bool × Impl) (h : ProcessReport nd buf now s = .ok r) :
    identifierReadsQueued r.2.requests ≤ identifierReadsQueued s.requests := by
  rcases ProcessReport_cases nd buf now s r h with
    ⟨_, r1, h1, e⟩ | ⟨_, r1, h1, e⟩ | ⟨_, r1, h1, e⟩ | ⟨_, e⟩ | ⟨_, _, e⟩
  · obtain ⟨t, ir1, new, out, e1, hn, _⟩ := ProcessStatusReport_effect nd _ _ r1 h1
    rw [e, e1]
    dsimp only
    rw [identifierReadsQueued_append _ _ hn]
    cases hq : s.requests with
    | nil => exact le_refl _
    | cons req rest =>
      have k : statusPopped (req :: rest) =
          if req.type = RequestType.Status ∧ req.sent = true then rest else req :: rest := rfl
      rw [k]
      split_ifs
      · exact identifierReadsQueued_tail req rest
      · exact le_refl _
  · obtain ⟨req, rest, q, _, _, ⟨_, e1⟩ | ⟨_, hd, st1, new, _, e1, hn, _, _, _⟩⟩ :=
      ProcessDataReport_effect nd _ _ r1 h1
    · rw [e, e1]
      dsimp only at q ⊢
      rw [q, identifierReadsQueued_front req _ rest (by unfold Request.received; split_ifs <;> rfl)]
    · rw [e, e1]
      dsimp only at q ⊢
      rw [q, identifierReadsQueued_append _ _ hn]
      exact identifierReadsQueued_tail req rest
  · obtain ⟨req, rest, q, e1⟩ := ProcessAcknowledgeReport_inv nd _ _ r1 h1
    rw [e, e1]
    dsimp only at q ⊢
    rw [q]
    split_ifs
    · exact identifierReadsQueued_tail req rest
    · exact le_of_eq (identifierReadsQueued_front req _ rest rfl)
  · rw [e]
  · rw [e]

/-- A call enqueues a read of the motion-sensor identifier only when it moves
the phase from `Startup` to `Ready`, and then that read is the whole queue. -/
theorem call_identifierReads (nd : Bool) (c : Call) (s : Impl) (r : Bool × Impl)
    (h : call nd c s = .ok r) :
    (s.status = WII_STATUS_STARTUP ∧ r.2.status = WII_STATUS_READY →
      r.2.requests = [Request.read 0x04A600FE 2 .ParseMotionPlusIdentifier]) ∧
    (¬ (s.status = WII_STATUS_STARTUP ∧ r.2.status = WII_STATUS_READY) →
      identifierReadsQueued r.2.requests ≤ identifierReadsQueued s.requests) := by
  cases c with
  | shutdown =>
    simp only [call] at h
    by_cases hi : s.status = WII_STATUS_SHUTDOWN ∨ s.status = WII_STATUS_SHUTDOWN_COMPLETE ∨
        s.status = WII_STATUS_UNKNOWN ∨ s.status = WII_STATUS_STARTUP ∨
        s.status = WII_STATUS_DISCONNECTED ∨ s.status = WII_STATUS_ERROR
    · rw [Shutdown_idle nd s hi] at h
      rw [← Except.ok.inj h]
      constructor
      · rintro ⟨a, b⟩
        dsimp only at b
        rw [a] at b
        exact absurd b (by decide)
      · intro _
        exact le_refl _
    · rw [Shutdown_active nd s hi] at h
      rw [← Except.ok.inj h]
      constructor
      · rintro ⟨_, b⟩
        dsimp only at b
        exact absurd b (by decide)
      · intro _
        dsimp only
        rw [identifierReadsQueued_append]
        intro x hx
        simp only [List.mem_cons, List.mem_singleton, List.not_mem_nil, or_false] at hx
        rcases hx with hx | hx <;> rw [hx] <;>
          exact enqueuedByReport_write _ _ (by decide) (by decide) (by decide)
  | poll input now =>
    simp only [call] at h
    rcases Poll_cases nd input now s r h with ⟨_, e⟩ | ⟨_, r1, h1, ⟨_, e⟩ | ⟨rep, r2, _, h2, e⟩⟩
    · rw [e]
      constructor
      · rintro ⟨a, b⟩
        dsimp only at b
        rw [a] at b
        exact absurd b (by decide)
      · intro _
        exact le_refl _
    · rw [e]
      constructor
      · rintro ⟨_, b⟩
        dsimp only at b
        exact absurd b (by decide)
      · intro _
        dsimp only
        rw [identifierReadsQueued_idents _ _ (SendNextRequest_idents nd s r1 h1).1]
    · have st : r2.2.status = s.status := by
        rw [ProcessReport_status nd rep now r1.2 r2 h2, SendNextRequest_status nd s r1 h1]
      have c2 : identifierReadsQueued r2.2.requests ≤ identifierReadsQueued s.requests := by
        have k := ProcessReport_identifierReads nd rep now r1.2 r2 h2
        rw [identifierReadsQueued_idents _ _ (SendNextRequest_idents nd s r1 h1).1] at k
        exact k
      rw [e]
      dsimp only
      split_ifs with a b c
      · constructor
        · rintro ⟨x, _⟩
          rw [a] at x
          exact absurd x (by decide)
        · intro _
          dsimp only
          rw [identifierReadsQueued_append]
          · exact c2
          · intro x hx
            simp only [List.mem_cons, List.mem_singleton, List.not_mem_nil, or_false] at hx
            rcases hx with hx | hx <;> rw [hx]
            · exact ⟨enqueued_read _ _ _ (by decide), by decide⟩
            · exact ⟨Or.inl rfl, by decide⟩
      · exact ⟨fun _ => rfl, fun n => absurd ⟨b.1, rfl⟩ n⟩
      · constructor
        · rintro ⟨_, y⟩
          dsimp only at y
          exact absurd y (by decide)
        · intro _
          exact c2
      · constructor
        · rintro ⟨x, y⟩
          rw [st, x] at y
          exact absurd y (by decide)
        · intro _
          exact c2

/-- C39: under every sequence of `Poll` and `Shutdown` calls that returns,
started in one of the eight phases, the phase never moves backwards in the
order of the constants `WII_STATUS_*` (Unknown, Connected, Startup, Ready,
Shutdown, ShutdownComplete, Disconnected, Error).  Once `Ready` the phase is
never again `Connected` or `Startup`, and once `Shutdown` never again `Ready`.
`Poll` issues the read of the motion-sensor identifier, the move from `Startup`
to `Ready`, at most once in the sequence and never once the phase is `Ready` or
later; a call that does not make this move adds no read of the identifier to the
queue, and one that makes it leaves that read as the whole queue. -/
theorem C39_phase_never_moves_back (nd : Bool) (cs : List Call) (s : Impl)
    (r : List Bool × Impl) (hs : s.status ≤ WII_STATUS_ERROR) (h : calls nd cs s = .ok r) :
    (s.status ≤ r.2.status ∧ r.2.status ≤ WII_STATUS_ERROR) ∧
    (WII_STATUS_READY ≤ s.status →
      r.2.status ≠ WII_STATUS_CONNECTED ∧ r.2.status ≠ WII_STATUS_STARTUP) ∧
    (WII_STATUS_SHUTDOWN ≤ s.status → r.2.status ≠ WII_STATUS_READY) ∧
    (identifierReadsIssued nd cs s ≤ 1 ∧
      (WII_STATUS_READY ≤ s.status → identifierReadsIssued nd cs s = 0)) ∧
    (∀ (c : Call) (r1 : Bool × Impl), call nd c s = .ok r1 →
      (s.status = WII_STATUS_STARTUP ∧ r1.2.status = WII_STATUS_READY →
        r1.2.requests = [Request.read 0x04A600FE 2 .ParseMotionPlusIdentifier]) ∧
      (¬ (s.status = WII_STATUS_STARTUP ∧ r1.2.status = WII_STATUS_READY) →
        identifierReadsQueued r1.2.requests ≤ identifierReadsQueued s.requests)) := by
  obtain ⟨a, b⟩ := calls_status nd cs s r hs h
  refine ⟨⟨a, b⟩, ?_, ?_, identifierReadsIssued_bound nd cs s hs,
    fun c r1 h1 => call_identifierReads nd c s r1 h1⟩
  · intro k
    unfold WII_STATUS_READY at k
    unfold WII_STATUS_CONNECTED WII_STATUS_STARTUP
    constructor <;> omega
  · intro k
    unfold WII_STATUS_SHUTDOWN at k
    unfold WII_STATUS_READY
    omega

/-- C39 on a ready engine with an empty queue: a shutdown followed by a poll
that reads a button report ends in phase `Shutdown`, with the two writes of
`DisableMotionPlus` queued and no identifier read issued. -/
theorem C39_phase_never_moves_back_witness :
    ∃ r, calls false [Call.shutdown, Call.poll (some [0x30, 0x00, 0x00]) 0]
        { Impl.ctor with status := WII_STATUS_READY, reportMode := .Buttons } = .ok r ∧
      r.2.status = WII_STATUS_SHUTDOWN ∧
      WII_STATUS_READY ≤ r.2.status ∧
      identifierReadsIssued false [Call.shutdown, Call.poll (some [0x30, 0x00, 0x00]) 0]
        { Impl.ctor with status := WII_STATUS_READY, reportMode := .Buttons } = 0 :=
  ⟨_, rfl, rfl,
    (C39_phase_never_moves_back false [Call.shutdown, Call.poll (some [0x30, 0x00, 0x00]) 0]
      { Impl.ctor with status := WII_STATUS_READY, reportMode := .Buttons } _ (by decide) rfl).1.1,
    (C39_phase_never_moves_back false [Call.shutdown, Call.poll (some [0x30, 0x00, 0x00]) 0]
      { Impl.ctor with status := WII_STATUS_READY, reportMode := .Buttons } _ (by decide)
      rfl).2.2.2.1.2 (by decide)⟩

/-! ## The accounting of read requests -/

theorem memcpy_length (dst src : List Nat) (off n : Nat) (h : off + n ≤ dst.length) :
    (memcpy dst off src n).length = dst.length := by
  unfold memcpy
  simp only [List.length_append, List.length_take, List.length_map, List.length_range,
    List.length_drop]
  omega

theorem memcpy_copied (dst src : List Nat) (off n i : Nat) (h : off ≤ dst.length)
    (hi : i < n) : (memcpy dst off src n).getD (off + i) 0 = byteAt src i := by
  unfold memcpy
  have l1 : (dst.take off).length = off := by
    rw [List.length_take]
    omega
  rw [List.append_assoc, List.getD_append_right _ _ _ _ (by rw [l1]; omega), l1,
    Nat.add_sub_cancel_left, List.getD_append _ _ _ _ (by simpa using hi)]
  simp [List.getD_eq_getElem?_getD, List.getElem?_map, List.getElem?_range hi]

theorem memcpy_kept (dst src : List Nat) (off n j : Nat) (h : off + n ≤ dst.length)
    (hj : j < off ∨ off + n ≤ j) : (memcpy dst off src n).getD j 0 = dst.getD j 0 := by
  unfold memcpy
  have l1 : (dst.take off).length = off := by
    rw [List.length_take]
    omega
  rcases hj with hj | hj
  · rw [List.append_assoc, List.getD_append _ _ _ _ (by rw [l1]; exact hj)]
    simp [List.getD_eq_getElem?_getD, List.getElem?_take, hj]
  · rw [List.getD_append_right _ _ _ _ (by simp; omega)]
    simp only [List.length_append, l1, List.length_map, List.length_range,
      List.getD_eq_getElem?_getD, List.getElem?_drop]
    congr 2
    omega

theorem received_accepted (req : Request) (buf : List Nat) (hb : req.balanced)
    (he : dataReportError buf = 0)
    (hc : req.done + dataReportCount buf ≤ req.buffer.length) :
    dataReportCount buf ≤ req.pending ∧
    (req.received buf).done = req.done + dataReportCount buf ∧
    (req.received buf).pending = req.pending - dataReportCount buf ∧
    (req.received buf).buffer =
      memcpy req.buffer req.done (buf.drop 3) (dataReportCount buf) := by
  obtain ⟨b1, b2⟩ := hb
  have c : dataReportCount buf ≤ req.pending := by omega
  unfold Request.received
  rw [if_pos he]
  dsimp only
  refine ⟨c, ?_, ?_, rfl⟩
  · exact Nat.mod_eq_of_lt (by omega)
  · have e : req.pending + 2 ^ 32 - dataReportCount buf =
        (req.pending - dataReportCount buf) + 2 ^ 32 := by omega
    rw [e, Nat.add_mod_right]
    exact Nat.mod_eq_of_lt (by omega)

theorem received_rejected (req : Request) (buf : List Nat) (he : dataReportError buf ≠ 0) :
    (req.received buf).buffer = req.buffer ∧ (req.received buf).done = req.done ∧
    (req.received buf).pending = req.pending := by
  unfold Request.received
  rw [if_neg he]
  exact ⟨rfl, rfl, rfl⟩

theorem received_balanced (req : Request) (buf : List Nat) (hb : req.balanced)
    (hc : dataReportError buf = 0 → req.done + dataReportCount buf ≤ req.buffer.length) :
    (req.received buf).buffer.length = req.buffer.length ∧ (req.received buf).balanced := by
  by_cases he : dataReportError buf = 0
  · obtain ⟨c, d, p, b⟩ := received_accepted req buf hb he (hc he)
    have l : (req.received buf).buffer.length = req.buffer.length := by
      rw [b, memcpy_length _ _ _ _ (hc he)]
    refine ⟨l, ?_, ?_⟩
    · rw [d, p, l, ← hb.1]
      omega
    · rw [l]
      exact hb.2
  · obtain ⟨b, d, p⟩ := received_rejected req buf he
    refine ⟨by rw [b], ?_, ?_⟩
    · rw [b, d, p]
      exact hb.1
    · rw [b]
      exact hb.2

/-- With assertions enabled a fragment longer than the pending bytes stops at an
assertion. -/
theorem ProcessDataReport_long_debug (buf : List Nat) (s : Impl) (req : Request)
    (rest : List Request) (hq : s.requests = req :: rest)
    (hc : req.pending < dataReportCount buf) :
    ProcessDataReport false buf s = .error Fault.assertion := by
  unfold dataReportCount at hc
  have c2 : cassert false (decide (1 + (byteAt buf 0 >>> 4) ≤ req.pending)) =
      .error Fault.assertion := by
    have n : ¬ (1 + (byteAt buf 0 >>> 4) ≤ req.pending) := by omega
    simp [cassert, n]
  unfold ProcessDataReport
  rw [hq]
  by_cases t : req.type = RequestType.Read
  · have c1 : cassert false (decide (req.type = RequestType.Read)) = .ok () :=
      cassert_of false (by simpa using t)
    simp only [cassert_nonempty, c1, c2, ok_bind, error_bind]
  · have c1 : cassert false (decide (req.type = RequestType.Read)) = .error Fault.assertion := by
      simp [cassert, t]
    simp only [cassert_nonempty, c1, ok_bind, error_bind]

/-- Without assertions an error-free fragment longer than the pending bytes of
a balanced request reaches the copy, which runs past the end of the buffer. -/
theorem ProcessDataReport_long_release (buf : List Nat) (s : Impl) (req : Request)
    (rest : List Request) (hq : s.requests = req :: rest) (hb : req.balanced)
    (hc : req.pending < dataReportCount buf) (he : dataReportError buf = 0) :
    ProcessDataReport true buf s = .error Fault.undefined := by
  unfold dataReportCount at hc
  unfold dataReportError at he
  have n : req.buffer.length < req.done + (1 + (byteAt buf 0 >>> 4)) := by
    have b := hb.1
    omega
  unfold ProcessDataReport
  rw [hq]
  simp only [cassert_ndebug, ok_bind, he, if_true, if_pos n, throw_eq_error, error_bind,
    ↓reduceIte]

theorem read_balanced (a size : Nat) (h : Handler) (hs : size < 2 ^ 32) :
    (Request.read a size h).balanced := by
  unfold Request.balanced Request.read
  simp only [List.length_replicate, Nat.zero_add, true_and]
  exact hs

theorem enqueued_balanced (q : Request) (h : enqueued q) : q.balanced := by
  rcases h with h | ⟨a, d, _, _, h1, h⟩ | ⟨e, he, h⟩
  · rw [h]
    exact ⟨rfl, by norm_num [Request.status]⟩
  · rw [h]
    unfold Request.balanced Request.write
    simp only [List.length_map, Nat.zero_add, true_and]
    omega
  · rw [h]
    simp only [engineReads, List.mem_cons, List.mem_singleton, List.not_mem_nil, or_false] at he
    rcases he with k | k | k | k | k <;> rw [k] <;>
      exact read_balanced _ _ _ (by norm_num)

theorem queueBalanced_append (q new : List Request) (h : ∀ x ∈ q, x.balanced)
    (k : ∀ x ∈ new, enqueued x) : ∀ x ∈ q ++ new, x.balanced := by
  intro x hx
  rw [List.mem_append] at hx
  rcases hx with hx | hx
  · exact h x hx
  · exact enqueued_balanced x (k x hx)

theorem SendNextRequest_balanced (nd : Bool) (s : Impl) (r : Bool × Impl)
    (hb : queueBalanced s) (h : SendNextRequest nd s = .ok r) : queueBalanced r.2 := by
  rcases SendNextRequest_cases nd s r h with ⟨e, _⟩ | ⟨req, rest, q, _, e⟩
  · rw [e]
    exact hb
  · rw [e]
    intro x hx
    dsimp only at hx
    rw [List.mem_cons] at hx
    rcases hx with hx | hx
    · rw [hx]
      exact hb req (by rw [q]; exact List.mem_cons_self _ _)
    · exact hb x (by rw [q]; exact List.mem_cons_of_mem _ hx)

theorem ProcessReport_balanced (nd : Bool) (buf : List Nat) (now : ℚ) (s : Impl)
    (r : Bool × Impl) (hb : queueBalanced s) (h : ProcessReport nd buf now s = .ok r) :
    queueBalanced r.2 := by
  rcases ProcessReport_cases nd buf now s r h with
    ⟨_, r1, h1, e⟩ | ⟨_, r1, h1, e⟩ | ⟨_, r1, h1, e⟩ | ⟨_, e⟩ | ⟨_, _, e⟩
  · obtain ⟨t, ir1, new, out, e1, hn, _⟩ := ProcessStatusReport_effect nd _ _ r1 h1
    rw [e, e1]
    exact queueBalanced_append _ _ (fun x hx => hb x (statusPopped_sub _ x hx))
      (fun x hx => (hn x hx).1)
  · obtain ⟨req, rest, q, _, hc, ⟨_, e1⟩ | ⟨_, hd, st1, new, _, e1, hn, _, _, _⟩⟩ :=
      ProcessDataReport_effect nd _ _ r1 h1
    · rw [e, e1]
      intro x hx
      dsimp only at hx q
      rw [List.mem_cons] at hx
      rcases hx with hx | hx
      · rw [hx]
        exact (received_balanced req _ (hb req (by rw [q]; exact List.mem_cons_self _ _)) hc).2
      · exact hb x (by rw [q]; exact List.mem_cons_of_mem _ hx)
    · rw [e, e1]
      dsimp only at q
      exact queueBalanced_append _ _
        (fun x hx => hb x (by rw [q]; exact List.mem_cons_of_mem _ hx))
        (fun x hx => (hn x hx).1)
  · obtain ⟨req, rest, q, e1⟩ := ProcessAcknowledgeReport_inv nd _ _ r1 h1
    rw [e, e1]
    dsimp only at q
    intro x hx
    dsimp only at hx
    split_ifs at hx
    · exact hb x (by rw [q]; exact List.mem_cons_of_mem _ hx)
    · rw [List.mem_cons] at hx
      rcases hx with hx | hx
      · rw [hx]
        exact hb req (by rw [q]; exact List.mem_cons_self _ _)
      · exact hb x (by rw [q]; exact List.mem_cons_of_mem _ hx)
  · rw [e]
    exact hb
  · rw [e]
    exact hb

theorem call_balanced (nd : Bool) (c : Call) (s : Impl) (r : Bool × Impl)
    (hb : queueBalanced s) (h : call nd c s = .ok r) : queueBalanced r.2 := by
  cases c with
  | shutdown =>
    simp only [call] at h
    by_cases hi : s.status = WII_STATUS_SHUTDOWN ∨ s.status = WII_STATUS_SHUTDOWN_COMPLETE ∨
        s.status = WII_STATUS_UNKNOWN ∨ s.status = WII_STATUS_STARTUP ∨
        s.status = WII_STATUS_DISCONNECTED ∨ s.status = WII_STATUS_ERROR
    · rw [Shutdown_idle nd s hi] at h
      rw [← Except.ok.inj h]
      exact hb
    · rw [Shutdown_active nd s hi] at h
      rw [← Except.ok.inj h]
      apply queueBalanced_append _ _ hb
      intro x hx
      simp only [List.mem_cons, List.mem_singleton, List.not_mem_nil, or_false] at hx
      rcases hx with hx | hx <;> rw [hx] <;>
        exact enqueued_write _ _ (by decide) (by decide) (by decide)
  | poll input now =>
    simp only [call] at h
    rcases Poll_cases nd input now s r h with ⟨_, e⟩ | ⟨_, r1, h1, ⟨_, e⟩ | ⟨rep, r2, _, h2, e⟩⟩
    · rw [e]
      exact hb
    · rw [e]
      exact SendNextRequest_balanced nd s r1 hb h1
    · have b2 : queueBalanced r2.2 :=
        ProcessReport_balanced nd rep now r1.2 r2 (SendNextRequest_balanced nd s r1 hb h1) h2
      rw [e]
      dsimp only
      split_ifs
      · apply queueBalanced_append _ _ b2
        intro x hx
        simp only [List.mem_cons, List.mem_singleton, List.not_mem_nil, or_false] at hx
        rcases hx with hx | hx <;> rw [hx]
        · exact enqueued_read _ _ _ (by decide)
        · exact Or.inl rfl
      · intro x hx
        dsimp only at hx
        rw [List.mem_singleton] at hx
        rw [hx]
        exact enqueued_balanced _ (enqueued_read _ _ _ (by decide))
      · exact b2
      · exact b2

theorem calls_balanced (nd : Bool) (cs : List Call) :
    ∀ (s : Impl) (r : List Bool × Impl), queueBalanced s → calls nd cs s = .ok r →
      queueBalanced r.2 := by
  induction cs with
  | nil =>
    intro s r hb h
    rw [← Except.ok.inj h]
    exact hb
  | cons c more ih =>
    intro s r hb h
    simp only [calls] at h
    obtain ⟨r1, h1, h⟩ := bind_eq_ok h
    obtain ⟨rs, h2, h⟩ := bind_eq_ok h
    rw [← Except.ok.inj h]
    exact ih r1.2 rs (call_balanced nd c s r1 hb h1) h2

/-- C40, as the code has it: a read request is created with `done = 0`,
`pending = size` and a buffer of `size` bytes, and every call of `Poll` and
`Shutdown` that returns keeps `done + pending` equal to the buffer length for
every queued request.  For a data report that `ProcessDataReport` processes on
a front request with this accounting, the buffer length is kept; a fragment
with a zero error nibble has `count <= pending` and is copied to the offsets
`done .. done + count - 1`, which lie within the buffer, the other bytes being
kept, `done` growing and `pending` shrinking by `count`; a report with a
non-zero error nibble changes neither the buffer nor the two counters.  The
front request then stays in its updated form, or its callback receives the
updated buffer and the request is removed.  A fragment with `count > pending`
stops at the assertion in a build with assertions; in a build without
assertions it is left uncopied only when its error nibble is non-zero, and with
a zero error nibble the copy is reached and runs past the end of the buffer,
which is undefined behaviour. -/
theorem C40_read_request_accounting (nd : Bool) (buf : List Nat) (s : Impl) (req : Request)
    (rest : List Request) (hq : s.requests = req :: rest) (hb : req.balanced) :
    (∀ (a size : Nat) (h : Handler), size < 2 ^ 32 →
      (Request.read a size h).done = 0 ∧ (Request.read a size h).pending = size ∧
      (Request.read a size h).buffer.length = size ∧ (Request.read a size h).balanced) ∧
    (∀ r, ProcessDataReport nd buf s = .ok r →
      (req.received buf).buffer.length = req.buffer.length ∧ (req.received buf).balanced ∧
      (dataReportError buf = 0 →
        dataReportCount buf ≤ req.pending ∧
        req.done + dataReportCount buf ≤ req.buffer.length ∧
        (req.received buf).done = req.done + dataReportCount buf ∧
        (req.received buf).pending = req.pending - dataReportCount buf ∧
        (∀ i, i < dataReportCount buf →
          (req.received buf).buffer.getD (req.done + i) 0 = byteAt buf (3 + i)) ∧
        (∀ j, j < req.done ∨ req.done + dataReportCount buf ≤ j →
          (req.received buf).buffer.getD j 0 = req.buffer.getD j 0)) ∧
      (dataReportError buf ≠ 0 →
        (req.received buf).buffer = req.buffer ∧ (req.received buf).done = req.done ∧
        (req.received buf).pending = req.pending) ∧
      (r.2.requests = req.received buf :: rest ∨
        ∃ hd new, r.2.requests = rest ++ new ∧ (∀ q ∈ new, q.balanced) ∧
          r.2.handled = s.handled ++
            [{ handler := hd, buf := (req.received buf).buffer,
               len := (req.received buf).buffer.length,
               error := (req.received buf).error }])) ∧
    (req.pending < dataReportCount buf →
      ProcessDataReport false buf s = .error Fault.assertion ∧
      (dataReportError buf = 0 → ProcessDataReport true buf s = .error Fault.undefined) ∧
      (∀ r, ProcessDataReport nd buf s = .ok r →
        nd = true ∧ dataReportError buf ≠ 0 ∧ (req.received buf).buffer = req.buffer)) ∧
    (queueBalanced s → ∀ (cs : List Call) (r : List Bool × Impl),
      calls nd cs s = .ok r → queueBalanced r.2) := by
  have eff : ∀ r, ProcessDataReport nd buf s = .ok r →
      (nd = false → dataReportAsserts buf req) ∧
      (dataReportError buf = 0 → req.done + dataReportCount buf ≤ req.buffer.length) ∧
      (r.2.requests = req.received buf :: rest ∨
        ∃ hd new, r.2.requests = rest ++ new ∧ (∀ q ∈ new, q.balanced) ∧
          r.2.handled = s.handled ++
            [{ handler := hd, buf := (req.received buf).buffer,
               len := (req.received buf).buffer.length,
               error := (req.received buf).error }]) := by
    intro r h
    obtain ⟨req1, rest1, q, ha, hc, k⟩ := ProcessDataReport_effect nd buf s r h
    rw [hq] at q
    have q1 : req1 = req := (List.cons.inj q).1.symm
    have q2 : rest1 = rest := (List.cons.inj q).2.symm
    rw [q1] at ha hc k
    rw [q2] at k
    refine ⟨ha, hc, ?_⟩
    rcases k with ⟨_, e⟩ | ⟨_, hd, st1, new, _, e, hn, _⟩
    · left
      rw [e]
    · right
      refine ⟨hd, new, ?_, fun x hx => enqueued_balanced x (hn x hx).1, ?_⟩
      · rw [e]
      · rw [e]
  refine ⟨?_, ?_, ?_, fun b cs r h => calls_balanced nd cs s r b h⟩
  · intro a size h hs
    exact ⟨rfl, rfl, List.length_replicate _ _, read_balanced a size h hs⟩
  · intro r h
    obtain ⟨_, hc, k⟩ := eff r h
    obtain ⟨l, b⟩ := received_balanced req buf hb hc
    refine ⟨l, b, ?_, fun he => received_rejected req buf he, k⟩
    intro he
    obtain ⟨c, d, p, m⟩ := received_accepted req buf hb he (hc he)
    refine ⟨c, hc he, d, p, ?_, ?_⟩
    · intro i hi
      rw [m, memcpy_copied _ _ _ _ _ (by have := hc he; omega) hi, byteAt_drop]
    · intro j hj
      rw [m, memcpy_kept _ _ _ _ _ (hc he) hj]
  · intro hc
    refine ⟨ProcessDataReport_long_debug buf s req rest hq hc,
      fun he => ProcessDataReport_long_release buf s req rest hq hb hc he, ?_⟩
    intro r h
    obtain ⟨ha, hl, _⟩ := eff r h
    have n : nd = true := by
      cases nd
      · have a := (ha rfl).2.1
        omega
      · rfl
    have he : dataReportError buf ≠ 0 := by
      intro he
      have a := hl he
      have b := hb.1
      omega
    exact ⟨n, he, (received_rejected req buf he).1⟩

/-- C40 on the engine's 16-byte read of the extension calibration at
`0x04A40020`, sent and at the front of the queue: the report
`70 00 20 01 .. 08` (eight bytes, no error) is copied to the offsets 0..7 of
the buffer of 16 bytes, leaving `done = 8` and `pending = 8`. -/
theorem C40_read_request_accounting_witness :
    ({ Request.read 0x04A40020 16 .ParseExtensionCalibrationData with sent := true } :
        Request).balanced ∧
      (({ Request.read 0x04A40020 16 .ParseExtensionCalibrationData with sent := true } :
          Request).received [0x70, 0x00, 0x20, 1, 2, 3, 4, 5, 6, 7, 8]).buffer.length = 16 ∧
      (({ Request.read 0x04A40020 16 .ParseExtensionCalibrationData with sent := true } :
          Request).received [0x70, 0x00, 0x20, 1, 2, 3, 4, 5, 6, 7, 8]).balanced ∧
      (({ Request.read 0x04A40020 16 .ParseExtensionCalibrationData with sent := true } :
          Request).received [0x70, 0x00, 0x20, 1, 2, 3, 4, 5, 6, 7, 8]).buffer =
        [1, 2, 3, 4, 5, 6, 7, 8, 0, 0, 0, 0, 0, 0, 0, 0] :=
  have b : ({ Request.read 0x04A40020 16 .ParseExtensionCalibrationData with sent := true } :
      Request).balanced := ⟨rfl, by norm_num [Request.read]⟩
  have k := (C40_read_request_accounting false [0x70, 0x00, 0x20, 1, 2, 3, 4, 5, 6, 7, 8]
    { Impl.ctor with
      requests :=
        [{ Request.read 0x04A40020 16 .ParseExtensionCalibrationData with sent := true }] }
    { Request.read 0x04A40020 16 .ParseExtensionCalibrationData with sent := true } [] rfl
    b).2.1
    (true,
      { Impl.ctor with
        requests :=
          [({ Request.read 0x04A40020 16 .ParseExtensionCalibrationData with sent := true } :
            Request).received [0x70, 0x00, 0x20, 1, 2, 3, 4, 5, 6, 7, 8]] }) rfl
  ⟨b, k.1, k.2.1, rfl⟩

/-- C40 fails on the code in a build without assertions: for the engine's
two-byte read at `0x04A600FE` and the error-free report `20 00 FE 00 05 00`,
whose fragment of three bytes exceeds the two bytes pending, the check
`count <= pending` is compiled out and the run reaches `memcpy` with
`done + count = 3` on a buffer of two bytes; a build with assertions stops at
the assertion. -/
theorem C40_counterexample :
    dataReportCount [0x20, 0x00, 0xFE, 0x00, 0x05, 0x00] = 3 ∧
    dataReportError [0x20, 0x00, 0xFE, 0x00, 0x05, 0x00] = 0 ∧
    (Request.read 0x04A600FE 2 .ParseMotionPlusIdentifier).pending = 2 ∧
    ProcessDataReport true [0x20, 0x00, 0xFE, 0x00, 0x05, 0x00]
        { Impl.ctor with
          requests :=
            [{ Request.read 0x04A600FE 2 .ParseMotionPlusIdentifier with sent := true }] }
      = .error Fault.undefined ∧
    ProcessDataReport false [0x20, 0x00, 0xFE, 0x00, 0x05, 0x00]
        { Impl.ctor with
          requests :=
            [{ Request.read 0x04A600FE 2 .ParseMotionPlusIdentifier with sent := true }] }
      = .error Fault.assertion :=
  ⟨rfl, rfl, rfl, rfl, rfl⟩

end wii
